import Mathlib

/-!
# Verification development for `src/renderer_d3d9.cpp` (bgfx Direct3D 9 back end)

Shallow embedding of the Direct3D 9 renderer: the constant-buffer replay loop
(`ConstantBuffer::commit`), the device lifecycle (`updateResolution`, `reset`,
`flip`, `preReset`, `postReset`, `shutdown`), the index/vertex buffer records,
the draw-item loop of `Context::rendererSubmit`, shader creation
(`Shader::create`) and the uniform slots (`rendererCreateUniform`,
`rendererDestroyUniform`).

Conventions of the embedding.
* Machine integers are naturals; the operations used on them here (xor, and,
  or, right shift, division, comparison) do not overflow.
* A nullable native pointer is an `Option Ptr`.
* Every function that talks to Direct3D returns the list of native calls it
  issued, in program order, next to the state it leaves.
* The embedded build is the Windows one (`BX_PLATFORM_WINDOWS`); the two
  remaining preprocessor switches are fields of `Consts`.
* Declarations that live in headers outside `renderer_d3d9.cpp` (`bgfx_p.h`,
  `bgfx.h`, `renderer_d3d9.h`) are either fields of a constants record or are
  marked `Modelled from the spec:`.
-/

namespace bgfx

/-! ## Constant-buffer codec -/

/-- Shader stage addressed by a native set-shader-constant call
(`SetVertexShaderConstant*` or `SetPixelShaderConstant*`). -/
inductive ShaderStage
  | vertex
  | pixel
  deriving DecidableEq, Repr

/-- The `_dxsuffix` argument of `CASE_IMPLEMENT_UNIFORM`: the register file the
native call writes (`...ConstantI` or `...ConstantF`). -/
inductive RegSuffix
  | I
  | F
  deriving DecidableEq, Repr

/-- The nine uniform kinds listed in the `switch` of `ConstantBuffer::commit`. -/
inductive UniformKind
  | Uniform1i
  | Uniform1f
  | Uniform1iv
  | Uniform1fv
  | Uniform2fv
  | Uniform3fv
  | Uniform4fv
  | Uniform3x3fv
  | Uniform4x4fv
  deriving DecidableEq, Repr

/-- The `_dxsuffix` each `CASE_IMPLEMENT_UNIFORM` line of `commit` passes. -/
def UniformKind.dxsuffix : UniformKind → RegSuffix
  | .Uniform1i => .I
  | .Uniform1f => .F
  | .Uniform1iv => .I
  | .Uniform1fv => .F
  | .Uniform2fv => .F
  | .Uniform3fv => .F
  | .Uniform4fv => .F
  | .Uniform3x3fv => .F
  | .Uniform4x4fv => .F

/-- The `CASE_IMPLEMENT_UNIFORM` lines of `commit`, in source order. -/
def UniformKind.all : List UniformKind :=
  [.Uniform1i, .Uniform1f, .Uniform1iv, .Uniform1fv, .Uniform2fv, .Uniform3fv,
   .Uniform4fv, .Uniform3x3fv, .Uniform4x4fv]

/-- Fields of a decoded opcode, as `decodeOpcode` hands them to `commit`. -/
structure Opcode where
  type : Nat
  loc : Nat
  num : Nat
  copy : Nat
  deriving DecidableEq, Repr

/-- Declarations used by `ConstantBuffer::commit` that are not part of
`renderer_d3d9.cpp`: the numeric values of `ConstantType::Enum` and of
`BGFX_UNIFORM_FRAGMENTBIT`, the table `g_constantTypeSize`, `sizeof(void*)`,
and the opcode packing `encodeOpcode`/`decodeOpcode`. -/
structure ConstantCodec where
  /-- Value of `ConstantType::End`. -/
  End : Nat
  /-- Value of each uniform enumerator of `ConstantType::Enum`. -/
  value : UniformKind → Nat
  BGFX_UNIFORM_FRAGMENTBIT : Nat
  g_constantTypeSize : Nat → Nat
  /-- Value of `sizeof(void*)`. -/
  ptrSize : Nat
  encodeOpcode : Nat → Nat → Nat → Nat → Nat
  decodeOpcode : Nat → Opcode

/-- Memory image of a `uint32_t` on the little-endian x86 target. -/
def toBytes32 (v : Nat) : List Nat :=
  [v % 256, v / 256 % 256, v / 65536 % 256, v / 16777216 % 256]

/-- The `uint32_t` whose memory image is the given four bytes
(`*( (uint32_t*)result)`). -/
def fromBytes32 : List Nat → Nat
  | [b0, b1, b2, b3] => b0 + 256 * b1 + 65536 * b2 + 16777216 * b3
  | _ => 0

/-- The byte stream of a constant buffer with its cursor `m_pos`. -/
structure ConstantBuffer where
  m_buffer : List Nat
  m_pos : Nat
  deriving DecidableEq, Repr

/-- Modelled from the spec: `ConstantBuffer::reset()` (declared in `bgfx_p.h`),
"resets a read cursor to the start". -/
def ConstantBuffer.reset (cb : ConstantBuffer) : ConstantBuffer :=
  { cb with m_pos := 0 }

/-- Modelled from the spec: `ConstantBuffer::read(size)` (declared in
`bgfx_p.h`): hands out the address of the next `size` bytes (here: their
offset in the buffer) and advances the cursor. A read that would leave the
buffer has no defined result. -/
def ConstantBuffer.read (cb : ConstantBuffer) (size : Nat) : Option (Nat × ConstantBuffer) :=
  if cb.m_pos + size ≤ cb.m_buffer.length then
    some (cb.m_pos, { cb with m_pos := cb.m_pos + size })
  else none

/-- Bytes `[off, off + size)` of the buffer. -/
def ConstantBuffer.slice (cb : ConstantBuffer) (off size : Nat) : List Nat :=
  (cb.m_buffer.drop off).take size

/-- Modelled from the spec: `uint32_t ConstantBuffer::read()` (declared in
`bgfx_p.h`), "read opcode": the next four bytes as one `uint32_t`. -/
def ConstantBuffer.readOpcode (cb : ConstantBuffer) : Option (Nat × ConstantBuffer) :=
  match cb.read 4 with
  | none => none
  | some (p, cb1) => some (fromBytes32 (cb.slice p 4), cb1)

/-- The `data` pointer `commit` passes to the native call: either an address
inside the constant buffer (copy flag set; offset and number of bytes read) or
the pointer value stored in the stream (copy flag clear; its `sizeof(void*)`
bytes). -/
inductive DataPtr
  | inBuffer (offset size : Nat)
  | external (ptr : List Nat)
  deriving DecidableEq, Repr

/-- One native `Set{Vertex,Pixel}ShaderConstant{I,F}(loc, value, num)` call. -/
structure ShaderConstantCall where
  stage : ShaderStage
  suffix : RegSuffix
  loc : Nat
  data : DataPtr
  num : Nat
  deriving DecidableEq, Repr

/-- The `case` labels that `CASE_IMPLEMENT_UNIFORM` expands to, in source
order: for every uniform kind the label `ConstantType::k` (vertex stage) and
the label `ConstantType::k|BGFX_UNIFORM_FRAGMENTBIT` (pixel stage). -/
def caseLabels (c : ConstantCodec) : List (Nat × ShaderStage × RegSuffix) :=
  UniformKind.all.flatMap fun k =>
    [(c.value k, ShaderStage.vertex, k.dxsuffix),
     (c.value k ||| c.BGFX_UNIFORM_FRAGMENTBIT, ShaderStage.pixel, k.dxsuffix)]

/-- The `switch ((int32_t)type)` of `commit`: the matching
`CASE_IMPLEMENT_UNIFORM` label issues one native call; `case ConstantType::End`
and `default` issue none. -/
def commitSwitch (c : ConstantCodec) (type loc : Nat) (data : DataPtr) (num : Nat) :
    List ShaderConstantCall :=
  match (caseLabels c).find? (fun l => decide (l.1 = type)) with
  | some (_, stage, suffix) => [⟨stage, suffix, loc, data, num⟩]
  | none => []

/-- The `do { ... } while (true)` loop of `ConstantBuffer::commit`. Each pass
reads at least the four opcode bytes, so `fuel` bounds the number of passes;
`none` is a read outside the buffer. -/
def ConstantBuffer.commitLoop (c : ConstantCodec) :
    Nat → ConstantBuffer → Option (ConstantBuffer × List ShaderConstantCall)
  | 0, _ => none
  | fuel + 1, cb =>
    match cb.readOpcode with
    | none => none
    | some (opcode, cb1) =>
      if c.End = opcode then some (cb1, [])
      else
        let op := c.decodeOpcode opcode
        let rd : Option (DataPtr × ConstantBuffer) :=
          if op.copy ≠ 0 then
            match cb1.read (c.g_constantTypeSize op.type * op.num) with
            | none => none
            | some (p, cb2) => some (DataPtr.inBuffer p (c.g_constantTypeSize op.type * op.num), cb2)
          else
            match cb1.read c.ptrSize with
            | none => none
            | some (p, cb2) => some (DataPtr.external (cb1.slice p c.ptrSize), cb2)
        match rd with
        | none => none
        | some (data, cb2) =>
          match ConstantBuffer.commitLoop c fuel cb2 with
          | none => none
          | some (cb3, calls) => some (cb3, commitSwitch c op.type op.loc data op.num ++ calls)

/-- Embedding of `ConstantBuffer::commit(bool _force)`: `reset()` followed by
the replay loop. The argument `_force` is not read by the source. -/
def ConstantBuffer.commit (c : ConstantCodec) (_force : Bool) (cb : ConstantBuffer) :
    Option (ConstantBuffer × List ShaderConstantCall) :=
  ConstantBuffer.commitLoop c (cb.m_buffer.length + 1) cb.reset

/-- Modelled from the spec: `ConstantBuffer::write` (declared in `bgfx_p.h`);
the stream is an "append-only byte buffer". -/
def ConstantBuffer.write (cb : ConstantBuffer) (bytes : List Nat) : ConstantBuffer :=
  { cb with m_buffer := cb.m_buffer ++ bytes }

/-- What a uniform write carries as data: inline payload bytes (copy flag set)
or the bytes of a pointer to externally owned storage (copy flag clear). -/
inductive UniformData
  | inline (bytes : List Nat)
  | ref (ptr : List Nat)
  deriving DecidableEq, Repr

/-- Modelled from the spec: one write to the constant buffer (the write side is
declared in `bgfx_p.h`): "an opcode of the form (type, register-location,
count, copy-flag) followed either by count × type-size inline bytes (copy-flag
set) or by a stored reference (copy-flag clear)". -/
def ConstantBuffer.writeRaw (c : ConstantCodec) (cb : ConstantBuffer)
    (type loc num : Nat) (data : UniformData) : ConstantBuffer :=
  match data with
  | .inline bytes => (cb.write (toBytes32 (c.encodeOpcode type loc num 1))).write bytes
  | .ref ptr => (cb.write (toBytes32 (c.encodeOpcode type loc num 0))).write ptr

/-- Modelled from the spec: `ConstantBuffer::writeUniformRef(type, location,
dataPointer, count)`, the by-reference write used by `Shader::create`. -/
def ConstantBuffer.writeUniformRef (c : ConstantCodec) (cb : ConstantBuffer)
    (type loc : Nat) (ptr : List Nat) (num : Nat) : ConstantBuffer :=
  cb.writeRaw c type loc num (.ref ptr)

/-- Modelled from the spec: `ConstantBuffer::finish()`, "appends the End
opcode and seals the stream". -/
def ConstantBuffer.finish (c : ConstantCodec) (cb : ConstantBuffer) : ConstantBuffer :=
  cb.write (toBytes32 c.End)

/-- A uniform write of one of the nine uniform kinds: "type with stage tag,
register location, count, data". -/
structure UniformWrite where
  kind : UniformKind
  fragment : Bool
  loc : Nat
  num : Nat
  data : UniformData
  deriving DecidableEq, Repr

/-- The `type` argument of a write: the kind's enumerator, with
`BGFX_UNIFORM_FRAGMENTBIT` or-ed in for the fragment stage (as in
`Shader::create`: `type|fragmentBit`). -/
def UniformWrite.type (c : ConstantCodec) (w : UniformWrite) : Nat :=
  c.value w.kind ||| (if w.fragment then c.BGFX_UNIFORM_FRAGMENTBIT else 0)

/-- The copy flag a write is encoded with. -/
def UniformWrite.copy (w : UniformWrite) : Nat :=
  match w.data with
  | .inline _ => 1
  | .ref _ => 0

/-- Appends one uniform write to the buffer. -/
def ConstantBuffer.writeUniform (c : ConstantCodec) (cb : ConstantBuffer) (w : UniformWrite) :
    ConstantBuffer :=
  cb.writeRaw c (w.type c) w.loc w.num w.data

/-- Appends a sequence of writes, in order. -/
def ConstantBuffer.writeAll (c : ConstantCodec) (cb : ConstantBuffer) (ws : List UniformWrite) :
    ConstantBuffer :=
  ws.foldl (ConstantBuffer.writeUniform c) cb

/-- A freshly created, empty constant buffer. -/
def ConstantBuffer.empty : ConstantBuffer := ⟨[], 0⟩

/-- The stream obtained from an empty buffer by the writes `ws` and `finish()`. -/
def sealedStream (c : ConstantCodec) (ws : List UniformWrite) : ConstantBuffer :=
  (ConstantBuffer.empty.writeAll c ws).finish c

/-- The bytes one write produces. -/
def UniformWrite.bytes (c : ConstantCodec) (w : UniformWrite) : List Nat :=
  toBytes32 (c.encodeOpcode (w.type c) w.loc w.num w.copy) ++
    (match w.data with
     | .inline bytes => bytes
     | .ref ptr => ptr)

/-- What a native call applies, with its data pointer resolved against the
stream: the payload bytes it points at, or the stored reference. -/
structure AppliedUniform where
  stage : ShaderStage
  suffix : RegSuffix
  loc : Nat
  num : Nat
  data : UniformData
  deriving DecidableEq, Repr

/-- Resolves the data pointer of a native call against the stream bytes. -/
def ShaderConstantCall.resolve (cb : ConstantBuffer) (call : ShaderConstantCall) : AppliedUniform :=
  { stage := call.stage, suffix := call.suffix, loc := call.loc, num := call.num,
    data := match call.data with
      | .inBuffer off size => .inline (cb.slice off size)
      | .external ptr => .ref ptr }

/-- The application a uniform write asks for. -/
def UniformWrite.applied (w : UniformWrite) : AppliedUniform :=
  { stage := if w.fragment then .pixel else .vertex, suffix := w.kind.dxsuffix,
    loc := w.loc, num := w.num, data := w.data }

/-- What the codec and a write sequence must satisfy for the stream to be
well formed: case labels are pairwise distinct (a C++ `switch` has no duplicate
labels), opcodes fit a `uint32_t`, `decodeOpcode` inverts `encodeOpcode` on the
written fields, no written opcode is the End opcode, and every payload has the
width its type and count (or `sizeof(void*)`) prescribe. -/
structure WellFormedWrites (c : ConstantCodec) (ws : List UniformWrite) : Prop where
  labels : ((caseLabels c).map (fun l => l.1)).Nodup
  endFits : c.End < 4294967296
  fits : ∀ w ∈ ws, c.encodeOpcode (w.type c) w.loc w.num w.copy < 4294967296
  decode : ∀ w ∈ ws, c.decodeOpcode (c.encodeOpcode (w.type c) w.loc w.num w.copy)
    = ⟨w.type c, w.loc, w.num, w.copy⟩
  notEnd : ∀ w ∈ ws, c.encodeOpcode (w.type c) w.loc w.num w.copy ≠ c.End
  width : ∀ w ∈ ws, match w.data with
    | .inline bytes => bytes.length = c.g_constantTypeSize (w.type c) * w.num
    | .ref ptr => ptr.length = c.ptrSize


/-- The native call a write is replayed as, when the write starts at offset
`off` of the stream: inline data is addressed in place, four bytes after the
start of the write. -/
def UniformWrite.call (c : ConstantCodec) (off : Nat) (w : UniformWrite) : ShaderConstantCall :=
  { stage := if w.fragment then .pixel else .vertex
    suffix := w.kind.dxsuffix
    loc := w.loc
    data := match w.data with
      | .inline _ => .inBuffer (off + 4) (c.g_constantTypeSize (w.type c) * w.num)
      | .ref ptr => .external ptr
    num := w.num }

/-- The native calls a write sequence is replayed as, the first write starting
at offset `off` and each next write where the previous one ends. -/
def expectedCalls (c : ConstantCodec) : Nat → List UniformWrite → List ShaderConstantCall
  | _, [] => []
  | off, w :: ws => w.call c off :: expectedCalls c (off + (w.bytes c).length) ws

/-- A sample opcode packing on which the theorems are exercised: 8-bit type,
10-bit location, 10-bit count, 1-bit copy flag, 32-bit pointers. -/
def sampleCodec : ConstantCodec where
  End := 2
  value := fun k => match k with
    | .Uniform1i => 0
    | .Uniform1f => 1
    | .Uniform1iv => 3
    | .Uniform1fv => 4
    | .Uniform2fv => 5
    | .Uniform3fv => 6
    | .Uniform4fv => 7
    | .Uniform3x3fv => 8
    | .Uniform4x4fv => 9
  BGFX_UNIFORM_FRAGMENTBIT := 16
  g_constantTypeSize := fun t => [4, 4, 0, 4, 4, 8, 12, 16, 36, 64].getD t 0
  ptrSize := 4
  encodeOpcode := fun t l n cp => ((t % 256 * 1024 + l % 1024) * 1024 + n % 1024) * 2 + cp % 2
  decodeOpcode := fun op => ⟨op / 2097152 % 256, op / 2048 % 1024, op / 2 % 1024, op % 2⟩

/-- A sample write sequence: one inline four-float vector for the vertex stage
and one by-reference float for the fragment stage. -/
def sampleWrites : List UniformWrite :=
  [ { kind := .Uniform4fv, fragment := false, loc := 4, num := 1,
      data := .inline [0, 0, 128, 63, 0, 0, 0, 64, 0, 0, 64, 64, 0, 0, 128, 64] },
    { kind := .Uniform1f, fragment := true, loc := 0, num := 1,
      data := .ref [16, 32, 48, 64] } ]

/-! ## Direct3D 9 vocabulary

Enumerations, constants and macros of the Direct3D 9 API (`d3d9.h`,
`d3d9types.h`, `winerror.h`) that the source names. -/

/-- A native object address. -/
abbrev Ptr := Nat

/-- A Windows `HRESULT`, as its 32-bit pattern. -/
abbrev HRESULT := Nat

/-- The `FAILED(hr)` macro: the sign bit of the 32-bit pattern is set. -/
def FAILED (hr : HRESULT) : Bool := decide (2147483648 ≤ hr)

/-- The `SUCCEEDED(hr)` macro. -/
def SUCCEEDED (hr : HRESULT) : Bool := decide (hr < 2147483648)

def D3D_OK : HRESULT := 0
def D3DERR_DRIVERINTERNALERROR : HRESULT := 0x88760827
def D3DERR_DEVICELOST : HRESULT := 0x88760868
def D3DERR_DEVICENOTRESET : HRESULT := 0x88760869
def D3DERR_DEVICEREMOVED : HRESULT := 0x88760870
def D3DERR_DEVICEHUNG : HRESULT := 0x88760874
def D3DERR_INVALIDCALL : HRESULT := 0x8876086C

inductive D3DPRIMITIVETYPE
  | D3DPT_TRIANGLELIST
  | D3DPT_LINELIST
  deriving DecidableEq, Repr

inductive D3DMULTISAMPLE_TYPE
  | D3DMULTISAMPLE_NONE
  | D3DMULTISAMPLE_2_SAMPLES
  | D3DMULTISAMPLE_4_SAMPLES
  | D3DMULTISAMPLE_8_SAMPLES
  | D3DMULTISAMPLE_16_SAMPLES
  deriving DecidableEq, Repr

inductive D3DBLEND
  /-- The entry `(D3DBLEND)0`, commented "ignored" in the source. -/
  | ignored
  | D3DBLEND_ZERO
  | D3DBLEND_ONE
  | D3DBLEND_SRCCOLOR
  | D3DBLEND_INVSRCCOLOR
  | D3DBLEND_SRCALPHA
  | D3DBLEND_INVSRCALPHA
  | D3DBLEND_DESTALPHA
  | D3DBLEND_INVDESTALPHA
  | D3DBLEND_DESTCOLOR
  | D3DBLEND_INVDESTCOLOR
  | D3DBLEND_SRCALPHASAT
  deriving DecidableEq, Repr

inductive D3DCMPFUNC
  /-- The entry `(D3DCMPFUNC)0`, commented "ignored" in the source. -/
  | ignored
  | D3DCMP_NEVER
  | D3DCMP_LESS
  | D3DCMP_EQUAL
  | D3DCMP_LESSEQUAL
  | D3DCMP_GREATER
  | D3DCMP_NOTEQUAL
  | D3DCMP_GREATEREQUAL
  | D3DCMP_ALWAYS
  deriving DecidableEq, Repr

inductive D3DCULL
  | D3DCULL_NONE
  | D3DCULL_CW
  | D3DCULL_CCW
  deriving DecidableEq, Repr

inductive D3DFILLMODE
  | D3DFILL_WIREFRAME
  | D3DFILL_SOLID
  deriving DecidableEq, Repr

inductive D3DFORMAT
  | D3DFMT_UNKNOWN
  | D3DFMT_X8R8G8B8
  | D3DFMT_A8R8G8B8
  | D3DFMT_R32F
  | D3DFMT_L8
  | D3DFMT_DXT1
  | D3DFMT_DXT3
  | D3DFMT_DXT5
  | D3DFMT_D24S8
  | D3DFMT_INDEX16
  | D3DFMT_NULL
  | D3DFMT_DF16
  | D3DFMT_DF24
  | D3DFMT_INTZ
  | D3DFMT_RAWZ
  /-- Any other format code, such as one reported for the adapter. -/
  | other (code : Nat)
  deriving DecidableEq, Repr

inductive D3DPOOL
  | D3DPOOL_DEFAULT
  | D3DPOOL_MANAGED
  | D3DPOOL_SCRATCH
  deriving DecidableEq, Repr

inductive D3DTEXTUREADDRESS
  | D3DTADDRESS_WRAP
  | D3DTADDRESS_MIRROR
  | D3DTADDRESS_CLAMP
  deriving DecidableEq, Repr

inductive D3DTEXTUREFILTERTYPE
  | D3DTEXF_LINEAR
  | D3DTEXF_POINT
  | D3DTEXF_ANISOTROPIC
  deriving DecidableEq, Repr

inductive D3DSAMPLERSTATETYPE
  | D3DSAMP_MINFILTER
  | D3DSAMP_MAGFILTER
  | D3DSAMP_MIPFILTER
  | D3DSAMP_ADDRESSU
  | D3DSAMP_ADDRESSV
  deriving DecidableEq, Repr

inductive D3DRENDERSTATETYPE
  | D3DRS_ZENABLE
  | D3DRS_FILLMODE
  | D3DRS_ZWRITEENABLE
  | D3DRS_ALPHATESTENABLE
  | D3DRS_SRCBLEND
  | D3DRS_DESTBLEND
  | D3DRS_CULLMODE
  | D3DRS_ZFUNC
  | D3DRS_ALPHAREF
  | D3DRS_ALPHAFUNC
  | D3DRS_ALPHABLENDENABLE
  | D3DRS_COLORWRITEENABLE
  | D3DRS_SCISSORTESTENABLE
  deriving DecidableEq, Repr

/-- The presentation interval constants the source assigns. -/
inductive D3DPRESENT_INTERVAL
  | D3DPRESENT_INTERVAL_ONE
  | D3DPRESENT_INTERVAL_IMMEDIATE
  deriving DecidableEq, Repr

def D3DUSAGE_WRITEONLY : Nat := 0x8
def D3DUSAGE_DYNAMIC : Nat := 0x200
def D3DCLEAR_TARGET : Nat := 1
def D3DCLEAR_ZBUFFER : Nat := 2
def D3DCLEAR_STENCIL : Nat := 4
def D3DCOLORWRITEENABLE_RED : Nat := 1
def D3DCOLORWRITEENABLE_GREEN : Nat := 2
def D3DCOLORWRITEENABLE_BLUE : Nat := 4
def D3DCOLORWRITEENABLE_ALPHA : Nat := 8

/-- The `D3DCOLOR_RGBA(r,g,b,a)` macro, i.e. `D3DCOLOR_ARGB(a,r,g,b)`. -/
def D3DCOLOR_RGBA (r g b a : Nat) : Nat :=
  (((a &&& 0xff) <<< 24) ||| ((r &&& 0xff) <<< 16) ||| ((g &&& 0xff) <<< 8) ||| (b &&& 0xff))
    % 4294967296

/-- The value argument of `SetRenderState`. A table entry read outside its
table is `none`. -/
inductive RSValue
  | bool (b : Bool)
  | dword (n : Nat)
  | cull (c : Option D3DCULL)
  | cmp (f : Option D3DCMPFUNC)
  | blend (b : Option D3DBLEND)
  | fill (f : D3DFILLMODE)
  deriving DecidableEq, Repr

/-- The value argument of `SetSamplerState`. -/
inductive SamplerValue
  | filter (f : Option D3DTEXTUREFILTERTYPE)
  | address (a : Option D3DTEXTUREADDRESS)
  deriving DecidableEq, Repr

/-- The fields of `D3DPRESENT_PARAMETERS` the source assigns. A multisample
type read outside `s_msaa` is `none`. -/
structure D3DPRESENT_PARAMETERS where
  BackBufferWidth : Nat
  BackBufferHeight : Nat
  BackBufferFormat : D3DFORMAT
  BackBufferCount : Nat
  MultiSampleType : Option D3DMULTISAMPLE_TYPE
  MultiSampleQuality : Nat
  EnableAutoDepthStencil : Bool
  AutoDepthStencilFormat : D3DFORMAT
  FullScreen_RefreshRateInHz : Nat
  PresentationInterval : D3DPRESENT_INTERVAL
  Windowed : Bool
  Flags : Nat
  SwapEffect : Nat
  hDeviceWindow : Option Ptr
  deriving DecidableEq, Repr

def D3DPRESENTFLAG_DISCARD_DEPTHSTENCIL : Nat := 2
def D3DSWAPEFFECT_DISCARD : Nat := 1
def D3DCREATE_PUREDEVICE : Nat := 0x10
def D3DCREATE_SOFTWARE_VERTEXPROCESSING : Nat := 0x20
def D3DCREATE_HARDWARE_VERTEXPROCESSING : Nat := 0x40
def D3DCREATE_MIXED_VERTEXPROCESSING : Nat := 0x80
def D3DUSAGE_DEPTHSTENCIL : Nat := 0x2

inductive D3DDECLTYPE
  | D3DDECLTYPE_FLOAT1
  | D3DDECLTYPE_FLOAT2
  | D3DDECLTYPE_FLOAT3
  | D3DDECLTYPE_FLOAT4
  | D3DDECLTYPE_UBYTE4
  | D3DDECLTYPE_SHORT2
  | D3DDECLTYPE_SHORT4
  | D3DDECLTYPE_UBYTE4N
  | D3DDECLTYPE_SHORT2N
  | D3DDECLTYPE_SHORT4N
  | D3DDECLTYPE_UNUSED
  deriving DecidableEq, Repr

inductive D3DDECLMETHOD
  | D3DDECLMETHOD_DEFAULT
  deriving DecidableEq, Repr

inductive D3DDECLUSAGE
  | D3DDECLUSAGE_POSITION
  | D3DDECLUSAGE_BLENDWEIGHT
  | D3DDECLUSAGE_BLENDINDICES
  | D3DDECLUSAGE_NORMAL
  | D3DDECLUSAGE_TEXCOORD
  | D3DDECLUSAGE_COLOR
  deriving DecidableEq, Repr

/-- One element of a native vertex declaration (`D3DVERTEXELEMENT9`). -/
structure D3DVERTEXELEMENT9 where
  Stream : Nat
  Offset : Nat
  Type_ : D3DDECLTYPE
  Method : D3DDECLMETHOD
  Usage : D3DDECLUSAGE
  UsageIndex : Nat
  deriving DecidableEq, Repr

/-- The macro `D3DDECL_END()`: `{0xFF, 0, D3DDECLTYPE_UNUSED, 0, 0, 0}`. -/
def D3DDECL_END : D3DVERTEXELEMENT9 :=
  ⟨0xff, 0, .D3DDECLTYPE_UNUSED, .D3DDECLMETHOD_DEFAULT, .D3DDECLUSAGE_POSITION, 0⟩

/-- The names `RendererContext::init` passes to `GetProcAddress`. -/
inductive ProcName
  | D3DPERF_SetMarker
  | D3DPERF_BeginEvent
  | D3DPERF_EndEvent
  | Direct3DCreate9Ex
  | Direct3DCreate9
  deriving DecidableEq, Repr

/-! ### Static tables of `renderer_d3d9.cpp` -/

def s_primType : List D3DPRIMITIVETYPE :=
  [.D3DPT_TRIANGLELIST, .D3DPT_LINELIST]

def s_primNumVerts : List Nat := [3, 2]

def s_msaa : List D3DMULTISAMPLE_TYPE :=
  [.D3DMULTISAMPLE_NONE, .D3DMULTISAMPLE_2_SAMPLES, .D3DMULTISAMPLE_4_SAMPLES,
   .D3DMULTISAMPLE_8_SAMPLES, .D3DMULTISAMPLE_16_SAMPLES]

def s_blendFactor : List D3DBLEND :=
  [.ignored, .D3DBLEND_ZERO, .D3DBLEND_ONE, .D3DBLEND_SRCCOLOR, .D3DBLEND_INVSRCCOLOR,
   .D3DBLEND_SRCALPHA, .D3DBLEND_INVSRCALPHA, .D3DBLEND_DESTALPHA, .D3DBLEND_INVDESTALPHA,
   .D3DBLEND_DESTCOLOR, .D3DBLEND_INVDESTCOLOR, .D3DBLEND_SRCALPHASAT]

def s_depthFunc : List D3DCMPFUNC :=
  [.ignored, .D3DCMP_LESS, .D3DCMP_LESSEQUAL, .D3DCMP_EQUAL, .D3DCMP_GREATEREQUAL,
   .D3DCMP_GREATER, .D3DCMP_NOTEQUAL, .D3DCMP_NEVER, .D3DCMP_ALWAYS]

def s_cullMode : List D3DCULL :=
  [.D3DCULL_NONE, .D3DCULL_CW, .D3DCULL_CCW]

def s_textureAddress : List D3DTEXTUREADDRESS :=
  [.D3DTADDRESS_WRAP, .D3DTADDRESS_MIRROR, .D3DTADDRESS_CLAMP]

def s_textureFilter : List D3DTEXTUREFILTERTYPE :=
  [.D3DTEXF_LINEAR, .D3DTEXF_POINT, .D3DTEXF_ANISOTROPIC]

/-! ## Records of the renderer -/

/-- One texture sampler binding of a draw item (`Sampler`, declared in
`bgfx_p.h`). -/
structure Sampler where
  m_idx : Nat
  m_flags : Nat
  deriving DecidableEq, Repr

/-- The per-draw render state (`RenderState`, declared in `bgfx_p.h`): the
fields read by `renderer_d3d9.cpp`. -/
structure RenderState where
  m_flags : Nat
  m_constBegin : Nat
  m_constEnd : Nat
  m_matrix : Nat
  m_num : Nat
  m_startIndex : Nat
  m_numIndices : Nat
  m_startVertex : Nat
  m_numVertices : Nat
  m_vertexBuffer : Nat
  m_vertexDecl : Nat
  m_indexBuffer : Nat
  m_sampler : Nat → Sampler

/-- The decoded sort key (`SortKey`, declared in `bgfx_p.h`): the two fields
the submit loop reads. -/
structure SortKey where
  m_view : Nat
  m_material : Nat
  deriving DecidableEq, Repr

/-- Constants, limits and helper routines that `renderer_d3d9.cpp` uses but
that are declared elsewhere (`bgfx.h`, `bgfx_p.h`, `config.h`), together with
the two preprocessor switches of the Windows build. -/
structure Consts where
  /-- Preprocessor switch `BGFX_CONFIG_RENDERER_DIRECT3D_EX`. -/
  BGFX_CONFIG_RENDERER_DIRECT3D_EX : Bool
  /-- Whether `D3D_DISABLE_9EX` is defined. -/
  D3D_DISABLE_9EX : Bool
  BGFX_CONFIG_MAX_INDEX_BUFFERS : Nat
  BGFX_CONFIG_MAX_VERTEX_BUFFERS : Nat
  BGFX_CONFIG_MAX_RENDER_TARGETS : Nat
  /-- Value of `bgfx::invalidHandle`. -/
  invalidHandle : Nat
  BGFX_RESET_FULLSCREEN : Nat
  BGFX_RESET_FULLSCREEN_MASK : Nat
  BGFX_RESET_MSAA_MASK : Nat
  BGFX_RESET_MSAA_SHIFT : Nat
  BGFX_RESET_VSYNC : Nat
  BGFX_STATE_NONE : Nat
  BGFX_STATE_MASK : Nat
  BGFX_STATE_CULL_MASK : Nat
  BGFX_STATE_CULL_SHIFT : Nat
  BGFX_STATE_DEPTH_WRITE : Nat
  BGFX_STATE_DEPTH_TEST_MASK : Nat
  BGFX_STATE_DEPTH_TEST_SHIFT : Nat
  BGFX_STATE_ALPHA_TEST : Nat
  BGFX_STATE_ALPHA_WRITE : Nat
  BGFX_STATE_ALPHA_MASK : Nat
  BGFX_STATE_RGB_WRITE : Nat
  BGFX_STATE_BLEND_MASK : Nat
  BGFX_STATE_BLEND_SHIFT : Nat
  BGFX_STATE_ALPHA_REF_MASK : Nat
  BGFX_STATE_ALPHA_REF_SHIFT : Nat
  BGFX_STATE_PT_MASK : Nat
  BGFX_STATE_PT_SHIFT : Nat
  BGFX_STATE_TEX_COUNT : Nat
  BGFX_CLEAR_NONE : Nat
  BGFX_CLEAR_COLOR_BIT : Nat
  BGFX_CLEAR_DEPTH_BIT : Nat
  BGFX_CLEAR_STENCIL_BIT : Nat
  BGFX_DRAW_WHOLE_INDEX_BUFFER : Nat
  BGFX_SAMPLER_TYPE_MASK : Nat
  BGFX_DEBUG_IFH : Nat
  /-- The routine `RenderState::clear()`. -/
  RenderState_clear : RenderState → RenderState
  /-- The state `RenderState::reset()` leaves in the local `currentState`. -/
  RenderState_reset : RenderState

/-- The kinds of predefined uniform (`PredefinedUniform::Enum`, declared in
`bgfx_p.h`); `Count` is the value for a name that is not predefined. -/
inductive PredefinedKind
  | ViewRect
  | ViewTexel
  | View
  | ViewProj
  | ViewProjX
  | Model
  | ModelViewProj
  | ModelViewProjX
  | AlphaRef
  | Count
  deriving DecidableEq, Repr

/-- One entry of a predefined-uniform table. The byte `m_type` of the source
is `kind|fragmentBit`; it is kept here as its two components. -/
structure PredefinedUniform where
  m_loc : Nat
  kind : PredefinedKind
  fragment : Bool
  deriving DecidableEq, Repr

/-- Float data handed to `setShaderConstantF` by the submit loop, kept
symbolic (which matrix or rectangle it is computed from). -/
inductive FloatData
  | viewRect (x y width height : Nat)
  | viewTexel (width height : Nat)
  | view (view : Nat)
  | viewProj (view : Nat)
  | model (matrix : Nat)
  | modelViewProj (matrix view : Nat)
  | modelViewProjX (matrix other : Nat)
  | viewProjX (other : Nat)
  | alphaRef (ref : Nat)
  deriving DecidableEq, Repr

/-- Routines of the renderer whose entry is recorded in the call trace. -/
inductive Routine
  | preReset
  | postReset
  deriving DecidableEq, Repr

/-- The trace entries of device and resource creation (`init`,
`VertexDeclaration::create`, `Texture::create`): the native and Win32 calls
with the arguments the source passes, and the pixel transfers into a locked
texture level. -/
inductive CreationCall
  /-- The Win32 call `GetWindowRect(g_bgfxHwnd, &rect)`. -/
  | GetWindowRect
  /-- The Win32 call `LoadLibrary("d3d9.dll")`. -/
  | LoadLibrary
  /-- The Win32 call `GetProcAddress(m_d3d9dll, name)`. -/
  | GetProcAddress (name : ProcName)
  /-- The call `direct3DCreate9(D3D_SDK_VERSION)`. -/
  | Direct3DCreate9
  /-- The call `direct3DCreate9Ex(D3D_SDK_VERSION, &m_d3d9)`. -/
  | Direct3DCreate9Ex
  | CreateDevice (behaviorFlags : Nat) (params : D3DPRESENT_PARAMETERS)
  | CreateDeviceEx (behaviorFlags : Nat) (params : D3DPRESENT_PARAMETERS)
  | GetDeviceCaps
  | CheckDeviceFormat (adapterFormat : D3DFORMAT) (usage : Nat) (checkFormat : D3DFORMAT)
  | CreateVertexDeclaration (vertexElements : List D3DVERTEXELEMENT9)
  | CreateTexture (width height levels usage : Nat) (format : Option D3DFORMAT) (pool : D3DPOOL)
  | LockRect (level : Nat)
  | UnlockRect (level : Nat)
  /-- The routine `Mip::decode` for level `lod`, into the locked level
  (`repitch = false`) or into a temporary block that is then copied row by row
  (`repitch = true`). -/
  | mipDecode (lod : Nat) (repitch : Bool)
  /-- The copy `memcpy(dst, mip.m_data, mip.m_size)` into the locked level. -/
  | mipCopy (level size : Nat)
  /-- The read `stream.read(dst, size)` of pixel data into the locked level. -/
  | streamPixels (level size : Nat)
  deriving DecidableEq, Repr

/-- One entry of the call trace: a Direct3D call with the arguments the source
passes, or one of the few non-native steps that are recorded to keep the
order of events (entries of `preReset`/`postReset`, routines declared outside
`renderer_d3d9.cpp`, and the marker for undefined behaviour). -/
inductive Call
  | GetCreationParameters
  | GetAdapterDisplayMode
  | CheckDeviceMultiSampleType (format : D3DFORMAT) (windowed : Bool)
      (msaa : Option D3DMULTISAMPLE_TYPE)
  | WaitForVBlank
  | Present
  | TestCooperativeLevel
  | Reset (params : D3DPRESENT_PARAMETERS)
  | GetBackBuffer
  | GetDepthStencilSurface
  | CreateIndexBuffer (size usage : Nat) (format : D3DFORMAT) (pool : D3DPOOL)
  | CreateVertexBuffer (size usage fvf : Nat) (pool : D3DPOOL)
  | SetTexture (stage : Nat) (texture : Option Ptr)
  | SetSamplerState (stage : Nat) (type : D3DSAMPLERSTATETYPE) (value : SamplerValue)
  | SetRenderTarget (index : Nat) (surface : Option Ptr)
  | SetDepthStencilSurface (surface : Option Ptr)
  | SetVertexShader (shader : Option Ptr)
  | SetPixelShader (shader : Option Ptr)
  | SetShaderConstantF (stage : ShaderStage) (regIndex : Nat) (val : FloatData) (numRegs : Nat)
  | SetStreamSource (stream : Nat) (vb : Option Ptr) (offset stride : Nat)
  | SetVertexDeclaration (decl : Option Ptr)
  | SetIndices (ib : Option Ptr)
  | SetRenderState (state : D3DRENDERSTATETYPE) (value : RSValue)
  | SetViewport (x y width height : Nat)
  | SetScissorRect (left top right bottom : Nat)
  | Clear (flags : Nat) (color : Option Nat) (depth stencil : Nat)
  | DrawIndexedPrimitive (type : Option D3DPRIMITIVETYPE)
      (baseVertexIndex minIndex numVertices startIndex primCount : Nat)
  /-- The macro `DX_RELEASE(ptr, expected)` applied to a pointer. -/
  | Release (object : Option Ptr)
  /-- Entry into `RendererContext::preReset` or `RendererContext::postReset`. -/
  | enter (routine : Routine)
  /-- The routine `RenderTarget::preReset` on slot `ii`. -/
  | RenderTarget_preReset (ii : Nat)
  /-- The routine `RenderTarget::postReset` on slot `ii`. -/
  | RenderTarget_postReset (ii : Nat)
  /-- The routine `IndexBuffer::update` or `VertexBuffer::update`. -/
  | update (buffer : Option Ptr) (size : Nat)
  /-- The routine `Context::rendererUpdateUniforms` on a byte range of the
  frame's constant buffer. -/
  | rendererUpdateUniforms (constBegin constEnd : Nat)
  /-- A `ConstantBuffer::commit(force)` of the given stage of material `idx`. -/
  | commit (material : Nat) (stage : ShaderStage) (force : Bool)
  /-- Marker: the source goes on with a value read outside a table, or divides
  by zero. -/
  | undefinedBehaviour
  /-- The native `CreateVertexShader(code, ...)`; `code` is the offset of the
  bytecode inside the shader binary. -/
  | CreateVertexShader (code : Nat)
  /-- The native `CreatePixelShader(code, ...)`. -/
  | CreatePixelShader (code : Nat)
  /-- The Win32 call `FreeLibrary(m_d3d9dll)`. -/
  | FreeLibrary
  /-- The assignment `s_exit = value` to the exit flag of the render thread. -/
  | assignExit (value : Bool)
  /-- A call or pixel transfer made when the device or a resource is created. -/
  | creation (c : CreationCall)
  deriving DecidableEq, Repr

/-- The device as the renderer sees it: the results it will give to the calls
whose `HRESULT` the source inspects in a loop (`Present`,
`TestCooperativeLevel`, and `Reset` inside `RendererContext::reset`), in
order; the objects it hands out through out-parameters, by creation order;
the adapter display mode format; and its answer to
`CheckDeviceMultiSampleType`. -/
structure Device where
  results : List HRESULT
  objects : Nat → Option Ptr
  created : Nat
  displayFormat : D3DFORMAT
  checkDeviceMultiSampleType : D3DFORMAT → Bool → Option D3DMULTISAMPLE_TYPE → HRESULT

/-- The object written by the next out-parameter call. -/
def Device.newObject (d : Device) : Option Ptr × Device :=
  (d.objects d.created, { d with created := d.created + 1 })

structure IndexBuffer where
  m_ptr : Option Ptr
  m_size : Nat
  m_dynamic : Bool
  deriving DecidableEq, Repr

structure VertexBuffer where
  m_ptr : Option Ptr
  m_size : Nat
  m_decl : Nat
  m_dynamic : Bool
  deriving DecidableEq, Repr

/-- The vertex layout (`VertexDecl`, declared in `bgfx.h`). -/
structure VertexDecl where
  m_stride : Nat
  m_offset : Nat → Nat
  m_attributes : Nat → Nat

structure VertexDeclaration where
  m_ptr : Option Ptr
  m_decl : VertexDecl

structure Shader where
  m_ptr : Option Ptr
  m_constantBuffer : ConstantBuffer
  m_predefined : List PredefinedUniform

/-- A shader pair (`Material`, declared in `renderer_d3d9.h`); `m_predefined`
holds the `m_numPredefined` entries of the table. -/
structure Material where
  m_vsh : Shader
  m_fsh : Shader
  m_predefined : List PredefinedUniform

structure Texture where
  m_ptr : Option Ptr
  m_tau : Option D3DTEXTUREADDRESS
  m_tav : Option D3DTEXTUREADDRESS
  m_minFilter : Option D3DTEXTUREFILTERTYPE
  m_magFilter : Option D3DTEXTUREFILTERTYPE
  m_mipFilter : Option D3DTEXTUREFILTERTYPE
  deriving DecidableEq, Repr

structure RenderTarget where
  m_colorTexture : Option Ptr
  m_color : Option Ptr
  m_depthTexture : Option Ptr
  m_depth : Option Ptr
  m_width : Nat
  m_height : Nat
  m_flags : Nat
  deriving DecidableEq, Repr

/-- The debug text buffer (`TextVideoMem`, declared in `bgfx_p.h`): its
dimensions. -/
structure TextVideoMem where
  m_small : Bool
  m_width : Nat
  m_height : Nat
  deriving DecidableEq, Repr

/-- The uniform registry (`UniformRegistry`, declared in `bgfx_p.h`): the
registered names, as C strings (bytes without the terminating NUL), each with
the storage pointer registered for it. -/
abbrev UniformRegistry := List (List Nat × Option Ptr)

/-- The struct `RendererContext`. -/
structure RendererContext where
  m_d3d9 : Option Ptr
  m_device : Option Ptr
  m_backBufferColor : Option Ptr
  m_backBufferDepthStencil : Option Ptr
  m_params : D3DPRESENT_PARAMETERS
  m_flags : Nat
  m_initialized : Bool
  m_d3d9dll : Option Ptr
  m_fmtNULL : Bool
  m_fmtDF16 : Bool
  m_fmtDF24 : Bool
  m_fmtINTZ : Bool
  m_fmtRAWZ : Bool
  m_fmtDepth : D3DFORMAT
  m_indexBuffers : Nat → IndexBuffer
  m_vertexBuffers : Nat → VertexBuffer
  m_vertexShaders : Nat → Shader
  m_fragmentShaders : Nat → Shader
  m_materials : Nat → Material
  m_textures : Nat → Texture
  m_vertexDecls : Nat → VertexDeclaration
  m_renderTargets : Nat → RenderTarget
  m_uniformReg : UniformRegistry
  m_uniforms : Nat → Option Ptr
  m_textVideoMem : TextVideoMem

/-- The argument of `updateResolution` (`Resolution`, declared in
`bgfx_p.h`). -/
structure Resolution where
  m_width : Nat
  m_height : Nat
  m_flags : Nat
  deriving DecidableEq, Repr

/-! ## Buffers and device lifecycle -/

/-- Modelled from the spec: the macro `DX_RELEASE` (declared in
`renderer_d3d9.h`), "releases native objects": the object is released and the
pointer variable is cleared. -/
def DX_RELEASE (p : Option Ptr) : Option Ptr × List Call :=
  (none, [Call.Release p])

/-- Embedding of `IndexBuffer::create(uint32_t _size, void* _data)`; the
initial data is `none` for a null pointer. -/
def IndexBuffer.create (d : Device) (_size : Nat) (_data : Option (List Nat)) :
    Device × IndexBuffer × List Call :=
  let m_dynamic := _data.isNone
  let usage := if m_dynamic then D3DUSAGE_WRITEONLY ||| D3DUSAGE_DYNAMIC else D3DUSAGE_WRITEONLY
  let pool := if m_dynamic then D3DPOOL.D3DPOOL_DEFAULT else D3DPOOL.D3DPOOL_MANAGED
  let (p, d1) := d.newObject
  (d1, { m_ptr := p, m_size := _size, m_dynamic := m_dynamic },
    [Call.CreateIndexBuffer _size usage .D3DFMT_INDEX16 pool]
      ++ (if _data.isSome then [Call.update p _size] else []))

/-- Embedding of `IndexBuffer::preReset()`. -/
def IndexBuffer.preReset (ib : IndexBuffer) : IndexBuffer × List Call :=
  if ib.m_dynamic then
    let (p, calls) := DX_RELEASE ib.m_ptr
    ({ ib with m_ptr := p }, calls)
  else (ib, [])

/-- Embedding of `IndexBuffer::postReset()`. -/
def IndexBuffer.postReset (d : Device) (ib : IndexBuffer) : Device × IndexBuffer × List Call :=
  if ib.m_dynamic then
    let (p, d1) := d.newObject
    (d1, { ib with m_ptr := p },
      [Call.CreateIndexBuffer ib.m_size (D3DUSAGE_WRITEONLY ||| D3DUSAGE_DYNAMIC) .D3DFMT_INDEX16
        .D3DPOOL_DEFAULT])
  else (d, ib, [])

/-- Embedding of `VertexBuffer::create(uint32_t _size, void* _data,
VertexDeclHandle _declHandle)`. -/
def VertexBuffer.create (d : Device) (_size : Nat) (_data : Option (List Nat)) (_declHandle : Nat) :
    Device × VertexBuffer × List Call :=
  let m_dynamic := _data.isNone
  let usage := if m_dynamic then D3DUSAGE_WRITEONLY ||| D3DUSAGE_DYNAMIC else D3DUSAGE_WRITEONLY
  let pool := if m_dynamic then D3DPOOL.D3DPOOL_DEFAULT else D3DPOOL.D3DPOOL_MANAGED
  let (p, d1) := d.newObject
  (d1, { m_ptr := p, m_size := _size, m_decl := _declHandle, m_dynamic := m_dynamic },
    [Call.CreateVertexBuffer _size usage 0 pool]
      ++ (if _data.isSome then [Call.update p _size] else []))

/-- Embedding of `VertexBuffer::preReset()`. -/
def VertexBuffer.preReset (vb : VertexBuffer) : VertexBuffer × List Call :=
  if vb.m_dynamic then
    let (p, calls) := DX_RELEASE vb.m_ptr
    ({ vb with m_ptr := p }, calls)
  else (vb, [])

/-- Embedding of `VertexBuffer::postReset()`. -/
def VertexBuffer.postReset (d : Device) (vb : VertexBuffer) : Device × VertexBuffer × List Call :=
  if vb.m_dynamic then
    let (p, d1) := d.newObject
    (d1, { vb with m_ptr := p },
      [Call.CreateVertexBuffer vb.m_size (D3DUSAGE_WRITEONLY ||| D3DUSAGE_DYNAMIC) 0
        .D3DPOOL_DEFAULT])
  else (d, vb, [])

/-- A loop `for (ii = 0; ii < countof(table); ++ii) table[ii].f()` over the
slots listed, for a routine that does not create objects. -/
def forEachSlot {α : Type} (f : α → α × List Call) :
    List Nat → (Nat → α) → (Nat → α) × List Call
  | [], tbl => (tbl, [])
  | ii :: rest, tbl =>
    let r := f (tbl ii)
    let r2 := forEachSlot f rest (Function.update tbl ii r.1)
    (r2.1, r.2 ++ r2.2)

/-- The same loop for a routine that creates objects on the device. -/
def forEachSlotD {α : Type} (f : Device → α → Device × α × List Call) :
    List Nat → Device → (Nat → α) → Device × (Nat → α) × List Call
  | [], d, tbl => (d, tbl, [])
  | ii :: rest, d, tbl =>
    let r := f d (tbl ii)
    let r2 := forEachSlotD f rest r.1 (Function.update tbl ii r.2.1)
    (r2.1, r2.2.1, r.2.2 ++ r2.2.2)

/-- Embedding of `RendererContext::preReset()`. The render-target slots are
handed to `RenderTarget::preReset`, which is declared in `renderer_d3d9.h` and
is recorded in the trace only. -/
def RendererContext.preReset (k : Consts) (ctx : RendererContext) : RendererContext × List Call :=
  let unbind : List Call :=
    (List.range k.BGFX_STATE_TEX_COUNT).map (fun stage => Call.SetTexture stage none)
      ++ [Call.SetRenderTarget 0 ctx.m_backBufferColor,
          Call.SetDepthStencilSurface ctx.m_backBufferDepthStencil,
          Call.SetVertexShader none,
          Call.SetPixelShader none,
          Call.SetStreamSource 0 none 0 0,
          Call.SetIndices none]
  let color := DX_RELEASE ctx.m_backBufferColor
  let depth := DX_RELEASE ctx.m_backBufferDepthStencil
  let ibs := forEachSlot IndexBuffer.preReset (List.range k.BGFX_CONFIG_MAX_INDEX_BUFFERS)
    ctx.m_indexBuffers
  let vbs := forEachSlot VertexBuffer.preReset (List.range k.BGFX_CONFIG_MAX_VERTEX_BUFFERS)
    ctx.m_vertexBuffers
  let rts : List Call :=
    (List.range k.BGFX_CONFIG_MAX_RENDER_TARGETS).map (fun ii => Call.RenderTarget_preReset ii)
  ({ ctx with
      m_backBufferColor := color.1
      m_backBufferDepthStencil := depth.1
      m_indexBuffers := ibs.1
      m_vertexBuffers := vbs.1 },
   Call.enter .preReset :: (unbind ++ color.2 ++ depth.2 ++ ibs.2 ++ vbs.2 ++ rts))

/-- Embedding of `RendererContext::postReset()`. -/
def RendererContext.postReset (k : Consts) (d : Device) (ctx : RendererContext) :
    Device × RendererContext × List Call :=
  let color := d.newObject
  let depth := color.2.newObject
  let ibs := forEachSlotD IndexBuffer.postReset (List.range k.BGFX_CONFIG_MAX_INDEX_BUFFERS)
    depth.2 ctx.m_indexBuffers
  let vbs := forEachSlotD VertexBuffer.postReset (List.range k.BGFX_CONFIG_MAX_VERTEX_BUFFERS)
    ibs.1 ctx.m_vertexBuffers
  let rts : List Call :=
    (List.range k.BGFX_CONFIG_MAX_RENDER_TARGETS).map (fun ii => Call.RenderTarget_postReset ii)
  (vbs.1,
   { ctx with
      m_backBufferColor := color.1
      m_backBufferDepthStencil := depth.1
      m_indexBuffers := ibs.2.1
      m_vertexBuffers := vbs.2.1 },
   Call.enter .postReset :: Call.GetBackBuffer :: Call.GetDepthStencilSurface
     :: (ibs.2.2 ++ vbs.2.2 ++ rts))

/-- Embedding of `TextVideoMem::resize` followed by `clear` (declared in
`bgfx_p.h`), as far as the dimensions go. -/
def TextVideoMem.resize (_small : Bool) (_width _height : Nat) : TextVideoMem :=
  { m_small := _small, m_width := _width, m_height := _height }

/-- Embedding of `RendererContext::updateResolution(const Resolution&)`. -/
def RendererContext.updateResolution (k : Consts) (d : Device) (ctx : RendererContext)
    (_resolution : Resolution) : Device × RendererContext × List Call :=
  if ctx.m_params.BackBufferWidth ≠ _resolution.m_width
      ∨ ctx.m_params.BackBufferHeight ≠ _resolution.m_height
      ∨ ctx.m_flags ≠ _resolution.m_flags then
    let m_flags := _resolution.m_flags
    let tvm := TextVideoMem.resize false _resolution.m_width _resolution.m_height
    let msaa := s_msaa[(m_flags &&& k.BGFX_RESET_MSAA_MASK) >>> k.BGFX_RESET_MSAA_SHIFT]?
    let hr := d.checkDeviceMultiSampleType d.displayFormat ctx.m_params.Windowed msaa
    let params : D3DPRESENT_PARAMETERS :=
      { ctx.m_params with
          BackBufferFormat := d.displayFormat
          BackBufferWidth := _resolution.m_width
          BackBufferHeight := _resolution.m_height
          FullScreen_RefreshRateInHz :=
            if k.BGFX_RESET_FULLSCREEN = (m_flags &&& k.BGFX_RESET_FULLSCREEN_MASK) then 60 else 0
          PresentationInterval :=
            if (m_flags &&& k.BGFX_RESET_VSYNC) ≠ 0 then .D3DPRESENT_INTERVAL_ONE
            else .D3DPRESENT_INTERVAL_IMMEDIATE
          MultiSampleType :=
            if SUCCEEDED hr then msaa else some .D3DMULTISAMPLE_NONE }
    let ctx1 : RendererContext :=
      { ctx with m_flags := m_flags, m_textVideoMem := tvm, m_params := params }
    let pre := ctx1.preReset k
    let post := pre.1.postReset k d
    (post.1, post.2.1,
      [Call.GetCreationParameters, Call.GetAdapterDisplayMode,
       Call.CheckDeviceMultiSampleType d.displayFormat ctx.m_params.Windowed msaa]
        ++ pre.2 ++ [Call.Reset params] ++ post.2.2)
  else (d, ctx, [])

/-- The loop `do { hr = m_device->Reset(&m_params); } while (FAILED(hr) );` of
`RendererContext::reset`, against the results the device will give; `none`
when the results run out before the loop ends. -/
def resetLoop (params : D3DPRESENT_PARAMETERS) : List HRESULT → Option (List HRESULT × List Call)
  | [] => none
  | hr :: rest =>
    if FAILED hr then
      match resetLoop params rest with
      | none => none
      | some (rest2, calls) => some (rest2, Call.Reset params :: calls)
    else some (rest, [Call.Reset params])

/-- Embedding of `RendererContext::reset()`. -/
def RendererContext.reset (k : Consts) (d : Device) (ctx : RendererContext) :
    Option (Device × RendererContext × List Call) :=
  let pre := ctx.preReset k
  match resetLoop pre.1.m_params d.results with
  | none => none
  | some (rest, calls) =>
    let post := pre.1.postReset k { d with results := rest }
    some (post.1, post.2.1, pre.2 ++ calls ++ post.2.2)

/-- Embedding of `RendererContext::isLost(HRESULT)`. -/
def RendererContext.isLost (k : Consts) (_hr : HRESULT) : Bool :=
  decide (D3DERR_DEVICELOST = _hr)
    || decide (D3DERR_DRIVERINTERNALERROR = _hr)
    || (!k.D3D_DISABLE_9EX
        && (decide (D3DERR_DEVICEHUNG = _hr) || decide (D3DERR_DEVICEREMOVED = _hr)))

/-- The inner loop of `flip`: `do { hr = m_device->TestCooperativeLevel(); }
while (D3DERR_DEVICENOTRESET != hr);`. -/
def pollLoop : List HRESULT → Option (List HRESULT × List Call)
  | [] => none
  | hr :: rest =>
    if D3DERR_DEVICENOTRESET ≠ hr then
      match pollLoop rest with
      | none => none
      | some (rest2, calls) => some (rest2, Call.TestCooperativeLevel :: calls)
    else some (rest, [Call.TestCooperativeLevel])

/-- The outer loop of `flip`: `do { poll; reset(); hr =
m_device->TestCooperativeLevel(); } while (FAILED(hr) );`. Every pass takes at
least three results from the device, so `fuel` bounds the number of passes. -/
def recoverLoop (k : Consts) :
    Nat → Device → RendererContext → Option (Device × RendererContext × List Call)
  | 0, _, _ => none
  | fuel + 1, d, ctx =>
    match pollLoop d.results with
    | none => none
    | some (rest, polls) =>
      match ctx.reset k { d with results := rest } with
      | none => none
      | some (d2, ctx2, resets) =>
        match d2.results with
        | [] => none
        | hr :: rest2 =>
          if FAILED hr then
            match recoverLoop k fuel { d2 with results := rest2 } ctx2 with
            | none => none
            | some (d3, ctx3, calls) =>
              some (d3, ctx3, polls ++ resets ++ Call.TestCooperativeLevel :: calls)
          else
            some ({ d2 with results := rest2 }, ctx2,
              polls ++ resets ++ [Call.TestCooperativeLevel])

/-- Embedding of `RendererContext::flip()` (Windows build). `none` when the
device results run out, i.e. the call has not returned on the results given. -/
def RendererContext.flip (k : Consts) (d : Device) (ctx : RendererContext) :
    Option (Device × RendererContext × List Call) :=
  match ctx.m_device with
  | none => some (d, ctx, [])
  | some _ =>
    let vblank : List Call :=
      if k.BGFX_CONFIG_RENDERER_DIRECT3D_EX then [Call.WaitForVBlank] else []
    match d.results with
    | [] => none
    | hr :: rest =>
      if RendererContext.isLost k hr then
        match recoverLoop k (rest.length + 1) { d with results := rest } ctx with
        | none => none
        | some (d2, ctx2, calls) => some (d2, ctx2, vblank ++ Call.Present :: calls)
      else
        some ({ d with results := rest }, ctx, vblank ++ [Call.Present])

/-! ## The draw-item loop of `Context::rendererSubmit` -/

/-- A view rectangle (`Rect`, declared in `bgfx_p.h`). -/
structure Rect where
  m_x : Nat
  m_y : Nat
  m_width : Nat
  m_height : Nat
  deriving DecidableEq, Repr

/-- The clear request of a view (`Clear`, declared in `bgfx_p.h`); the float
`m_depth` is kept as an uninterpreted number. -/
structure Clear where
  m_rgba : Nat
  m_depth : Nat
  m_stencil : Nat
  m_flags : Nat
  deriving DecidableEq, Repr

/-- The frame handed to the renderer (`m_render`): the per-view tables and the
sorted draw items, each item with its decoded sort key
(`key.decode(m_sortKeys[item])`) and its render state
(`m_renderState[m_sortValues[item]]`). -/
structure Frame where
  m_debug : Nat
  m_rt : Nat → Nat
  m_rect : Nat → Rect
  m_clear : Nat → Clear
  m_other : Nat → Nat
  items : List (SortKey × RenderState)

/-- The local variables of `rendererSubmit` that live across loop passes. The
float `alphaRef` is `ref/255.0f`; the integer `ref` is kept. `primType` and
`primNumVerts` are `none` after a read outside their tables. -/
structure SubmitState where
  currentState : RenderState
  materialIdx : Nat
  view : Nat
  rt : Nat
  alphaRef : Nat
  primType : Option D3DPRIMITIVETYPE
  primNumVerts : Option Nat

/-- The locals as initialised before the loop. -/
def SubmitState.initial (k : Consts) : SubmitState where
  currentState := { k.RenderState_reset with m_flags := k.BGFX_STATE_NONE }
  materialIdx := k.invalidHandle
  view := 0xff
  rt := k.invalidHandle
  alphaRef := 0
  primType := some .D3DPT_TRIANGLELIST
  primNumVerts := some 3

/-- Embedding of `RendererContext::setRenderTarget(RenderTargetHandle _rt)`. -/
def RendererContext.setRenderTarget (k : Consts) (ctx : RendererContext) (_rt : Nat) : List Call :=
  if _rt = k.invalidHandle then
    [Call.SetRenderTarget 0 ctx.m_backBufferColor,
     Call.SetDepthStencilSurface ctx.m_backBufferDepthStencil]
  else
    let renderTarget := ctx.m_renderTargets _rt
    [Call.SetRenderTarget 0 renderTarget.m_color,
     Call.SetDepthStencilSurface
       (if renderTarget.m_depth ≠ none then renderTarget.m_depth
        else ctx.m_backBufferDepthStencil)]

/-- Embedding of `RendererContext::setShaderConstantF`; `fragment` is
`_flags&BGFX_UNIFORM_FRAGMENTBIT`. -/
def RendererContext.setShaderConstantF (fragment : Bool) (_regIndex : Nat) (_val : FloatData)
    (_numRegs : Nat) : List Call :=
  if fragment then [Call.SetShaderConstantF .pixel _regIndex _val _numRegs]
  else [Call.SetShaderConstantF .vertex _regIndex _val _numRegs]

/-- Embedding of `Texture::commit(uint8_t _stage)`. -/
def Texture.commit (t : Texture) (_stage : Nat) : List Call :=
  [Call.SetSamplerState _stage .D3DSAMP_MINFILTER (.filter t.m_minFilter),
   Call.SetSamplerState _stage .D3DSAMP_MAGFILTER (.filter t.m_magFilter),
   Call.SetSamplerState _stage .D3DSAMP_MIPFILTER (.filter t.m_mipFilter),
   Call.SetSamplerState _stage .D3DSAMP_ADDRESSU (.address t.m_tau),
   Call.SetSamplerState _stage .D3DSAMP_ADDRESSV (.address t.m_tav),
   Call.SetTexture _stage t.m_ptr]

/-- Embedding of `RenderTarget::commit(uint8_t _stage)`. -/
def RenderTarget.commit (rt : RenderTarget) (_stage : Nat) : List Call :=
  [Call.SetSamplerState _stage .D3DSAMP_MINFILTER (.filter (some .D3DTEXF_LINEAR)),
   Call.SetSamplerState _stage .D3DSAMP_MAGFILTER (.filter (some .D3DTEXF_LINEAR)),
   Call.SetSamplerState _stage .D3DSAMP_MIPFILTER (.filter (some .D3DTEXF_POINT)),
   Call.SetSamplerState _stage .D3DSAMP_ADDRESSU (.address (some .D3DTADDRESS_CLAMP)),
   Call.SetSamplerState _stage .D3DSAMP_ADDRESSV (.address (some .D3DTADDRESS_CLAMP)),
   Call.SetTexture _stage rt.m_colorTexture]

/-- The block `if (BGFX_CLEAR_NONE != clear.m_flags) { ... }` of the view
change (lines 1473-1509). The local `color` is assigned only when the colour
bit is set. -/
def clearCalls (k : Consts) (rect : Rect) (clear : Clear) : List Call :=
  if k.BGFX_CLEAR_NONE ≠ clear.m_flags then
    let colorBit : Bool := decide ((k.BGFX_CLEAR_COLOR_BIT &&& clear.m_flags) ≠ 0)
    let depthBit : Bool := decide ((k.BGFX_CLEAR_DEPTH_BIT &&& clear.m_flags) ≠ 0)
    let stencilBit : Bool := decide ((k.BGFX_CLEAR_STENCIL_BIT &&& clear.m_flags) ≠ 0)
    let flags : Nat :=
      (if colorBit then D3DCLEAR_TARGET else 0)
        ||| (if depthBit then D3DCLEAR_ZBUFFER else 0)
        ||| (if stencilBit then D3DCLEAR_STENCIL else 0)
    let rgba := clear.m_rgba
    let color : Option Nat :=
      if colorBit then
        some (D3DCOLOR_RGBA (rgba >>> 24) ((rgba >>> 16) &&& 0xff) ((rgba >>> 8) &&& 0xff)
          (rgba &&& 0xff))
      else none
    (if colorBit then
        [Call.SetRenderState .D3DRS_COLORWRITEENABLE
          (.dword (D3DCOLORWRITEENABLE_RED ||| D3DCOLORWRITEENABLE_GREEN
            ||| D3DCOLORWRITEENABLE_BLUE ||| D3DCOLORWRITEENABLE_ALPHA))]
      else [])
    ++ (if depthBit then [Call.SetRenderState .D3DRS_ZWRITEENABLE (.bool true)] else [])
    ++ (if 0 ≠ flags then
          [Call.SetRenderState .D3DRS_SCISSORTESTENABLE (.bool true),
           Call.SetScissorRect rect.m_x rect.m_y (rect.m_x + rect.m_width)
             (rect.m_y + rect.m_height),
           Call.Clear flags color clear.m_depth clear.m_stencil,
           Call.SetRenderState .D3DRS_SCISSORTESTENABLE (.bool false)]
        else [])
  else []

/-- The native calls of a view change (lines 1454-1515): render target (only
when the view's target differs from the one bound), viewport, clear, and the
five baseline render states. -/
def viewCalls (k : Consts) (ctx : RendererContext) (f : Frame) (rt view : Nat) : List Call :=
  (if f.m_rt view ≠ rt then ctx.setRenderTarget k (f.m_rt view) else [])
    ++ [Call.SetViewport (f.m_rect view).m_x (f.m_rect view).m_y (f.m_rect view).m_width
          (f.m_rect view).m_height]
    ++ clearCalls k (f.m_rect view) (f.m_clear view)
    ++ [Call.SetRenderState .D3DRS_ZENABLE (.bool true),
        Call.SetRenderState .D3DRS_ZFUNC (.cmp (some .D3DCMP_LESS)),
        Call.SetRenderState .D3DRS_CULLMODE (.cull (some .D3DCULL_NONE)),
        Call.SetRenderState .D3DRS_ALPHABLENDENABLE (.bool false),
        Call.SetRenderState .D3DRS_ALPHAFUNC (.cmp (some .D3DCMP_GREATER))]

/-- The mask of the outer test of the state block (lines 1518-1520). -/
def stateGuardMask (k : Consts) : Nat :=
  k.BGFX_STATE_CULL_MASK ||| k.BGFX_STATE_DEPTH_WRITE ||| k.BGFX_STATE_DEPTH_TEST_MASK
    ||| k.BGFX_STATE_ALPHA_MASK ||| k.BGFX_STATE_ALPHA_WRITE ||| k.BGFX_STATE_RGB_WRITE
    ||| k.BGFX_STATE_BLEND_MASK ||| k.BGFX_STATE_ALPHA_REF_MASK ||| k.BGFX_STATE_PT_MASK

/-- The cull-mode group (lines 1522-1526). -/
def cullCalls (k : Consts) (newFlags changedFlags : Nat) : List Call :=
  if (k.BGFX_STATE_CULL_MASK &&& changedFlags) ≠ 0 then
    let cull := ((newFlags &&& k.BGFX_STATE_CULL_MASK) >>> k.BGFX_STATE_CULL_SHIFT) % 4294967296
    [Call.SetRenderState .D3DRS_CULLMODE (.cull s_cullMode[cull]?)]
  else []

/-- The depth-write group (lines 1528-1531). -/
def depthWriteCalls (k : Consts) (newFlags changedFlags : Nat) : List Call :=
  if (k.BGFX_STATE_DEPTH_WRITE &&& changedFlags) ≠ 0 then
    [Call.SetRenderState .D3DRS_ZWRITEENABLE
      (.bool (decide ((k.BGFX_STATE_DEPTH_WRITE &&& newFlags) ≠ 0)))]
  else []

/-- The depth-test group (lines 1533-1542). -/
def depthTestCalls (k : Consts) (newFlags changedFlags : Nat) : List Call :=
  if (k.BGFX_STATE_DEPTH_TEST_MASK &&& changedFlags) ≠ 0 then
    let func :=
      ((newFlags &&& k.BGFX_STATE_DEPTH_TEST_MASK) >>> k.BGFX_STATE_DEPTH_TEST_SHIFT) % 4294967296
    Call.SetRenderState .D3DRS_ZENABLE (.bool (decide (0 ≠ func)))
      :: (if 0 ≠ func then [Call.SetRenderState .D3DRS_ZFUNC (.cmp s_depthFunc[func]?)] else [])
  else []

/-- The reference value `ref` of the alpha group (line 1546). -/
def alphaRefOf (k : Consts) (newFlags : Nat) : Nat :=
  ((newFlags &&& k.BGFX_STATE_ALPHA_REF_MASK) >>> k.BGFX_STATE_ALPHA_REF_SHIFT) % 4294967296

/-- The alpha test/ref group (lines 1544-1550). -/
def alphaCalls (k : Consts) (newFlags changedFlags : Nat) : List Call :=
  if ((k.BGFX_STATE_ALPHA_TEST ||| k.BGFX_STATE_ALPHA_REF_MASK) &&& changedFlags) ≠ 0 then
    [Call.SetRenderState .D3DRS_ALPHAREF (.dword (alphaRefOf k newFlags)),
     Call.SetRenderState .D3DRS_ALPHATESTENABLE
       (.bool (decide ((k.BGFX_STATE_ALPHA_TEST &&& newFlags) ≠ 0)))]
  else []

/-- The colour/alpha write-mask group (lines 1552-1557). -/
def writeMaskCalls (k : Consts) (newFlags changedFlags : Nat) : List Call :=
  if ((k.BGFX_STATE_ALPHA_WRITE ||| k.BGFX_STATE_RGB_WRITE) &&& changedFlags) ≠ 0 then
    let writeEnable :=
      (if (newFlags &&& k.BGFX_STATE_ALPHA_WRITE) ≠ 0 then D3DCOLORWRITEENABLE_ALPHA else 0)
        ||| (if (newFlags &&& k.BGFX_STATE_RGB_WRITE) ≠ 0 then
              D3DCOLORWRITEENABLE_RED ||| D3DCOLORWRITEENABLE_GREEN ||| D3DCOLORWRITEENABLE_BLUE
             else 0)
    [Call.SetRenderState .D3DRS_COLORWRITEENABLE (.dword writeEnable)]
  else []

/-- The blend group (lines 1559-1576). -/
def blendCalls (k : Consts) (newFlags changedFlags : Nat) : List Call :=
  if (k.BGFX_STATE_BLEND_MASK &&& changedFlags) ≠ 0 then
    let alphaBlendEnabled : Bool := decide ((k.BGFX_STATE_BLEND_MASK &&& newFlags) ≠ 0)
    Call.SetRenderState .D3DRS_ALPHABLENDENABLE (.bool alphaBlendEnabled)
      :: (if alphaBlendEnabled then
            let blend :=
              ((newFlags &&& k.BGFX_STATE_BLEND_MASK) >>> k.BGFX_STATE_BLEND_SHIFT) % 4294967296
            let src := blend &&& 0xf
            let dst := (blend >>> 4) &&& 0xf
            [Call.SetRenderState .D3DRS_SRCBLEND (.blend s_blendFactor[src]?),
             Call.SetRenderState .D3DRS_DESTBLEND (.blend s_blendFactor[dst]?)]
          else [])
  else []

/-- The native calls of the state block (lines 1518-1581). -/
def stateCalls (k : Consts) (newFlags changedFlags : Nat) : List Call :=
  if (stateGuardMask k &&& changedFlags) ≠ 0 then
    cullCalls k newFlags changedFlags
      ++ depthWriteCalls k newFlags changedFlags
      ++ depthTestCalls k newFlags changedFlags
      ++ alphaCalls k newFlags changedFlags
      ++ writeMaskCalls k newFlags changedFlags
      ++ blendCalls k newFlags changedFlags
  else []

/-- The locals the state block assigns: `alphaRef` when the alpha group
applies, `primType` and `primNumVerts` whenever the block is entered. -/
def stateLocals (k : Consts) (st : SubmitState) (newFlags changedFlags : Nat) : SubmitState :=
  if (stateGuardMask k &&& changedFlags) ≠ 0 then
    let primIndex := ((newFlags &&& k.BGFX_STATE_PT_MASK) >>> k.BGFX_STATE_PT_SHIFT) % 256
    { st with
        alphaRef :=
          if ((k.BGFX_STATE_ALPHA_TEST ||| k.BGFX_STATE_ALPHA_REF_MASK) &&& changedFlags) ≠ 0
          then alphaRefOf k newFlags else st.alphaRef
        primType := s_primType[primIndex]?
        primNumVerts := s_primNumVerts[primIndex]? }
  else st

/-- One pass of the predefined-uniform loop (lines 1618-1725). -/
def predefinedCalls (f : Frame) (st : SubmitState) (state : RenderState)
    (predefined : PredefinedUniform) : List Call :=
  let view := st.view
  match predefined.kind with
  | .ViewRect =>
    RendererContext.setShaderConstantF predefined.fragment predefined.m_loc
      (.viewRect (f.m_rect view).m_x (f.m_rect view).m_y (f.m_rect view).m_width
        (f.m_rect view).m_height) 1
  | .ViewTexel =>
    RendererContext.setShaderConstantF predefined.fragment predefined.m_loc
      (.viewTexel (f.m_rect view).m_width (f.m_rect view).m_height) 1
  | .View =>
    RendererContext.setShaderConstantF predefined.fragment predefined.m_loc (.view view) 4
  | .ViewProj =>
    RendererContext.setShaderConstantF predefined.fragment predefined.m_loc (.viewProj view) 4
  | .Model =>
    RendererContext.setShaderConstantF predefined.fragment predefined.m_loc
      (.model state.m_matrix) ((state.m_num * 4) % 65536)
  | .ModelViewProj =>
    RendererContext.setShaderConstantF predefined.fragment predefined.m_loc
      (.modelViewProj state.m_matrix view) 4
  | .ModelViewProjX =>
    RendererContext.setShaderConstantF predefined.fragment predefined.m_loc
      (.modelViewProjX state.m_matrix (f.m_other view)) 4
  | .ViewProjX =>
    RendererContext.setShaderConstantF predefined.fragment predefined.m_loc
      (.viewProjX (f.m_other view)) 4
  | .AlphaRef =>
    RendererContext.setShaderConstantF predefined.fragment predefined.m_loc
      (.alphaRef st.alphaRef) 1
  | .Count => []

/-- The program bind of a material change (lines 1587-1605). -/
def bindCalls (k : Consts) (ctx : RendererContext) (materialIdx : Nat) : List Call :=
  if k.invalidHandle = materialIdx then
    [Call.SetVertexShader none, Call.SetPixelShader none]
  else
    [Call.SetVertexShader (ctx.m_materials materialIdx).m_vsh.m_ptr,
     Call.SetPixelShader (ctx.m_materials materialIdx).m_fsh.m_ptr]

/-- The uniform block of a pass (lines 1607-1726), for the material now
bound. -/
def uniformCalls (k : Consts) (ctx : RendererContext) (f : Frame) (st : SubmitState)
    (state : RenderState) (materialChanged constantsChanged : Bool) : List Call :=
  if k.invalidHandle ≠ st.materialIdx then
    (if constantsChanged then
        [Call.commit st.materialIdx .vertex materialChanged,
         Call.commit st.materialIdx .pixel materialChanged]
      else [])
    ++ (ctx.m_materials st.materialIdx).m_predefined.flatMap (predefinedCalls f st state)
  else []

/-- One pass of the sampler loop (lines 1733-1760), for one stage. -/
def samplerCalls (k : Consts) (ctx : RendererContext) (current sampler : Sampler) (stage : Nat)
    (materialChanged : Bool) : List Call :=
  if current.m_idx ≠ sampler.m_idx ∨ current.m_flags ≠ sampler.m_flags
      ∨ materialChanged = true then
    if k.invalidHandle ≠ sampler.m_idx then
      match sampler.m_flags &&& k.BGFX_SAMPLER_TYPE_MASK with
      | 0 => (ctx.m_textures sampler.m_idx).commit stage
      | 1 => (ctx.m_renderTargets sampler.m_idx).commit stage
      | _ => []
    else [Call.SetTexture stage none]
  else []

/-- The vertex declaration slot a vertex buffer is drawn with (lines 1776 and
1809). -/
def declOf (k : Consts) (ctx : RendererContext) (handle : Nat) (state : RenderState) : Nat :=
  if (ctx.m_vertexBuffers handle).m_decl = k.invalidHandle then state.m_vertexDecl
  else (ctx.m_vertexBuffers handle).m_decl

/-- The vertex-buffer block (lines 1767-1785). -/
def vertexBufferCalls (k : Consts) (ctx : RendererContext) (current : RenderState)
    (state : RenderState) (materialChanged : Bool) : List Call :=
  if current.m_vertexBuffer ≠ state.m_vertexBuffer ∨ materialChanged = true then
    let handle := state.m_vertexBuffer
    if k.invalidHandle ≠ handle then
      let vertexDecl := ctx.m_vertexDecls (declOf k ctx handle state)
      [Call.SetStreamSource 0 (ctx.m_vertexBuffers handle).m_ptr 0 vertexDecl.m_decl.m_stride,
       Call.SetVertexDeclaration vertexDecl.m_ptr]
    else [Call.SetStreamSource 0 none 0 0]
  else []

/-- The index-buffer block (lines 1787-1801). -/
def indexBufferCalls (k : Consts) (ctx : RendererContext) (current : RenderState)
    (state : RenderState) : List Call :=
  if current.m_indexBuffer ≠ state.m_indexBuffer then
    if k.invalidHandle ≠ state.m_indexBuffer then
      [Call.SetIndices (ctx.m_indexBuffers state.m_indexBuffer).m_ptr]
    else [Call.SetIndices none]
  else []

/-- The draw block (lines 1803-1846); `vertexBuffer` is
`currentState.m_vertexBuffer.idx` at that point. -/
def drawCalls (k : Consts) (ctx : RendererContext) (st : SubmitState) (vertexBuffer : Nat)
    (state : RenderState) : List Call :=
  if k.invalidHandle ≠ state.m_indexBuffer then
    let numVertices : Option Nat :=
      if 0xffffffff = state.m_numVertices then
        let stride := (ctx.m_vertexDecls (declOf k ctx vertexBuffer state)).m_decl.m_stride
        if stride = 0 then none else some ((ctx.m_vertexBuffers vertexBuffer).m_size / stride)
      else some state.m_numVertices
    match numVertices, st.primNumVerts with
    | some numVertices, some primNumVerts =>
      if k.BGFX_DRAW_WHOLE_INDEX_BUFFER = state.m_startIndex then
        let numIndices := (ctx.m_indexBuffers state.m_indexBuffer).m_size / 2
        [Call.DrawIndexedPrimitive st.primType state.m_startVertex 0 numVertices 0
          (numIndices / primNumVerts)]
      else if primNumVerts ≤ state.m_numIndices then
        [Call.DrawIndexedPrimitive st.primType state.m_startVertex 0 numVertices
          state.m_startIndex (state.m_numIndices / primNumVerts)]
      else []
    | _, _ => [Call.undefinedBehaviour]
  else []

/-- The second half of a pass (lines 1583-1846): material, uniforms, samplers,
buffers and draw. `st2`, `current1` and `materialIdx1` are the locals, the
tracked `currentState` and `materialIdx` as the first half leaves them. -/
def submitItemDraw (k : Consts) (ctx : RendererContext) (f : Frame) (st2 : SubmitState)
    (current1 : RenderState) (materialIdx1 : Nat) (item : SortKey × RenderState) :
    SubmitState × List Call :=
  let key := item.1
  let state := item.2
  -- lines 1583-1605
  let materialChanged : Bool := decide (key.m_material ≠ materialIdx1)
  let constantsChanged : Bool := decide (state.m_constBegin < state.m_constEnd) || materialChanged
  let materialIdx := key.m_material
  let calls3 := Call.rendererUpdateUniforms state.m_constBegin state.m_constEnd
    :: (if materialChanged then bindCalls k ctx materialIdx else [])
  let st3 := { st2 with materialIdx := materialIdx }
  -- lines 1607-1726
  let calls4 := uniformCalls k ctx f st3 state materialChanged constantsChanged
  -- lines 1728-1765
  let calls5 := (List.range k.BGFX_STATE_TEX_COUNT).flatMap fun stage =>
    samplerCalls k ctx (current1.m_sampler stage) (state.m_sampler stage) stage materialChanged
  let sampler := fun stage =>
    if stage < k.BGFX_STATE_TEX_COUNT then state.m_sampler stage else current1.m_sampler stage
  -- lines 1767-1785
  let calls6 := vertexBufferCalls k ctx current1 state materialChanged
  let vertexBuffer :=
    if current1.m_vertexBuffer ≠ state.m_vertexBuffer ∨ materialChanged = true then
      state.m_vertexBuffer
    else current1.m_vertexBuffer
  -- lines 1787-1801
  let calls7 := indexBufferCalls k ctx current1 state
  let indexBuffer :=
    if current1.m_indexBuffer ≠ state.m_indexBuffer then state.m_indexBuffer
    else current1.m_indexBuffer
  -- lines 1803-1846
  let calls8 := drawCalls k ctx st3 vertexBuffer state
  ({ st3 with
      currentState :=
        { current1 with
            m_sampler := sampler, m_vertexBuffer := vertexBuffer, m_indexBuffer := indexBuffer } },
   calls3 ++ calls4 ++ calls5 ++ calls6 ++ calls7 ++ calls8)

/-- One pass of the item loop of `Context::rendererSubmit` (lines 1435-1846):
the locals it leaves and the calls it issues. -/
def submitItem (k : Consts) (ctx : RendererContext) (f : Frame) (st : SubmitState)
    (item : SortKey × RenderState) : SubmitState × List Call :=
  let key := item.1
  let state := item.2
  let newFlags := state.m_flags
  -- lines 1438-1452
  let changedFlags :=
    if key.m_view ≠ st.view then k.BGFX_STATE_MASK else st.currentState.m_flags ^^^ state.m_flags
  let current1 : RenderState :=
    if key.m_view ≠ st.view then
      { k.RenderState_clear { st.currentState with m_flags := newFlags } with m_flags := newFlags }
    else { st.currentState with m_flags := newFlags }
  let view := if key.m_view ≠ st.view then key.m_view else st.view
  let materialIdx1 := if key.m_view ≠ st.view then k.invalidHandle else st.materialIdx
  let rt := if key.m_view ≠ st.view then f.m_rt key.m_view else st.rt
  -- lines 1454-1515
  let calls1 := if key.m_view ≠ st.view then viewCalls k ctx f st.rt key.m_view else []
  -- lines 1518-1581
  let calls2 := stateCalls k newFlags changedFlags
  let st2 := stateLocals k { st with view := view, rt := rt } newFlags changedFlags
  -- lines 1583-1846
  let r := submitItemDraw k ctx f st2 current1 materialIdx1 item
  (r.1, calls1 ++ calls2 ++ r.2)

/-- The item loop: the passes in order, from the given locals. -/
def submitLoop (k : Consts) (ctx : RendererContext) (f : Frame) :
    SubmitState → List (SortKey × RenderState) → SubmitState × List Call
  | st, [] => (st, [])
  | st, item :: rest =>
    let r := submitItem k ctx f st item
    let r2 := submitLoop k ctx f r.1 rest
    (r2.1, r.2 ++ r2.2)

/-- The calls issued by the draw-item loop of `Context::rendererSubmit` (lines
1431-1850) for a frame; the loop is skipped when `BGFX_DEBUG_IFH` is set. -/
def rendererSubmitItems (k : Consts) (ctx : RendererContext) (f : Frame) : List Call :=
  if 0 = (f.m_debug &&& k.BGFX_DEBUG_IFH) then
    (submitLoop k ctx f (SubmitState.initial k) f.items).2
  else []

/-! ## Protocol steps and sample data -/

/-- The steps of the reset protocol in a call trace: entry into `preReset`,
the native `Reset`, entry into `postReset`. -/
def Call.isProtocolStep : Call → Bool
  | .enter _ => true
  | .Reset _ => true
  | _ => false

/-- One pass of the recovery loop of `flip`, as the device results that drive
it: the status polls before the device is ready to be reset, the `Reset`
attempts that fail, the result of the `Reset` that succeeds and the result of
the status check behind the reset. -/
structure RecoveryPass where
  polls : List HRESULT
  failedResets : List HRESULT
  resetOk : HRESULT
  check : HRESULT
  deriving DecidableEq, Repr

/-- The device results one pass takes, in order. -/
def RecoveryPass.results (p : RecoveryPass) : List HRESULT :=
  p.polls ++ D3DERR_DEVICENOTRESET :: (p.failedResets ++ [p.resetOk, p.check])

/-- The results are such that the pass is run as described: no poll reports
"not reset", the failed resets fail and the last reset succeeds. -/
def RecoveryPass.Valid (p : RecoveryPass) : Prop :=
  (∀ hr ∈ p.polls, hr ≠ D3DERR_DEVICENOTRESET)
    ∧ (∀ hr ∈ p.failedResets, FAILED hr = true)
    ∧ FAILED p.resetOk = false

/-- A baseline render state with every handle invalid, used by the sample
constants. -/
def sampleBaseline : RenderState where
  m_flags := 0
  m_constBegin := 0
  m_constEnd := 0
  m_matrix := 0
  m_num := 1
  m_startIndex := 0xffffffff
  m_numIndices := 0
  m_startVertex := 0
  m_numVertices := 0xffffffff
  m_vertexBuffer := 0xffff
  m_vertexDecl := 0xffff
  m_indexBuffer := 0xffff
  m_sampler := fun _ => ⟨0xffff, 0⟩

/-- Sample values for the constants declared outside `renderer_d3d9.cpp`, on
which the theorems are exercised. -/
def sampleConsts : Consts where
  BGFX_CONFIG_RENDERER_DIRECT3D_EX := false
  D3D_DISABLE_9EX := false
  BGFX_CONFIG_MAX_INDEX_BUFFERS := 2
  BGFX_CONFIG_MAX_VERTEX_BUFFERS := 2
  BGFX_CONFIG_MAX_RENDER_TARGETS := 1
  invalidHandle := 0xffff
  BGFX_RESET_FULLSCREEN := 0x1
  BGFX_RESET_FULLSCREEN_MASK := 0x1
  BGFX_RESET_MSAA_MASK := 0x70
  BGFX_RESET_MSAA_SHIFT := 4
  BGFX_RESET_VSYNC := 0x80
  BGFX_STATE_NONE := 0
  BGFX_STATE_MASK := 0xffffffffffffffff
  BGFX_STATE_CULL_MASK := 0x30
  BGFX_STATE_CULL_SHIFT := 4
  BGFX_STATE_DEPTH_WRITE := 0x1
  BGFX_STATE_DEPTH_TEST_MASK := 0xf000000
  BGFX_STATE_DEPTH_TEST_SHIFT := 24
  BGFX_STATE_ALPHA_TEST := 0x4
  BGFX_STATE_ALPHA_WRITE := 0x8
  BGFX_STATE_ALPHA_MASK := 0xc
  BGFX_STATE_RGB_WRITE := 0x40
  BGFX_STATE_BLEND_MASK := 0xff00
  BGFX_STATE_BLEND_SHIFT := 8
  BGFX_STATE_ALPHA_REF_MASK := 0xff0000
  BGFX_STATE_ALPHA_REF_SHIFT := 16
  BGFX_STATE_PT_MASK := 0x10000000
  BGFX_STATE_PT_SHIFT := 28
  BGFX_STATE_TEX_COUNT := 2
  BGFX_CLEAR_NONE := 0
  BGFX_CLEAR_COLOR_BIT := 1
  BGFX_CLEAR_DEPTH_BIT := 2
  BGFX_CLEAR_STENCIL_BIT := 4
  BGFX_DRAW_WHOLE_INDEX_BUFFER := 0xffffffff
  BGFX_SAMPLER_TYPE_MASK := 3
  BGFX_DEBUG_IFH := 4
  RenderState_clear := fun s =>
    { sampleBaseline with m_constBegin := s.m_constBegin, m_constEnd := s.m_constEnd }
  RenderState_reset := sampleBaseline

/-- A sample shader record. -/
def sampleShader (p : Ptr) : Shader :=
  { m_ptr := some p, m_constantBuffer := sealedStream sampleCodec [], m_predefined := [] }

/-- A sample renderer context: a 1280x720 windowed back buffer, slot 0 of the
index and vertex buffers dynamic, slot 1 static. -/
def sampleContext : RendererContext where
  m_d3d9 := some 1
  m_device := some 2
  m_backBufferColor := some 3
  m_backBufferDepthStencil := some 4
  m_params :=
    { BackBufferWidth := 1280, BackBufferHeight := 720, BackBufferFormat := .D3DFMT_X8R8G8B8,
      BackBufferCount := 1, MultiSampleType := some .D3DMULTISAMPLE_NONE, MultiSampleQuality := 0,
      EnableAutoDepthStencil := true, AutoDepthStencilFormat := .D3DFMT_D24S8,
      FullScreen_RefreshRateInHz := 0,
      PresentationInterval := .D3DPRESENT_INTERVAL_IMMEDIATE, Windowed := true,
      Flags := D3DPRESENTFLAG_DISCARD_DEPTHSTENCIL, SwapEffect := D3DSWAPEFFECT_DISCARD,
      hDeviceWindow := some 5 }
  m_flags := 0
  m_initialized := true
  m_d3d9dll := some 6
  m_fmtNULL := true
  m_fmtDF16 := false
  m_fmtDF24 := false
  m_fmtINTZ := true
  m_fmtRAWZ := false
  m_fmtDepth := .D3DFMT_D24S8
  m_indexBuffers := fun ii =>
    if ii = 0 then ⟨some 10, 6, true⟩ else ⟨some (11 + ii), 6, false⟩
  m_vertexBuffers := fun ii =>
    if ii = 0 then ⟨some 20, 12, 0xffff, true⟩ else ⟨some (21 + ii), 12, 0, false⟩
  m_vertexShaders := fun ii => sampleShader (30 + ii)
  m_fragmentShaders := fun ii => sampleShader (40 + ii)
  m_materials := fun ii =>
    { m_vsh := sampleShader (30 + ii), m_fsh := sampleShader (40 + ii), m_predefined := [] }
  m_textures := fun ii =>
    { m_ptr := some (50 + ii), m_tau := some .D3DTADDRESS_WRAP, m_tav := some .D3DTADDRESS_WRAP,
      m_minFilter := some .D3DTEXF_LINEAR, m_magFilter := some .D3DTEXF_LINEAR,
      m_mipFilter := some .D3DTEXF_LINEAR }
  m_vertexDecls := fun ii =>
    { m_ptr := some (60 + ii),
      m_decl := { m_stride := 12, m_offset := fun _ => 0, m_attributes := fun _ => 0xff } }
  m_renderTargets := fun ii =>
    { m_colorTexture := some (70 + ii), m_color := some (80 + ii), m_depthTexture := none,
      m_depth := none, m_width := 256, m_height := 256, m_flags := 1 }
  m_uniformReg := []
  m_uniforms := fun _ => none
  m_textVideoMem := ⟨false, 1280, 720⟩

/-- A sample device that gives the listed results, hands out objects
`100, 101, ...` and supports every multisample level but 16 samples. -/
def sampleDevice (results : List HRESULT) : Device where
  results := results
  objects := fun n => some (100 + n)
  created := 0
  displayFormat := .D3DFMT_X8R8G8B8
  checkDeviceMultiSampleType := fun _ _ msaa =>
    if msaa = some .D3DMULTISAMPLE_16_SAMPLES then D3DERR_INVALIDCALL else D3D_OK

/-- The protocol steps of one pass: `preReset`, the failed `Reset` attempts and
the successful one, `postReset`. -/
def RecoveryPass.protocol (params : D3DPRESENT_PARAMETERS) (p : RecoveryPass) : List Call :=
  Call.enter .preReset ::
    (List.replicate (p.failedResets.length + 1) (Call.Reset params) ++ [Call.enter .postReset])

/-! ## Vocabulary for statements about the draw-item loop -/

/-- The render state a call sets, if it is a `SetRenderState`. -/
def Call.renderState? : Call → Option D3DRENDERSTATETYPE
  | .SetRenderState s _ => some s
  | _ => none

/-- Number of `SetRenderState` calls for one render state in a trace. -/
def countRenderState (rs : D3DRENDERSTATETYPE) (calls : List Call) : Nat :=
  calls.countP (fun c => decide (c.renderState? = some rs))

/-- The flag groups of the state block. -/
inductive FlagGroup
  | cull
  | depthWrite
  | depthTest
  | alpha
  | writeMask
  | blend
  deriving DecidableEq, Repr

/-- The bits of the packed flag word that belong to a group, as tested by the
source. -/
def FlagGroup.mask (k : Consts) : FlagGroup → Nat
  | .cull => k.BGFX_STATE_CULL_MASK
  | .depthWrite => k.BGFX_STATE_DEPTH_WRITE
  | .depthTest => k.BGFX_STATE_DEPTH_TEST_MASK
  | .alpha => k.BGFX_STATE_ALPHA_TEST ||| k.BGFX_STATE_ALPHA_REF_MASK
  | .writeMask => k.BGFX_STATE_ALPHA_WRITE ||| k.BGFX_STATE_RGB_WRITE
  | .blend => k.BGFX_STATE_BLEND_MASK

/-- The render states a group sets. -/
def FlagGroup.states : FlagGroup → List D3DRENDERSTATETYPE
  | .cull => [.D3DRS_CULLMODE]
  | .depthWrite => [.D3DRS_ZWRITEENABLE]
  | .depthTest => [.D3DRS_ZENABLE, .D3DRS_ZFUNC]
  | .alpha => [.D3DRS_ALPHAREF, .D3DRS_ALPHATESTENABLE]
  | .writeMask => [.D3DRS_COLORWRITEENABLE]
  | .blend => [.D3DRS_ALPHABLENDENABLE, .D3DRS_SRCBLEND, .D3DRS_DESTBLEND]

/-- The render state a group sets exactly once each time it is applied. -/
def FlagGroup.lead : FlagGroup → D3DRENDERSTATETYPE
  | .cull => .D3DRS_CULLMODE
  | .depthWrite => .D3DRS_ZWRITEENABLE
  | .depthTest => .D3DRS_ZENABLE
  | .alpha => .D3DRS_ALPHAREF
  | .writeMask => .D3DRS_COLORWRITEENABLE
  | .blend => .D3DRS_ALPHABLENDENABLE

/-- The calls of one group inside the state block. -/
def FlagGroup.calls (k : Consts) (newFlags changedFlags : Nat) : FlagGroup → List Call
  | .cull => cullCalls k newFlags changedFlags
  | .depthWrite => depthWriteCalls k newFlags changedFlags
  | .depthTest => depthTestCalls k newFlags changedFlags
  | .alpha => alphaCalls k newFlags changedFlags
  | .writeMask => writeMaskCalls k newFlags changedFlags
  | .blend => blendCalls k newFlags changedFlags

/-- Whether a call is a `SetRenderState` of one of the states of a group. -/
def Call.inGroup (g : FlagGroup) (c : Call) : Bool :=
  match c.renderState? with
  | some rs => decide (rs ∈ g.states)
  | none => false

/-- What the loop tracks of the item before: its view, flags and material. -/
structure Tracked where
  view : Nat
  flags : Nat
  material : Nat
  deriving DecidableEq, Repr

/-- The tracked values in the locals of the loop. -/
def SubmitState.tracked (st : SubmitState) : Tracked :=
  ⟨st.view, st.currentState.m_flags, st.materialIdx⟩

/-- The tracked values an item leaves. -/
def trackedOf (item : SortKey × RenderState) : Tracked :=
  ⟨item.1.m_view, item.2.m_flags, item.1.m_material⟩

/-- Every item paired with what is tracked of the item before it; the first
item is paired with `t0`. -/
def withPrevious (t0 : Tracked) (items : List (SortKey × RenderState)) :
    List (Tracked × (SortKey × RenderState)) :=
  (t0 :: items.map trackedOf).zip items

/-- What the locals hold before the first item: view `0xff`, flags
`BGFX_STATE_NONE`, no material. -/
def Tracked.initial (k : Consts) : Tracked := ⟨0xff, k.BGFX_STATE_NONE, k.invalidHandle⟩

/-- Number of view-boundary transitions: positions whose view differs from the
view before (`0xff` before the first item). -/
def viewChanges (k : Consts) (items : List (SortKey × RenderState)) : Nat :=
  (withPrevious (Tracked.initial k) items).countP fun p => decide (p.2.1.m_view ≠ p.1.view)

/-- Number of positions that stay in the view of the item before and whose
bits under `mask` differ from those of the item before. -/
def fieldChanges (k : Consts) (mask : Nat) (items : List (SortKey × RenderState)) : Nat :=
  (withPrevious (Tracked.initial k) items).countP fun p =>
    decide (p.2.1.m_view = p.1.view ∧ (p.1.flags &&& mask) ≠ (p.2.2.m_flags &&& mask))

/-- Number of view-boundary transitions into a view whose clear flags are not
`BGFX_CLEAR_NONE` and have the given bit set. -/
def clearsWith (k : Consts) (f : Frame) (bit : Nat) (items : List (SortKey × RenderState)) : Nat :=
  (withPrevious (Tracked.initial k) items).countP fun p =>
    decide (p.2.1.m_view ≠ p.1.view ∧ k.BGFX_CLEAR_NONE ≠ (f.m_clear p.2.1.m_view).m_flags
      ∧ (bit &&& (f.m_clear p.2.1.m_view).m_flags) ≠ 0)

/-- The calls of a group's lead state that a view change issues before the
state block: the baseline value (cull mode, depth test, blend) or the
preparation of the clear (depth write, write mask). -/
def FlagGroup.viewExtra (k : Consts) (f : Frame) (items : List (SortKey × RenderState)) :
    FlagGroup → Nat
  | .cull => viewChanges k items
  | .depthWrite => clearsWith k f k.BGFX_CLEAR_DEPTH_BIT items
  | .depthTest => viewChanges k items
  | .alpha => 0
  | .writeMask => clearsWith k f k.BGFX_CLEAR_COLOR_BIT items
  | .blend => viewChanges k items

/-- Assumptions on the flag constants of `bgfx.h`: every group has a bit inside
`BGFX_STATE_MASK`, and the alpha-test bit is one of the bits of
`BGFX_STATE_ALPHA_MASK`. -/
structure Consts.StateMasksOk (k : Consts) : Prop where
  inMask : ∀ g : FlagGroup, (g.mask k &&& k.BGFX_STATE_MASK) ≠ 0
  alphaTest : k.BGFX_STATE_ALPHA_TEST &&& k.BGFX_STATE_ALPHA_MASK = k.BGFX_STATE_ALPHA_TEST

/-- The count the spec states for a state category, in its words: "the number
of index positions where that category's packed field differs from the
immediately preceding sorted item's field, plus one if the category's value
at the first item of a view differs from the view-reset baseline". -/
def claimedStateCalls (mask baseline : Nat) (items : List (SortKey × RenderState)) : Nat :=
  (items.zip items.tail).countP
      (fun p => decide ((p.1.2.m_flags &&& mask) ≠ (p.2.2.m_flags &&& mask)))
    + ((none :: items.map (fun i => some i.1.m_view)).zip items).countP
        (fun p => decide (p.1 ≠ some p.2.1.m_view
          ∧ (p.2.2.m_flags &&& mask) ≠ (baseline &&& mask)))

/-- Number of native program binds in a trace (each bind is one
`SetVertexShader` followed by one `SetPixelShader`). -/
def countVertexShaderSets (calls : List Call) : Nat :=
  calls.countP fun c => c matches .SetVertexShader _

/-- Number of `SetPixelShader` calls in a trace. -/
def countPixelShaderSets (calls : List Call) : Nat :=
  calls.countP fun c => c matches .SetPixelShader _

/-- Number of maximal runs of consecutive items that share the same
(view, material), counted from left to right; `prev` is the pair of the item
before, if any. -/
def countRuns : Option (Nat × Nat) → List (SortKey × RenderState) → Nat
  | _, [] => 0
  | prev, item :: rest =>
    (if prev = some (item.1.m_view, item.1.m_material) then 0 else 1)
      + countRuns (some (item.1.m_view, item.1.m_material)) rest

/-- Number of maximal runs of consecutive sorted items that share the same
(view, material). -/
def materialRuns (items : List (SortKey × RenderState)) : Nat := countRuns none items

/-- Number of positions that open a view (the first item of the frame, or an
item whose view differs from that of the item before) with the invalid
material handle. -/
def unboundStarts (k : Consts) : Option Nat → List (SortKey × RenderState) → Nat
  | _, [] => 0
  | prev, item :: rest =>
    (if prev ≠ some item.1.m_view ∧ item.1.m_material = k.invalidHandle then 1 else 0)
      + unboundStarts k (some item.1.m_view) rest

/-- A sample frame: every view renders to the back buffer in a 1280x720
rectangle and clears colour and depth. -/
def sampleFrame (items : List (SortKey × RenderState)) : Frame where
  m_debug := 0
  m_rt := fun _ => 0xffff
  m_rect := fun _ => ⟨0, 0, 1280, 720⟩
  m_clear := fun _ => ⟨0x303030ff, 1, 0, 3⟩
  m_other := fun _ => 0
  items := items

/-- A sample draw item: the given view, material and flags, drawing the whole
index buffer 0 with vertex buffer 0 and no textures. -/
def sampleItem (view material flags : Nat) : SortKey × RenderState :=
  (⟨view, material⟩,
   { sampleBaseline with
      m_flags := flags, m_vertexBuffer := 0, m_indexBuffer := 0, m_vertexDecl := 0 })

/-- Whether a view change issues the lead state of a group before the state
block, for a view with the given clear request. -/
def FlagGroup.viewSets (k : Consts) (clear : Clear) : FlagGroup → Bool
  | .cull => true
  | .depthWrite =>
    decide (k.BGFX_CLEAR_NONE ≠ clear.m_flags ∧ (k.BGFX_CLEAR_DEPTH_BIT &&& clear.m_flags) ≠ 0)
  | .depthTest => true
  | .alpha => false
  | .writeMask =>
    decide (k.BGFX_CLEAR_NONE ≠ clear.m_flags ∧ (k.BGFX_CLEAR_COLOR_BIT &&& clear.m_flags) ≠ 0)
  | .blend => true

/-- Whether a call sets the vertex or the pixel shader. -/
def Call.isShaderSet : Call → Bool
  | .SetVertexShader _ => true
  | .SetPixelShader _ => true
  | _ => false

/-- Whether a pass binds a program: the item's material differs from the
tracked one, which is "none" right after a view change. -/
def bindsAt (k : Consts) (t : Tracked) (item : SortKey × RenderState) : Nat :=
  if item.1.m_material ≠ (if item.1.m_view ≠ t.view then k.invalidHandle else t.material)
  then 1 else 0

/-- One hundred sorted items of view 0: fifty of material 1, then fifty of
material 2. -/
def hundredItems : List (SortKey × RenderState) :=
  List.replicate 50 (sampleItem 0 1 0) ++ List.replicate 50 (sampleItem 0 2 0)

/-! ## Vocabulary for statements about one pass of the loop -/

/-- The locals of the loop when the items `pre` of a frame have been
processed, from the locals as initialised before the loop. -/
def stateAfter (k : Consts) (ctx : RendererContext) (f : Frame)
    (pre : List (SortKey × RenderState)) : SubmitState :=
  (submitLoop k ctx f (SubmitState.initial k) pre).1

/-- The calls issued by the pass for `item`, the items `pre` coming before it
in the frame. -/
def itemCalls (k : Consts) (ctx : RendererContext) (f : Frame)
    (pre : List (SortKey × RenderState)) (item : SortKey × RenderState) : List Call :=
  (submitItem k ctx f (stateAfter k ctx f pre) item).2

/-- The topology index `primIndex` of a flag word (line 1578). -/
def primIndexOf (k : Consts) (flags : Nat) : Nat :=
  ((flags &&& k.BGFX_STATE_PT_MASK) >>> k.BGFX_STATE_PT_SHIFT) % 256

/-- Whether a call is a draw call. -/
def Call.isDraw : Call → Bool
  | .DrawIndexedPrimitive _ _ _ _ _ _ => true
  | _ => false

/-- The locals `primType` and `primNumVerts` are those of the topology of the
tracked flag word. -/
def SubmitState.TopologyTracked (k : Consts) (st : SubmitState) : Prop :=
  st.primType = s_primType[primIndexOf k st.currentState.m_flags]?
    ∧ st.primNumVerts = s_primNumVerts[primIndexOf k st.currentState.m_flags]?

/-- The vertex count `numVertices` of the draw block (lines 1805-1812): the
item's count, or for the sentinel `0xffffffff` the number of vertices of the
item's vertex buffer. -/
def numVerticesOf (k : Consts) (ctx : RendererContext) (state : RenderState) : Nat :=
  if 0xffffffff = state.m_numVertices then
    (ctx.m_vertexBuffers state.m_vertexBuffer).m_size
      / (ctx.m_vertexDecls (declOf k ctx state.m_vertexBuffer state)).m_decl.m_stride
  else state.m_numVertices

/-- The native entry point a trace entry of the loop stands for. -/
inductive Api
  | SetTexture
  | SetSamplerState
  | SetRenderTarget
  | SetDepthStencilSurface
  | SetVertexShader
  | SetPixelShader
  | SetShaderConstantF
  | SetStreamSource
  | SetVertexDeclaration
  | SetIndices
  | SetRenderState
  | SetViewport
  | SetScissorRect
  | Clear
  | DrawIndexedPrimitive
  | rendererUpdateUniforms
  | commit
  | undefinedBehaviour
  | other
  deriving DecidableEq, Repr

/-- The entry point of a trace entry; entries the loop never issues are
`other`. -/
def Call.api : Call → Api
  | .SetTexture _ _ => .SetTexture
  | .SetSamplerState _ _ _ => .SetSamplerState
  | .SetRenderTarget _ _ => .SetRenderTarget
  | .SetDepthStencilSurface _ => .SetDepthStencilSurface
  | .SetVertexShader _ => .SetVertexShader
  | .SetPixelShader _ => .SetPixelShader
  | .SetShaderConstantF _ _ _ _ => .SetShaderConstantF
  | .SetStreamSource _ _ _ _ => .SetStreamSource
  | .SetVertexDeclaration _ => .SetVertexDeclaration
  | .SetIndices _ => .SetIndices
  | .SetRenderState _ _ => .SetRenderState
  | .SetViewport _ _ _ _ => .SetViewport
  | .SetScissorRect _ _ _ _ => .SetScissorRect
  | .Clear _ _ _ _ => .Clear
  | .DrawIndexedPrimitive _ _ _ _ _ _ => .DrawIndexedPrimitive
  | .rendererUpdateUniforms _ _ => .rendererUpdateUniforms
  | .commit _ _ _ => .commit
  | .undefinedBehaviour => .undefinedBehaviour
  | _ => .other

/-- The changed flags of a pass (lines 1439 and 1445). -/
def passChanged (k : Consts) (st : SubmitState) (item : SortKey × RenderState) : Nat :=
  if item.1.m_view ≠ st.view then k.BGFX_STATE_MASK else st.currentState.m_flags ^^^ item.2.m_flags

/-- The tracked render state of a pass after the view test (lines 1440-1446):
cleared at a view change, with the item's flags. -/
def passCurrent (k : Consts) (st : SubmitState) (item : SortKey × RenderState) : RenderState :=
  if item.1.m_view ≠ st.view then
    { k.RenderState_clear { st.currentState with m_flags := item.2.m_flags } with
        m_flags := item.2.m_flags }
  else { st.currentState with m_flags := item.2.m_flags }

/-- The tracked material of a pass after the view test (line 1452): none at a
view change. -/
def passMaterial (k : Consts) (st : SubmitState) (item : SortKey × RenderState) : Nat :=
  if item.1.m_view ≠ st.view then k.invalidHandle else st.materialIdx

/-- The local `materialChanged` of a pass (lines 1583-1605). -/
def passMaterialChanged (k : Consts) (st : SubmitState) (item : SortKey × RenderState) : Bool :=
  decide (item.1.m_material ≠ passMaterial k st item)

/-- The locals of a pass when it reaches the uniform block (line 1607). -/
def passLocals (k : Consts) (f : Frame) (st : SubmitState) (item : SortKey × RenderState) :
    SubmitState :=
  { stateLocals k
      { st with
          view := if item.1.m_view ≠ st.view then item.1.m_view else st.view
          rt := if item.1.m_view ≠ st.view then f.m_rt item.1.m_view else st.rt }
      item.2.m_flags (passChanged k st item) with
    materialIdx := item.1.m_material }

/-- The view of the item before a position of the frame; before the first
item it is `0xff`, the value the local `view` starts with. -/
def previousView (pre : List (SortKey × RenderState)) : Nat :=
  match pre.getLast? with
  | some it => it.1.m_view
  | none => 0xff

/-- The render target of the view of the item before a position of the frame;
before the first item it is the invalid handle, which stands for the back
buffer. -/
def previousTarget (k : Consts) (f : Frame) (pre : List (SortKey × RenderState)) : Nat :=
  match pre.getLast? with
  | some it => f.m_rt it.1.m_view
  | none => k.invalidHandle

/-- Whether a call binds a texture to the given sampler stage. -/
def Call.bindsStage (stage : Nat) : Call → Bool
  | .SetTexture s _ => decide (s = stage)
  | _ => false

/-- Whether a call is a native `Clear`. -/
def Call.isClear : Call → Bool
  | .Clear _ _ _ _ => true
  | _ => false

/-- The channel argument of the native `Clear` for a clear request (lines
1476-1495): one `D3DCLEAR_*` bit per requested channel. -/
def clearChannels (k : Consts) (clear : Clear) : Nat :=
  (if (k.BGFX_CLEAR_COLOR_BIT &&& clear.m_flags) ≠ 0 then D3DCLEAR_TARGET else 0)
    ||| (if (k.BGFX_CLEAR_DEPTH_BIT &&& clear.m_flags) ≠ 0 then D3DCLEAR_ZBUFFER else 0)
    ||| (if (k.BGFX_CLEAR_STENCIL_BIT &&& clear.m_flags) ≠ 0 then D3DCLEAR_STENCIL else 0)

/-- The colour argument of the native `Clear` (lines 1481-1482); the local is
not assigned when the colour bit is clear. -/
def clearColor (k : Consts) (clear : Clear) : Option Nat :=
  if (k.BGFX_CLEAR_COLOR_BIT &&& clear.m_flags) ≠ 0 then
    some (D3DCOLOR_RGBA (clear.m_rgba >>> 24) ((clear.m_rgba >>> 16) &&& 0xff)
      ((clear.m_rgba >>> 8) &&& 0xff) (clear.m_rgba &&& 0xff))
  else none

/-- The texture argument of the binding call for a sampler (lines 1739-1759):
null for the invalid handle, the texture for sampler type 0, the colour
texture of the render target for sampler type 1. -/
def samplerTexture (k : Consts) (ctx : RendererContext) (sampler : Sampler) : Option Ptr :=
  if k.invalidHandle ≠ sampler.m_idx then
    match sampler.m_flags &&& k.BGFX_SAMPLER_TYPE_MASK with
    | 0 => (ctx.m_textures sampler.m_idx).m_ptr
    | _ => (ctx.m_renderTargets sampler.m_idx).m_colorTexture
  else none

/-- The entry points of the second half of a pass (lines 1583-1846). -/
def tailApis : List Api :=
  [.rendererUpdateUniforms, .SetVertexShader, .SetPixelShader, .commit, .SetShaderConstantF,
   .SetSamplerState, .SetTexture, .SetStreamSource, .SetVertexDeclaration, .SetIndices,
   .DrawIndexedPrimitive, .undefinedBehaviour]

/-- The sample frame with the clear request of every view replaced by the
given one. -/
def sampleFrameWith (clear : Clear) (items : List (SortKey × RenderState)) : Frame :=
  { sampleFrame items with m_clear := fun _ => clear }

/-- A sample draw item like `sampleItem`, with the given sampler on every
stage. -/
def sampleItemWith (view material : Nat) (sampler : Sampler) : SortKey × RenderState :=
  (⟨view, material⟩,
   { sampleBaseline with
      m_vertexBuffer := 0, m_indexBuffer := 0, m_vertexDecl := 0, m_sampler := fun _ => sampler })

/-! ## Shader creation and the uniform registry -/

/-- Memory image of an unsigned integer of `size` bytes on the little-endian
x86 target. -/
def toBytesLE : Nat → Nat → List Nat
  | 0, _ => []
  | size + 1, v => v % 256 :: toBytesLE size (v / 256)

/-- The unsigned integer whose memory image is the given bytes. -/
def fromBytesLE : List Nat → Nat
  | [] => 0
  | b :: bs => b + 256 * fromBytesLE bs

/-- Modelled from the spec: the byte reader `StreamRead` (declared in
`bgfx_p.h`) with which `Shader::create` consumes the "compiled-shader binary
layout": the bytes of the binary and the read position. -/
structure StreamRead where
  m_data : List Nat
  m_pos : Nat
  deriving DecidableEq, Repr

/-- Modelled from the spec: `StreamRead::read(void* _data, uint32_t _size)`
(declared in `bgfx_p.h`): copies the next `_size` bytes and advances the
position. A read that would leave the binary has no defined result. -/
def StreamRead.read (s : StreamRead) (_size : Nat) : Option (List Nat × StreamRead) :=
  if s.m_pos + _size ≤ s.m_data.length then
    some ((s.m_data.drop s.m_pos).take _size, { s with m_pos := s.m_pos + _size })
  else none

/-- Modelled from the spec: `StreamRead::read(Ty& _value)` (declared in
`bgfx_p.h`) for an unsigned integer type of `size` bytes: `read(&_value,
sizeof(Ty))`. -/
def StreamRead.readValue (s : StreamRead) (size : Nat) : Option (Nat × StreamRead) :=
  match s.read size with
  | none => none
  | some (bytes, s1) => some (fromBytesLE bytes, s1)

/-- Modelled from the spec: `StreamRead::getDataPtr()` (declared in
`bgfx_p.h`): the address of the next byte, here its offset in the binary. -/
def StreamRead.getDataPtr (s : StreamRead) : Nat := s.m_pos

/-- The C string held by a character buffer: the bytes before the first NUL. -/
def cstr (bytes : List Nat) : List Nat := bytes.takeWhile (fun b => decide (b ≠ 0))

/-- Modelled from the spec: `UniformRegistry::find(name)` (declared in
`bgfx_p.h`): "returns the storage pointer or not found". -/
def UniformRegistry.find (r : UniformRegistry) (_name : List Nat) : Option (Option Ptr) :=
  match List.find? (fun e => decide (e.1 = _name)) r with
  | some e => some e.2
  | none => none

/-- Modelled from the spec: `UniformRegistry::reg(name, storagePointer)`
(declared in `bgfx_p.h`): "inserts or overwrites the mapping for name (last
writer wins)". -/
def UniformRegistry.reg (r : UniformRegistry) (_name : List Nat) (_data : Option Ptr) :
    UniformRegistry :=
  (_name, _data) :: List.filter (fun e => decide (e.1 ≠ _name)) r

/-- The memory image of a pointer, as `writeUniformRef` stores it in the
stream; the null pointer is address 0. -/
def ptrImage (c : ConstantCodec) (p : Option Ptr) : List Nat :=
  toBytesLE c.ptrSize (p.getD 0)

/-- One uniform descriptor of a shader binary, as one pass of the loop of
`Shader::create` reads it (lines 766-783): the `nameSize` bytes of the name
and the four numbers. -/
structure UniformDescriptor where
  name : List Nat
  type : Nat
  num : Nat
  regIndex : Nat
  regCount : Nat
  deriving DecidableEq, Repr

/-- The reads of one pass of the loop of `Shader::create` (lines 766-783). -/
def Shader.readDescriptor (stream : StreamRead) : Option (UniformDescriptor × StreamRead) :=
  match stream.readValue 1 with
  | none => none
  | some (nameSize, s1) =>
    match s1.read nameSize with
    | none => none
    | some (name, s2) =>
      match s2.readValue 1 with
      | none => none
      | some (type, s3) =>
        match s3.readValue 1 with
        | none => none
        | some (num, s4) =>
          match s4.readValue 2 with
          | none => none
          | some (regIndex, s5) =>
            match s5.readValue 2 with
            | none => none
            | some (regCount, s6) => some (⟨name, type, num, regIndex, regCount⟩, s6)

/-- What one pass of the loop of `Shader::create` does with the descriptor it
has read (lines 793-810). `nameToPredefinedUniformEnum` is declared in
`bgfx_p.h` and is a parameter. The table `m_predefined` is kept as the list of
its first `m_numPredefined` entries; its capacity is declared in
`renderer_d3d9.h`. -/
def Shader.route (c : ConstantCodec) (nameToPredefinedUniformEnum : List Nat → PredefinedKind)
    (m_uniformReg : UniformRegistry) (_fragment : Bool) (sh : Shader) (d : UniformDescriptor) :
    Shader :=
  let fragmentBit := if _fragment then c.BGFX_UNIFORM_FRAGMENTBIT else 0
  let predefined := nameToPredefinedUniformEnum (cstr d.name)
  if PredefinedKind.Count ≠ predefined then
    { sh with m_predefined := sh.m_predefined ++ [⟨d.regIndex, predefined, _fragment⟩] }
  else
    match m_uniformReg.find (cstr d.name) with
    | some data =>
      { sh with
          m_constantBuffer :=
            sh.m_constantBuffer.writeUniformRef c (d.type ||| fragmentBit) d.regIndex
              (ptrImage c data) d.regCount }
    | none => sh

/-- The loop `for (ii = 0; ii < count; ++ii)` of `Shader::create` (lines
764-811). -/
def Shader.createLoop (c : ConstantCodec) (nameToPredefinedUniformEnum : List Nat → PredefinedKind)
    (m_uniformReg : UniformRegistry) (_fragment : Bool) :
    Nat → StreamRead → Shader → Option (StreamRead × Shader)
  | 0, stream, sh => some (stream, sh)
  | count + 1, stream, sh =>
    match Shader.readDescriptor stream with
    | none => none
    | some (d, s1) =>
      Shader.createLoop c nameToPredefinedUniformEnum m_uniformReg _fragment count s1
        (Shader.route c nameToPredefinedUniformEnum m_uniformReg _fragment sh d)

/-- Embedding of `Shader::create(bool _fragment, const Memory* _mem)`: the
device and the shader record it leaves and the native creation call, whose
argument is the offset of `code` in the binary. `none` is a read outside the
binary. -/
def Shader.create (c : ConstantCodec) (nameToPredefinedUniformEnum : List Nat → PredefinedKind)
    (m_uniformReg : UniformRegistry) (d : Device) (_fragment : Bool) (_mem : List Nat) :
    Option (Device × Shader × List Call) :=
  let stream : StreamRead := ⟨_mem, 0⟩
  match stream.readValue 2 with
  | none => none
  | some (count, s1) =>
    match Shader.createLoop c nameToPredefinedUniformEnum m_uniformReg _fragment count s1
        ⟨none, ConstantBuffer.empty, []⟩ with
    | none => none
    | some (s2, sh) =>
      match s2.readValue 2 with
      | none => none
      | some (_shaderSize, s3) =>
        let code := s3.getDataPtr
        let r := d.newObject
        some (r.2,
          { m_ptr := r.1, m_constantBuffer := sh.m_constantBuffer.finish c,
            m_predefined := sh.m_predefined },
          [if _fragment then Call.CreatePixelShader code else Call.CreateVertexShader code])

/-- The allocator behind the entry points `g_realloc` and `g_free` (declared
in `bgfx.h`): the blocks it hands out, by allocation order, the number of
allocations made and the blocks released so far. -/
structure Allocator where
  blocks : Nat → Option Ptr
  allocated : Nat
  freed : List (Option Ptr)

/-- The call `g_realloc(NULL, size)`: a new block. -/
def g_realloc (a : Allocator) (_size : Nat) : Option Ptr × Allocator :=
  (a.blocks a.allocated, { a with allocated := a.allocated + 1 })

/-- The call `g_free(ptr)`: the block is released. -/
def g_free (a : Allocator) (_ptr : Option Ptr) : Allocator :=
  { a with freed := _ptr :: a.freed }

/-- Embedding of `Context::rendererCreateUniform(_handle, _type, _num,
_name)`. -/
def rendererCreateUniform (c : ConstantCodec) (a : Allocator) (ctx : RendererContext)
    (_handle _type _num : Nat) (_name : List Nat) : Allocator × RendererContext :=
  let size := c.g_constantTypeSize _type * _num
  let r := g_realloc a size
  let m_uniforms := Function.update ctx.m_uniforms _handle r.1
  (r.2,
   { ctx with
      m_uniforms := m_uniforms
      m_uniformReg := ctx.m_uniformReg.reg (cstr _name) (m_uniforms _handle) })

/-- Embedding of `Context::rendererDestroyUniform(_handle)`. -/
def rendererDestroyUniform (a : Allocator) (ctx : RendererContext) (_handle : Nat) :
    Allocator × RendererContext :=
  (g_free a (ctx.m_uniforms _handle), ctx)

/-- The bytes of one uniform descriptor in a shader binary, in the spec's
words: "(name length, name bytes, type tag, element count, register index,
register count)", the two register fields being 16-bit. -/
def UniformDescriptor.bytes (d : UniformDescriptor) : List Nat :=
  toBytesLE 1 d.name.length ++ d.name ++ toBytesLE 1 d.type ++ toBytesLE 1 d.num
    ++ toBytesLE 2 d.regIndex ++ toBytesLE 2 d.regCount

/-- A shader binary in the spec's words: "a count of uniform descriptors, each
(...), followed by the native shader bytecode blob". -/
def shaderBinaryClaimed (ds : List UniformDescriptor) (code : List Nat) : List Nat :=
  toBytesLE 2 ds.length ++ ds.flatMap UniformDescriptor.bytes ++ code

/-- A shader binary as `Shader::create` consumes it: the 16-bit count, the
descriptors, a 16-bit size field and the native bytecode. -/
def shaderBinary (ds : List UniformDescriptor) (shaderSize : Nat) (code : List Nat) : List Nat :=
  toBytesLE 2 ds.length ++ ds.flatMap UniformDescriptor.bytes ++ toBytesLE 2 shaderSize ++ code

/-- The fields of a descriptor fit the widths they are stored in, and the
bytes of the name are bytes. -/
def UniformDescriptor.WellFormed (d : UniformDescriptor) : Prop :=
  d.name.length < 256 ∧ (∀ b ∈ d.name, b < 256) ∧ d.type < 256 ∧ d.num < 256
    ∧ d.regIndex < 65536 ∧ d.regCount < 65536

/-- Where `Shader::create` routes a descriptor. -/
inductive Destination
  | predefined (entry : PredefinedUniform)
  | reference (type loc : Nat) (storage : Option Ptr) (num : Nat)
  | dropped
  deriving DecidableEq, Repr

/-- The destination of a descriptor in the claim's words: a predefined name
goes to the predefined table, any other name found in the registry becomes a
by-reference write, any other descriptor is dropped. -/
def destinationOf (c : ConstantCodec) (nameToPredefinedUniformEnum : List Nat → PredefinedKind)
    (m_uniformReg : UniformRegistry) (_fragment : Bool) (d : UniformDescriptor) : Destination :=
  if nameToPredefinedUniformEnum (cstr d.name) ≠ PredefinedKind.Count then
    .predefined ⟨d.regIndex, nameToPredefinedUniformEnum (cstr d.name), _fragment⟩
  else
    match m_uniformReg.find (cstr d.name) with
    | some storage =>
      .reference (d.type ||| (if _fragment then c.BGFX_UNIFORM_FRAGMENTBIT else 0)) d.regIndex
        storage d.regCount
    | none => .dropped

/-- The predefined-table entry a destination stands for, if any. -/
def Destination.entry? : Destination → Option PredefinedUniform
  | .predefined e => some e
  | _ => none

/-- The bytes a destination appends to the constant buffer: one by-reference
write, or nothing. -/
def Destination.written (c : ConstantCodec) : Destination → List Nat
  | .reference type loc storage num =>
    toBytes32 (c.encodeOpcode type loc num 0) ++ ptrImage c storage
  | _ => []

/-- What a destination does to the constant buffer: one by-reference write,
or nothing. -/
def Destination.write (c : ConstantCodec) (cb : ConstantBuffer) : Destination → ConstantBuffer
  | .reference type loc storage num => cb.writeUniformRef c type loc (ptrImage c storage) num
  | _ => cb

/-- The size of a descriptor in a shader binary, as the claim counts it. -/
def UniformDescriptor.size (d : UniformDescriptor) : Nat := 1 + d.name.length + 1 + 1 + 2 + 2

/-- A sample table of predefined names: `u_view` is the view matrix, every
other name is not predefined. -/
def sampleNames (name : List Nat) : PredefinedKind :=
  if name = [117, 95, 118, 105, 101, 119] then .View else .Count

/-- A sample registry: `u_color` is registered with storage at address 4096. -/
def sampleRegistry : UniformRegistry := [([117, 95, 99, 111, 108, 111, 114], some 4096)]

/-- Sample descriptors: the predefined `u_view` (a 4x4 matrix at register 0),
the registered `u_color` (a vector at register 4) and the unknown `u_time`. -/
def sampleDescriptors : List UniformDescriptor :=
  [⟨[117, 95, 118, 105, 101, 119], 9, 1, 0, 4⟩,
   ⟨[117, 95, 99, 111, 108, 111, 114], 7, 1, 4, 1⟩,
   ⟨[117, 95, 116, 105, 109, 101], 1, 1, 5, 1⟩]

/-- A sample allocator: the blocks are 64 bytes apart from address 4096 on. -/
def sampleAllocator : Allocator := ⟨fun n => some (4096 + 64 * n), 0, []⟩

/-! ## Shutdown -/

/-- Embedding of `RendererContext::shutdown()` (Windows build): `preReset`,
release of the device and of the Direct3D interface, `FreeLibrary`, and the
context marked as not initialised. -/
def RendererContext.shutdown (k : Consts) (ctx : RendererContext) : RendererContext × List Call :=
  let r := ctx.preReset k
  let device := DX_RELEASE r.1.m_device
  let d3d9 := DX_RELEASE r.1.m_d3d9
  ({ r.1 with m_device := device.1, m_d3d9 := d3d9.1, m_initialized := false },
   r.2 ++ device.2 ++ d3d9.2 ++ [Call.FreeLibrary])

/-- Embedding of `Context::rendererShutdown()`: the context it leaves, the
value it leaves in the exit flag `s_exit` of the render thread, and its trace,
in which the assignment to the flag is recorded. -/
def rendererShutdown (k : Consts) (ctx : RendererContext) : RendererContext × Bool × List Call :=
  let r := ctx.shutdown k
  (r.1, true, r.2 ++ [Call.assignExit true])

/-- Whether a trace entry is an assignment to the exit flag. -/
def Call.isExitAssign : Call → Bool
  | .assignExit _ => true
  | _ => false

/-- A sample draw item like `sampleItem 0 1 0`, drawing the explicit index
range of `numIndices` indices from `startIndex`. -/
def sampleItemRange (startIndex numIndices : Nat) : SortKey × RenderState :=
  (⟨0, 1⟩,
   { sampleBaseline with
      m_vertexBuffer := 0, m_indexBuffer := 0, m_vertexDecl := 0,
      m_startIndex := startIndex, m_numIndices := numIndices })

/-- One write of a stream: a uniform write of the nine kinds, or a write with
any other `type` argument (same opcode form and data). -/
inductive StreamWrite
  | uniform (w : UniformWrite)
  | other (type loc num : Nat) (data : UniformData)
  deriving DecidableEq, Repr

/-- The `type` argument of a stream write. -/
def StreamWrite.type (c : ConstantCodec) : StreamWrite → Nat
  | .uniform w => w.type c
  | .other type _ _ _ => type

def StreamWrite.loc : StreamWrite → Nat
  | .uniform w => w.loc
  | .other _ loc _ _ => loc

def StreamWrite.num : StreamWrite → Nat
  | .uniform w => w.num
  | .other _ _ num _ => num

def StreamWrite.data : StreamWrite → UniformData
  | .uniform w => w.data
  | .other _ _ _ data => data

/-- The copy flag a stream write is encoded with. -/
def StreamWrite.copy (w : StreamWrite) : Nat :=
  match w.data with
  | .inline _ => 1
  | .ref _ => 0

/-- The data bytes that follow the opcode of a stream write. -/
def StreamWrite.payload (w : StreamWrite) : List Nat :=
  match w.data with
  | .inline bytes => bytes
  | .ref ptr => ptr

/-- The opcode word of a stream write. -/
def StreamWrite.opcode (c : ConstantCodec) (w : StreamWrite) : Nat :=
  c.encodeOpcode (w.type c) w.loc w.num w.copy

/-- The bytes one stream write produces. -/
def StreamWrite.bytes (c : ConstantCodec) (w : StreamWrite) : List Nat :=
  toBytes32 (w.opcode c) ++ w.payload

/-- Appends a sequence of stream writes, in order. -/
def ConstantBuffer.writeStream (c : ConstantCodec) (cb : ConstantBuffer) (ws : List StreamWrite) :
    ConstantBuffer :=
  ws.foldl (fun cb w => cb.writeRaw c (w.type c) w.loc w.num w.data) cb

/-- The stream obtained from an empty buffer by the stream writes `ws` and
`finish()`. -/
def sealedWrites (c : ConstantCodec) (ws : List StreamWrite) : ConstantBuffer :=
  (ConstantBuffer.empty.writeStream c ws).finish c

/-- The uniform writes among the writes of a stream, in order: the stream with
the other writes absent. -/
def uniformsOf : List StreamWrite → List UniformWrite
  | [] => []
  | .uniform w :: ws => w :: uniformsOf ws
  | .other _ _ _ _ :: ws => uniformsOf ws

/-- Whether a `type` value is one of the nine uniform kinds, in the vertex or
in the fragment form. -/
def knownType (c : ConstantCodec) (type : Nat) : Bool :=
  UniformKind.all.any fun k =>
    decide (type = c.value k) || decide (type = (c.value k ||| c.BGFX_UNIFORM_FRAGMENTBIT))

/-- What the codec and a sequence of stream writes must satisfy for the stream
to be well formed: as `WellFormedWrites`, for every write, and the type of a
write that is not a uniform write is none of the nine kinds in either form. -/
structure WellFormedStream (c : ConstantCodec) (ws : List StreamWrite) : Prop where
  labels : ((caseLabels c).map (fun l => l.1)).Nodup
  endFits : c.End < 4294967296
  fits : ∀ w ∈ ws, w.opcode c < 4294967296
  decode : ∀ w ∈ ws, c.decodeOpcode (w.opcode c) = ⟨w.type c, w.loc, w.num, w.copy⟩
  notEnd : ∀ w ∈ ws, w.opcode c ≠ c.End
  width : ∀ w ∈ ws, w.payload.length
    = if w.copy ≠ 0 then c.g_constantTypeSize (w.type c) * w.num else c.ptrSize
  unknown : ∀ type loc num data, StreamWrite.other type loc num data ∈ ws →
    knownType c type = false

/-- The native calls a sequence of stream writes is replayed as: one per
uniform write, none for another write, the first write starting at offset
`off` and each next write where the previous one ends. -/
def streamCalls (c : ConstantCodec) : Nat → List StreamWrite → List ShaderConstantCall
  | _, [] => []
  | off, .uniform w :: ws =>
    w.call c off :: streamCalls c (off + (StreamWrite.bytes c (.uniform w)).length) ws
  | off, .other type loc num data :: ws =>
    streamCalls c (off + (StreamWrite.bytes c (.other type loc num data)).length) ws

/-- A sample stream: the two sample writes with two writes of unknown type
(10, by reference; 12 with the fragment bit, inline and empty) between them. -/
def sampleStreamWrites : List StreamWrite :=
  [ .uniform { kind := .Uniform4fv, fragment := false, loc := 4, num := 1,
               data := .inline [0, 0, 128, 63, 0, 0, 0, 64, 0, 0, 64, 64, 0, 0, 128, 64] },
    .other 10 3 1 (.ref [1, 2, 3, 4]),
    .other 28 5 2 (.inline []),
    .uniform { kind := .Uniform1f, fragment := true, loc := 0, num := 1,
               data := .ref [16, 32, 48, 64] } ]

/-! ## Vertex declarations -/

/-- The number `Attrib::Count` of vertex attributes (`Attrib::Enum` is declared
in `bgfx.h`): the table `s_attrib[Attrib::Count+1]` lists one entry for each
of its fourteen attributes and `D3DDECL_END()`. -/
def Attrib.Count : Nat := 14

/-- The table `s_attrib` (lines 619-636). -/
def s_attrib : List D3DVERTEXELEMENT9 :=
  [⟨0, 0, .D3DDECLTYPE_FLOAT3, .D3DDECLMETHOD_DEFAULT, .D3DDECLUSAGE_POSITION, 0⟩,
   ⟨0, 0, .D3DDECLTYPE_FLOAT3, .D3DDECLMETHOD_DEFAULT, .D3DDECLUSAGE_NORMAL, 0⟩,
   ⟨0, 0, .D3DDECLTYPE_UBYTE4, .D3DDECLMETHOD_DEFAULT, .D3DDECLUSAGE_COLOR, 0⟩,
   ⟨0, 0, .D3DDECLTYPE_UBYTE4, .D3DDECLMETHOD_DEFAULT, .D3DDECLUSAGE_COLOR, 1⟩,
   ⟨0, 0, .D3DDECLTYPE_UBYTE4, .D3DDECLMETHOD_DEFAULT, .D3DDECLUSAGE_BLENDINDICES, 0⟩,
   ⟨0, 0, .D3DDECLTYPE_FLOAT3, .D3DDECLMETHOD_DEFAULT, .D3DDECLUSAGE_BLENDWEIGHT, 0⟩,
   ⟨0, 0, .D3DDECLTYPE_FLOAT2, .D3DDECLMETHOD_DEFAULT, .D3DDECLUSAGE_TEXCOORD, 0⟩,
   ⟨0, 0, .D3DDECLTYPE_FLOAT2, .D3DDECLMETHOD_DEFAULT, .D3DDECLUSAGE_TEXCOORD, 1⟩,
   ⟨0, 0, .D3DDECLTYPE_FLOAT2, .D3DDECLMETHOD_DEFAULT, .D3DDECLUSAGE_TEXCOORD, 2⟩,
   ⟨0, 0, .D3DDECLTYPE_FLOAT2, .D3DDECLMETHOD_DEFAULT, .D3DDECLUSAGE_TEXCOORD, 3⟩,
   ⟨0, 0, .D3DDECLTYPE_FLOAT2, .D3DDECLMETHOD_DEFAULT, .D3DDECLUSAGE_TEXCOORD, 4⟩,
   ⟨0, 0, .D3DDECLTYPE_FLOAT2, .D3DDECLMETHOD_DEFAULT, .D3DDECLUSAGE_TEXCOORD, 5⟩,
   ⟨0, 0, .D3DDECLTYPE_FLOAT2, .D3DDECLMETHOD_DEFAULT, .D3DDECLUSAGE_TEXCOORD, 6⟩,
   ⟨0, 0, .D3DDECLTYPE_FLOAT2, .D3DDECLMETHOD_DEFAULT, .D3DDECLUSAGE_TEXCOORD, 7⟩,
   D3DDECL_END]

/-- The enumeration `AttribType::Enum` (declared in `bgfx.h`): the three
enumerators the `switch` of `VertexDeclaration::create` names; `other` stands
for every other value. -/
inductive AttribType
  | Uint8
  | Uint16
  | Float
  | other
  deriving DecidableEq, Repr

/-- The three out-parameters of `VertexDecl::decode`. -/
structure DecodedAttrib where
  num : Nat
  type : AttribType
  normalized : Bool
  deriving DecidableEq, Repr

/-- The type of `VertexDecl::decode(attr, num, type, normalized)`; the
function is declared in `bgfx.h` and is a parameter of the embedding. -/
abbrev AttribDecoder := VertexDecl → Nat → DecodedAttrib

/-- The `switch (type)` of `VertexDeclaration::create` (lines 659-727):
the element type for a decoded attribute, `declType` being the type of the
table entry. -/
def declTypeOf (declType : D3DDECLTYPE) (a : DecodedAttrib) : D3DDECLTYPE :=
  match a.type with
  | .Uint8 =>
    if a.normalized then .D3DDECLTYPE_UBYTE4N else .D3DDECLTYPE_UBYTE4
  | .Uint16 =>
    if a.normalized then
      match a.num with
      | 4 => .D3DDECLTYPE_SHORT4N
      | _ => .D3DDECLTYPE_SHORT2N
    else
      match a.num with
      | 4 => .D3DDECLTYPE_SHORT4
      | _ => .D3DDECLTYPE_SHORT2
  | .Float =>
    match a.num with
    | 1 => .D3DDECLTYPE_FLOAT1
    | 2 => .D3DDECLTYPE_FLOAT2
    | 4 => .D3DDECLTYPE_FLOAT4
    | _ => .D3DDECLTYPE_FLOAT3
  | .other => declType

/-- The element the loop body writes for attribute `attr` (lines 652-731): the
table entry with the element type of the `switch` and the layout offset. -/
def vertexElement (decode : AttribDecoder) (_decl : VertexDecl) (attr : Nat)
    (entry : D3DVERTEXELEMENT9) : D3DVERTEXELEMENT9 :=
  { entry with
      Type_ := declTypeOf entry.Type_ (decode _decl attr)
      Offset := _decl.m_offset attr }

/-- The write `memcpy(elem, ...); ++elem` into the local array
`vertexElements[Attrib::Count+1]`, of which `elems` are the elements written so
far; a write behind the array has no defined result. -/
def pushElement (elems : List D3DVERTEXELEMENT9) (e : D3DVERTEXELEMENT9) :
    Option (List D3DVERTEXELEMENT9) :=
  if elems.length < Attrib.Count + 1 then some (elems ++ [e]) else none

/-- The loop `for (attr = 0; attr < Attrib::Count; ++attr)` of
`VertexDeclaration::create`, over the attributes still to visit. -/
def VertexDeclaration.createLoop (decode : AttribDecoder) (_decl : VertexDecl) :
    List Nat → List D3DVERTEXELEMENT9 → Option (List D3DVERTEXELEMENT9)
  | [], elems => some elems
  | attr :: rest, elems =>
    if 0xff ≠ _decl.m_attributes attr then
      match s_attrib[attr]? with
      | none => none
      | some entry =>
        match pushElement elems (vertexElement decode _decl attr entry) with
        | none => none
        | some elems1 => VertexDeclaration.createLoop decode _decl rest elems1
    else VertexDeclaration.createLoop decode _decl rest elems

/-- Embedding of `VertexDeclaration::create(const VertexDecl& _decl)`. -/
def VertexDeclaration.create (decode : AttribDecoder) (d : Device) (_decl : VertexDecl) :
    Option (Device × VertexDeclaration × List Call) :=
  match VertexDeclaration.createLoop decode _decl (List.range Attrib.Count) [] with
  | none => none
  | some elems =>
    match s_attrib[Attrib.Count]? with
    | none => none
    | some terminator =>
      match pushElement elems terminator with
      | none => none
      | some vertexElements =>
        let (p, d1) := d.newObject
        some (d1, { m_ptr := p, m_decl := _decl },
          [.creation (.CreateVertexDeclaration vertexElements)])

/-- The attributes present in a layout (attribute byte not `0xff`), in
ascending order. -/
def presentAttribs (_decl : VertexDecl) : List Nat :=
  (List.range Attrib.Count).filter fun attr => decide (_decl.m_attributes attr ≠ 0xff)

/-! ## Device render states -/

/-- Modelled from the spec: the render states of the native device (the device
is outside `renderer_d3d9.cpp`); a state holds the value of the last
`SetRenderState` call for it, `none` standing for a state never set. -/
abbrev RenderStates := D3DRENDERSTATETYPE → Option RSValue

/-- The render states of the device after one call of the trace. -/
def Call.applyTo (rs : RenderStates) : Call → RenderStates
  | .SetRenderState state value => fun s => if s = state then some value else rs s
  | _ => rs

/-- The render states of the device after the calls of a trace, in order. -/
def renderStatesAfter (rs : RenderStates) (calls : List Call) : RenderStates :=
  calls.foldl Call.applyTo rs

/-- Spec side: the render states "derived from that item's flags alone" for
one category of the packed flag word, with their values: cull mode; depth
write; depth test enable, and function when the test is enabled; alpha
reference and alpha test enable; colour write mask; blend enable, and source
and destination factor when blending is enabled. -/
def FlagGroup.derived (k : Consts) (flags : Nat) :
    FlagGroup → List (D3DRENDERSTATETYPE × RSValue)
  | .cull =>
    [(.D3DRS_CULLMODE, .cull s_cullMode[((flags &&& k.BGFX_STATE_CULL_MASK)
        >>> k.BGFX_STATE_CULL_SHIFT) % 4294967296]?)]
  | .depthWrite =>
    [(.D3DRS_ZWRITEENABLE, .bool (decide ((k.BGFX_STATE_DEPTH_WRITE &&& flags) ≠ 0)))]
  | .depthTest =>
    (.D3DRS_ZENABLE, .bool (decide (0 ≠ ((flags &&& k.BGFX_STATE_DEPTH_TEST_MASK)
        >>> k.BGFX_STATE_DEPTH_TEST_SHIFT) % 4294967296)))
      :: (if 0 ≠ ((flags &&& k.BGFX_STATE_DEPTH_TEST_MASK)
              >>> k.BGFX_STATE_DEPTH_TEST_SHIFT) % 4294967296 then
            [(.D3DRS_ZFUNC, .cmp s_depthFunc[((flags &&& k.BGFX_STATE_DEPTH_TEST_MASK)
                >>> k.BGFX_STATE_DEPTH_TEST_SHIFT) % 4294967296]?)]
          else [])
  | .alpha =>
    [(.D3DRS_ALPHAREF, .dword (((flags &&& k.BGFX_STATE_ALPHA_REF_MASK)
        >>> k.BGFX_STATE_ALPHA_REF_SHIFT) % 4294967296)),
     (.D3DRS_ALPHATESTENABLE, .bool (decide ((k.BGFX_STATE_ALPHA_TEST &&& flags) ≠ 0)))]
  | .writeMask =>
    [(.D3DRS_COLORWRITEENABLE, .dword (
        (if (flags &&& k.BGFX_STATE_ALPHA_WRITE) ≠ 0 then D3DCOLORWRITEENABLE_ALPHA else 0)
          ||| (if (flags &&& k.BGFX_STATE_RGB_WRITE) ≠ 0 then
                D3DCOLORWRITEENABLE_RED ||| D3DCOLORWRITEENABLE_GREEN
                  ||| D3DCOLORWRITEENABLE_BLUE
               else 0)))]
  | .blend =>
    (.D3DRS_ALPHABLENDENABLE, .bool (decide ((k.BGFX_STATE_BLEND_MASK &&& flags) ≠ 0)))
      :: (if (k.BGFX_STATE_BLEND_MASK &&& flags) ≠ 0 then
            [(.D3DRS_SRCBLEND, .blend s_blendFactor[(((flags &&& k.BGFX_STATE_BLEND_MASK)
                >>> k.BGFX_STATE_BLEND_SHIFT) % 4294967296) &&& 0xf]?),
             (.D3DRS_DESTBLEND, .blend s_blendFactor[((((flags &&& k.BGFX_STATE_BLEND_MASK)
                >>> k.BGFX_STATE_BLEND_SHIFT) % 4294967296) >>> 4) &&& 0xf]?)]
          else [])

/-- Spec side: the render states derived from a flag word, all categories. -/
def derivedStates (k : Consts) (flags : Nat) : List (D3DRENDERSTATETYPE × RSValue) :=
  FlagGroup.derived k flags .cull ++ FlagGroup.derived k flags .depthWrite
    ++ FlagGroup.derived k flags .depthTest ++ FlagGroup.derived k flags .alpha
    ++ FlagGroup.derived k flags .writeMask ++ FlagGroup.derived k flags .blend

/-- Spec side: the state calls of "a naive loop that sets every category for
every item", for one item. -/
def naiveStateCalls (k : Consts) (flags : Nat) : List Call :=
  (derivedStates k flags).map fun p => Call.SetRenderState p.1 p.2

/-- Spec side: the state calls of the naive loop for a sequence of items. -/
def naiveLoopCalls (k : Consts) (items : List (SortKey × RenderState)) : List Call :=
  items.flatMap fun it => naiveStateCalls k it.2.m_flags

/-- The calls of a pass that come before its draw block (lines 1435-1801). -/
def callsBeforeDraw (k : Consts) (ctx : RendererContext) (f : Frame)
    (pre : List (SortKey × RenderState)) (item : SortKey × RenderState) : List Call :=
  (itemCalls k ctx f pre item).take
    ((itemCalls k ctx f pre item).length
      - (drawCalls k ctx (passLocals k f (stateAfter k ctx f pre) item) item.2.m_vertexBuffer
          item.2).length)

/-! ## Texture creation -/

/-- The header of a compressed-texture container (`Dds`, declared in `dds.h`),
as far as `Texture::create` reads it. -/
structure Dds where
  m_width : Nat
  m_height : Nat
  m_bpp : Nat
  m_type : Nat
  m_numMips : Nat
  deriving DecidableEq, Repr

/-- One image level of a container (`Mip`, declared in `dds.h`), as far as
`Texture::create` reads it. -/
structure Mip where
  m_width : Nat
  m_height : Nat
  m_size : Nat
  deriving DecidableEq, Repr

/-- Declarations used by `Texture::create` that are not part of
`renderer_d3d9.cpp`: the container routines `parseDds` and `getRawImageData`
of `dds.h` (the result is `none` when the routine returns `false`), the value
of `BGFX_MAGIC`, and the masks and shifts of the texture flags of `bgfx.h`. -/
structure TextureCodec where
  parseDds : List Nat → Option Dds
  getRawImageData : Dds → Nat → List Nat → Option Mip
  BGFX_MAGIC : Nat
  BGFX_TEXTURE_U_MASK : Nat
  BGFX_TEXTURE_U_SHIFT : Nat
  BGFX_TEXTURE_V_MASK : Nat
  BGFX_TEXTURE_V_SHIFT : Nat
  BGFX_TEXTURE_MIN_MASK : Nat
  BGFX_TEXTURE_MIN_SHIFT : Nat
  BGFX_TEXTURE_MAG_MASK : Nat
  BGFX_TEXTURE_MAG_SHIFT : Nat
  BGFX_TEXTURE_MIP_MASK : Nat
  BGFX_TEXTURE_MIP_SHIFT : Nat

/-- Modelled from the spec: `StreamRead::align(uint16_t _align)` (declared in
`bgfx_p.h`), for the "16-byte-aligned pixel payload": the position moves up
to the next multiple of `_align`. -/
def StreamRead.align (s : StreamRead) (_align : Nat) : StreamRead :=
  { s with m_pos := (s.m_pos + _align - 1) / _align * _align }

/-- The local table `typefmt` of `Texture::create` (lines 842-848). -/
def typefmt : List D3DFORMAT :=
  [.D3DFMT_X8R8G8B8, .D3DFMT_DXT1, .D3DFMT_DXT3, .D3DFMT_DXT5]

/-- The loop over the levels of an uncompressed or decompressed container
(lines 885-924), from level `lod` with `count` levels to go; `width` and
`height` are the locals of the loop. The temporary block of a level whose size
differs from the expected one is not recorded apart from the flag of
`mipDecode`. -/
def Texture.decodeLoop (tc : TextureCodec) (dds : Dds) (_mem : List Nat) :
    Nat → Nat → Nat → Nat → List Call
  | 0, _, _, _ => []
  | count + 1, lod, width, height =>
    let width := max 1 width
    let height := max 1 height
    (match tc.getRawImageData dds lod _mem with
      | some mip =>
        [.creation (.LockRect lod),
         .creation (.mipDecode lod (decide (width ≠ mip.m_width ∨ height ≠ mip.m_height))),
         .creation (.UnlockRect lod)]
      | none => [])
    ++ Texture.decodeLoop tc dds _mem count (lod + 1) (width >>> 1) (height >>> 1)

/-- The loop over the levels of a compressed container (lines 928-939). -/
def Texture.copyLoop (tc : TextureCodec) (dds : Dds) (_mem : List Nat) : List Call :=
  (List.range dds.m_numMips).flatMap fun ii =>
    match tc.getRawImageData dds ii _mem with
    | some mip =>
      [.creation (.LockRect ii), .creation (.mipCopy ii mip.m_size), .creation (.UnlockRect ii)]
    | none => []

/-- The loop over the levels of the custom container (lines 970-983), from
level `mip` with `count` levels to go; `none` is a read outside the input. -/
def Texture.streamLoop (bpp : Nat) :
    Nat → Nat → Nat → Nat → StreamRead → Option (List Call)
  | 0, _, _, _, _ => some []
  | count + 1, mip, width, height, stream =>
    let width := max width 1
    let height := max height 1
    match stream.read ((width * height * bpp) % 4294967296) with
    | none => none
    | some (_, stream1) =>
      match Texture.streamLoop bpp count (mip + 1) (width >>> 1) (height >>> 1) stream1 with
      | none => none
      | some calls =>
        some ([.creation (.LockRect mip),
          .creation (.streamPixels mip ((width * height * bpp) % 4294967296)),
          .creation (.UnlockRect mip)] ++ calls)

/-- Embedding of `Texture::create(const Memory* _mem, uint32_t _flags)`: the
device and the texture record it leaves and the native calls and pixel
transfers it makes. `none` is a read outside the input. -/
def Texture.create (tc : TextureCodec) (d : Device) (t : Texture) (_mem : List Nat)
    (_flags : Nat) : Option (Device × Texture × List Call) :=
  let t1 : Texture :=
    { t with
        m_tau := s_textureAddress[(_flags &&& tc.BGFX_TEXTURE_U_MASK) >>> tc.BGFX_TEXTURE_U_SHIFT]?
        m_tav := s_textureAddress[(_flags &&& tc.BGFX_TEXTURE_V_MASK) >>> tc.BGFX_TEXTURE_V_SHIFT]?
        m_minFilter :=
          s_textureFilter[(_flags &&& tc.BGFX_TEXTURE_MIN_MASK) >>> tc.BGFX_TEXTURE_MIN_SHIFT]?
        m_magFilter :=
          s_textureFilter[(_flags &&& tc.BGFX_TEXTURE_MAG_MASK) >>> tc.BGFX_TEXTURE_MAG_SHIFT]?
        m_mipFilter :=
          s_textureFilter[(_flags &&& tc.BGFX_TEXTURE_MIP_MASK) >>> tc.BGFX_TEXTURE_MIP_SHIFT]? }
  match tc.parseDds _mem with
  | some dds =>
    let decompress := false
    let fmt : Option D3DFORMAT :=
      if 0 = dds.m_type then
        match dds.m_bpp with
        | 1 => some .D3DFMT_L8
        | 4 => some .D3DFMT_A8R8G8B8
        | _ => some .D3DFMT_X8R8G8B8
      else if decompress then some .D3DFMT_A8R8G8B8
      else typefmt[dds.m_type]?
    let r := d.newObject
    some (r.2, { t1 with m_ptr := r.1 },
      .creation (.CreateTexture dds.m_width dds.m_height dds.m_numMips 0 fmt .D3DPOOL_MANAGED)
        :: (if decompress || decide (0 = dds.m_type) then
              Texture.decodeLoop tc dds _mem dds.m_numMips 0 dds.m_width dds.m_height
            else Texture.copyLoop tc dds _mem))
  | none =>
    let stream : StreamRead := ⟨_mem, 0⟩
    match stream.readValue 4 with
    | none => none
    | some (magic, s1) =>
      if tc.BGFX_MAGIC = magic then
        match s1.readValue 2 with
        | none => none
        | some (width, s2) =>
          match s2.readValue 2 with
          | none => none
          | some (height, s3) =>
            match s3.readValue 1 with
            | none => none
            | some (bpp, s4) =>
              match s4.readValue 1 with
              | none => none
              | some (numMips, s5) =>
                let s6 := s5.align 16
                let r := d.newObject
                match Texture.streamLoop bpp numMips 0 width height s6 with
                | none => none
                | some calls =>
                  some (r.2, { t1 with m_ptr := r.1 },
                    .creation (.CreateTexture width height numMips 0
                        (if 1 = bpp then some .D3DFMT_L8 else some .D3DFMT_A8R8G8B8)
                        .D3DPOOL_MANAGED)
                      :: calls)
      else some (d, t1, [])

/-- Whether a trace entry creates a texture or moves pixel data. -/
def Call.isTextureUpload : Call → Bool
  | .creation (.CreateTexture _ _ _ _ _ _) => true
  | .creation (.LockRect _) => true
  | .creation (.UnlockRect _) => true
  | .creation (.mipDecode _ _) => true
  | .creation (.mipCopy _ _) => true
  | .creation (.streamPixels _ _) => true
  | _ => false

/-- A sample texture codec: no input is a compressed-texture container, the
magic is `0x42474658`, and each of the five texture flag fields is four bits
wide. -/
def sampleTextureCodec : TextureCodec where
  parseDds := fun _ => none
  getRawImageData := fun _ _ _ => none
  BGFX_MAGIC := 0x42474658
  BGFX_TEXTURE_U_MASK := 0xf
  BGFX_TEXTURE_U_SHIFT := 0
  BGFX_TEXTURE_V_MASK := 0xf0
  BGFX_TEXTURE_V_SHIFT := 4
  BGFX_TEXTURE_MIN_MASK := 0xf00
  BGFX_TEXTURE_MIN_SHIFT := 8
  BGFX_TEXTURE_MAG_MASK := 0xf000
  BGFX_TEXTURE_MAG_SHIFT := 12
  BGFX_TEXTURE_MIP_MASK := 0xf0000
  BGFX_TEXTURE_MIP_SHIFT := 16

/-- A sample texture record with native object 7. -/
def sampleTexture : Texture :=
  ⟨some 7, none, none, none, none, none⟩

/-! ## Initialisation -/

/-- The fatal errors `RendererContext::init` raises (`bgfx::Fatal::Enum`,
declared in `bgfx.h`). -/
inductive Fatal
  | D3D9_UnableToCreateInterface
  | D3D9_UnableToCreateDevice
  deriving DecidableEq, Repr

/-- The Win32 structure `RECT`. -/
structure RECT where
  left : Int
  top : Int
  right : Int
  bottom : Int
  deriving DecidableEq, Repr

/-- What the platform answers to the calls of `RendererContext::init`: the
window handle `g_bgfxHwnd` and its rectangle, the module `LoadLibrary` returns,
the Direct3D interface the creation function yields (`none` if
`GetProcAddress` does not find the function), the device a creation request
with the given behaviour flags and parameters writes to `m_device` (null if
the request yields no device), and the result of `CheckDeviceFormat` for a
depth format. -/
structure Host where
  g_bgfxHwnd : Option Ptr
  rect : RECT
  loadLibrary : Option Ptr
  direct3DCreate9 : Option (Option Ptr)
  createDevice : Nat → D3DPRESENT_PARAMETERS → Option Ptr
  checkDeviceFormat : D3DFORMAT → HRESULT

/-- The local table `behaviorFlags` of `init` (lines 154-159). -/
def behaviorFlags : List Nat :=
  [D3DCREATE_HARDWARE_VERTEXPROCESSING ||| D3DCREATE_PUREDEVICE,
   D3DCREATE_MIXED_VERTEXPROCESSING,
   D3DCREATE_SOFTWARE_VERTEXPROCESSING]

/-- The presentation parameters `init` fills in (lines 113-133, Windows
branch); the back-buffer size is that of the window rectangle, as a `UINT`. -/
def RendererContext.initParams (k : Consts) (host : Host) (ctx : RendererContext) :
    D3DPRESENT_PARAMETERS where
  BackBufferWidth := ((host.rect.right - host.rect.left) % 4294967296).toNat
  BackBufferHeight := ((host.rect.bottom - host.rect.top) % 4294967296).toNat
  BackBufferFormat := .D3DFMT_X8R8G8B8
  BackBufferCount := 1
  MultiSampleType := s_msaa[(ctx.m_flags &&& k.BGFX_RESET_MSAA_MASK) >>> k.BGFX_RESET_MSAA_SHIFT]?
  MultiSampleQuality := 0
  EnableAutoDepthStencil := true
  AutoDepthStencilFormat := .D3DFMT_D24S8
  FullScreen_RefreshRateInHz := 0
  PresentationInterval := .D3DPRESENT_INTERVAL_IMMEDIATE
  Windowed := true
  Flags := D3DPRESENTFLAG_DISCARD_DEPTHSTENCIL
  SwapEffect := D3DSWAPEFFECT_DISCARD
  hDeviceWindow := host.g_bgfxHwnd

/-- The creation request of the loop body (lines 163-180): `CreateDeviceEx`
or `CreateDevice` by the preprocessor switch, for the default adapter and the
window `g_bgfxHwnd`. -/
def RendererContext.createRequest (k : Consts) (params : D3DPRESENT_PARAMETERS) (flags : Nat) :
    Call :=
  if k.BGFX_CONFIG_RENDERER_DIRECT3D_EX then .creation (.CreateDeviceEx flags params)
  else .creation (.CreateDevice flags params)

/-- The loop `for (ii = 0; ii < countof(behaviorFlags) && NULL == m_device;
++ii)` of `init` (lines 161-181), over the behaviour flags still to try: the
value it leaves in `m_device` and the creation requests it makes. -/
def RendererContext.createDeviceLoop (k : Consts) (host : Host)
    (params : D3DPRESENT_PARAMETERS) : List Nat → Option Ptr → Option Ptr × List Call
  | [], m_device => (m_device, [])
  | flags :: rest, m_device =>
    if m_device = none then
      let r := RendererContext.createDeviceLoop k host params rest (host.createDevice flags params)
      (r.1, RendererContext.createRequest k params flags :: r.2)
    else (m_device, [])

/-- Embedding of `RendererContext::init()`, Windows branch. Modelled from the
spec: the macro `BGFX_FATAL` (declared in `bgfx_p.h`) raises a fatal
initialisation error, which "terminates the process": `init` ends with the
error. The result is `none` when the creation function is called through a
null pointer. -/
def RendererContext.init (k : Consts) (host : Host) (d : Device) (ctx : RendererContext) :
    Option (Except Fatal (Device × RendererContext) × List Call) :=
  let m_params := ctx.initParams k host
  let calls1 : List Call :=
    [.creation .GetWindowRect, .creation .LoadLibrary,
     .creation (.GetProcAddress .D3DPERF_SetMarker),
     .creation (.GetProcAddress .D3DPERF_BeginEvent),
     .creation (.GetProcAddress .D3DPERF_EndEvent),
     .creation (.GetProcAddress
       (if k.BGFX_CONFIG_RENDERER_DIRECT3D_EX then .Direct3DCreate9Ex else .Direct3DCreate9))]
  match host.direct3DCreate9 with
  | none => none
  | some m_d3d9 =>
    let calls2 : List Call :=
      [if k.BGFX_CONFIG_RENDERER_DIRECT3D_EX then .creation .Direct3DCreate9Ex
       else .creation .Direct3DCreate9]
    if m_d3d9 = none then some (.error .D3D9_UnableToCreateInterface, calls1 ++ calls2)
    else
      let r := RendererContext.createDeviceLoop k host m_params behaviorFlags ctx.m_device
      if r.1 = none then some (.error .D3D9_UnableToCreateDevice, calls1 ++ calls2 ++ r.2)
      else
        let calls3 : List Call :=
          [.creation .GetDeviceCaps,
           .creation (.CheckDeviceFormat .D3DFMT_X8R8G8B8 D3DUSAGE_DEPTHSTENCIL .D3DFMT_NULL),
           .creation (.CheckDeviceFormat .D3DFMT_X8R8G8B8 D3DUSAGE_DEPTHSTENCIL .D3DFMT_DF16),
           .creation (.CheckDeviceFormat .D3DFMT_X8R8G8B8 D3DUSAGE_DEPTHSTENCIL .D3DFMT_DF24),
           .creation (.CheckDeviceFormat .D3DFMT_X8R8G8B8 D3DUSAGE_DEPTHSTENCIL .D3DFMT_INTZ),
           .creation (.CheckDeviceFormat .D3DFMT_X8R8G8B8 D3DUSAGE_DEPTHSTENCIL .D3DFMT_RAWZ)]
        let ctx1 : RendererContext :=
          { ctx with
              m_params := m_params
              m_d3d9dll := host.loadLibrary
              m_d3d9 := m_d3d9
              m_device := r.1
              m_fmtNULL := SUCCEEDED (host.checkDeviceFormat .D3DFMT_NULL)
              m_fmtDF16 := SUCCEEDED (host.checkDeviceFormat .D3DFMT_DF16)
              m_fmtDF24 := SUCCEEDED (host.checkDeviceFormat .D3DFMT_DF24)
              m_fmtINTZ := SUCCEEDED (host.checkDeviceFormat .D3DFMT_INTZ)
              m_fmtRAWZ := SUCCEEDED (host.checkDeviceFormat .D3DFMT_RAWZ)
              m_fmtDepth := .D3DFMT_D24S8 }
        let post := ctx1.postReset k d
        some (.ok (post.1, { post.2.1 with m_initialized := true }),
          calls1 ++ calls2 ++ r.2 ++ calls3 ++ post.2.2)

/-- Whether a trace entry is a device-creation request. -/
def Call.isCreateDevice : Call → Bool
  | .creation (.CreateDevice _ _) => true
  | .creation (.CreateDeviceEx _ _) => true
  | _ => false

/-- Spec side: the requests of "a fallback sequence of capability requests
..., trying each until one succeeds": each request in order, none after the
first that yields a device. -/
def requestsUntilDevice (yields : Nat → Bool) : List Nat → List Nat
  | [] => []
  | flags :: rest => flags :: (if yields flags then [] else requestsUntilDevice yields rest)

/-- A sample platform: a 1280x720 window, an interface, and a device for
mixed and for software vertex processing only. -/
def sampleHost : Host where
  g_bgfxHwnd := some 5
  rect := ⟨100, 100, 1380, 820⟩
  loadLibrary := some 6
  direct3DCreate9 := some (some 1)
  createDevice := fun flags _ =>
    if flags = D3DCREATE_HARDWARE_VERTEXPROCESSING ||| D3DCREATE_PUREDEVICE then none else some 2
  checkDeviceFormat := fun fmt => if fmt = .D3DFMT_INTZ then D3D_OK else D3DERR_INVALIDCALL

/-! ## Theorems: constant-buffer codec -/

theorem fromBytes32_toBytes32 (v : Nat) (h : v < 4294967296) : fromBytes32 (toBytes32 v) = v := by
  simp only [toBytes32, fromBytes32]
  omega

theorem toBytes32_length (v : Nat) : (toBytes32 v).length = 4 := rfl

theorem slice_mid (a b c : List Nat) (n m : Nat) (hn : n = a.length) (hm : m = b.length) :
    ((a ++ b ++ c).drop n).take m = b := by
  subst hn hm
  simp [List.append_assoc]

theorem find_of_nodup_keys {β : Type} (l : List (Nat × β)) (a : Nat) (b : β)
    (hnd : (l.map (fun x => x.1)).Nodup) (hmem : (a, b) ∈ l) :
    l.find? (fun x => decide (x.1 = a)) = some (a, b) := by
  induction l with
  | nil => simp at hmem
  | cons x xs ih =>
    simp only [List.map_cons, List.nodup_cons] at hnd
    rcases List.mem_cons.mp hmem with h | h
    · subst h
      simp
    · have hne : x.1 ≠ a := by
        intro hx
        apply hnd.1
        rw [hx]
        exact List.mem_map.mpr ⟨(a, b), h, rfl⟩
      simp [List.find?_cons, hne, ih hnd.2 h]

theorem label_mem (c : ConstantCodec) (k : UniformKind) (f : Bool) :
    (c.value k ||| (if f then c.BGFX_UNIFORM_FRAGMENTBIT else 0),
      (if f then ShaderStage.pixel else ShaderStage.vertex), k.dxsuffix) ∈ caseLabels c := by
  cases k <;> cases f <;> simp [caseLabels, UniformKind.all]

theorem commitSwitch_write (c : ConstantCodec)
    (hnd : ((caseLabels c).map (fun l => l.1)).Nodup) (w : UniformWrite)
    (data : DataPtr) :
    commitSwitch c (w.type c) w.loc data w.num =
      [⟨if w.fragment then .pixel else .vertex, w.kind.dxsuffix, w.loc, data, w.num⟩] := by
  unfold commitSwitch
  rw [find_of_nodup_keys (caseLabels c) (w.type c) _ hnd (label_mem c w.kind w.fragment)]

theorem commitLoop_buffer (c : ConstantCodec) (fuel : Nat) :
    ∀ (cb cb1 : ConstantBuffer) (calls : List ShaderConstantCall),
      ConstantBuffer.commitLoop c fuel cb = some (cb1, calls) → cb1.m_buffer = cb.m_buffer := by
  induction fuel with
  | zero => intro cb cb1 calls h; simp [ConstantBuffer.commitLoop] at h
  | succ n ih =>
    intro cb cb1 calls h
    unfold ConstantBuffer.commitLoop at h
    simp only [ConstantBuffer.readOpcode, ConstantBuffer.read] at h
    split at h
    · simp at h
    · rename_i opcode cb2 hrd
      split at hrd
      · simp at hrd
      · rename_i p cb3 hrd2
        split at hrd2
        · simp only [Option.some.injEq, Prod.mk.injEq] at hrd2 hrd
          obtain ⟨-, rfl⟩ := hrd2
          obtain ⟨-, rfl⟩ := hrd
          split at h
          · simp only [Option.some.injEq, Prod.mk.injEq] at h
            rw [← h.1]
          · simp only at h
            split at h
            · simp at h
            · rename_i data cb4 hrd3
              split at h
              · simp at h
              · rename_i cb5 calls5 hrec
                simp only [Option.some.injEq, Prod.mk.injEq] at h
                rw [← h.1, ih _ _ _ hrec]
                split at hrd3
                · split at hrd3
                  · simp at hrd3
                  · rename_i p6 cb6 h6
                    split at h6
                    · simp only [Option.some.injEq, Prod.mk.injEq] at h6 hrd3
                      rw [← hrd3.2, ← h6.2]
                    · simp at h6
                · split at hrd3
                  · simp at hrd3
                  · rename_i p6 cb6 h6
                    split at h6
                    · simp only [Option.some.injEq, Prod.mk.injEq] at h6 hrd3
                      rw [← hrd3.2, ← h6.2]
                    · simp at h6
        · simp at hrd2

theorem writeAll_buffer (c : ConstantCodec) (ws : List UniformWrite) :
    ∀ cb : ConstantBuffer,
      (cb.writeAll c ws).m_buffer = cb.m_buffer ++ ws.flatMap (UniformWrite.bytes c) := by
  induction ws with
  | nil => intro cb; simp [ConstantBuffer.writeAll]
  | cons w ws ih =>
    intro cb
    have h := ih (cb.writeUniform c w)
    simp only [ConstantBuffer.writeAll, List.foldl_cons] at h ⊢
    rw [h]
    simp only [ConstantBuffer.writeUniform, ConstantBuffer.writeRaw, UniformWrite.bytes,
      UniformWrite.copy, List.flatMap_cons]
    cases w.data <;> simp [ConstantBuffer.write, List.append_assoc]

theorem sealedStream_buffer (c : ConstantCodec) (ws : List UniformWrite) :
    (sealedStream c ws).m_buffer = ws.flatMap (UniformWrite.bytes c) ++ toBytes32 c.End := by
  simp [sealedStream, ConstantBuffer.finish, ConstantBuffer.write, writeAll_buffer,
    ConstantBuffer.empty]

theorem readOpcode_at (B pre rest : List Nat) (v : Nat) (hv : v < 4294967296)
    (hB : B = pre ++ (toBytes32 v ++ rest)) :
    ConstantBuffer.readOpcode ⟨B, pre.length⟩ = some (v, ⟨B, pre.length + 4⟩) := by
  have hlen : pre.length + 4 ≤ B.length := by
    rw [hB]; simp [toBytes32_length]
  have hsl : (List.drop pre.length B).take 4 = toBytes32 v := by
    rw [hB]
    have := slice_mid pre (toBytes32 v) rest pre.length 4 rfl rfl
    simpa [List.append_assoc] using this
  simp only [ConstantBuffer.readOpcode, ConstantBuffer.read, hlen, if_true, ConstantBuffer.slice,
    hsl, fromBytes32_toBytes32 v hv]

theorem commitLoop_replay (c : ConstantCodec)
    (hnd : ((caseLabels c).map (fun l => l.1)).Nodup) (hend : c.End < 4294967296) :
    ∀ (ws : List UniformWrite) (pre B : List Nat) (fuel : Nat),
      (∀ w ∈ ws, c.encodeOpcode (w.type c) w.loc w.num w.copy < 4294967296) →
      (∀ w ∈ ws, c.decodeOpcode (c.encodeOpcode (w.type c) w.loc w.num w.copy)
        = ⟨w.type c, w.loc, w.num, w.copy⟩) →
      (∀ w ∈ ws, c.encodeOpcode (w.type c) w.loc w.num w.copy ≠ c.End) →
      (∀ w ∈ ws, match w.data with
        | .inline bytes => bytes.length = c.g_constantTypeSize (w.type c) * w.num
        | .ref ptr => ptr.length = c.ptrSize) →
      ws.length < fuel →
      B = pre ++ (ws.flatMap (UniformWrite.bytes c) ++ toBytes32 c.End) →
      ConstantBuffer.commitLoop c fuel ⟨B, pre.length⟩
        = some (⟨B, B.length⟩, expectedCalls c pre.length ws) := by
  intro ws
  induction ws with
  | nil =>
    intro pre B fuel _ _ _ _ hfuel hB
    obtain ⟨f, rfl⟩ : ∃ f, fuel = f + 1 := ⟨fuel - 1, by simp at hfuel; omega⟩
    have hB2 : B = pre ++ (toBytes32 c.End ++ []) := by simpa using hB
    have hlen : B.length = pre.length + 4 := by rw [hB2]; simp [toBytes32_length]
    unfold ConstantBuffer.commitLoop
    rw [readOpcode_at B pre [] c.End hend hB2]
    simp [expectedCalls, hlen]
  | cons w ws ih =>
    intro pre B fuel hfits hdec hne hwid hfuel hB
    obtain ⟨f, rfl⟩ : ∃ f, fuel = f + 1 := ⟨fuel - 1, by simp at hfuel; omega⟩
    have hfuel2 : ws.length < f := by simp at hfuel; omega
    have hfw := hfits w (List.mem_cons_self _ _)
    have hdw := hdec w (List.mem_cons_self _ _)
    have hnw := hne w (List.mem_cons_self _ _)
    have hww := hwid w (List.mem_cons_self _ _)
    -- the payload of the write and the pointer commit resolves for it
    obtain ⟨payload, hpay, hread⟩ : ∃ payload : List Nat,
        w.bytes c = toBytes32 (c.encodeOpcode (w.type c) w.loc w.num w.copy) ++ payload ∧
        (if w.copy ≠ 0 then
            match ConstantBuffer.read ⟨B, pre.length + 4⟩ (c.g_constantTypeSize (w.type c) * w.num) with
            | none => none
            | some (p, cb2) =>
              some (DataPtr.inBuffer p (c.g_constantTypeSize (w.type c) * w.num), cb2)
          else
            match ConstantBuffer.read ⟨B, pre.length + 4⟩ c.ptrSize with
            | none => none
            | some (p, cb2) =>
              some (DataPtr.external (ConstantBuffer.slice ⟨B, pre.length + 4⟩ p c.ptrSize), cb2))
          = some ((w.call c pre.length).data, ⟨B, pre.length + 4 + payload.length⟩) := by
      cases hd : w.data with
      | inline bytes =>
        refine ⟨bytes, by simp [UniformWrite.bytes, hd], ?_⟩
        rw [hd] at hww
        simp only at hww
        have hlen : pre.length + 4 + bytes.length ≤ B.length := by
          rw [hB]; simp [UniformWrite.bytes, hd, toBytes32_length]; omega
        simp [UniformWrite.copy, hd, ConstantBuffer.read, ← hww, hlen, UniformWrite.call]
      | ref ptr =>
        refine ⟨ptr, by simp [UniformWrite.bytes, hd], ?_⟩
        rw [hd] at hww
        simp only at hww
        have hlen : pre.length + 4 + ptr.length ≤ B.length := by
          rw [hB]; simp [UniformWrite.bytes, hd, toBytes32_length]; omega
        have hsl : (List.drop (pre.length + 4) B).take ptr.length = ptr := by
          rw [hB]
          have := slice_mid (pre ++ toBytes32 (c.encodeOpcode (w.type c) w.loc w.num w.copy)) ptr
            (ws.flatMap (UniformWrite.bytes c) ++ toBytes32 c.End) (pre.length + 4) ptr.length
            (by simp [toBytes32_length]) rfl
          simpa [UniformWrite.bytes, hd, List.append_assoc] using this
        simp [UniformWrite.copy, hd, ConstantBuffer.read, ← hww, hlen, UniformWrite.call,
          ConstantBuffer.slice, hsl]
    have hB1 : B = pre ++ (toBytes32 (c.encodeOpcode (w.type c) w.loc w.num w.copy)
        ++ (payload ++ (ws.flatMap (UniformWrite.bytes c) ++ toBytes32 c.End))) := by
      rw [hB, List.flatMap_cons, hpay]; simp [List.append_assoc]
    have hB2 : B = (pre ++ toBytes32 (c.encodeOpcode (w.type c) w.loc w.num w.copy) ++ payload)
        ++ (ws.flatMap (UniformWrite.bytes c) ++ toBytes32 c.End) := by
      rw [hB1]; simp [List.append_assoc]
    have hrec := ih (pre ++ toBytes32 (c.encodeOpcode (w.type c) w.loc w.num w.copy) ++ payload)
      B f (fun x hx => hfits x (List.mem_cons_of_mem _ hx))
      (fun x hx => hdec x (List.mem_cons_of_mem _ hx))
      (fun x hx => hne x (List.mem_cons_of_mem _ hx))
      (fun x hx => hwid x (List.mem_cons_of_mem _ hx)) hfuel2 hB2
    have hplen : (pre ++ toBytes32 (c.encodeOpcode (w.type c) w.loc w.num w.copy) ++ payload).length
        = pre.length + 4 + payload.length := by simp [toBytes32_length, Nat.add_assoc]
    have hblen : (w.bytes c).length = 4 + payload.length := by
      rw [hpay]; simp [toBytes32_length]
    rw [hplen] at hrec
    unfold ConstantBuffer.commitLoop
    rw [readOpcode_at B pre _ _ hfw hB1]
    simp only [if_neg (Ne.symm hnw), hdw, hread, hrec, commitSwitch_write c hnd w, expectedCalls]
    simp [UniformWrite.call, hblen, Nat.add_assoc]

theorem expectedCalls_length (c : ConstantCodec) (ws : List UniformWrite) :
    ∀ off, (expectedCalls c off ws).length = ws.length := by
  induction ws with
  | nil => intro off; rfl
  | cons w ws ih => intro off; simp [expectedCalls, ih]

theorem expectedCalls_resolve (c : ConstantCodec) :
    ∀ (ws : List UniformWrite) (pre rest B : List Nat) (pos : Nat),
      (∀ w ∈ ws, match w.data with
        | .inline bytes => bytes.length = c.g_constantTypeSize (w.type c) * w.num
        | .ref ptr => ptr.length = c.ptrSize) →
      B = pre ++ (ws.flatMap (UniformWrite.bytes c) ++ rest) →
      (expectedCalls c pre.length ws).map (ShaderConstantCall.resolve ⟨B, pos⟩)
        = ws.map UniformWrite.applied := by
  intro ws
  induction ws with
  | nil => intro pre rest B pos _ _; rfl
  | cons w ws ih =>
    intro pre rest B pos hwid hB
    have hww := hwid w (List.mem_cons_self _ _)
    have hB2 : B = (pre ++ w.bytes c) ++ (ws.flatMap (UniformWrite.bytes c) ++ rest) := by
      rw [hB]; simp [List.append_assoc]
    have hrec := ih (pre ++ w.bytes c) rest B pos
      (fun x hx => hwid x (List.mem_cons_of_mem _ hx)) hB2
    rw [List.length_append] at hrec
    simp only [expectedCalls, List.map_cons, hrec, List.cons.injEq, and_true]
    cases hd : w.data with
    | inline bytes =>
      rw [hd] at hww
      simp only at hww
      have hsl : (List.drop (pre.length + 4) B).take bytes.length = bytes := by
        rw [hB]
        have := slice_mid (pre ++ toBytes32 (c.encodeOpcode (w.type c) w.loc w.num w.copy)) bytes
          (ws.flatMap (UniformWrite.bytes c) ++ rest) (pre.length + 4) bytes.length
          (by simp [toBytes32_length]) rfl
        simpa [UniformWrite.bytes, hd, List.append_assoc] using this
      simp [ShaderConstantCall.resolve, UniformWrite.call, UniformWrite.applied, hd,
        ConstantBuffer.slice, ← hww, hsl]
    | ref ptr =>
      simp [ShaderConstantCall.resolve, UniformWrite.call, UniformWrite.applied, hd]

theorem sampleWrites_wellFormed : WellFormedWrites sampleCodec sampleWrites := by
  refine ⟨by decide, by decide, ?_, ?_, ?_, ?_⟩ <;>
    · intro w hw
      simp only [sampleWrites, List.mem_cons, List.mem_singleton, List.not_mem_nil, or_false] at hw
      rcases hw with rfl | rfl <;> decide

theorem flatMap_bytes_length (c : ConstantCodec) (ws : List UniformWrite) :
    ws.length ≤ (ws.flatMap (UniformWrite.bytes c)).length := by
  induction ws with
  | nil => simp
  | cons w ws ih =>
    simp only [List.flatMap_cons, List.length_append, List.length_cons, UniformWrite.bytes,
      toBytes32_length]
    omega

/-- Replay of a sealed stream of well-formed writes: `commit` returns with the
cursor at the end of the stream and the expected calls. -/
theorem sealedStream_commit (c : ConstantCodec) (ws : List UniformWrite) (force : Bool)
    (hw : WellFormedWrites c ws) :
    (sealedStream c ws).commit c force
      = some (⟨(sealedStream c ws).m_buffer, (sealedStream c ws).m_buffer.length⟩,
              expectedCalls c 0 ws) := by
  have hbuf := sealedStream_buffer c ws
  have h := commitLoop_replay c hw.labels hw.endFits ws [] (sealedStream c ws).m_buffer
    ((sealedStream c ws).m_buffer.length + 1) hw.fits hw.decode hw.notEnd hw.width
    (by rw [hbuf]; simp only [List.length_append, toBytes32_length]
        have := flatMap_bytes_length c ws
        omega)
    (by simpa using hbuf)
  simpa [ConstantBuffer.commit, ConstantBuffer.reset] using h

theorem commit_twice (c : ConstantCodec) (cb cb1 : ConstantBuffer) (f1 f2 : Bool)
    (calls : List ShaderConstantCall) (h : cb.commit c f1 = some (cb1, calls)) :
    cb1.m_buffer = cb.m_buffer ∧ cb1.commit c f2 = some (cb1, calls) := by
  have hb : cb1.m_buffer = cb.m_buffer := by
    have := commitLoop_buffer c _ _ _ _ h
    simpa [ConstantBuffer.reset] using this
  refine ⟨hb, ?_⟩
  simp only [ConstantBuffer.commit, ConstantBuffer.reset] at h ⊢
  rw [hb]
  exact h

/-! ## Theorems: buffers and device lifecycle -/

theorem forEachSlot_calls {α : Type} (f : α → α × List Call) (P : Call → Prop)
    (hf : ∀ a, ∀ c ∈ (f a).2, P c) :
    ∀ (l : List Nat) (tbl : Nat → α), ∀ c ∈ (forEachSlot f l tbl).2, P c := by
  intro l
  induction l with
  | nil => intro tbl c hc; simp [forEachSlot] at hc
  | cons ii rest ih =>
    intro tbl c hc
    simp only [forEachSlot, List.mem_append] at hc
    rcases hc with hc | hc
    · exact hf _ c hc
    · exact ih _ c hc

theorem forEachSlotD_calls {α : Type} (f : Device → α → Device × α × List Call) (P : Call → Prop)
    (hf : ∀ d a, ∀ c ∈ (f d a).2.2, P c) :
    ∀ (l : List Nat) (d : Device) (tbl : Nat → α), ∀ c ∈ (forEachSlotD f l d tbl).2.2, P c := by
  intro l
  induction l with
  | nil => intro d tbl c hc; simp [forEachSlotD] at hc
  | cons ii rest ih =>
    intro d tbl c hc
    simp only [forEachSlotD, List.mem_append] at hc
    rcases hc with hc | hc
    · exact hf _ _ c hc
    · exact ih _ _ c hc

theorem forEachSlotD_results {α : Type} (f : Device → α → Device × α × List Call)
    (hf : ∀ d a, (f d a).1.results = d.results) :
    ∀ (l : List Nat) (d : Device) (tbl : Nat → α), (forEachSlotD f l d tbl).1.results = d.results := by
  intro l
  induction l with
  | nil => intro d tbl; rfl
  | cons ii rest ih =>
    intro d tbl
    simp only [forEachSlotD]
    rw [ih, hf]

theorem IndexBuffer_preReset_calls (ib : IndexBuffer) :
    ∀ c ∈ ib.preReset.2, c.isProtocolStep = false := by
  intro c hc
  unfold IndexBuffer.preReset DX_RELEASE at hc
  split at hc
  · simp at hc; subst hc; rfl
  · simp at hc

theorem VertexBuffer_preReset_calls (vb : VertexBuffer) :
    ∀ c ∈ vb.preReset.2, c.isProtocolStep = false := by
  intro c hc
  unfold VertexBuffer.preReset DX_RELEASE at hc
  split at hc
  · simp at hc; subst hc; rfl
  · simp at hc

theorem IndexBuffer_postReset_calls (d : Device) (ib : IndexBuffer) :
    ∀ c ∈ (IndexBuffer.postReset d ib).2.2, c.isProtocolStep = false := by
  intro c hc
  unfold IndexBuffer.postReset at hc
  split at hc
  · simp at hc; subst hc; rfl
  · simp at hc

theorem VertexBuffer_postReset_calls (d : Device) (vb : VertexBuffer) :
    ∀ c ∈ (VertexBuffer.postReset d vb).2.2, c.isProtocolStep = false := by
  intro c hc
  unfold VertexBuffer.postReset at hc
  split at hc
  · simp at hc; subst hc; rfl
  · simp at hc

theorem IndexBuffer_postReset_results (d : Device) (ib : IndexBuffer) :
    (IndexBuffer.postReset d ib).1.results = d.results := by
  unfold IndexBuffer.postReset
  split <;> rfl

theorem VertexBuffer_postReset_results (d : Device) (vb : VertexBuffer) :
    (VertexBuffer.postReset d vb).1.results = d.results := by
  unfold VertexBuffer.postReset
  split <;> rfl

theorem filter_eq_nil_of_forall (l : List Call) (h : ∀ c ∈ l, c.isProtocolStep = false) :
    l.filter Call.isProtocolStep = [] := by
  rw [List.filter_eq_nil_iff]
  intro c hc
  simp [h c hc]

theorem preReset_protocol (k : Consts) (ctx : RendererContext) :
    (ctx.preReset k).2.filter Call.isProtocolStep = [Call.enter .preReset] := by
  have h1 := filter_eq_nil_of_forall _ (forEachSlot_calls IndexBuffer.preReset _
    IndexBuffer_preReset_calls (List.range k.BGFX_CONFIG_MAX_INDEX_BUFFERS) ctx.m_indexBuffers)
  have h2 := filter_eq_nil_of_forall _ (forEachSlot_calls VertexBuffer.preReset _
    VertexBuffer_preReset_calls (List.range k.BGFX_CONFIG_MAX_VERTEX_BUFFERS) ctx.m_vertexBuffers)
  have h3 : ((List.range k.BGFX_STATE_TEX_COUNT).map (fun stage => Call.SetTexture stage none)).filter
      Call.isProtocolStep = [] := by
    apply filter_eq_nil_of_forall
    intro c hc
    simp only [List.mem_map] at hc
    obtain ⟨_, _, rfl⟩ := hc
    rfl
  have h4 : ((List.range k.BGFX_CONFIG_MAX_RENDER_TARGETS).map
      (fun ii => Call.RenderTarget_preReset ii)).filter Call.isProtocolStep = [] := by
    apply filter_eq_nil_of_forall
    intro c hc
    simp only [List.mem_map] at hc
    obtain ⟨_, _, rfl⟩ := hc
    rfl
  simp only [RendererContext.preReset, DX_RELEASE, List.filter_cons, List.filter_append, h1, h2,
    h3, h4, Call.isProtocolStep]
  simp

theorem postReset_protocol (k : Consts) (d : Device) (ctx : RendererContext) :
    (ctx.postReset k d).2.2.filter Call.isProtocolStep = [Call.enter .postReset] := by
  have h1 := fun dd => filter_eq_nil_of_forall _ (forEachSlotD_calls IndexBuffer.postReset _
    IndexBuffer_postReset_calls (List.range k.BGFX_CONFIG_MAX_INDEX_BUFFERS) dd ctx.m_indexBuffers)
  have h2 := fun dd => filter_eq_nil_of_forall _ (forEachSlotD_calls VertexBuffer.postReset _
    VertexBuffer_postReset_calls (List.range k.BGFX_CONFIG_MAX_VERTEX_BUFFERS) dd
    ctx.m_vertexBuffers)
  have h4 : ((List.range k.BGFX_CONFIG_MAX_RENDER_TARGETS).map
      (fun ii => Call.RenderTarget_postReset ii)).filter Call.isProtocolStep = [] := by
    apply filter_eq_nil_of_forall
    intro c hc
    simp only [List.mem_map] at hc
    obtain ⟨_, _, rfl⟩ := hc
    rfl
  simp only [RendererContext.postReset, List.filter_cons, List.filter_append, h1, h2, h4,
    Call.isProtocolStep]
  simp

theorem postReset_results (k : Consts) (d : Device) (ctx : RendererContext) :
    (ctx.postReset k d).1.results = d.results := by
  simp only [RendererContext.postReset]
  rw [forEachSlotD_results _ VertexBuffer_postReset_results,
    forEachSlotD_results _ IndexBuffer_postReset_results]
  rfl

theorem pollLoop_shape (polls rest : List HRESULT)
    (h : ∀ hr ∈ polls, hr ≠ D3DERR_DEVICENOTRESET) :
    pollLoop (polls ++ D3DERR_DEVICENOTRESET :: rest)
      = some (rest, List.replicate (polls.length + 1) Call.TestCooperativeLevel) := by
  induction polls with
  | nil => simp [pollLoop]
  | cons hr polls ih =>
    have h1 : D3DERR_DEVICENOTRESET ≠ hr := fun e => h hr (List.mem_cons_self _ _) e.symm
    have h2 := ih (fun x hx => h x (List.mem_cons_of_mem _ hx))
    simp [pollLoop, h1, h2, List.replicate_succ]

theorem resetLoop_shape (params : D3DPRESENT_PARAMETERS) (failed : List HRESULT) (ok : HRESULT)
    (rest : List HRESULT) (hf : ∀ hr ∈ failed, FAILED hr = true) (hok : FAILED ok = false) :
    resetLoop params (failed ++ ok :: rest)
      = some (rest, List.replicate (failed.length + 1) (Call.Reset params)) := by
  induction failed with
  | nil => simp [resetLoop, hok]
  | cons hr failed ih =>
    have h1 := hf hr (List.mem_cons_self _ _)
    have h2 := ih (fun x hx => hf x (List.mem_cons_of_mem _ hx))
    simp [resetLoop, h1, h2, List.replicate_succ]

theorem pollLoop_calls : ∀ (l rest : List HRESULT) (calls : List Call),
    pollLoop l = some (rest, calls) →
      Call.TestCooperativeLevel ∈ calls ∧ calls.filter Call.isProtocolStep = [] := by
  intro l
  induction l with
  | nil => intro rest calls h; simp [pollLoop] at h
  | cons hr l ih =>
    intro rest calls h
    unfold pollLoop at h
    split at h
    · split at h
      · simp at h
      · rename_i rest2 calls2 hrec
        simp only [Option.some.injEq, Prod.mk.injEq] at h
        obtain ⟨-, rfl⟩ := h
        have := ih _ _ hrec
        simp [this.2, Call.isProtocolStep]
    · simp only [Option.some.injEq, Prod.mk.injEq] at h
      obtain ⟨-, rfl⟩ := h
      simp [Call.isProtocolStep]

theorem resetLoop_calls (params : D3DPRESENT_PARAMETERS) : ∀ (l rest : List HRESULT)
    (calls : List Call), resetLoop params l = some (rest, calls) →
      ∃ n, calls = List.replicate (n + 1) (Call.Reset params) := by
  intro l
  induction l with
  | nil => intro rest calls h; simp [resetLoop] at h
  | cons hr l ih =>
    intro rest calls h
    unfold resetLoop at h
    split at h
    · split at h
      · simp at h
      · rename_i rest2 calls2 hrec
        simp only [Option.some.injEq, Prod.mk.injEq] at h
        obtain ⟨-, rfl⟩ := h
        obtain ⟨n, hn⟩ := ih _ _ hrec
        exact ⟨n + 1, by rw [hn]; simp [List.replicate_succ]⟩
    · simp only [Option.some.injEq, Prod.mk.injEq] at h
      obtain ⟨-, rfl⟩ := h
      exact ⟨0, rfl⟩

theorem replicate_reset_protocol (params : D3DPRESENT_PARAMETERS) (n : Nat) :
    (List.replicate n (Call.Reset params)).filter Call.isProtocolStep
      = List.replicate n (Call.Reset params) := by
  rw [List.filter_eq_self]
  intro c hc
  rw [List.eq_of_mem_replicate hc]
  rfl

theorem reset_protocol (k : Consts) (d d2 : Device) (ctx ctx2 : RendererContext)
    (calls : List Call) (h : ctx.reset k d = some (d2, ctx2, calls)) :
    ctx2.m_params = ctx.m_params ∧ ctx2.m_device = ctx.m_device
      ∧ ∃ n, calls.filter Call.isProtocolStep
          = Call.enter .preReset ::
              (List.replicate (n + 1) (Call.Reset ctx.m_params) ++ [Call.enter .postReset]) := by
  unfold RendererContext.reset at h
  simp only at h
  split at h
  · simp at h
  · rename_i rest rcalls hr
    simp only [Option.some.injEq, Prod.mk.injEq] at h
    obtain ⟨-, rfl, rfl⟩ := h
    obtain ⟨n, hn⟩ := resetLoop_calls _ _ _ _ hr
    refine ⟨rfl, rfl, n, ?_⟩
    rw [List.filter_append, List.filter_append, preReset_protocol, postReset_protocol, hn,
      replicate_reset_protocol]
    rfl

theorem count_of_filter (l : List Call) (a : Call) (ha : a.isProtocolStep = true) :
    l.count a = (l.filter Call.isProtocolStep).count a := by
  induction l with
  | nil => rfl
  | cons c l ih =>
    by_cases hc : c.isProtocolStep = true
    · simp only [List.filter_cons, hc, if_true, List.count_cons, ih]
    · have hne : ¬ (c == a) = true := by
        intro he
        have : c = a := by simpa using he
        rw [this] at hc
        exact hc ha
      simp only [List.filter_cons, hc, List.count_cons, ih, hne]
      simp

theorem count_replicate_reset (params : D3DPRESENT_PARAMETERS) (n : Nat) (r : Routine) :
    (List.replicate n (Call.Reset params)).count (Call.enter r) = 0 := by
  rw [List.count_eq_zero]
  intro hmem
  have := List.eq_of_mem_replicate hmem
  cases this

theorem recoverLoop_counts (k : Consts) : ∀ (fuel : Nat) (d d2 : Device)
    (ctx ctx2 : RendererContext) (calls : List Call),
    recoverLoop k fuel d ctx = some (d2, ctx2, calls) →
      Call.TestCooperativeLevel ∈ calls
        ∧ 1 ≤ calls.count (Call.enter .preReset)
        ∧ calls.count (Call.enter .preReset) = calls.count (Call.enter .postReset) := by
  intro fuel
  induction fuel with
  | zero => intro d d2 ctx ctx2 calls h; simp [recoverLoop] at h
  | succ fuel ih =>
    intro d d2 ctx ctx2 calls h
    unfold recoverLoop at h
    split at h
    · simp at h
    · rename_i rest polls hpoll
      split at h
      · simp at h
      · rename_i d3 ctx3 resets hreset
        obtain ⟨-, -, n, hn⟩ := reset_protocol k _ _ _ _ _ hreset
        have hp := (pollLoop_calls _ _ _ hpoll).2
        have c1 : polls.count (Call.enter .preReset) + resets.count (Call.enter .preReset) = 1 := by
          rw [count_of_filter polls (Call.enter .preReset) rfl,
            count_of_filter resets (Call.enter .preReset) rfl, hp, hn]
          simp [List.count_cons, count_replicate_reset]
        have c2 : polls.count (Call.enter .postReset) + resets.count (Call.enter .postReset) = 1 := by
          rw [count_of_filter polls (Call.enter .postReset) rfl,
            count_of_filter resets (Call.enter .postReset) rfl, hp, hn]
          simp [List.count_cons, count_replicate_reset]
        split at h
        · simp at h
        · rename_i hr rest2 hres
          split at h
          · split at h
            · simp at h
            · rename_i d4 ctx4 calls4 hrec
              simp only [Option.some.injEq, Prod.mk.injEq] at h
              obtain ⟨-, -, rfl⟩ := h
              have := ih _ _ _ _ _ hrec
              refine ⟨by simp, ?_, ?_⟩
              · simp only [List.count_append]; omega
              · have e1 : (Call.TestCooperativeLevel :: calls4).count (Call.enter .preReset)
                    = calls4.count (Call.enter .preReset) := by simp [List.count_cons]
                have e2 : (Call.TestCooperativeLevel :: calls4).count (Call.enter .postReset)
                    = calls4.count (Call.enter .postReset) := by simp [List.count_cons]
                simp only [List.count_append, e1, e2]; omega
          · simp only [Option.some.injEq, Prod.mk.injEq] at h
            obtain ⟨-, -, rfl⟩ := h
            refine ⟨by simp, ?_, ?_⟩
            · simp only [List.count_append]; omega
            · have e1 : [Call.TestCooperativeLevel].count (Call.enter .preReset) = 0 := by
                simp [List.count_cons]
              have e2 : [Call.TestCooperativeLevel].count (Call.enter .postReset) = 0 := by
                simp [List.count_cons]
              simp only [List.count_append, e1, e2]; omega

theorem replicate_poll_protocol (n : Nat) :
    (List.replicate n Call.TestCooperativeLevel).filter Call.isProtocolStep = [] := by
  apply filter_eq_nil_of_forall
  intro c hc
  rw [List.eq_of_mem_replicate hc]
  rfl

theorem pass_step (k : Consts) (p : RecoveryPass) (hv : p.Valid) (rest : List HRESULT)
    (d : Device) (ctx : RendererContext) (hres : d.results = p.results ++ rest) :
    ∃ polls d2 ctx2 resets,
      pollLoop d.results = some (p.failedResets ++ p.resetOk :: p.check :: rest, polls)
      ∧ ctx.reset k { d with results := p.failedResets ++ p.resetOk :: p.check :: rest }
          = some (d2, ctx2, resets)
      ∧ d2.results = p.check :: rest
      ∧ ctx2.m_params = ctx.m_params
      ∧ polls.filter Call.isProtocolStep = []
      ∧ resets.filter Call.isProtocolStep = p.protocol ctx.m_params := by
  obtain ⟨hpolls, hfailed, hok⟩ := hv
  have hshape : d.results
      = p.polls ++ D3DERR_DEVICENOTRESET :: (p.failedResets ++ p.resetOk :: p.check :: rest) := by
    rw [hres]; simp [RecoveryPass.results, List.append_assoc]
  have hpoll := pollLoop_shape p.polls (p.failedResets ++ p.resetOk :: p.check :: rest) hpolls
  have hreset := resetLoop_shape (ctx.preReset k).1.m_params p.failedResets p.resetOk
    (p.check :: rest) hfailed hok
  refine ⟨List.replicate (p.polls.length + 1) Call.TestCooperativeLevel,
    ((ctx.preReset k).1.postReset k { d with results := p.check :: rest }).1,
    ((ctx.preReset k).1.postReset k { d with results := p.check :: rest }).2.1,
    (ctx.preReset k).2 ++ List.replicate (p.failedResets.length + 1)
        (Call.Reset (ctx.preReset k).1.m_params)
      ++ ((ctx.preReset k).1.postReset k { d with results := p.check :: rest }).2.2,
    by rw [hshape]; exact hpoll, ?_, ?_, ?_, replicate_poll_protocol _, ?_⟩
  · simp only [RendererContext.reset, hreset]
  · simp only [postReset_results]
  · rfl
  · rw [List.filter_append, List.filter_append, preReset_protocol, postReset_protocol,
      replicate_reset_protocol]
    rfl

theorem recoverLoop_passes (k : Consts) : ∀ (passes : List RecoveryPass) (last : RecoveryPass)
    (tail : List HRESULT) (fuel : Nat) (d : Device) (ctx : RendererContext),
    (∀ p ∈ passes, p.Valid ∧ FAILED p.check = true) → last.Valid → FAILED last.check = false →
    d.results = (passes ++ [last]).flatMap RecoveryPass.results ++ tail →
    passes.length < fuel →
    ∃ d2 ctx2 calls, recoverLoop k fuel d ctx = some (d2, ctx2, calls) ∧ d2.results = tail
      ∧ calls.filter Call.isProtocolStep
          = (passes ++ [last]).flatMap (RecoveryPass.protocol ctx.m_params) := by
  intro passes
  induction passes with
  | nil =>
    intro last tail fuel d ctx _ hlast hok hres hfuel
    obtain ⟨f, rfl⟩ : ∃ f, fuel = f + 1 := ⟨fuel - 1, by simp at hfuel; omega⟩
    have hres2 : d.results = last.results ++ tail := by simpa using hres
    obtain ⟨polls, d2, ctx2, resets, h1, h2, h3, -, h5, h6⟩ := pass_step k last hlast tail d ctx hres2
    refine ⟨{ d2 with results := tail }, ctx2, polls ++ resets ++ [Call.TestCooperativeLevel], ?_,
      rfl, ?_⟩
    · unfold recoverLoop
      simp only [h1, h2, h3, hok]
      simp
    · simp [List.filter_append, h5, h6, Call.isProtocolStep]
  | cons p passes ih =>
    intro last tail fuel d ctx hall hlast hok hres hfuel
    obtain ⟨f, rfl⟩ : ∃ f, fuel = f + 1 := ⟨fuel - 1, by simp at hfuel; omega⟩
    have hp := hall p (List.mem_cons_self _ _)
    have hres2 : d.results
        = p.results ++ ((passes ++ [last]).flatMap RecoveryPass.results ++ tail) := by
      rw [hres]; simp [List.append_assoc]
    obtain ⟨polls, d2, ctx2, resets, h1, h2, h3, h4, h5, h6⟩ :=
      pass_step k p hp.1 _ d ctx hres2
    obtain ⟨d3, ctx3, calls3, hrec, hd3, hc3⟩ := ih last tail f
      { d2 with results := (passes ++ [last]).flatMap RecoveryPass.results ++ tail } ctx2
      (fun x hx => hall x (List.mem_cons_of_mem _ hx)) hlast hok rfl
      (by simp at hfuel; omega)
    refine ⟨d3, ctx3, polls ++ resets ++ Call.TestCooperativeLevel :: calls3, ?_, hd3, ?_⟩
    · unfold recoverLoop
      simp only [h1, h2, h3, hp.2, hrec]
      simp
    · rw [h4] at hc3
      simp [List.filter_append, h5, h6, hc3, Call.isProtocolStep]

theorem recoverLoop_hasReset (k : Consts) (fuel : Nat) (d d2 : Device)
    (ctx ctx2 : RendererContext) (calls : List Call)
    (h : recoverLoop k fuel d ctx = some (d2, ctx2, calls)) :
    Call.Reset ctx.m_params ∈ calls := by
  cases fuel with
  | zero => simp [recoverLoop] at h
  | succ fuel =>
    unfold recoverLoop at h
    split at h
    · simp at h
    · rename_i rest polls hpoll
      split at h
      · simp at h
      · rename_i d3 ctx3 resets hreset
        obtain ⟨-, -, n, hn⟩ := reset_protocol k _ _ _ _ _ hreset
        have hmem : Call.Reset ctx.m_params ∈ resets := by
          have : Call.Reset ctx.m_params ∈ resets.filter Call.isProtocolStep := by
            rw [hn]; simp [List.replicate_succ]
          exact (List.mem_filter.mp this).1
        split at h
        · simp at h
        · split at h
          · split at h
            · simp at h
            · simp only [Option.some.injEq, Prod.mk.injEq] at h
              obtain ⟨-, -, rfl⟩ := h
              simp [hmem]
          · simp only [Option.some.injEq, Prod.mk.injEq] at h
            obtain ⟨-, -, rfl⟩ := h
            simp [hmem]

theorem count_protocol_pre (params : D3DPRESENT_PARAMETERS) (ps : List RecoveryPass) :
    (ps.flatMap (RecoveryPass.protocol params)).count (Call.enter .preReset) = ps.length := by
  induction ps with
  | nil => rfl
  | cons p ps ih =>
    simp only [List.flatMap_cons, List.count_append, ih, RecoveryPass.protocol, List.count_cons,
      count_replicate_reset, List.length_cons]
    simp
    omega

theorem count_protocol_post (params : D3DPRESENT_PARAMETERS) (ps : List RecoveryPass) :
    (ps.flatMap (RecoveryPass.protocol params)).count (Call.enter .postReset) = ps.length := by
  induction ps with
  | nil => rfl
  | cons p ps ih =>
    simp only [List.flatMap_cons, List.count_append, ih, RecoveryPass.protocol, List.count_cons,
      count_replicate_reset, List.length_cons]
    simp
    omega

theorem passes_results_length (ps : List RecoveryPass) :
    ps.length ≤ (ps.flatMap RecoveryPass.results).length := by
  induction ps with
  | nil => simp
  | cons p ps ih =>
    simp only [List.flatMap_cons, List.length_append, List.length_cons, RecoveryPass.results]
    omega

theorem isLost_iff (k : Consts) (h9 : k.D3D_DISABLE_9EX = false) (hr : HRESULT) :
    RendererContext.isLost k hr = true ↔
      hr = D3DERR_DEVICELOST ∨ hr = D3DERR_DRIVERINTERNALERROR ∨ hr = D3DERR_DEVICEHUNG
        ∨ hr = D3DERR_DEVICEREMOVED := by
  simp only [RendererContext.isLost, h9, Bool.or_eq_true, Bool.and_eq_true, decide_eq_true_eq,
    Bool.not_false, true_and]
  constructor
  · rintro ((h | h) | (h | h))
    · exact Or.inl h.symm
    · exact Or.inr (Or.inl h.symm)
    · exact Or.inr (Or.inr (Or.inl h.symm))
    · exact Or.inr (Or.inr (Or.inr h.symm))
  · rintro (h | h | h | h)
    · exact Or.inl (Or.inl h.symm)
    · exact Or.inl (Or.inr h.symm)
    · exact Or.inr (Or.inl h.symm)
    · exact Or.inr (Or.inr h.symm)

/-! ## Theorems: the draw-item loop -/

theorem and_ne_zero_of_subset (m G c : Nat) (hsub : m &&& G = m) (h : (m &&& c) ≠ 0) :
    (G &&& c) ≠ 0 := by
  intro hG
  apply h
  rw [← hsub, Nat.and_assoc, hG, Nat.and_zero]

theorem subset_or_left (a b : Nat) : a &&& (a ||| b) = a := by
  apply Nat.eq_of_testBit_eq
  intro i
  simp only [Nat.testBit_and, Nat.testBit_or]
  cases a.testBit i <;> cases b.testBit i <;> rfl

theorem subset_or_right (a b : Nat) : b &&& (a ||| b) = b := by
  apply Nat.eq_of_testBit_eq
  intro i
  simp only [Nat.testBit_and, Nat.testBit_or]
  cases a.testBit i <;> cases b.testBit i <;> rfl

theorem subset_trans (a b c : Nat) (h1 : a &&& b = a) (h2 : b &&& c = b) : a &&& c = a := by
  rw [← h1, Nat.and_assoc, h2]

theorem subset_or (a b c : Nat) (h1 : a &&& c = a) (h2 : b &&& c = b) :
    (a ||| b) &&& c = (a ||| b) := by
  apply Nat.eq_of_testBit_eq
  intro i
  have e1 := congrArg (fun x => x.testBit i) h1
  have e2 := congrArg (fun x => x.testBit i) h2
  simp only [Nat.testBit_and, Nat.testBit_or] at e1 e2 ⊢
  cases ha : a.testBit i <;> cases hb : b.testBit i <;> cases hc : c.testBit i <;> simp_all

theorem and_xor_eq_zero_iff (a b m : Nat) : (m &&& (a ^^^ b)) = 0 ↔ (a &&& m) = (b &&& m) := by
  constructor
  · intro h
    apply Nat.eq_of_testBit_eq
    intro i
    have e := congrArg (fun x => x.testBit i) h
    simp only [Nat.testBit_and, Nat.testBit_xor, Nat.zero_testBit] at e ⊢
    cases ha : a.testBit i <;> cases hb : b.testBit i <;> cases hm : m.testBit i <;> simp_all
  · intro h
    apply Nat.eq_of_testBit_eq
    intro i
    have e := congrArg (fun x => x.testBit i) h
    simp only [Nat.testBit_and, Nat.testBit_xor, Nat.zero_testBit] at e ⊢
    cases ha : a.testBit i <;> cases hb : b.testBit i <;> cases hm : m.testBit i <;> simp_all

theorem group_subset_guard (k : Consts)
    (hat : k.BGFX_STATE_ALPHA_TEST &&& k.BGFX_STATE_ALPHA_MASK = k.BGFX_STATE_ALPHA_TEST)
    (g : FlagGroup) : g.mask k &&& stateGuardMask k = g.mask k := by
  have L := subset_or_left
  have R := subset_or_right
  have T := subset_trans
  unfold stateGuardMask
  cases g <;> simp only [FlagGroup.mask]
  · -- cull
    exact T _ _ _ (L _ k.BGFX_STATE_DEPTH_WRITE) (T _ _ _ (L _ _) (T _ _ _ (L _ _)
      (T _ _ _ (L _ _) (T _ _ _ (L _ _) (T _ _ _ (L _ _) (T _ _ _ (L _ _) (L _ _)))))))
  · -- depth write
    exact T _ _ _ (R k.BGFX_STATE_CULL_MASK _) (T _ _ _ (L _ _) (T _ _ _ (L _ _)
      (T _ _ _ (L _ _) (T _ _ _ (L _ _) (T _ _ _ (L _ _) (T _ _ _ (L _ _) (L _ _)))))))
  · -- depth test
    exact T _ _ _ (R (k.BGFX_STATE_CULL_MASK ||| k.BGFX_STATE_DEPTH_WRITE) _) (T _ _ _ (L _ _)
      (T _ _ _ (L _ _) (T _ _ _ (L _ _) (T _ _ _ (L _ _) (T _ _ _ (L _ _) (L _ _))))))
  · -- alpha test / ref
    apply subset_or
    · exact T _ _ _ hat (T _ _ _ (R (k.BGFX_STATE_CULL_MASK ||| k.BGFX_STATE_DEPTH_WRITE
        ||| k.BGFX_STATE_DEPTH_TEST_MASK) _) (T _ _ _ (L _ _) (T _ _ _ (L _ _)
        (T _ _ _ (L _ _) (T _ _ _ (L _ _) (L _ _))))))
    · exact T _ _ _ (R (k.BGFX_STATE_CULL_MASK ||| k.BGFX_STATE_DEPTH_WRITE
        ||| k.BGFX_STATE_DEPTH_TEST_MASK ||| k.BGFX_STATE_ALPHA_MASK
        ||| k.BGFX_STATE_ALPHA_WRITE ||| k.BGFX_STATE_RGB_WRITE ||| k.BGFX_STATE_BLEND_MASK) _)
        (L _ _)
  · -- write mask
    apply subset_or
    · exact T _ _ _ (R (k.BGFX_STATE_CULL_MASK ||| k.BGFX_STATE_DEPTH_WRITE
        ||| k.BGFX_STATE_DEPTH_TEST_MASK ||| k.BGFX_STATE_ALPHA_MASK) _) (T _ _ _ (L _ _)
        (T _ _ _ (L _ _) (T _ _ _ (L _ _) (L _ _))))
    · exact T _ _ _ (R (k.BGFX_STATE_CULL_MASK ||| k.BGFX_STATE_DEPTH_WRITE
        ||| k.BGFX_STATE_DEPTH_TEST_MASK ||| k.BGFX_STATE_ALPHA_MASK
        ||| k.BGFX_STATE_ALPHA_WRITE) _) (T _ _ _ (L _ _) (T _ _ _ (L _ _) (L _ _)))
  · -- blend
    exact T _ _ _ (R (k.BGFX_STATE_CULL_MASK ||| k.BGFX_STATE_DEPTH_WRITE
      ||| k.BGFX_STATE_DEPTH_TEST_MASK ||| k.BGFX_STATE_ALPHA_MASK
      ||| k.BGFX_STATE_ALPHA_WRITE ||| k.BGFX_STATE_RGB_WRITE) _) (T _ _ _ (L _ _) (L _ _))

/-- A trace without `SetRenderState` calls. -/
theorem countP_eq_zero_of_noRS (p : Call → Bool) (hp : ∀ c, p c = true → c.renderState? ≠ none)
    (l : List Call) (h : ∀ c ∈ l, c.renderState? = none) : l.countP p = 0 := by
  rw [List.countP_eq_zero]
  intro c hc hpc
  exact hp c hpc (h c hc)

theorem setRenderTarget_noRS (k : Consts) (ctx : RendererContext) (rt : Nat) :
    ∀ c ∈ ctx.setRenderTarget k rt, c.renderState? = none := by
  intro c hc
  unfold RendererContext.setRenderTarget at hc
  split at hc <;> simp at hc <;> rcases hc with rfl | rfl <;> rfl

theorem setShaderConstantF_noRS (fr : Bool) (loc : Nat) (v : FloatData) (n : Nat) :
    ∀ c ∈ RendererContext.setShaderConstantF fr loc v n, c.renderState? = none := by
  intro c hc
  unfold RendererContext.setShaderConstantF at hc
  split at hc <;> simp at hc <;> subst hc <;> rfl

theorem predefinedCalls_noRS (f : Frame) (st : SubmitState) (state : RenderState)
    (p : PredefinedUniform) : ∀ c ∈ predefinedCalls f st state p, c.renderState? = none := by
  intro c hc
  unfold predefinedCalls at hc
  split at hc <;> first
    | exact setShaderConstantF_noRS _ _ _ _ c hc
    | simp at hc

theorem bindCalls_noRS (k : Consts) (ctx : RendererContext) (m : Nat) :
    ∀ c ∈ bindCalls k ctx m, c.renderState? = none := by
  intro c hc
  unfold bindCalls at hc
  split at hc <;> simp at hc <;> rcases hc with rfl | rfl <;> rfl

theorem uniformCalls_noRS (k : Consts) (ctx : RendererContext) (f : Frame) (st : SubmitState)
    (state : RenderState) (mc cc : Bool) :
    ∀ c ∈ uniformCalls k ctx f st state mc cc, c.renderState? = none := by
  intro c hc
  unfold uniformCalls at hc
  split at hc
  · rw [List.mem_append] at hc
    rcases hc with hc | hc
    · split at hc
      · simp at hc; rcases hc with rfl | rfl <;> rfl
      · simp at hc
    · rw [List.mem_flatMap] at hc
      obtain ⟨p, -, hp⟩ := hc
      exact predefinedCalls_noRS f st state p c hp
  · simp at hc

theorem textureCommit_noRS (t : Texture) (stage : Nat) :
    ∀ c ∈ t.commit stage, c.renderState? = none := by
  intro c hc
  simp [Texture.commit] at hc
  rcases hc with rfl | rfl | rfl | rfl | rfl | rfl <;> rfl

theorem renderTargetCommit_noRS (t : RenderTarget) (stage : Nat) :
    ∀ c ∈ t.commit stage, c.renderState? = none := by
  intro c hc
  simp [RenderTarget.commit] at hc
  rcases hc with rfl | rfl | rfl | rfl | rfl | rfl <;> rfl

theorem samplerCalls_noRS (k : Consts) (ctx : RendererContext) (cur s : Sampler) (stage : Nat)
    (mc : Bool) : ∀ c ∈ samplerCalls k ctx cur s stage mc, c.renderState? = none := by
  intro c hc
  unfold samplerCalls at hc
  split at hc
  · split at hc
    · split at hc
      · exact textureCommit_noRS _ _ c hc
      · exact renderTargetCommit_noRS _ _ c hc
      · simp at hc
    · simp at hc; subst hc; rfl
  · simp at hc

theorem vertexBufferCalls_noRS (k : Consts) (ctx : RendererContext) (cur state : RenderState)
    (mc : Bool) : ∀ c ∈ vertexBufferCalls k ctx cur state mc, c.renderState? = none := by
  intro c hc
  unfold vertexBufferCalls at hc
  split at hc
  · simp only at hc
    split at hc
    · simp at hc; rcases hc with rfl | rfl <;> rfl
    · simp at hc; subst hc; rfl
  · simp at hc

theorem indexBufferCalls_noRS (k : Consts) (ctx : RendererContext) (cur state : RenderState) :
    ∀ c ∈ indexBufferCalls k ctx cur state, c.renderState? = none := by
  intro c hc
  unfold indexBufferCalls at hc
  split at hc
  · split at hc <;> simp at hc <;> subst hc <;> rfl
  · simp at hc

theorem drawCalls_noRS (k : Consts) (ctx : RendererContext) (st : SubmitState) (vb : Nat)
    (state : RenderState) : ∀ c ∈ drawCalls k ctx st vb state, c.renderState? = none := by
  intro c hc
  unfold drawCalls at hc
  split at hc
  · simp only at hc
    split at hc
    · split at hc
      · simp at hc; subst hc; rfl
      · split at hc
        · simp at hc; subst hc; rfl
        · simp at hc
    · simp at hc; subst hc; rfl
  · simp at hc

theorem submitItemDraw_noRS (k : Consts) (ctx : RendererContext) (f : Frame) (st2 : SubmitState)
    (current1 : RenderState) (materialIdx1 : Nat) (item : SortKey × RenderState) :
    ∀ c ∈ (submitItemDraw k ctx f st2 current1 materialIdx1 item).2, c.renderState? = none := by
  intro c hc
  simp only [submitItemDraw, List.mem_append, List.mem_cons, List.mem_flatMap] at hc
  rcases hc with ((((((rfl | hc) | hc) | hc) | hc) | hc) | hc)
  · rfl
  · split at hc
    · exact bindCalls_noRS _ _ _ c hc
    · simp at hc
  · exact uniformCalls_noRS _ _ _ _ _ _ _ c hc
  · obtain ⟨stage, -, hs⟩ := hc
    exact samplerCalls_noRS _ _ _ _ _ _ c hs
  · exact vertexBufferCalls_noRS _ _ _ _ _ c hc
  · exact indexBufferCalls_noRS _ _ _ _ c hc
  · exact drawCalls_noRS _ _ _ _ _ c hc

/-- The calls of one pass: those of the view change, those of the state block,
and a rest without `SetRenderState` calls. -/
theorem submitItem_calls (k : Consts) (ctx : RendererContext) (f : Frame) (st : SubmitState)
    (item : SortKey × RenderState) :
    ∃ rest : List Call, (∀ c ∈ rest, c.renderState? = none)
      ∧ (submitItem k ctx f st item).2
          = (if item.1.m_view ≠ st.view then viewCalls k ctx f st.rt item.1.m_view else [])
            ++ stateCalls k item.2.m_flags
                (if item.1.m_view ≠ st.view then k.BGFX_STATE_MASK
                 else st.currentState.m_flags ^^^ item.2.m_flags)
            ++ rest :=
  ⟨_, submitItemDraw_noRS k ctx f _ _ _ item, rfl⟩

/-- The `SetRenderState` calls of one pass come from the view change and the
state block only. -/
theorem submitItem_countP (k : Consts) (ctx : RendererContext) (f : Frame) (st : SubmitState)
    (item : SortKey × RenderState) (p : Call → Bool)
    (hp : ∀ c, p c = true → c.renderState? ≠ none) :
    (submitItem k ctx f st item).2.countP p
      = (if item.1.m_view ≠ st.view then (viewCalls k ctx f st.rt item.1.m_view).countP p else 0)
        + (stateCalls k item.2.m_flags
            (if item.1.m_view ≠ st.view then k.BGFX_STATE_MASK
             else st.currentState.m_flags ^^^ item.2.m_flags)).countP p := by
  obtain ⟨rest, hrest, heq⟩ := submitItem_calls k ctx f st item
  rw [heq, List.countP_append, List.countP_append, countP_eq_zero_of_noRS p hp rest hrest]
  by_cases hv : item.1.m_view ≠ st.view
  · simp [hv]
  · simp [hv]

theorem count_lead_calls (k : Consts) (nf ch : Nat) (g g' : FlagGroup) :
    countRenderState g.lead (g'.calls k nf ch)
      = if g' = g ∧ (g.mask k &&& ch) ≠ 0 then 1 else 0 := by
  cases g <;> cases g' <;>
    simp only [FlagGroup.calls, FlagGroup.lead, FlagGroup.mask, countRenderState, cullCalls,
      depthWriteCalls, depthTestCalls, alphaCalls, writeMaskCalls, blendCalls] <;>
    split_ifs <;> simp_all [Call.renderState?]

theorem stateCalls_eq (k : Consts) (nf ch : Nat) :
    stateCalls k nf ch
      = if (stateGuardMask k &&& ch) ≠ 0 then
          FlagGroup.cull.calls k nf ch ++ FlagGroup.depthWrite.calls k nf ch
            ++ FlagGroup.depthTest.calls k nf ch ++ FlagGroup.alpha.calls k nf ch
            ++ FlagGroup.writeMask.calls k nf ch ++ FlagGroup.blend.calls k nf ch
        else [] := rfl

/-- The state block sets the lead state of a group once if the group's bits
are among the changed ones, and not at all otherwise. -/
theorem count_lead_stateCalls (k : Consts)
    (hat : k.BGFX_STATE_ALPHA_TEST &&& k.BGFX_STATE_ALPHA_MASK = k.BGFX_STATE_ALPHA_TEST)
    (nf ch : Nat) (g : FlagGroup) :
    countRenderState g.lead (stateCalls k nf ch) = if (g.mask k &&& ch) ≠ 0 then 1 else 0 := by
  rw [stateCalls_eq]
  by_cases hg : (stateGuardMask k &&& ch) ≠ 0
  · rw [if_pos hg]
    have e : ∀ l1 l2 : List Call, countRenderState g.lead (l1 ++ l2)
        = countRenderState g.lead l1 + countRenderState g.lead l2 := by
      intro l1 l2; simp [countRenderState, List.countP_append]
    simp only [e, count_lead_calls]
    cases g <;> simp
  · rw [if_neg hg]
    have : ¬ (g.mask k &&& ch) ≠ 0 := fun h =>
      hg (and_ne_zero_of_subset _ _ _ (group_subset_guard k hat g) h)
    rw [if_neg this]
    rfl

theorem count_lead_clearCalls (k : Consts) (rect : Rect) (clear : Clear) (g : FlagGroup) :
    countRenderState g.lead (clearCalls k rect clear)
      = match g with
        | .depthWrite =>
          if k.BGFX_CLEAR_NONE ≠ clear.m_flags ∧ (k.BGFX_CLEAR_DEPTH_BIT &&& clear.m_flags) ≠ 0
          then 1 else 0
        | .writeMask =>
          if k.BGFX_CLEAR_NONE ≠ clear.m_flags ∧ (k.BGFX_CLEAR_COLOR_BIT &&& clear.m_flags) ≠ 0
          then 1 else 0
        | _ => 0 := by
  unfold clearCalls
  by_cases h0 : k.BGFX_CLEAR_NONE ≠ clear.m_flags
  · rw [if_pos h0]
    simp only [countRenderState, List.countP_append]
    have h3 : ∀ (c : Prop) [Decidable c] (fl : Nat) (col : Option Nat),
        List.countP (fun c => decide (c.renderState? = some g.lead))
          (if c then
            [Call.SetRenderState .D3DRS_SCISSORTESTENABLE (.bool true),
             Call.SetScissorRect rect.m_x rect.m_y (rect.m_x + rect.m_width)
               (rect.m_y + rect.m_height),
             Call.Clear fl col clear.m_depth clear.m_stencil,
             Call.SetRenderState .D3DRS_SCISSORTESTENABLE (.bool false)]
          else []) = 0 := by
      intro c _ fl col
      split
      · cases g <;> simp [Call.renderState?, FlagGroup.lead, List.countP_cons]
      · rfl
    rw [h3]
    by_cases hc : (k.BGFX_CLEAR_COLOR_BIT &&& clear.m_flags) ≠ 0 <;>
      by_cases hd : (k.BGFX_CLEAR_DEPTH_BIT &&& clear.m_flags) ≠ 0 <;>
      cases g <;>
      simp [h0, hc, hd, Call.renderState?, FlagGroup.lead, List.countP_cons]
  · rw [if_neg h0]
    cases g <;> simp [h0, countRenderState]

theorem count_lead_viewCalls (k : Consts) (ctx : RendererContext) (f : Frame) (rt view : Nat)
    (g : FlagGroup) :
    countRenderState g.lead (viewCalls k ctx f rt view)
      = if g.viewSets k (f.m_clear view) = true then 1 else 0 := by
  have hrt : countRenderState g.lead
      (if f.m_rt view ≠ rt then ctx.setRenderTarget k (f.m_rt view) else []) = 0 := by
    apply countP_eq_zero_of_noRS _ (by intro c hc; simp at hc; simp [hc])
    intro c hc
    split at hc
    · exact setRenderTarget_noRS _ _ _ c hc
    · simp at hc
  have e : ∀ l1 l2 : List Call, countRenderState g.lead (l1 ++ l2)
      = countRenderState g.lead l1 + countRenderState g.lead l2 := by
    intro l1 l2; simp [countRenderState, List.countP_append]
  unfold viewCalls
  rw [e, e, e, hrt, count_lead_clearCalls]
  cases g <;> simp [countRenderState, Call.renderState?, FlagGroup.lead, FlagGroup.viewSets,
    List.countP_cons]

theorem submitItem_tracked (k : Consts) (ctx : RendererContext) (f : Frame) (st : SubmitState)
    (item : SortKey × RenderState) :
    (submitItem k ctx f st item).1.tracked = trackedOf item := by
  simp only [submitItem, submitItemDraw, SubmitState.tracked, trackedOf, stateLocals]
  by_cases hv : item.1.m_view ≠ st.view
  · simp only [if_pos hv]
    split <;> rfl
  · have hv2 : st.view = item.1.m_view := by
      by_contra h
      exact hv (fun e => h e.symm)
    simp only [if_neg hv]
    split <;> simp only [hv2]

/-- Number of calls satisfying `p` that one pass issues, `p` holding for
`SetRenderState` calls only, in terms of what is tracked of the item before. -/
theorem submitLoop_countP (k : Consts) (ctx : RendererContext) (f : Frame) (p : Call → Bool)
    (g : Tracked → SortKey × RenderState → Nat)
    (hstep : ∀ st item, (submitItem k ctx f st item).2.countP p = g st.tracked item) :
    ∀ (items : List (SortKey × RenderState)) (st : SubmitState),
      (submitLoop k ctx f st items).2.countP p
        = ((withPrevious st.tracked items).map (fun pr => g pr.1 pr.2)).sum := by
  intro items
  induction items with
  | nil => intro st; simp [submitLoop, withPrevious]
  | cons item rest ih =>
    intro st
    simp only [submitLoop, List.countP_append, hstep, ih, submitItem_tracked, withPrevious,
      List.map_cons, List.zip_cons_cons, List.sum_cons]

theorem sum_map_ite (α : Type) (l : List α) (q : α → Bool) :
    (l.map (fun x => if q x = true then 1 else 0)).sum = l.countP q := by
  induction l with
  | nil => rfl
  | cons x l ih => simp only [List.map_cons, List.sum_cons, ih, List.countP_cons]; omega

/-- The lead state of a group in one pass: once from the view change if the
view change sets it, and once from the state block if the group is applied. -/
theorem submitItem_count_lead (k : Consts) (hk : k.StateMasksOk) (ctx : RendererContext)
    (f : Frame) (st : SubmitState) (item : SortKey × RenderState) (g : FlagGroup) :
    countRenderState g.lead (submitItem k ctx f st item).2
      = (if decide (item.1.m_view = st.tracked.view
            ∧ (st.tracked.flags &&& g.mask k) ≠ (item.2.m_flags &&& g.mask k)) = true
          then 1 else 0)
        + (if decide (item.1.m_view ≠ st.tracked.view) = true then 1 else 0)
        + (if decide (item.1.m_view ≠ st.tracked.view
            ∧ g.viewSets k (f.m_clear item.1.m_view) = true) = true then 1 else 0) := by
  have h := submitItem_countP k ctx f st item
    (fun c => decide (c.renderState? = some g.lead)) (by intro c hc; simp at hc; simp [hc])
  have hv := count_lead_viewCalls k ctx f st.rt item.1.m_view g
  have hs := fun ch => count_lead_stateCalls k hk.alphaTest item.2.m_flags ch g
  simp only [countRenderState] at hv hs ⊢
  rw [h, hv, hs]
  simp only [SubmitState.tracked]
  by_cases hview : item.1.m_view ≠ st.view
  · have hm := hk.inMask g
    simp only [if_pos hview]
    rw [if_pos hm]
    by_cases hvs : g.viewSets k (f.m_clear item.1.m_view) = true <;> simp [hview, hvs]
  · have hview2 : item.1.m_view = st.view := by
      by_contra h2; exact hview h2
    simp only [if_neg hview]
    have hiff : (g.mask k &&& (st.currentState.m_flags ^^^ item.2.m_flags)) ≠ 0
        ↔ (st.currentState.m_flags &&& g.mask k) ≠ (item.2.m_flags &&& g.mask k) :=
      not_congr (and_xor_eq_zero_iff _ _ _)
    by_cases hd : (st.currentState.m_flags &&& g.mask k) ≠ (item.2.m_flags &&& g.mask k)
    · simp [hview2, hd, hiff.mpr hd]
    · have hd2 : ¬ (g.mask k &&& (st.currentState.m_flags ^^^ item.2.m_flags)) ≠ 0 :=
        fun h2 => hd (hiff.mp h2)
      simp [hview2, hd, hd2]

theorem viewExtra_eq (k : Consts) (f : Frame) (items : List (SortKey × RenderState))
    (g : FlagGroup) :
    g.viewExtra k f items
      = (withPrevious (Tracked.initial k) items).countP (fun p =>
          decide (p.2.1.m_view ≠ p.1.view ∧ g.viewSets k (f.m_clear p.2.1.m_view) = true)) := by
  cases g <;>
    simp [FlagGroup.viewExtra, FlagGroup.viewSets, viewChanges, clearsWith]

theorem submitLoop_count_lead (k : Consts) (hk : k.StateMasksOk) (ctx : RendererContext)
    (f : Frame) (g : FlagGroup) (items : List (SortKey × RenderState)) :
    countRenderState g.lead (submitLoop k ctx f (SubmitState.initial k) items).2
      = fieldChanges k (g.mask k) items + viewChanges k items + g.viewExtra k f items := by
  have h := submitLoop_countP k ctx f (fun c => decide (c.renderState? = some g.lead))
    (fun t item =>
      (if decide (item.1.m_view = t.view
            ∧ (t.flags &&& g.mask k) ≠ (item.2.m_flags &&& g.mask k)) = true then 1 else 0)
        + (if decide (item.1.m_view ≠ t.view) = true then 1 else 0)
        + (if decide (item.1.m_view ≠ t.view
            ∧ g.viewSets k (f.m_clear item.1.m_view) = true) = true then 1 else 0))
    (fun st item => submitItem_count_lead k hk ctx f st item g) items (SubmitState.initial k)
  rw [countRenderState, h, viewExtra_eq]
  have ht : (SubmitState.initial k).tracked = Tracked.initial k := rfl
  rw [ht]
  simp only [fieldChanges, viewChanges]
  generalize withPrevious (Tracked.initial k) items = l
  induction l with
  | nil => rfl
  | cons x l ih =>
    simp only [List.map_cons, List.sum_cons, ih, List.countP_cons]
    omega

theorem inGroup_calls_pos (k : Consts) (nf ch : Nat) (g g' : FlagGroup) :
    0 < (g'.calls k nf ch).countP (Call.inGroup g) ↔ g' = g ∧ (g.mask k &&& ch) ≠ 0 := by
  cases g <;> cases g' <;>
    simp only [FlagGroup.calls, FlagGroup.mask, cullCalls, depthWriteCalls, depthTestCalls,
      alphaCalls, writeMaskCalls, blendCalls] <;>
    split_ifs <;>
    simp_all [Call.inGroup, Call.renderState?, FlagGroup.states, List.countP_cons]

/-- The state block issues a call of a group exactly when the group's bits are
among the changed ones. -/
theorem inGroup_stateCalls (k : Consts)
    (hat : k.BGFX_STATE_ALPHA_TEST &&& k.BGFX_STATE_ALPHA_MASK = k.BGFX_STATE_ALPHA_TEST)
    (nf ch : Nat) (g : FlagGroup) :
    0 < (stateCalls k nf ch).countP (Call.inGroup g) ↔ (g.mask k &&& ch) ≠ 0 := by
  rw [stateCalls_eq]
  by_cases hg : (stateGuardMask k &&& ch) ≠ 0
  · rw [if_pos hg]
    simp only [List.countP_append]
    have h1 := inGroup_calls_pos k nf ch g .cull
    have h2 := inGroup_calls_pos k nf ch g .depthWrite
    have h3 := inGroup_calls_pos k nf ch g .depthTest
    have h4 := inGroup_calls_pos k nf ch g .alpha
    have h5 := inGroup_calls_pos k nf ch g .writeMask
    have h6 := inGroup_calls_pos k nf ch g .blend
    by_cases hm : (g.mask k &&& ch) ≠ 0
    · refine ⟨fun _ => hm, fun _ => ?_⟩
      cases g
      · have := h1.mpr ⟨rfl, hm⟩; omega
      · have := h2.mpr ⟨rfl, hm⟩; omega
      · have := h3.mpr ⟨rfl, hm⟩; omega
      · have := h4.mpr ⟨rfl, hm⟩; omega
      · have := h5.mpr ⟨rfl, hm⟩; omega
      · have := h6.mpr ⟨rfl, hm⟩; omega
    · refine ⟨fun hpos => ?_, fun h => absurd h hm⟩
      exfalso
      have n1 : ¬ 0 < (FlagGroup.cull.calls k nf ch).countP (Call.inGroup g) :=
        fun h => hm (h1.mp h).2
      have n2 : ¬ 0 < (FlagGroup.depthWrite.calls k nf ch).countP (Call.inGroup g) :=
        fun h => hm (h2.mp h).2
      have n3 : ¬ 0 < (FlagGroup.depthTest.calls k nf ch).countP (Call.inGroup g) :=
        fun h => hm (h3.mp h).2
      have n4 : ¬ 0 < (FlagGroup.alpha.calls k nf ch).countP (Call.inGroup g) :=
        fun h => hm (h4.mp h).2
      have n5 : ¬ 0 < (FlagGroup.writeMask.calls k nf ch).countP (Call.inGroup g) :=
        fun h => hm (h5.mp h).2
      have n6 : ¬ 0 < (FlagGroup.blend.calls k nf ch).countP (Call.inGroup g) :=
        fun h => hm (h6.mp h).2
      omega
  · rw [if_neg hg]
    have : ¬ (g.mask k &&& ch) ≠ 0 := fun h =>
      hg (and_ne_zero_of_subset _ _ _ (group_subset_guard k hat g) h)
    simp [this]

theorem inGroup_of_noRS (g : FlagGroup) (l : List Call) (h : ∀ c ∈ l, c.renderState? = none) :
    l.countP (Call.inGroup g) = 0 := by
  rw [List.countP_eq_zero]
  intro c hc
  simp [Call.inGroup, h c hc]

/-! ### Program binds -/

theorem mem_of_mem_ite {b : Prop} [Decidable b] {l : List Call} {c : Call}
    (h : c ∈ (if b then l else [])) : c ∈ l := by
  split at h
  · exact h
  · simp at h

theorem clearCalls_noVS (k : Consts) (rect : Rect) (clear : Clear) (p : Call → Bool)
    (hp : ∀ c, p c = true → (c matches .SetVertexShader _) ∨ (c matches .SetPixelShader _)) :
    (clearCalls k rect clear).countP p = 0 := by
  rw [List.countP_eq_zero]
  intro c hc hpc
  have hcases := hp c hpc
  unfold clearCalls at hc
  have hc := mem_of_mem_ite hc
  simp only [List.mem_append] at hc
  rcases hc with (hc | hc) | hc
  · have hc := mem_of_mem_ite hc
    simp only [List.mem_singleton] at hc
    subst hc
    simp at hcases
  · have hc := mem_of_mem_ite hc
    simp only [List.mem_singleton] at hc
    subst hc
    simp at hcases
  · have hc := mem_of_mem_ite hc
    simp only [List.mem_cons, List.mem_singleton, List.not_mem_nil, or_false] at hc
    rcases hc with rfl | rfl | rfl | rfl <;> simp at hcases

theorem viewCalls_noVS (k : Consts) (ctx : RendererContext) (f : Frame) (rt view : Nat)
    (p : Call → Bool)
    (hp : ∀ c, p c = true → (c matches .SetVertexShader _) ∨ (c matches .SetPixelShader _)) :
    (viewCalls k ctx f rt view).countP p = 0 := by
  unfold viewCalls
  simp only [List.countP_append, clearCalls_noVS k _ _ p hp]
  have h1 : List.countP p (if f.m_rt view ≠ rt then ctx.setRenderTarget k (f.m_rt view) else [])
      = 0 := by
    rw [List.countP_eq_zero]
    intro c hc hpc
    have hcases := hp c hpc
    split at hc
    · unfold RendererContext.setRenderTarget at hc
      split at hc <;> simp at hc <;> rcases hc with rfl | rfl <;> simp at hcases
    · simp at hc
  rw [h1]
  rw [List.countP_eq_zero.mpr, List.countP_eq_zero.mpr]
  · intro c hc hpc
    have hcases := hp c hpc
    simp only [List.mem_cons, List.mem_singleton, List.not_mem_nil, or_false] at hc
    rcases hc with rfl | rfl | rfl | rfl | rfl <;> simp at hcases
  · intro c hc hpc
    have hcases := hp c hpc
    simp only [List.mem_singleton] at hc
    subst hc
    simp at hcases

theorem stateCalls_noVS (k : Consts) (nf ch : Nat) (p : Call → Bool)
    (hp : ∀ c, p c = true → (c matches .SetVertexShader _) ∨ (c matches .SetPixelShader _)) :
    (stateCalls k nf ch).countP p = 0 := by
  rw [List.countP_eq_zero]
  intro c hc hpc
  have hcases := hp c hpc
  have hrs : c.renderState? ≠ none := by
    rw [stateCalls_eq] at hc
    split at hc
    · simp only [List.mem_append] at hc
      have hg : ∀ g : FlagGroup, c ∈ g.calls k nf ch → c.renderState? ≠ none := by
        intro g hcg
        cases g <;>
          simp only [FlagGroup.calls, cullCalls, depthWriteCalls, depthTestCalls, alphaCalls,
            writeMaskCalls, blendCalls] at hcg <;>
          split_ifs at hcg <;> simp at hcg <;>
          (try rcases hcg with rfl | rfl | rfl) <;> simp_all [Call.renderState?]
      rcases hc with ((((hc | hc) | hc) | hc) | hc) | hc <;> exact hg _ hc
    · simp at hc
  cases c <;> simp [Call.renderState?] at hrs hcases

theorem setShaderConstantF_noSh (fr : Bool) (loc : Nat) (v : FloatData) (n : Nat) :
    ∀ c ∈ RendererContext.setShaderConstantF fr loc v n, c.isShaderSet = false := by
  intro c hc
  unfold RendererContext.setShaderConstantF at hc
  split at hc <;> simp at hc <;> subst hc <;> rfl

theorem predefinedCalls_noSh (f : Frame) (st : SubmitState) (state : RenderState)
    (p : PredefinedUniform) : ∀ c ∈ predefinedCalls f st state p, c.isShaderSet = false := by
  intro c hc
  unfold predefinedCalls at hc
  split at hc <;> first
    | exact setShaderConstantF_noSh _ _ _ _ c hc
    | simp at hc

theorem uniformCalls_noSh (k : Consts) (ctx : RendererContext) (f : Frame) (st : SubmitState)
    (state : RenderState) (mc cc : Bool) :
    ∀ c ∈ uniformCalls k ctx f st state mc cc, c.isShaderSet = false := by
  intro c hc
  unfold uniformCalls at hc
  split at hc
  · rw [List.mem_append] at hc
    rcases hc with hc | hc
    · split at hc
      · simp at hc; rcases hc with rfl | rfl <;> rfl
      · simp at hc
    · rw [List.mem_flatMap] at hc
      obtain ⟨p, -, hp⟩ := hc
      exact predefinedCalls_noSh f st state p c hp
  · simp at hc

theorem samplerCalls_noSh (k : Consts) (ctx : RendererContext) (cur s : Sampler) (stage : Nat)
    (mc : Bool) : ∀ c ∈ samplerCalls k ctx cur s stage mc, c.isShaderSet = false := by
  intro c hc
  unfold samplerCalls at hc
  split at hc
  · split at hc
    · split at hc
      · simp [Texture.commit] at hc
        rcases hc with rfl | rfl | rfl | rfl | rfl | rfl <;> rfl
      · simp [RenderTarget.commit] at hc
        rcases hc with rfl | rfl | rfl | rfl | rfl | rfl <;> rfl
      · simp at hc
    · simp at hc; subst hc; rfl
  · simp at hc

theorem vertexBufferCalls_noSh (k : Consts) (ctx : RendererContext) (cur state : RenderState)
    (mc : Bool) : ∀ c ∈ vertexBufferCalls k ctx cur state mc, c.isShaderSet = false := by
  intro c hc
  unfold vertexBufferCalls at hc
  split at hc
  · simp only at hc
    split at hc
    · simp at hc; rcases hc with rfl | rfl <;> rfl
    · simp at hc; subst hc; rfl
  · simp at hc

theorem indexBufferCalls_noSh (k : Consts) (ctx : RendererContext) (cur state : RenderState) :
    ∀ c ∈ indexBufferCalls k ctx cur state, c.isShaderSet = false := by
  intro c hc
  unfold indexBufferCalls at hc
  split at hc
  · split at hc <;> simp at hc <;> subst hc <;> rfl
  · simp at hc

theorem drawCalls_noSh (k : Consts) (ctx : RendererContext) (st : SubmitState) (vb : Nat)
    (state : RenderState) : ∀ c ∈ drawCalls k ctx st vb state, c.isShaderSet = false := by
  intro c hc
  unfold drawCalls at hc
  split at hc
  · simp only at hc
    split at hc
    · split at hc
      · simp at hc; subst hc; rfl
      · split at hc
        · simp at hc; subst hc; rfl
        · simp at hc
    · simp at hc; subst hc; rfl
  · simp at hc

theorem countP_eq_zero_of_noSh (p : Call → Bool) (hp : ∀ c, p c = true → c.isShaderSet = true)
    (l : List Call) (h : ∀ c ∈ l, c.isShaderSet = false) : l.countP p = 0 := by
  rw [List.countP_eq_zero]
  intro c hc hpc
  have := hp c hpc
  rw [h c hc] at this
  exact Bool.noConfusion this

/-- One pass binds a program exactly when the item's material differs from the
tracked one, the tracked one being "none" right after a view change. -/
theorem submitItem_count_binds (k : Consts) (ctx : RendererContext) (f : Frame) (st : SubmitState)
    (item : SortKey × RenderState) :
    countVertexShaderSets (submitItem k ctx f st item).2
        = (if item.1.m_material ≠
              (if item.1.m_view ≠ st.tracked.view then k.invalidHandle else st.tracked.material)
            then 1 else 0)
    ∧ countPixelShaderSets (submitItem k ctx f st item).2
        = (if item.1.m_material ≠
              (if item.1.m_view ≠ st.tracked.view then k.invalidHandle else st.tracked.material)
            then 1 else 0) := by
  have key : ∀ (p : Call → Bool),
      (∀ c, p c = true → (c matches .SetVertexShader _) ∨ (c matches .SetPixelShader _)) →
      (∀ m, (bindCalls k ctx m).countP p = 1) →
      (submitItem k ctx f st item).2.countP p
        = (if item.1.m_material ≠
              (if item.1.m_view ≠ st.tracked.view then k.invalidHandle else st.tracked.material)
            then 1 else 0) := by
    intro p hp hbind
    have hp2 : ∀ c, p c = true → c.isShaderSet = true := by
      intro c hc
      rcases hp c hc with h | h <;> cases c <;> simp [Call.isShaderSet] at h ⊢
    have z := countP_eq_zero_of_noSh p hp2
    have hu : p (Call.rendererUpdateUniforms item.2.m_constBegin item.2.m_constEnd) = false := by
      cases hpu : p (Call.rendererUpdateUniforms item.2.m_constBegin item.2.m_constEnd)
      · rfl
      · have := hp2 _ hpu
        simp [Call.isShaderSet] at this
    have h1 : List.countP p
        (if item.1.m_view ≠ st.view then viewCalls k ctx f st.rt item.1.m_view else []) = 0 := by
      split
      · exact viewCalls_noVS k ctx f _ _ p hp
      · rfl
    have hU : ∀ (st' : SubmitState) (mc cc : Bool),
        List.countP p (uniformCalls k ctx f st' item.2 mc cc) = 0 :=
      fun _ _ _ => z _ (uniformCalls_noSh _ _ _ _ _ _ _)
    have hV : ∀ (cur : RenderState) (mc : Bool),
        List.countP p (vertexBufferCalls k ctx cur item.2 mc) = 0 :=
      fun _ _ => z _ (vertexBufferCalls_noSh _ _ _ _ _)
    have hI : ∀ (cur : RenderState), List.countP p (indexBufferCalls k ctx cur item.2) = 0 :=
      fun _ => z _ (indexBufferCalls_noSh _ _ _ _)
    have hD : ∀ (st' : SubmitState) (vb : Nat), List.countP p (drawCalls k ctx st' vb item.2) = 0 :=
      fun _ _ => z _ (drawCalls_noSh _ _ _ _ _)
    have hS : ∀ (cur : Nat → Sampler) (mc : Bool), List.countP p
        ((List.range k.BGFX_STATE_TEX_COUNT).flatMap fun stage =>
          samplerCalls k ctx (cur stage) (item.2.m_sampler stage) stage mc) = 0 := by
      intro cur mc
      apply z
      intro c hc
      rw [List.mem_flatMap] at hc
      obtain ⟨stage, -, hs⟩ := hc
      exact samplerCalls_noSh _ _ _ _ _ _ c hs
    have hB : ∀ (b : Bool),
        List.countP p (if b = true then bindCalls k ctx item.1.m_material else [])
          = if b = true then 1 else 0 := by
      intro b
      cases b
      · rfl
      · simp [hbind]
    unfold submitItem submitItemDraw
    simp only [List.countP_append, List.countP_cons, h1, stateCalls_noVS k _ _ p hp, hU, hV, hI,
      hD, hS, hB, hu, SubmitState.tracked]
    simp
  constructor
  · apply key
    · intro c hc; exact Or.inl hc
    · intro m; unfold bindCalls; split <;> rfl
  · apply key
    · intro c hc; exact Or.inr hc
    · intro m; unfold bindCalls; split <;> rfl

theorem binds_runs (k : Consts) : ∀ (items : List (SortKey × RenderState)) (t : Tracked)
    (prevRun : Option (Nat × Nat)) (prevView : Option Nat),
    ((prevRun = none ∧ prevView = none ∧ t.material = k.invalidHandle)
      ∨ (prevRun = some (t.view, t.material) ∧ prevView = some t.view)) →
    ((withPrevious t items).map (fun pr => bindsAt k pr.1 pr.2)).sum + unboundStarts k prevView items
      = countRuns prevRun items := by
  intro items
  induction items with
  | nil => intro t prevRun prevView _; rfl
  | cons item rest ih =>
    intro t prevRun prevView hR
    have hrec := ih (trackedOf item) (some (item.1.m_view, item.1.m_material))
      (some item.1.m_view) (Or.inr ⟨rfl, rfl⟩)
    simp only [withPrevious, List.map_cons, List.zip_cons_cons, List.sum_cons, unboundStarts,
      countRuns] at hrec ⊢
    have hstep : bindsAt k t item
        + (if prevView ≠ some item.1.m_view ∧ item.1.m_material = k.invalidHandle then 1 else 0)
        = (if prevRun = some (item.1.m_view, item.1.m_material) then 0 else 1) := by
      rcases hR with ⟨h1, h2, h3⟩ | ⟨h1, h2⟩
      · subst h1 h2
        by_cases hm : item.1.m_material = k.invalidHandle <;>
          by_cases hv : item.1.m_view = t.view <;> simp [bindsAt, hm, hv, h3]
      · subst h1 h2
        by_cases hv : item.1.m_view = t.view
        · by_cases hm : item.1.m_material = t.material
          · simp [bindsAt, hv, hm]
          · have hm2 : ¬ t.material = item.1.m_material := fun e => hm e.symm
            simp [bindsAt, hv, hm, hm2]
        · have hv2 : ¬ t.view = item.1.m_view := fun e => hv e.symm
          by_cases hm : item.1.m_material = k.invalidHandle <;> simp [bindsAt, hv, hv2, hm]
    omega

theorem submitLoop_binds (k : Consts) (ctx : RendererContext) (f : Frame)
    (items : List (SortKey × RenderState)) :
    countVertexShaderSets (submitLoop k ctx f (SubmitState.initial k) items).2
        + unboundStarts k none items = materialRuns items
    ∧ countPixelShaderSets (submitLoop k ctx f (SubmitState.initial k) items).2
        = countVertexShaderSets (submitLoop k ctx f (SubmitState.initial k) items).2 := by
  have hv := submitLoop_countP k ctx f (fun c => c matches .SetVertexShader _) (bindsAt k)
    (fun st item => (submitItem_count_binds k ctx f st item).1) items (SubmitState.initial k)
  have hp := submitLoop_countP k ctx f (fun c => c matches .SetPixelShader _) (bindsAt k)
    (fun st item => (submitItem_count_binds k ctx f st item).2) items (SubmitState.initial k)
  have hr := binds_runs k items (SubmitState.initial k).tracked none none
    (Or.inl ⟨rfl, rfl, rfl⟩)
  constructor
  · rw [countVertexShaderSets, hv]
    exact hr
  · rw [countPixelShaderSets, countVertexShaderSets, hv, hp]

theorem countRuns_two (v a b : Nat) (hab : a ≠ b) :
    ∀ (l1 l2 : List (SortKey × RenderState)) (prev : Option (Nat × Nat)),
      (∀ i ∈ l1, i.1 = ⟨v, a⟩) → (∀ i ∈ l2, i.1 = ⟨v, b⟩) → l2 ≠ [] →
      (l1 = [] → prev = some (v, a)) →
      countRuns prev (l1 ++ l2) = (if prev = some (v, a) then 0 else 1) + 1 := by
  intro l1
  induction l1 with
  | nil =>
    intro l2 prev _ h2 hne hprev
    have hp := hprev rfl
    subst hp
    induction l2 with
    | nil => exact absurd rfl hne
    | cons x l2 ih2 =>
      have hx := h2 x (List.mem_cons_self _ _)
      have hrest : ∀ (l : List (SortKey × RenderState)), (∀ i ∈ l, i.1 = ⟨v, b⟩) →
          countRuns (some (v, b)) l = 0 := by
        intro l
        induction l with
        | nil => intro _; rfl
        | cons y l ihl =>
          intro hl
          have hy := hl y (List.mem_cons_self _ _)
          simp only [countRuns, hy, if_true, Nat.zero_add]
          exact ihl (fun i hi => hl i (List.mem_cons_of_mem _ hi))
      simp only [List.nil_append, countRuns, hx, if_true, Nat.zero_add]
      rw [hrest l2 (fun i hi => h2 i (List.mem_cons_of_mem _ hi))]
      simp [hab]
  | cons x l1 ih =>
    intro l2 prev h1 h2 hne _
    have hx := h1 x (List.mem_cons_self _ _)
    have hrec := ih l2 (some (v, a)) (fun i hi => h1 i (List.mem_cons_of_mem _ hi)) h2 hne
      (fun _ => rfl)
    simp only [if_true] at hrec
    have hrec2 : countRuns (some (v, a)) (l1.append l2) = 1 := by
      have : l1.append l2 = l1 ++ l2 := rfl
      rw [this, hrec]
    simp only [List.cons_append, countRuns, hx, hrec2]

theorem unboundStarts_valid (k : Consts) : ∀ (items : List (SortKey × RenderState))
    (prev : Option Nat), (∀ i ∈ items, i.1.m_material ≠ k.invalidHandle) →
    unboundStarts k prev items = 0 := by
  intro items
  induction items with
  | nil => intro _ _; rfl
  | cons x l ih =>
    intro prev h
    have hx := h x (List.mem_cons_self _ _)
    simp only [unboundStarts, hx, and_false, if_false, Nat.zero_add]
    exact ih _ (fun i hi => h i (List.mem_cons_of_mem _ hi))

/-! ## The claims -/

/-- C1: for every sequence of uniform writes appended to an empty constant
buffer and sealed with `finish()`, `ConstantBuffer::commit` returns, having
issued exactly one native set-shader-constant call per write, in write order,
each for the written stage, register file, location and count, with the
written data (inline payload bytes addressed in place, or the stored
reference); every write is consumed where the previous one ended, and the
cursor stops right behind the End opcode, at the end of the stream. -/
theorem commit_roundtrip (c : ConstantCodec) (ws : List UniformWrite) (force : Bool)
    (hw : WellFormedWrites c ws) :
    (sealedStream c ws).m_buffer = ws.flatMap (UniformWrite.bytes c) ++ toBytes32 c.End
    ∧ (sealedStream c ws).commit c force
        = some (⟨(sealedStream c ws).m_buffer, (sealedStream c ws).m_buffer.length⟩,
                expectedCalls c 0 ws)
    ∧ (expectedCalls c 0 ws).length = ws.length
    ∧ (expectedCalls c 0 ws).map (ShaderConstantCall.resolve (sealedStream c ws))
        = ws.map UniformWrite.applied := by
  have hbuf := sealedStream_buffer c ws
  exact ⟨hbuf, sealedStream_commit c ws force hw, expectedCalls_length c ws 0,
    expectedCalls_resolve c ws [] (toBytes32 c.End) (sealedStream c ws).m_buffer
      (sealedStream c ws).m_pos hw.width (by simpa using hbuf)⟩

/-- Witness for C1 on the sample codec and the sample write sequence. -/
theorem commit_roundtrip_witness :
    WellFormedWrites sampleCodec sampleWrites
    ∧ (sealedStream sampleCodec sampleWrites).commit sampleCodec true
        = some (⟨(sealedStream sampleCodec sampleWrites).m_buffer,
                 (sealedStream sampleCodec sampleWrites).m_buffer.length⟩,
                expectedCalls sampleCodec 0 sampleWrites) :=
  ⟨sampleWrites_wellFormed,
   (commit_roundtrip sampleCodec sampleWrites true sampleWrites_wellFormed).2.1⟩

/-- C2: for every constant-buffer stream whose replay reaches the End opcode
and every pair of force arguments, `commit(f1)` followed by `commit(f2)`
issues the same sequence of native set-shader-constant calls both times and
leaves the stream bytes unchanged; in particular both calls return, with the
same calls, on every stream sealed by `finish()` after well-formed writes. -/
theorem commit_replay_idempotent (c : ConstantCodec) (f1 f2 : Bool) :
    (∀ (cb cb1 : ConstantBuffer) (calls : List ShaderConstantCall),
        cb.commit c f1 = some (cb1, calls) →
        cb1.m_buffer = cb.m_buffer ∧ cb1.commit c f2 = some (cb1, calls))
    ∧ (∀ ws : List UniformWrite, WellFormedWrites c ws →
        ∃ cb1 calls, (sealedStream c ws).commit c f1 = some (cb1, calls)
          ∧ cb1.commit c f2 = some (cb1, calls)
          ∧ cb1.m_buffer = (sealedStream c ws).m_buffer) := by
  refine ⟨fun cb cb1 calls h => commit_twice c cb cb1 f1 f2 calls h, ?_⟩
  intro ws hw
  have h := sealedStream_commit c ws f1 hw
  exact ⟨_, _, h, (commit_twice c _ _ f1 f2 _ h).2, rfl⟩

/-- Witness for C2 on the sealed sample stream. -/
theorem commit_replay_idempotent_witness :
    WellFormedWrites sampleCodec sampleWrites
    ∧ ∃ cb1 calls, (sealedStream sampleCodec sampleWrites).commit sampleCodec true = some (cb1, calls)
        ∧ cb1.commit sampleCodec false = some (cb1, calls)
        ∧ cb1.m_buffer = (sealedStream sampleCodec sampleWrites).m_buffer :=
  ⟨sampleWrites_wellFormed,
   (commit_replay_idempotent sampleCodec true false).2 sampleWrites sampleWrites_wellFormed⟩

/-- Counterexample to C3 as stated: a frame of one draw item in view 0 whose
cull field is "none", the baseline value. The claimed count is 0 (no position
differs from a preceding item, and the first item of the view does not differ
from the baseline); the loop issues two set-cull-mode calls, the baseline one
of the view change and the forced re-application of the state block. -/
theorem cull_calls_single_item :
    claimedStateCalls sampleConsts.BGFX_STATE_CULL_MASK 0 [sampleItem 0 1 0] = 0
    ∧ countRenderState .D3DRS_CULLMODE
        (rendererSubmitItems sampleConsts sampleContext (sampleFrame [sampleItem 0 1 0])) = 2 := by
  decide

/-- C3 (amended): for every sorted draw-item sequence processed by
`Context::rendererSubmit`, the number of emitted calls of a state category
(counted by the render state the category sets once per application: cull
mode, depth write enable, depth enable, alpha reference, colour write mask,
blend enable) equals the number of positions that stay in the view of the
item before and whose packed field of that category differs from that item's,
plus one forced re-application for every view-boundary transition, whatever
the first item's value, plus the calls of the view change itself: the
baseline value (cull mode, depth enable, blend enable) at every transition,
or the preparation of the clear (depth write for a depth clear, write mask
for a colour clear). For cull mode this is the number of changes inside views
plus two per view-boundary transition. -/
theorem state_calls_count (k : Consts) (ctx : RendererContext) (f : Frame)
    (hk : k.StateMasksOk) (hifh : 0 = (f.m_debug &&& k.BGFX_DEBUG_IFH)) :
    (∀ g : FlagGroup,
        countRenderState g.lead (rendererSubmitItems k ctx f)
          = fieldChanges k (g.mask k) f.items + viewChanges k f.items + g.viewExtra k f f.items)
    ∧ countRenderState .D3DRS_CULLMODE (rendererSubmitItems k ctx f)
        = fieldChanges k k.BGFX_STATE_CULL_MASK f.items + 2 * viewChanges k f.items := by
  have h : ∀ g : FlagGroup,
      countRenderState g.lead (rendererSubmitItems k ctx f)
        = fieldChanges k (g.mask k) f.items + viewChanges k f.items + g.viewExtra k f f.items := by
    intro g
    rw [rendererSubmitItems, if_pos hifh]
    exact submitLoop_count_lead k hk ctx f g f.items
  refine ⟨h, ?_⟩
  have hc := h .cull
  simp only [FlagGroup.lead, FlagGroup.mask, FlagGroup.viewExtra] at hc
  omega

/-- Witness for C3 (amended): three items, the second changing the cull mode
inside view 0, the third opening view 1. -/
theorem state_calls_count_witness :
    sampleConsts.StateMasksOk
    ∧ countRenderState .D3DRS_CULLMODE
        (rendererSubmitItems sampleConsts sampleContext
          (sampleFrame [sampleItem 0 1 0, sampleItem 0 1 0x10, sampleItem 1 1 0x10]))
      = fieldChanges sampleConsts sampleConsts.BGFX_STATE_CULL_MASK
          (sampleFrame [sampleItem 0 1 0, sampleItem 0 1 0x10, sampleItem 1 1 0x10]).items
        + 2 * viewChanges sampleConsts
          (sampleFrame [sampleItem 0 1 0, sampleItem 0 1 0x10, sampleItem 1 1 0x10]).items :=
  have hk : sampleConsts.StateMasksOk := ⟨by intro g; cases g <;> decide, by decide⟩
  ⟨hk, (state_calls_count sampleConsts sampleContext
    (sampleFrame [sampleItem 0 1 0, sampleItem 0 1 0x10, sampleItem 1 1 0x10]) hk
    (by decide)).2⟩

/-- C4: for every item of `Context::rendererSubmit` that is in the same view
as its predecessor, the native render-state calls of a flag group (cull mode;
depth write; depth test; alpha test/ref; colour/alpha write mask; blend) are
emitted if and only if that group's bits differ between the item's flags and
the predecessor's flags; an item with flags identical to its predecessor's
emits no render-state call. -/
theorem state_diff_same_view (k : Consts) (ctx : RendererContext) (f : Frame)
    (hat : k.BGFX_STATE_ALPHA_TEST &&& k.BGFX_STATE_ALPHA_MASK = k.BGFX_STATE_ALPHA_TEST)
    (st0 : SubmitState) (pred item : SortKey × RenderState)
    (hview : item.1.m_view = pred.1.m_view) :
    (∀ g : FlagGroup,
        (∃ c ∈ (submitItem k ctx f (submitItem k ctx f st0 pred).1 item).2, c.inGroup g = true)
          ↔ (pred.2.m_flags &&& g.mask k) ≠ (item.2.m_flags &&& g.mask k))
    ∧ (item.2.m_flags = pred.2.m_flags →
        ∀ c ∈ (submitItem k ctx f (submitItem k ctx f st0 pred).1 item).2,
          c.renderState? = none) := by
  have ht := submitItem_tracked k ctx f st0 pred
  have hv : ¬ item.1.m_view ≠ (submitItem k ctx f st0 pred).1.view := by
    have : (submitItem k ctx f st0 pred).1.view = pred.1.m_view := congrArg Tracked.view ht
    rw [this]
    exact fun h => h hview
  have hfl : (submitItem k ctx f st0 pred).1.currentState.m_flags = pred.2.m_flags :=
    congrArg Tracked.flags ht
  obtain ⟨rest, hrest, heq⟩ := submitItem_calls k ctx f (submitItem k ctx f st0 pred).1 item
  rw [if_neg hv, if_neg hv, hfl] at heq
  rw [heq]
  constructor
  · intro g
    rw [← List.countP_pos_iff, List.nil_append, List.countP_append, inGroup_of_noRS g rest hrest,
      Nat.add_zero, inGroup_stateCalls k hat]
    exact not_congr (and_xor_eq_zero_iff _ _ _)
  · intro hsame c hc
    rw [hsame, Nat.xor_self] at hc
    simp only [List.nil_append, stateCalls, Nat.and_zero, ne_eq, not_true_eq_false, if_false,
      List.mem_append, List.not_mem_nil, false_or] at hc
    exact hrest c hc

/-- Witness for C4: the second item changes the cull mode only. -/
theorem state_diff_same_view_witness :
    ((∃ c ∈ (submitItem sampleConsts sampleContext (sampleFrame [])
          (submitItem sampleConsts sampleContext (sampleFrame [])
            (SubmitState.initial sampleConsts) (sampleItem 0 1 0)).1 (sampleItem 0 1 0x10)).2,
        c.inGroup .cull = true)
      ↔ ((sampleItem 0 1 0).2.m_flags &&& FlagGroup.cull.mask sampleConsts)
          ≠ ((sampleItem 0 1 0x10).2.m_flags &&& FlagGroup.cull.mask sampleConsts))
    ∧ ((sampleItem 0 1 0).2.m_flags &&& FlagGroup.cull.mask sampleConsts)
          ≠ ((sampleItem 0 1 0x10).2.m_flags &&& FlagGroup.cull.mask sampleConsts) :=
  ⟨(state_diff_same_view sampleConsts sampleContext (sampleFrame []) (by decide)
      (SubmitState.initial sampleConsts) (sampleItem 0 1 0) (sampleItem 0 1 0x10) rfl).1 .cull,
   by decide⟩

/-- Counterexample to C5 as stated: a frame of one draw item whose material is
the invalid handle. The item is one maximal run, but the loop, which tracks
"no material" at the start of a view, binds no program for it. -/
theorem binds_invalid_material :
    materialRuns [sampleItem 0 0xffff 0] = 1
    ∧ countVertexShaderSets
        (rendererSubmitItems sampleConsts sampleContext (sampleFrame [sampleItem 0 0xffff 0])) = 0
    ∧ countPixelShaderSets
        (rendererSubmitItems sampleConsts sampleContext (sampleFrame [sampleItem 0 0xffff 0])) = 0 := by
  decide

/-- C5 (amended): for every sorted draw-item sequence in which no item that
opens a view (the first item of the frame, or an item whose view differs from
that of the item before) carries the invalid material handle, the number of
program binds (one vertex-shader set plus one pixel-shader set) emitted by
the draw-item loop of `Context::rendererSubmit` equals the number of maximal
runs of consecutive sorted items that share the same (view, material); in
particular this holds when every item has a valid material, and for items of
one view forming two contiguous runs of two different valid materials (such
as 100 items, fifty of each) it is exactly 2. -/
theorem binds_per_run (k : Consts) (ctx : RendererContext) (f : Frame)
    (hifh : 0 = (f.m_debug &&& k.BGFX_DEBUG_IFH))
    (hstart : unboundStarts k none f.items = 0) :
    countVertexShaderSets (rendererSubmitItems k ctx f) = materialRuns f.items
    ∧ countPixelShaderSets (rendererSubmitItems k ctx f) = materialRuns f.items
    ∧ ((∀ i ∈ f.items, i.1.m_material ≠ k.invalidHandle) → unboundStarts k none f.items = 0)
    ∧ (∀ (v a b : Nat) (l1 l2 : List (SortKey × RenderState)), a ≠ b →
        f.items = l1 ++ l2 → l1 ≠ [] → l2 ≠ [] →
        (∀ i ∈ l1, i.1 = ⟨v, a⟩) → (∀ i ∈ l2, i.1 = ⟨v, b⟩) →
        countVertexShaderSets (rendererSubmitItems k ctx f) = 2
          ∧ countPixelShaderSets (rendererSubmitItems k ctx f) = 2) := by
  have h := submitLoop_binds k ctx f f.items
  have hv : countVertexShaderSets (rendererSubmitItems k ctx f) = materialRuns f.items := by
    rw [rendererSubmitItems, if_pos hifh]
    have := h.1
    omega
  have hp : countPixelShaderSets (rendererSubmitItems k ctx f) = materialRuns f.items := by
    rw [← hv, rendererSubmitItems, if_pos hifh]
    exact h.2
  refine ⟨hv, hp, unboundStarts_valid k f.items none, ?_⟩
  intro v a b l1 l2 hab hitems hl1 hl2 h1 h2
  have hruns : materialRuns f.items = 2 := by
    rw [materialRuns, hitems, countRuns_two v a b hab l1 l2 none h1 h2 hl2
      (fun e => absurd e hl1)]
    simp
  exact ⟨hv.trans hruns, hp.trans hruns⟩

/-- Witness for C5 (amended): one hundred items of view 0, fifty of material 1
followed by fifty of material 2, take exactly two program binds. -/
theorem binds_per_run_witness :
    countVertexShaderSets (rendererSubmitItems sampleConsts sampleContext (sampleFrame hundredItems))
      = 2
    ∧ countPixelShaderSets (rendererSubmitItems sampleConsts sampleContext (sampleFrame hundredItems))
      = 2 :=
  (binds_per_run sampleConsts sampleContext (sampleFrame hundredItems) (by decide)
    (unboundStarts_valid sampleConsts hundredItems none (by
      intro i hi
      simp only [hundredItems, List.mem_append, List.mem_replicate] at hi
      rcases hi with ⟨-, rfl⟩ | ⟨-, rfl⟩ <;> decide))).2.2.2 0 1 2
    (List.replicate 50 (sampleItem 0 1 0)) (List.replicate 50 (sampleItem 0 2 0))
    (by decide) rfl (by simp [List.replicate_succ]) (by simp [List.replicate_succ])
    (by intro i hi; rw [List.eq_of_mem_replicate hi]; rfl)
    (by intro i hi; rw [List.eq_of_mem_replicate hi]; rfl)

/-- C6: if the requested width, height and reset flags all equal the values
stored in the renderer context, `RendererContext::updateResolution` issues no
call at all (the call trace is empty: no `preReset`, no device `Reset`, no
`postReset`) and leaves the context and the device as they were. -/
theorem updateResolution_noop (k : Consts) (d : Device) (ctx : RendererContext)
    (res : Resolution) (hw : ctx.m_params.BackBufferWidth = res.m_width)
    (hh : ctx.m_params.BackBufferHeight = res.m_height) (hf : ctx.m_flags = res.m_flags) :
    ctx.updateResolution k d res = (d, ctx, []) := by
  simp [RendererContext.updateResolution, hw, hh, hf]

/-- Witness for C6: the sample context asked for its own 1280x720 size and
flags. -/
theorem updateResolution_noop_witness :
    sampleContext.updateResolution sampleConsts (sampleDevice []) ⟨1280, 720, 0⟩
      = (sampleDevice [], sampleContext, []) :=
  updateResolution_noop sampleConsts (sampleDevice []) sampleContext ⟨1280, 720, 0⟩ rfl rfl rfl

/-- C7: if the requested width, height or flags differ from the stored ones
(and the multisample level of the flags names an entry `msaa` of `s_msaa`),
`RendererContext::updateResolution` stores the new width, height and flags,
sets the refresh rate to 60 exactly when the fullscreen field of the flags
equals `BGFX_RESET_FULLSCREEN` and to 0 otherwise, the present interval to
"one" exactly when the vsync bit is set and to "immediate" otherwise, the
multisample type to `msaa` when the device reports it supported and to "none"
otherwise, and then runs `preReset`, the native `Reset` (with the new
parameters) and `postReset` exactly once each, in that order. -/
theorem updateResolution_reset (k : Consts) (d : Device) (ctx : RendererContext)
    (res : Resolution) (msaa : D3DMULTISAMPLE_TYPE)
    (hne : ctx.m_params.BackBufferWidth ≠ res.m_width
      ∨ ctx.m_params.BackBufferHeight ≠ res.m_height ∨ ctx.m_flags ≠ res.m_flags)
    (hlevel : s_msaa[(res.m_flags &&& k.BGFX_RESET_MSAA_MASK) >>> k.BGFX_RESET_MSAA_SHIFT]?
      = some msaa) :
    (ctx.updateResolution k d res).2.1.m_params.BackBufferWidth = res.m_width
    ∧ (ctx.updateResolution k d res).2.1.m_params.BackBufferHeight = res.m_height
    ∧ (ctx.updateResolution k d res).2.1.m_flags = res.m_flags
    ∧ (ctx.updateResolution k d res).2.1.m_params.FullScreen_RefreshRateInHz
        = (if k.BGFX_RESET_FULLSCREEN = (res.m_flags &&& k.BGFX_RESET_FULLSCREEN_MASK) then 60
           else 0)
    ∧ (ctx.updateResolution k d res).2.1.m_params.PresentationInterval
        = (if (res.m_flags &&& k.BGFX_RESET_VSYNC) ≠ 0 then .D3DPRESENT_INTERVAL_ONE
           else .D3DPRESENT_INTERVAL_IMMEDIATE)
    ∧ (ctx.updateResolution k d res).2.1.m_params.MultiSampleType
        = some (if SUCCEEDED (d.checkDeviceMultiSampleType d.displayFormat ctx.m_params.Windowed
                  (some msaa)) then msaa
                else .D3DMULTISAMPLE_NONE)
    ∧ (ctx.updateResolution k d res).2.2.filter Call.isProtocolStep
        = [Call.enter .preReset, Call.Reset (ctx.updateResolution k d res).2.1.m_params,
           Call.enter .postReset] := by
  unfold RendererContext.updateResolution
  rw [if_pos hne]
  simp only [hlevel]
  refine ⟨rfl, rfl, rfl, rfl, rfl, ?_, ?_⟩
  · show (if _ then _ else _) = _
    split <;> rfl
  · rw [List.filter_append, List.filter_append, List.filter_append, preReset_protocol,
      postReset_protocol]
    rfl

/-- Witness for C7: the sample context asked for 1920x1080, fullscreen, vsync
and 4 samples. -/
theorem updateResolution_reset_witness :
    (sampleContext.updateResolution sampleConsts (sampleDevice []) ⟨1920, 1080, 0xa1⟩).2.1.m_params
      = { sampleContext.m_params with
            BackBufferWidth := 1920, BackBufferHeight := 1080, FullScreen_RefreshRateInHz := 60,
            PresentationInterval := .D3DPRESENT_INTERVAL_ONE,
            MultiSampleType := some .D3DMULTISAMPLE_4_SAMPLES }
    ∧ (sampleContext.updateResolution sampleConsts (sampleDevice []) ⟨1920, 1080, 0xa1⟩).2.2.filter
        Call.isProtocolStep
        = [Call.enter .preReset,
           Call.Reset (sampleContext.updateResolution sampleConsts (sampleDevice [])
             ⟨1920, 1080, 0xa1⟩).2.1.m_params,
           Call.enter .postReset] :=
  ⟨by decide,
   (updateResolution_reset sampleConsts (sampleDevice []) sampleContext ⟨1920, 1080, 0xa1⟩
      .D3DMULTISAMPLE_4_SAMPLES (Or.inl (by decide)) (by decide)).2.2.2.2.2.2⟩

/-- C8: with a device present, `RendererContext::isLost` is true exactly for
device-lost, driver-internal-error, device-hung and device-removed; for every
other present result, successful or failed, `flip` returns having issued
nothing but (the optional wait for vertical blank and) `Present`; and for
every call of `flip` that returns, the trace contains a status poll or a step
of the reset protocol if and only if the present result is one of the four
codes, in which case it contains the poll, `preReset`, `Reset` and
`postReset`. -/
theorem flip_reset_iff_lost (k : Consts) (d : Device) (ctx : RendererContext) (dev : Ptr)
    (hr : HRESULT) (rest : List HRESULT) (h9 : k.D3D_DISABLE_9EX = false)
    (hdev : ctx.m_device = some dev) (hres : d.results = hr :: rest) :
    (RendererContext.isLost k hr = true ↔
        hr = D3DERR_DEVICELOST ∨ hr = D3DERR_DRIVERINTERNALERROR ∨ hr = D3DERR_DEVICEHUNG
          ∨ hr = D3DERR_DEVICEREMOVED)
    ∧ (RendererContext.isLost k hr = false →
        ctx.flip k d = some ({ d with results := rest }, ctx,
          (if k.BGFX_CONFIG_RENDERER_DIRECT3D_EX then [Call.WaitForVBlank] else [])
            ++ [Call.Present]))
    ∧ (∀ d2 ctx2 calls, ctx.flip k d = some (d2, ctx2, calls) →
        ((Call.TestCooperativeLevel ∈ calls ∨ ∃ c ∈ calls, c.isProtocolStep = true)
            ↔ RendererContext.isLost k hr = true)
        ∧ (RendererContext.isLost k hr = true →
            Call.TestCooperativeLevel ∈ calls
              ∧ 1 ≤ calls.count (Call.enter .preReset)
              ∧ Call.Reset ctx.m_params ∈ calls
              ∧ 1 ≤ calls.count (Call.enter .postReset))) := by
  refine ⟨isLost_iff k h9 hr, ?_, ?_⟩
  · intro hl
    simp [RendererContext.flip, hdev, hres, hl]
  · intro d2 ctx2 calls hflip
    simp only [RendererContext.flip, hdev, hres] at hflip
    by_cases hl : RendererContext.isLost k hr = true
    · simp only [hl, if_true] at hflip
      split at hflip
      · simp at hflip
      · rename_i d3 ctx3 calls3 hrec
        simp only [Option.some.injEq, Prod.mk.injEq] at hflip
        obtain ⟨-, -, rfl⟩ := hflip
        have hc := recoverLoop_counts k _ _ _ _ _ _ hrec
        have hrs := recoverLoop_hasReset k _ _ _ _ _ _ hrec
        have hpre : 1 ≤ (((if k.BGFX_CONFIG_RENDERER_DIRECT3D_EX then [Call.WaitForVBlank] else [])
            ++ Call.Present :: calls3).count (Call.enter .preReset)) := by
          simp only [List.count_append, List.count_cons]
          simp
          omega
        have hpost : 1 ≤ (((if k.BGFX_CONFIG_RENDERER_DIRECT3D_EX then [Call.WaitForVBlank]
            else []) ++ Call.Present :: calls3).count (Call.enter .postReset)) := by
          simp only [List.count_append, List.count_cons]
          simp
          omega
        have htcl : Call.TestCooperativeLevel ∈
            (if k.BGFX_CONFIG_RENDERER_DIRECT3D_EX then [Call.WaitForVBlank] else [])
              ++ Call.Present :: calls3 := by
          simp [hc.1]
        exact ⟨⟨fun _ => hl, fun _ => Or.inl htcl⟩, fun _ => ⟨htcl, hpre, by simp [hrs], hpost⟩⟩
    · simp only [hl] at hflip
      simp only [Bool.false_eq_true, if_false, Option.some.injEq, Prod.mk.injEq] at hflip
      obtain ⟨-, -, rfl⟩ := hflip
      refine ⟨⟨?_, fun h => absurd h hl⟩, fun h => absurd h hl⟩
      intro h
      exfalso
      rcases h with h | ⟨c, hc, hp⟩
      · cases hex : k.BGFX_CONFIG_RENDERER_DIRECT3D_EX <;> simp [hex] at h
      · cases hex : k.BGFX_CONFIG_RENDERER_DIRECT3D_EX <;> simp [hex] at hc
        · subst hc; simp [Call.isProtocolStep] at hp
        · rcases hc with rfl | rfl <;> simp [Call.isProtocolStep] at hp

/-- Witness for C8: a present that fails with a code that is not a loss
(`D3DERR_INVALIDCALL`) makes `flip` return after `Present` alone. -/
theorem flip_reset_iff_lost_witness :
    RendererContext.isLost sampleConsts D3DERR_INVALIDCALL = false
    ∧ sampleContext.flip sampleConsts (sampleDevice [D3DERR_INVALIDCALL])
        = some ({ sampleDevice [D3DERR_INVALIDCALL] with results := [] }, sampleContext,
            [Call.Present]) :=
  ⟨by decide,
   (flip_reset_iff_lost sampleConsts (sampleDevice [D3DERR_INVALIDCALL]) sampleContext 2
      D3DERR_INVALIDCALL [] rfl rfl rfl).2.1 (by decide)⟩

/-- Counterexample to C9 as stated: the present reports device-lost, the
device becomes ready, the reset succeeds, but the status check behind the
reset fails once (device lost again); `flip` returns after the reset protocol
has run twice. -/
theorem flip_reset_twice :
    RendererContext.isLost sampleConsts D3DERR_DEVICELOST = true
    ∧ (sampleContext.flip sampleConsts
        (sampleDevice [D3DERR_DEVICELOST, D3DERR_DEVICENOTRESET, D3D_OK, D3DERR_DEVICELOST,
          D3DERR_DEVICENOTRESET, D3D_OK, D3D_OK])).map
        (fun r => (r.2.2.count (Call.enter .preReset), r.2.2.countP (fun c => c matches .Reset _),
          r.2.2.count (Call.enter .postReset), r.1.results))
      = some (2, 2, 2, []) := by
  decide

/-- C9 (amended): for every call of `flip` with a device whose present result
is classified as lost, if the call returns then the reset protocol has run at
least once, `preReset` as often as `postReset`; and whenever the device
results after the present are those of `n + 1` passes of the recovery loop
(the status check behind the reset failing in the first `n` passes and
succeeding in the last), `flip` returns having consumed exactly these
results, and the protocol steps of the call are, pass by pass, one `preReset`,
the `Reset` attempts up to the first that succeeds, and one `postReset`: the
protocol has run exactly `n + 1` times, hence exactly once precisely when the
first status check behind a reset succeeds. -/
theorem flip_reset_per_pass (k : Consts) (d : Device) (ctx : RendererContext) (dev : Ptr)
    (hr : HRESULT) (rest : List HRESULT) (hdev : ctx.m_device = some dev)
    (hlost : RendererContext.isLost k hr = true) (hres : d.results = hr :: rest) :
    (∀ d2 ctx2 calls, ctx.flip k d = some (d2, ctx2, calls) →
        1 ≤ calls.count (Call.enter .preReset)
          ∧ calls.count (Call.enter .preReset) = calls.count (Call.enter .postReset))
    ∧ (∀ (passes : List RecoveryPass) (last : RecoveryPass) (tail : List HRESULT),
        rest = (passes ++ [last]).flatMap RecoveryPass.results ++ tail →
        (∀ p ∈ passes, p.Valid ∧ FAILED p.check = true) → last.Valid →
        FAILED last.check = false →
        ∃ d2 ctx2 calls, ctx.flip k d = some (d2, ctx2, calls) ∧ d2.results = tail
          ∧ calls.filter Call.isProtocolStep
              = (passes ++ [last]).flatMap (RecoveryPass.protocol ctx.m_params)
          ∧ calls.count (Call.enter .preReset) = passes.length + 1
          ∧ calls.count (Call.enter .postReset) = passes.length + 1) := by
  constructor
  · intro d2 ctx2 calls hflip
    simp only [RendererContext.flip, hdev, hres, hlost, if_true] at hflip
    split at hflip
    · simp at hflip
    · rename_i d3 ctx3 calls3 hrec
      simp only [Option.some.injEq, Prod.mk.injEq] at hflip
      obtain ⟨-, -, rfl⟩ := hflip
      have hc := recoverLoop_counts k _ _ _ _ _ _ hrec
      have e1 : ((if k.BGFX_CONFIG_RENDERER_DIRECT3D_EX then [Call.WaitForVBlank] else [])
          ++ Call.Present :: calls3).count (Call.enter .preReset)
          = calls3.count (Call.enter .preReset) := by
        cases k.BGFX_CONFIG_RENDERER_DIRECT3D_EX <;> simp [List.count_cons]
      have e2 : ((if k.BGFX_CONFIG_RENDERER_DIRECT3D_EX then [Call.WaitForVBlank] else [])
          ++ Call.Present :: calls3).count (Call.enter .postReset)
          = calls3.count (Call.enter .postReset) := by
        cases k.BGFX_CONFIG_RENDERER_DIRECT3D_EX <;> simp [List.count_cons]
      rw [e1, e2]
      exact ⟨hc.2.1, hc.2.2⟩
  · intro passes last tail hrest hpasses hlast hok
    have hlen : passes.length < rest.length + 1 := by
      have := passes_results_length (passes ++ [last])
      rw [hrest]
      simp only [List.length_append, List.length_cons, List.length_nil] at this ⊢
      omega
    obtain ⟨d2, ctx2, calls, hrec, hd2, hfilter⟩ := recoverLoop_passes k passes last tail
      (rest.length + 1) { d with results := rest } ctx hpasses hlast hok hrest hlen
    have hf : ((if k.BGFX_CONFIG_RENDERER_DIRECT3D_EX then [Call.WaitForVBlank] else [])
        ++ Call.Present :: calls).filter Call.isProtocolStep
        = (passes ++ [last]).flatMap (RecoveryPass.protocol ctx.m_params) := by
      rw [← hfilter]
      cases k.BGFX_CONFIG_RENDERER_DIRECT3D_EX <;> simp [Call.isProtocolStep]
    refine ⟨d2, ctx2, _, ?_, hd2, hf, ?_, ?_⟩
    · simp only [RendererContext.flip, hdev, hres, hlost, if_true, hrec]
    · rw [count_of_filter _ (Call.enter .preReset) rfl, hf, count_protocol_pre]
      simp
    · rw [count_of_filter _ (Call.enter .postReset) rfl, hf, count_protocol_post]
      simp

/-- Witness for C9 (amended): one pass; the device is lost, polled twice,
reset at the second attempt, and reports success afterwards. -/
theorem flip_reset_per_pass_witness :
    ∃ d2 ctx2 calls,
      sampleContext.flip sampleConsts
          (sampleDevice [D3DERR_DEVICELOST, D3DERR_DEVICELOST, D3DERR_DEVICENOTRESET,
            D3DERR_INVALIDCALL, D3D_OK, D3D_OK]) = some (d2, ctx2, calls)
        ∧ d2.results = []
        ∧ calls.filter Call.isProtocolStep
            = ([] ++ [(⟨[D3DERR_DEVICELOST], [D3DERR_INVALIDCALL], D3D_OK, D3D_OK⟩ : RecoveryPass)]).flatMap
                (RecoveryPass.protocol sampleContext.m_params)
        ∧ calls.count (Call.enter .preReset) = ([] : List RecoveryPass).length + 1
        ∧ calls.count (Call.enter .postReset) = ([] : List RecoveryPass).length + 1 :=
  (flip_reset_per_pass sampleConsts
    (sampleDevice [D3DERR_DEVICELOST, D3DERR_DEVICELOST, D3DERR_DEVICENOTRESET,
      D3DERR_INVALIDCALL, D3D_OK, D3D_OK]) sampleContext 2 D3DERR_DEVICELOST
    [D3DERR_DEVICELOST, D3DERR_DEVICENOTRESET, D3DERR_INVALIDCALL, D3D_OK, D3D_OK]
    rfl (by decide) rfl).2 [] ⟨[D3DERR_DEVICELOST], [D3DERR_INVALIDCALL], D3D_OK, D3D_OK⟩ []
    (by decide) (by simp)
    ⟨by decide, by decide, by decide⟩ (by decide)

/-- C10: for every dynamic index or vertex buffer (one created without
initial data) of declared size `n`, `preReset` releases its native buffer and
leaves the record without one, and an immediately following `postReset`
issues exactly one native buffer creation, of exactly `n` bytes, with dynamic
write-only usage, in the default pool, and stores the buffer the device hands
out; the pair leaves the declared size and the dynamic flag unchanged. -/
theorem dynamic_buffer_reset_cycle (d0 d : Device) (n declHandle : Nat) :
    (let ib := (IndexBuffer.create d0 n none).2.1
     ib.m_dynamic = true ∧ ib.m_size = n
      ∧ ib.preReset = ({ ib with m_ptr := none }, [Call.Release ib.m_ptr])
      ∧ IndexBuffer.postReset d ib.preReset.1
          = (d.newObject.2, { ib with m_ptr := d.newObject.1 },
              [Call.CreateIndexBuffer n (D3DUSAGE_WRITEONLY ||| D3DUSAGE_DYNAMIC) .D3DFMT_INDEX16
                .D3DPOOL_DEFAULT])
      ∧ (IndexBuffer.postReset d ib.preReset.1).2.1.m_size = ib.m_size
      ∧ (IndexBuffer.postReset d ib.preReset.1).2.1.m_dynamic = ib.m_dynamic)
    ∧ (let vb := (VertexBuffer.create d0 n none declHandle).2.1
       vb.m_dynamic = true ∧ vb.m_size = n
        ∧ vb.preReset = ({ vb with m_ptr := none }, [Call.Release vb.m_ptr])
        ∧ VertexBuffer.postReset d vb.preReset.1
            = (d.newObject.2, { vb with m_ptr := d.newObject.1 },
                [Call.CreateVertexBuffer n (D3DUSAGE_WRITEONLY ||| D3DUSAGE_DYNAMIC) 0
                  .D3DPOOL_DEFAULT])
        ∧ (VertexBuffer.postReset d vb.preReset.1).2.1.m_size = vb.m_size
        ∧ (VertexBuffer.postReset d vb.preReset.1).2.1.m_dynamic = vb.m_dynamic) := by
  refine ⟨⟨rfl, rfl, rfl, rfl, rfl, rfl⟩, ⟨rfl, rfl, rfl, rfl, rfl, rfl⟩⟩

/-! ## Theorems: single passes of the loop -/

theorem submitLoop_append (k : Consts) (ctx : RendererContext) (f : Frame) :
    ∀ (pre post : List (SortKey × RenderState)) (st : SubmitState),
      submitLoop k ctx f st (pre ++ post)
        = ((submitLoop k ctx f (submitLoop k ctx f st pre).1 post).1,
           (submitLoop k ctx f st pre).2 ++ (submitLoop k ctx f (submitLoop k ctx f st pre).1 post).2) := by
  intro pre
  induction pre with
  | nil => intro post st; simp [submitLoop]
  | cons item rest ih =>
    intro post st
    simp only [List.cons_append, submitLoop, List.append_eq, ih, List.append_assoc]

/-- The trace of the loop is the trace of the items before a pass, the calls
of the pass, and the trace of the items after it. -/
theorem rendererSubmitItems_split (k : Consts) (ctx : RendererContext) (f : Frame)
    (pre post : List (SortKey × RenderState)) (item : SortKey × RenderState)
    (hitems : f.items = pre ++ item :: post) (hifh : 0 = (f.m_debug &&& k.BGFX_DEBUG_IFH)) :
    rendererSubmitItems k ctx f
      = (submitLoop k ctx f (SubmitState.initial k) pre).2 ++ itemCalls k ctx f pre item
        ++ (submitLoop k ctx f (submitItem k ctx f (stateAfter k ctx f pre) item).1 post).2 := by
  rw [rendererSubmitItems, if_pos hifh, hitems, submitLoop_append]
  simp only [submitLoop, itemCalls, stateAfter, List.append_assoc]

theorem stateAfter_snoc (k : Consts) (ctx : RendererContext) (f : Frame)
    (pre : List (SortKey × RenderState)) (item : SortKey × RenderState) :
    stateAfter k ctx f (pre ++ [item]) = (submitItem k ctx f (stateAfter k ctx f pre) item).1 := by
  simp only [stateAfter, submitLoop_append, submitLoop]

theorem submitItem_flags (k : Consts) (ctx : RendererContext) (f : Frame) (st : SubmitState)
    (item : SortKey × RenderState) :
    (submitItem k ctx f st item).1.currentState.m_flags = item.2.m_flags := by
  have h := submitItem_tracked k ctx f st item
  simp only [SubmitState.tracked, trackedOf, Tracked.mk.injEq] at h
  exact h.2.1

theorem submitItem_prim (k : Consts) (ctx : RendererContext) (f : Frame) (st : SubmitState)
    (item : SortKey × RenderState) :
    (submitItem k ctx f st item).1.primType
        = (stateLocals k st item.2.m_flags
            (if item.1.m_view ≠ st.view then k.BGFX_STATE_MASK
             else st.currentState.m_flags ^^^ item.2.m_flags)).primType
    ∧ (submitItem k ctx f st item).1.primNumVerts
        = (stateLocals k st item.2.m_flags
            (if item.1.m_view ≠ st.view then k.BGFX_STATE_MASK
             else st.currentState.m_flags ^^^ item.2.m_flags)).primNumVerts := by
  simp only [submitItem, submitItemDraw, stateLocals]
  by_cases hv : item.1.m_view ≠ st.view
  · simp only [if_pos hv]
    by_cases hc : (stateGuardMask k &&& k.BGFX_STATE_MASK) ≠ 0
    · simp only [if_pos hc, and_self]
    · simp only [if_neg hc, and_self]
  · simp only [if_neg hv]
    by_cases hc : (stateGuardMask k &&& (st.currentState.m_flags ^^^ item.2.m_flags)) ≠ 0
    · simp only [if_pos hc, and_self]
    · simp only [if_neg hc, and_self]

theorem pt_subset_guard (k : Consts) : k.BGFX_STATE_PT_MASK &&& stateGuardMask k = k.BGFX_STATE_PT_MASK := by
  unfold stateGuardMask
  exact subset_or_right _ _

/-- What the state block leaves in `primType` and `primNumVerts` is the
topology of the item's flag word, given that it was the topology of the
tracked flag word before. -/
theorem stateLocals_topology (k : Consts) (st : SubmitState) (item : SortKey × RenderState)
    (hg : (stateGuardMask k &&& k.BGFX_STATE_MASK) ≠ 0) (hst : st.TopologyTracked k) :
    (stateLocals k st item.2.m_flags
        (if item.1.m_view ≠ st.view then k.BGFX_STATE_MASK
         else st.currentState.m_flags ^^^ item.2.m_flags)).primType
      = s_primType[primIndexOf k item.2.m_flags]?
    ∧ (stateLocals k st item.2.m_flags
        (if item.1.m_view ≠ st.view then k.BGFX_STATE_MASK
         else st.currentState.m_flags ^^^ item.2.m_flags)).primNumVerts
      = s_primNumVerts[primIndexOf k item.2.m_flags]? := by
  by_cases hv : item.1.m_view ≠ st.view
  · rw [if_pos hv]
    simp only [stateLocals, if_pos hg]
    exact ⟨rfl, rfl⟩
  · rw [if_neg hv]
    by_cases hc : (stateGuardMask k &&& (st.currentState.m_flags ^^^ item.2.m_flags)) ≠ 0
    · simp only [stateLocals, if_pos hc]
      exact ⟨rfl, rfl⟩
    · simp only [stateLocals, if_neg hc]
      have hpt : (k.BGFX_STATE_PT_MASK &&& (st.currentState.m_flags ^^^ item.2.m_flags)) = 0 := by
        by_contra h
        exact hc (and_ne_zero_of_subset _ _ _ (pt_subset_guard k) h)
      have heq := (and_xor_eq_zero_iff _ _ _).mp hpt
      have hidx : primIndexOf k st.currentState.m_flags = primIndexOf k item.2.m_flags := by
        simp only [primIndexOf, heq]
      rw [← hidx]
      exact hst

theorem submitItem_topology (k : Consts) (ctx : RendererContext) (f : Frame) (st : SubmitState)
    (item : SortKey × RenderState)
    (hg : (stateGuardMask k &&& k.BGFX_STATE_MASK) ≠ 0) (hst : st.TopologyTracked k) :
    (submitItem k ctx f st item).1.TopologyTracked k := by
  have hp := submitItem_prim k ctx f st item
  have hl := stateLocals_topology k st item hg hst
  simp only [SubmitState.TopologyTracked, submitItem_flags, hp.1, hp.2, hl.1, hl.2, and_self]

theorem submitLoop_topology (k : Consts) (ctx : RendererContext) (f : Frame)
    (hg : (stateGuardMask k &&& k.BGFX_STATE_MASK) ≠ 0) :
    ∀ (items : List (SortKey × RenderState)) (st : SubmitState), st.TopologyTracked k →
      (submitLoop k ctx f st items).1.TopologyTracked k := by
  intro items
  induction items with
  | nil => intro st hst; exact hst
  | cons item rest ih =>
    intro st hst
    simp only [submitLoop]
    exact ih _ (submitItem_topology k ctx f st item hg hst)

theorem stateAfter_topology (k : Consts) (ctx : RendererContext) (f : Frame)
    (hg : (stateGuardMask k &&& k.BGFX_STATE_MASK) ≠ 0)
    (hnone : primIndexOf k k.BGFX_STATE_NONE = 0) (pre : List (SortKey × RenderState)) :
    (stateAfter k ctx f pre).TopologyTracked k := by
  apply submitLoop_topology k ctx f hg
  simp only [SubmitState.TopologyTracked, SubmitState.initial, hnone]
  exact ⟨rfl, rfl⟩

/-- The calls of one pass, block by block in source order. -/
theorem submitItem_parts (k : Consts) (ctx : RendererContext) (f : Frame) (st : SubmitState)
    (item : SortKey × RenderState) :
    (submitItem k ctx f st item).2
      = (if item.1.m_view ≠ st.view then viewCalls k ctx f st.rt item.1.m_view else [])
        ++ stateCalls k item.2.m_flags (passChanged k st item)
        ++ (Call.rendererUpdateUniforms item.2.m_constBegin item.2.m_constEnd
              :: (if passMaterialChanged k st item = true then bindCalls k ctx item.1.m_material
                  else []))
        ++ uniformCalls k ctx f (passLocals k f st item) item.2 (passMaterialChanged k st item)
            (decide (item.2.m_constBegin < item.2.m_constEnd) || passMaterialChanged k st item)
        ++ ((List.range k.BGFX_STATE_TEX_COUNT).flatMap fun stage =>
              samplerCalls k ctx ((passCurrent k st item).m_sampler stage) (item.2.m_sampler stage)
                stage (passMaterialChanged k st item))
        ++ vertexBufferCalls k ctx (passCurrent k st item) item.2 (passMaterialChanged k st item)
        ++ indexBufferCalls k ctx (passCurrent k st item) item.2
        ++ drawCalls k ctx (passLocals k f st item) item.2.m_vertexBuffer item.2 := by
  have hvb : (if (passCurrent k st item).m_vertexBuffer ≠ item.2.m_vertexBuffer
        ∨ passMaterialChanged k st item = true then item.2.m_vertexBuffer
      else (passCurrent k st item).m_vertexBuffer) = item.2.m_vertexBuffer := by
    split
    · rfl
    · rename_i h
      by_contra h2
      exact h (Or.inl h2)
  simp only [submitItem, submitItemDraw, List.append_assoc]
  simp only [passChanged, passCurrent, passMaterial, passMaterialChanged, passLocals] at hvb ⊢
  rw [hvb]

/-! ### Entry points of the blocks of a pass -/

theorem setRenderTarget_api (k : Consts) (ctx : RendererContext) (rt : Nat) :
    ∀ c ∈ ctx.setRenderTarget k rt, c.api ∈ [Api.SetRenderTarget, Api.SetDepthStencilSurface] := by
  intro c hc
  unfold RendererContext.setRenderTarget at hc
  split at hc <;> simp at hc <;> rcases hc with rfl | rfl <;> simp [Call.api]

theorem clearCalls_api (k : Consts) (rect : Rect) (clear : Clear) :
    ∀ c ∈ clearCalls k rect clear, c.api ∈ [Api.SetRenderState, Api.SetScissorRect, Api.Clear] := by
  intro c hc
  unfold clearCalls at hc
  have hc := mem_of_mem_ite hc
  simp only [List.mem_append] at hc
  rcases hc with (hc | hc) | hc
  · have hc := mem_of_mem_ite hc
    simp only [List.mem_singleton] at hc
    subst hc
    simp [Call.api]
  · have hc := mem_of_mem_ite hc
    simp only [List.mem_singleton] at hc
    subst hc
    simp [Call.api]
  · have hc := mem_of_mem_ite hc
    simp only [List.mem_cons, List.mem_singleton, List.not_mem_nil, or_false] at hc
    rcases hc with rfl | rfl | rfl | rfl <;> simp [Call.api]

theorem viewCalls_api (k : Consts) (ctx : RendererContext) (f : Frame) (rt view : Nat) :
    ∀ c ∈ viewCalls k ctx f rt view,
      c.api ∈ [Api.SetRenderTarget, Api.SetDepthStencilSurface, Api.SetViewport,
        Api.SetRenderState, Api.SetScissorRect, Api.Clear] := by
  intro c hc
  unfold viewCalls at hc
  simp only [List.mem_append] at hc
  rcases hc with ((hc | hc) | hc) | hc
  · have h := setRenderTarget_api k ctx _ c (mem_of_mem_ite hc)
    simp only [List.mem_cons, List.mem_singleton, List.not_mem_nil, or_false] at h ⊢
    rcases h with h | h <;> simp [h]
  · simp only [List.mem_singleton] at hc
    subst hc
    simp [Call.api]
  · have h := clearCalls_api k _ _ c hc
    simp only [List.mem_cons, List.mem_singleton, List.not_mem_nil, or_false] at h ⊢
    rcases h with h | h | h <;> simp [h]
  · simp only [List.mem_cons, List.mem_singleton, List.not_mem_nil, or_false] at hc
    rcases hc with rfl | rfl | rfl | rfl | rfl <;> simp [Call.api]

theorem stateCalls_api (k : Consts) (nf ch : Nat) :
    ∀ c ∈ stateCalls k nf ch, c.api ∈ [Api.SetRenderState] := by
  intro c hc
  rw [stateCalls_eq] at hc
  have hc := mem_of_mem_ite hc
  simp only [List.mem_append] at hc
  have hg : ∀ g : FlagGroup, c ∈ g.calls k nf ch → c.api ∈ [Api.SetRenderState] := by
    intro g hcg
    cases g <;>
      simp only [FlagGroup.calls, cullCalls, depthWriteCalls, depthTestCalls, alphaCalls,
        writeMaskCalls, blendCalls] at hcg <;>
      split_ifs at hcg <;> simp at hcg <;>
      (try rcases hcg with rfl | rfl | rfl) <;> simp_all [Call.api]
  rcases hc with ((((hc | hc) | hc) | hc) | hc) | hc <;> exact hg _ hc

theorem bindCalls_api (k : Consts) (ctx : RendererContext) (m : Nat) :
    ∀ c ∈ bindCalls k ctx m, c.api ∈ [Api.SetVertexShader, Api.SetPixelShader] := by
  intro c hc
  unfold bindCalls at hc
  split at hc <;> simp at hc <;> rcases hc with rfl | rfl <;> simp [Call.api]

theorem setShaderConstantF_api (fr : Bool) (loc : Nat) (v : FloatData) (n : Nat) :
    ∀ c ∈ RendererContext.setShaderConstantF fr loc v n, c.api ∈ [Api.SetShaderConstantF] := by
  intro c hc
  unfold RendererContext.setShaderConstantF at hc
  split at hc <;> simp at hc <;> subst hc <;> simp [Call.api]

theorem predefinedCalls_api (f : Frame) (st : SubmitState) (state : RenderState)
    (p : PredefinedUniform) :
    ∀ c ∈ predefinedCalls f st state p, c.api ∈ [Api.SetShaderConstantF] := by
  intro c hc
  unfold predefinedCalls at hc
  split at hc <;> first
    | exact setShaderConstantF_api _ _ _ _ c hc
    | simp at hc

theorem uniformCalls_api (k : Consts) (ctx : RendererContext) (f : Frame) (st : SubmitState)
    (state : RenderState) (mc cc : Bool) :
    ∀ c ∈ uniformCalls k ctx f st state mc cc, c.api ∈ [Api.commit, Api.SetShaderConstantF] := by
  intro c hc
  unfold uniformCalls at hc
  have hc := mem_of_mem_ite hc
  simp only [List.mem_append, List.mem_flatMap] at hc
  rcases hc with hc | ⟨p, -, hc⟩
  · have hc := mem_of_mem_ite hc
    simp only [List.mem_cons, List.mem_singleton, List.not_mem_nil, or_false] at hc
    rcases hc with rfl | rfl <;> simp [Call.api]
  · have h := predefinedCalls_api f st state p c hc
    simp only [List.mem_singleton] at h
    simp [h]

theorem samplerCalls_api (k : Consts) (ctx : RendererContext) (cur s : Sampler) (stage : Nat)
    (mc : Bool) :
    ∀ c ∈ samplerCalls k ctx cur s stage mc, c.api ∈ [Api.SetSamplerState, Api.SetTexture] := by
  intro c hc
  unfold samplerCalls at hc
  have hc := mem_of_mem_ite hc
  split at hc
  · split at hc
    · simp only [Texture.commit, List.mem_cons, List.mem_singleton, List.not_mem_nil,
        or_false] at hc
      rcases hc with rfl | rfl | rfl | rfl | rfl | rfl <;> simp [Call.api]
    · simp only [RenderTarget.commit, List.mem_cons, List.mem_singleton, List.not_mem_nil,
        or_false] at hc
      rcases hc with rfl | rfl | rfl | rfl | rfl | rfl <;> simp [Call.api]
    · simp at hc
  · simp only [List.mem_singleton] at hc
    subst hc
    simp [Call.api]

theorem vertexBufferCalls_api (k : Consts) (ctx : RendererContext) (cur state : RenderState)
    (mc : Bool) :
    ∀ c ∈ vertexBufferCalls k ctx cur state mc,
      c.api ∈ [Api.SetStreamSource, Api.SetVertexDeclaration] := by
  intro c hc
  unfold vertexBufferCalls at hc
  have hc := mem_of_mem_ite hc
  simp only at hc
  split at hc <;> simp at hc <;> rcases hc with rfl | rfl <;> simp [Call.api]

theorem indexBufferCalls_api (k : Consts) (ctx : RendererContext) (cur state : RenderState) :
    ∀ c ∈ indexBufferCalls k ctx cur state, c.api ∈ [Api.SetIndices] := by
  intro c hc
  unfold indexBufferCalls at hc
  have hc := mem_of_mem_ite hc
  split at hc <;> simp at hc <;> subst hc <;> simp [Call.api]

/-- A filter whose predicate holds for one entry point only finds nothing in
a block that never uses this entry point. -/
theorem filter_nil_of_api (l : List Call) (apis : List Api) (a : Api) (p : Call → Bool)
    (hp : ∀ c, p c = true → c.api = a) (h : ∀ c ∈ l, c.api ∈ apis) (ha : a ∉ apis) :
    l.filter p = [] := by
  rw [List.filter_eq_nil_iff]
  intro c hc hpc
  have := h c hc
  rw [hp c hpc] at this
  exact ha this

/-- The draw calls of a pass are those of its draw block. -/
theorem submitItem_filter_draw (k : Consts) (ctx : RendererContext) (f : Frame) (st : SubmitState)
    (item : SortKey × RenderState) :
    (submitItem k ctx f st item).2.filter Call.isDraw
      = (drawCalls k ctx (passLocals k f st item) item.2.m_vertexBuffer item.2).filter
          Call.isDraw := by
  have hp : ∀ c : Call, c.isDraw = true → c.api = Api.DrawIndexedPrimitive := by
    intro c hc
    cases c <;> first | rfl | simp [Call.isDraw] at hc
  have h1 : (if item.1.m_view ≠ st.view then viewCalls k ctx f st.rt item.1.m_view
      else []).filter Call.isDraw = [] :=
    filter_nil_of_api _ _ _ _ hp
      (fun c hc => viewCalls_api k ctx f st.rt item.1.m_view c (mem_of_mem_ite hc)) (by decide)
  have h2 := filter_nil_of_api _ _ _ _ hp (stateCalls_api k item.2.m_flags (passChanged k st item))
    (by decide)
  have h3 : (if passMaterialChanged k st item = true then bindCalls k ctx item.1.m_material
      else []).filter Call.isDraw = [] :=
    filter_nil_of_api _ _ _ _ hp
      (fun c hc => bindCalls_api k ctx item.1.m_material c (mem_of_mem_ite hc)) (by decide)
  have h4 := filter_nil_of_api _ _ _ _ hp
    (uniformCalls_api k ctx f (passLocals k f st item) item.2 (passMaterialChanged k st item)
      (decide (item.2.m_constBegin < item.2.m_constEnd) || passMaterialChanged k st item))
    (by decide)
  have h5 : ((List.range k.BGFX_STATE_TEX_COUNT).flatMap fun stage =>
      samplerCalls k ctx ((passCurrent k st item).m_sampler stage) (item.2.m_sampler stage)
        stage (passMaterialChanged k st item)).filter Call.isDraw = [] := by
    apply filter_nil_of_api _ [Api.SetSamplerState, Api.SetTexture] _ _ hp _ (by decide)
    intro c hc
    simp only [List.mem_flatMap] at hc
    obtain ⟨stage, -, hs⟩ := hc
    exact samplerCalls_api _ _ _ _ _ _ c hs
  have h6 := filter_nil_of_api _ _ _ _ hp
    (vertexBufferCalls_api k ctx (passCurrent k st item) item.2 (passMaterialChanged k st item))
    (by decide)
  have h7 := filter_nil_of_api _ _ _ _ hp
    (indexBufferCalls_api k ctx (passCurrent k st item) item.2) (by decide)
  rw [submitItem_parts]
  simp only [List.filter_append, List.filter_cons, h1, h2, h3, h4, h5, h6, h7, Call.isDraw,
    List.nil_append, List.append_nil]
  simp

/-- The draw block of a whole-buffer item with a valid index buffer, a
topology of the tables and a defined vertex count: one draw call. -/
theorem drawCalls_whole (k : Consts) (ctx : RendererContext) (st : SubmitState)
    (state : RenderState) (primType : D3DPRIMITIVETYPE) (primNumVerts : Nat)
    (hib : state.m_indexBuffer ≠ k.invalidHandle)
    (hstart : state.m_startIndex = k.BGFX_DRAW_WHOLE_INDEX_BUFFER)
    (htype : st.primType = some primType) (hverts : st.primNumVerts = some primNumVerts)
    (hstride : state.m_numVertices = 0xffffffff →
      (ctx.m_vertexDecls (declOf k ctx state.m_vertexBuffer state)).m_decl.m_stride ≠ 0) :
    drawCalls k ctx st state.m_vertexBuffer state
      = [Call.DrawIndexedPrimitive (some primType) state.m_startVertex 0
          (numVerticesOf k ctx state) 0
          ((ctx.m_indexBuffers state.m_indexBuffer).m_size / 2 / primNumVerts)] := by
  have hib2 : k.invalidHandle ≠ state.m_indexBuffer := fun h => hib h.symm
  unfold drawCalls numVerticesOf
  rw [if_pos hib2, hverts, htype]
  by_cases hn : 0xffffffff = state.m_numVertices
  · have hs := hstride hn.symm
    simp only [if_pos hn, if_neg hs, if_pos hstart.symm]
  · simp only [if_neg hn, if_pos hstart.symm]

theorem passLocals_topology (k : Consts) (f : Frame) (st : SubmitState)
    (item : SortKey × RenderState)
    (hg : (stateGuardMask k &&& k.BGFX_STATE_MASK) ≠ 0) (hst : st.TopologyTracked k) :
    (passLocals k f st item).primType = s_primType[primIndexOf k item.2.m_flags]?
    ∧ (passLocals k f st item).primNumVerts = s_primNumVerts[primIndexOf k item.2.m_flags]? := by
  have h := stateLocals_topology k st item hg hst
  simp only [passLocals, passChanged, stateLocals] at h ⊢
  by_cases hv : item.1.m_view ≠ st.view
  · simp only [if_pos hv] at h ⊢
    by_cases hc : (stateGuardMask k &&& k.BGFX_STATE_MASK) ≠ 0
    · simp only [if_pos hc] at h ⊢
      exact h
    · simp only [if_neg hc] at h ⊢
      exact h
  · simp only [if_neg hv] at h ⊢
    by_cases hc : (stateGuardMask k &&& (st.currentState.m_flags ^^^ item.2.m_flags)) ≠ 0
    · simp only [if_pos hc] at h ⊢
      exact h
    · simp only [if_neg hc] at h ⊢
      exact h

/-! ### The calls of one flag group in a pass -/

theorem inGroup_api (g : FlagGroup) (c : Call) (h : c.inGroup g = true) :
    c.api = Api.SetRenderState := by
  cases c <;> first | rfl | simp [Call.inGroup, Call.renderState?] at h

theorem filter_inGroup_noRS (g : FlagGroup) (l : List Call)
    (h : ∀ c ∈ l, c.renderState? = none) : l.filter (Call.inGroup g) = [] := by
  rw [List.filter_eq_nil_iff]
  intro c hc
  simp [Call.inGroup, h c hc]

/-- Among the calls of a group of the state block, those of a given group are
all of them or none. -/
theorem filter_inGroup_calls (k : Consts) (nf ch : Nat) (g g' : FlagGroup) :
    (g'.calls k nf ch).filter (Call.inGroup g) = if g' = g then g'.calls k nf ch else [] := by
  cases g <;> cases g' <;>
    simp only [FlagGroup.calls, cullCalls, depthWriteCalls, depthTestCalls,
      alphaCalls, writeMaskCalls, blendCalls] <;>
    split_ifs <;>
    simp_all [Call.inGroup, Call.renderState?, FlagGroup.states, List.filter_cons]

/-- The calls of a group in the state block, when the block is entered. -/
theorem filter_inGroup_stateCalls (k : Consts) (nf ch : Nat) (g : FlagGroup)
    (hg : (stateGuardMask k &&& ch) ≠ 0) :
    (stateCalls k nf ch).filter (Call.inGroup g) = g.calls k nf ch := by
  rw [stateCalls_eq, if_pos hg]
  simp only [List.filter_append, filter_inGroup_calls]
  cases g <;> simp

/-- The calls of the cull and blend groups that a view change issues before
the state block: the baseline value. -/
theorem filter_inGroup_viewCalls (k : Consts) (ctx : RendererContext) (f : Frame) (rt view : Nat) :
    (viewCalls k ctx f rt view).filter (Call.inGroup .cull)
      = [Call.SetRenderState .D3DRS_CULLMODE (.cull (some .D3DCULL_NONE))]
    ∧ (viewCalls k ctx f rt view).filter (Call.inGroup .blend)
      = [Call.SetRenderState .D3DRS_ALPHABLENDENABLE (.bool false)] := by
  have hrt : ∀ g : FlagGroup,
      (if f.m_rt view ≠ rt then ctx.setRenderTarget k (f.m_rt view) else []).filter
        (Call.inGroup g) = [] := fun g =>
    filter_nil_of_api _ _ _ _ (inGroup_api g)
      (fun c hc => setRenderTarget_api k ctx _ c (mem_of_mem_ite hc)) (by decide)
  have hclear : ∀ g : FlagGroup, g = .cull ∨ g = .blend →
      (clearCalls k (f.m_rect view) (f.m_clear view)).filter (Call.inGroup g) = [] := by
    intro g hg
    rw [List.filter_eq_nil_iff]
    intro c hc
    unfold clearCalls at hc
    have hc := mem_of_mem_ite hc
    simp only [List.mem_append] at hc
    rcases hc with (hc | hc) | hc
    · have hc := mem_of_mem_ite hc
      simp only [List.mem_singleton] at hc
      subst hc
      rcases hg with rfl | rfl <;> simp [Call.inGroup, Call.renderState?, FlagGroup.states]
    · have hc := mem_of_mem_ite hc
      simp only [List.mem_singleton] at hc
      subst hc
      rcases hg with rfl | rfl <;> simp [Call.inGroup, Call.renderState?, FlagGroup.states]
    · have hc := mem_of_mem_ite hc
      simp only [List.mem_cons, List.mem_singleton, List.not_mem_nil, or_false] at hc
      rcases hc with rfl | rfl | rfl | rfl <;> rcases hg with rfl | rfl <;>
        simp [Call.inGroup, Call.renderState?, FlagGroup.states]
  unfold viewCalls
  simp only [List.filter_append, hrt, hclear _ (Or.inl rfl), hclear _ (Or.inr rfl)]
  constructor <;> simp [Call.inGroup, Call.renderState?, FlagGroup.states, List.filter_cons]

/-- The calls of the cull and blend groups in the pass of an item that opens a
view: the baseline value of the view change, then the forced re-application
of the state block. -/
theorem filter_inGroup_viewChange (k : Consts) (hk : k.StateMasksOk) (ctx : RendererContext)
    (f : Frame) (st : SubmitState) (item : SortKey × RenderState)
    (hview : item.1.m_view ≠ st.view) :
    (submitItem k ctx f st item).2.filter (Call.inGroup .cull)
      = Call.SetRenderState .D3DRS_CULLMODE (.cull (some .D3DCULL_NONE))
          :: cullCalls k item.2.m_flags k.BGFX_STATE_MASK
    ∧ (submitItem k ctx f st item).2.filter (Call.inGroup .blend)
      = Call.SetRenderState .D3DRS_ALPHABLENDENABLE (.bool false)
          :: blendCalls k item.2.m_flags k.BGFX_STATE_MASK := by
  obtain ⟨rest, hrest, heq⟩ := submitItem_calls k ctx f st item
  have hguard : (stateGuardMask k &&& k.BGFX_STATE_MASK) ≠ 0 :=
    and_ne_zero_of_subset _ _ _ (group_subset_guard k hk.alphaTest .cull) (hk.inMask .cull)
  have hv := filter_inGroup_viewCalls k ctx f st.rt item.1.m_view
  rw [heq, if_pos hview, if_pos hview]
  simp only [List.filter_append, filter_inGroup_noRS _ rest hrest, hv.1, hv.2,
    filter_inGroup_stateCalls k _ _ _ hguard, List.append_nil, FlagGroup.calls]
  exact ⟨rfl, rfl⟩

/-! ### View changes -/

theorem drawCalls_api (k : Consts) (ctx : RendererContext) (st : SubmitState) (vb : Nat)
    (state : RenderState) :
    ∀ c ∈ drawCalls k ctx st vb state,
      c.api ∈ [Api.DrawIndexedPrimitive, Api.undefinedBehaviour] := by
  intro c hc
  unfold drawCalls at hc
  have hc := mem_of_mem_ite hc
  simp only at hc
  split at hc
  · split at hc
    · simp only [List.mem_singleton] at hc
      subst hc
      simp [Call.api]
    · have hc := mem_of_mem_ite hc
      simp only [List.mem_singleton] at hc
      subst hc
      simp [Call.api]
  · simp only [List.mem_singleton] at hc
    subst hc
    simp [Call.api]

theorem mem_of_subset_apis {a : Api} {l1 l2 : List Api} (h : a ∈ l1) (hs : ∀ x ∈ l1, x ∈ l2) :
    a ∈ l2 := hs a h

/-- The calls of one pass: those of the view change, those of the state block,
and a rest that uses the entry points of the second half only. -/
theorem submitItem_tail (k : Consts) (ctx : RendererContext) (f : Frame) (st : SubmitState)
    (item : SortKey × RenderState) :
    ∃ rest : List Call, (∀ c ∈ rest, c.api ∈ tailApis)
      ∧ (submitItem k ctx f st item).2
          = (if item.1.m_view ≠ st.view then viewCalls k ctx f st.rt item.1.m_view else [])
            ++ stateCalls k item.2.m_flags (passChanged k st item) ++ rest := by
  refine ⟨_, ?_, by rw [submitItem_parts]; simp only [List.append_assoc]; rfl⟩
  intro c hc
  simp only [List.mem_append, List.mem_cons, List.mem_flatMap] at hc
  rcases hc with (rfl | hc) | hc | hc | hc | hc | hc
  · simp [Call.api, tailApis]
  · exact mem_of_subset_apis (bindCalls_api k ctx _ c (mem_of_mem_ite hc)) (by decide)
  · exact mem_of_subset_apis (uniformCalls_api _ _ _ _ _ _ _ c hc) (by decide)
  · obtain ⟨stage, -, hs⟩ := hc
    exact mem_of_subset_apis (samplerCalls_api _ _ _ _ _ _ c hs) (by decide)
  · exact mem_of_subset_apis (vertexBufferCalls_api _ _ _ _ _ c hc) (by decide)
  · exact mem_of_subset_apis (indexBufferCalls_api _ _ _ _ c hc) (by decide)
  · exact mem_of_subset_apis (drawCalls_api _ _ _ _ _ c hc) (by decide)

theorem submitItem_view (k : Consts) (ctx : RendererContext) (f : Frame) (st : SubmitState)
    (item : SortKey × RenderState) :
    (submitItem k ctx f st item).1.view = item.1.m_view := by
  have h := submitItem_tracked k ctx f st item
  simp only [SubmitState.tracked, trackedOf, Tracked.mk.injEq] at h
  exact h.1

theorem submitItem_rt (k : Consts) (ctx : RendererContext) (f : Frame) (st : SubmitState)
    (item : SortKey × RenderState) :
    (submitItem k ctx f st item).1.rt
      = if item.1.m_view ≠ st.view then f.m_rt item.1.m_view else st.rt := by
  simp only [submitItem, submitItemDraw, stateLocals]
  by_cases hv : item.1.m_view ≠ st.view
  · simp only [if_pos hv]
    split <;> rfl
  · simp only [if_neg hv]
    split <;> rfl

theorem previousView_snoc (pre : List (SortKey × RenderState)) (item : SortKey × RenderState) :
    previousView (pre ++ [item]) = item.1.m_view := by
  simp [previousView]

theorem previousTarget_snoc (k : Consts) (f : Frame) (pre : List (SortKey × RenderState))
    (item : SortKey × RenderState) :
    previousTarget k f (pre ++ [item]) = f.m_rt item.1.m_view := by
  simp [previousTarget]

/-- The local `view` holds the view of the item before. -/
theorem stateAfter_view (k : Consts) (ctx : RendererContext) (f : Frame)
    (pre : List (SortKey × RenderState)) :
    (stateAfter k ctx f pre).view = previousView pre := by
  rcases List.eq_nil_or_concat pre with rfl | ⟨init, last, rfl⟩
  · rfl
  · rw [List.concat_eq_append, stateAfter_snoc, submitItem_view, previousView_snoc]

/-- The local `rt` holds the render target of the view of the item before,
when no item before has the view `0xff`. -/
theorem stateAfter_rt (k : Consts) (ctx : RendererContext) (f : Frame) :
    ∀ pre : List (SortKey × RenderState), (∀ it ∈ pre, it.1.m_view ≠ 0xff) →
      (stateAfter k ctx f pre).rt = previousTarget k f pre := by
  intro pre
  induction pre using List.reverseRecOn with
  | nil => intro _; rfl
  | append_singleton init last ih =>
    intro hviews
    have hinit : ∀ it ∈ init, it.1.m_view ≠ 0xff := fun it hit =>
      hviews it (List.mem_append_left _ hit)
    have hlast : last.1.m_view ≠ 0xff := hviews last (by simp)
    rw [stateAfter_snoc, submitItem_rt, previousTarget_snoc, stateAfter_view]
    by_cases hv : last.1.m_view ≠ previousView init
    · rw [if_pos hv]
    · rw [if_neg hv, ih hinit]
      have hv2 : last.1.m_view = previousView init := by
        by_contra h
        exact hv h
      rcases List.eq_nil_or_concat init with rfl | ⟨init2, y, rfl⟩
      · exact absurd hv2 hlast
      · rw [List.concat_eq_append] at hv2 ⊢
        rw [previousView_snoc] at hv2
        rw [previousTarget_snoc, hv2]

theorem isClear_api (c : Call) (h : c.isClear = true) : c.api = Api.Clear := by
  cases c <;> first | rfl | simp [Call.isClear] at h

theorem isDraw_api (c : Call) (h : c.isDraw = true) : c.api = Api.DrawIndexedPrimitive := by
  cases c <;> first | rfl | simp [Call.isDraw] at h

/-- The clear block, with the arguments of `Clear` named. -/
theorem clearCalls_eq (k : Consts) (rect : Rect) (clear : Clear) :
    clearCalls k rect clear
      = if k.BGFX_CLEAR_NONE ≠ clear.m_flags then
          (if (k.BGFX_CLEAR_COLOR_BIT &&& clear.m_flags) ≠ 0 then
              [Call.SetRenderState .D3DRS_COLORWRITEENABLE
                (.dword (D3DCOLORWRITEENABLE_RED ||| D3DCOLORWRITEENABLE_GREEN
                  ||| D3DCOLORWRITEENABLE_BLUE ||| D3DCOLORWRITEENABLE_ALPHA))]
            else [])
          ++ (if (k.BGFX_CLEAR_DEPTH_BIT &&& clear.m_flags) ≠ 0 then
                [Call.SetRenderState .D3DRS_ZWRITEENABLE (.bool true)]
              else [])
          ++ (if 0 ≠ clearChannels k clear then
                [Call.SetRenderState .D3DRS_SCISSORTESTENABLE (.bool true),
                 Call.SetScissorRect rect.m_x rect.m_y (rect.m_x + rect.m_width)
                   (rect.m_y + rect.m_height),
                 Call.Clear (clearChannels k clear) (clearColor k clear) clear.m_depth
                   clear.m_stencil,
                 Call.SetRenderState .D3DRS_SCISSORTESTENABLE (.bool false)]
              else [])
        else [] := by
  unfold clearCalls clearChannels clearColor
  simp only [decide_eq_true_eq]

/-- The native `Clear` calls of the clear block: one, for the requested
channels, when the request has a channel bit and differs from
`BGFX_CLEAR_NONE`; none otherwise. -/
theorem filter_isClear_clearCalls (k : Consts) (rect : Rect) (clear : Clear) :
    (clearCalls k rect clear).filter Call.isClear
      = if k.BGFX_CLEAR_NONE ≠ clear.m_flags ∧ 0 ≠ clearChannels k clear then
          [Call.Clear (clearChannels k clear) (clearColor k clear) clear.m_depth clear.m_stencil]
        else [] := by
  rw [clearCalls_eq]
  have h1 : ∀ (b : Prop) [Decidable b] (c : Call), c.isClear = false →
      (if b then [c] else []).filter Call.isClear = [] := by
    intro b _ c hc
    split <;> simp [hc]
  by_cases h0 : k.BGFX_CLEAR_NONE ≠ clear.m_flags
  · rw [if_pos h0, List.filter_append, List.filter_append,
      h1 _ (Call.SetRenderState _ _) rfl, h1 _ (Call.SetRenderState _ _) rfl]
    by_cases hch : 0 ≠ clearChannels k clear
    · rw [if_pos hch, if_pos ⟨h0, hch⟩]
      rfl
    · rw [if_neg hch, if_neg (fun h => hch h.2)]
      rfl
  · rw [if_neg h0, if_neg (fun h => h0 h.1)]
    rfl

/-- A channel is selected in the argument of `Clear` exactly when its clear
bit is set, and some channel is selected exactly when some clear bit is set. -/
theorem clearChannels_bits (k : Consts) (clear : Clear) :
    ((clearChannels k clear &&& D3DCLEAR_TARGET ≠ 0)
        ↔ (k.BGFX_CLEAR_COLOR_BIT &&& clear.m_flags) ≠ 0)
    ∧ ((clearChannels k clear &&& D3DCLEAR_ZBUFFER ≠ 0)
        ↔ (k.BGFX_CLEAR_DEPTH_BIT &&& clear.m_flags) ≠ 0)
    ∧ ((clearChannels k clear &&& D3DCLEAR_STENCIL ≠ 0)
        ↔ (k.BGFX_CLEAR_STENCIL_BIT &&& clear.m_flags) ≠ 0)
    ∧ (0 ≠ clearChannels k clear
        ↔ ((k.BGFX_CLEAR_COLOR_BIT &&& clear.m_flags) ≠ 0
            ∨ (k.BGFX_CLEAR_DEPTH_BIT &&& clear.m_flags) ≠ 0
            ∨ (k.BGFX_CLEAR_STENCIL_BIT &&& clear.m_flags) ≠ 0)) := by
  unfold clearChannels
  by_cases hc : (k.BGFX_CLEAR_COLOR_BIT &&& clear.m_flags) ≠ 0 <;>
    by_cases hd : (k.BGFX_CLEAR_DEPTH_BIT &&& clear.m_flags) ≠ 0 <;>
    by_cases hs : (k.BGFX_CLEAR_STENCIL_BIT &&& clear.m_flags) ≠ 0 <;>
    simp only [if_pos, if_neg, hc, hd, hs, not_true_eq_false, not_false_eq_true, or_self,
      or_true, true_or, iff_true, iff_false, ne_eq, D3DCLEAR_TARGET, D3DCLEAR_ZBUFFER,
      D3DCLEAR_STENCIL] <;>
    decide

/-! ### Sampler stages -/

theorem bindsStage_api (stage : Nat) (c : Call) (h : c.bindsStage stage = true) :
    c.api = Api.SetTexture := by
  cases c <;> first | rfl | simp [Call.bindsStage] at h

/-- The sampler block of a stage binds textures to this stage only. -/
theorem samplerCalls_stage (k : Consts) (ctx : RendererContext) (cur s : Sampler)
    (stage stage2 : Nat) (mc : Bool) :
    ∀ c ∈ samplerCalls k ctx cur s stage2 mc, c.bindsStage stage = true → stage2 = stage := by
  intro c hc hb
  unfold samplerCalls at hc
  have hc := mem_of_mem_ite hc
  split at hc
  · split at hc
    · simp only [Texture.commit, List.mem_cons, List.mem_singleton, List.not_mem_nil,
        or_false] at hc
      rcases hc with rfl | rfl | rfl | rfl | rfl | rfl
      all_goals simp [Call.bindsStage] at hb
      exact hb
    · simp only [RenderTarget.commit, List.mem_cons, List.mem_singleton, List.not_mem_nil,
        or_false] at hc
      rcases hc with rfl | rfl | rfl | rfl | rfl | rfl
      all_goals simp [Call.bindsStage] at hb
      exact hb
    · simp at hc
  · simp only [List.mem_singleton] at hc
    subst hc
    simpa [Call.bindsStage] using hb

/-- The binding call of the sampler block of a stage whose sampler has the
invalid handle or is of type 0 (texture) or 1 (render-target colour). -/
theorem samplerCalls_filter (k : Consts) (ctx : RendererContext) (cur s : Sampler) (stage : Nat)
    (mc : Bool)
    (hkind : s.m_idx = k.invalidHandle ∨ s.m_flags &&& k.BGFX_SAMPLER_TYPE_MASK = 0
      ∨ s.m_flags &&& k.BGFX_SAMPLER_TYPE_MASK = 1) :
    (samplerCalls k ctx cur s stage mc).filter (Call.bindsStage stage)
      = if cur.m_idx ≠ s.m_idx ∨ cur.m_flags ≠ s.m_flags ∨ mc = true then
          [Call.SetTexture stage (samplerTexture k ctx s)]
        else [] := by
  unfold samplerCalls samplerTexture
  by_cases hcond : cur.m_idx ≠ s.m_idx ∨ cur.m_flags ≠ s.m_flags ∨ mc = true
  · rw [if_pos hcond, if_pos hcond]
    by_cases hinv : k.invalidHandle ≠ s.m_idx
    · rw [if_pos hinv, if_pos hinv]
      rcases hkind with h | h | h
      · exact absurd h.symm hinv
      · rw [h]
        simp [Texture.commit, Call.bindsStage, List.filter_cons]
      · rw [h]
        simp [RenderTarget.commit, Call.bindsStage, List.filter_cons]
    · rw [if_neg hinv, if_neg hinv]
      simp [Call.bindsStage, List.filter_cons]
  · rw [if_neg hcond, if_neg hcond]
    rfl

theorem filter_flatMap_none (p : Call → Bool) (g : Nat → List Call) (stage : Nat)
    (h : ∀ s, s ≠ stage → (g s).filter p = []) :
    ∀ l : List Nat, stage ∉ l → (l.flatMap g).filter p = [] := by
  intro l
  induction l with
  | nil => intro _; rfl
  | cons a l ih =>
    intro hl
    have ha : a ≠ stage := fun e => hl (by simp [e])
    have hl2 : stage ∉ l := fun e => hl (List.mem_cons_of_mem _ e)
    simp only [List.flatMap_cons, List.filter_append, h a ha, ih hl2, List.append_nil]

theorem filter_flatMap_stage (p : Call → Bool) (g : Nat → List Call) (stage : Nat)
    (h : ∀ s, s ≠ stage → (g s).filter p = []) :
    ∀ l : List Nat, l.Nodup → stage ∈ l → (l.flatMap g).filter p = (g stage).filter p := by
  intro l
  induction l with
  | nil => intro _ hm; simp at hm
  | cons a l ih =>
    intro hnd hm
    rw [List.nodup_cons] at hnd
    simp only [List.flatMap_cons, List.filter_append]
    by_cases ha : a = stage
    · subst ha
      rw [filter_flatMap_none p g a h l hnd.1, List.append_nil]
    · have hm2 : stage ∈ l := by
        rcases List.mem_cons.mp hm with e | e
        · exact absurd e.symm ha
        · exact e
      rw [h a ha, ih hnd.2 hm2, List.nil_append]

/-- The texture-binding calls of a pass for one stage are those of the
sampler block of that stage. -/
theorem submitItem_filter_stage (k : Consts) (ctx : RendererContext) (f : Frame)
    (st : SubmitState) (item : SortKey × RenderState) (stage : Nat)
    (hstage : stage < k.BGFX_STATE_TEX_COUNT) :
    (submitItem k ctx f st item).2.filter (Call.bindsStage stage)
      = (samplerCalls k ctx ((passCurrent k st item).m_sampler stage) (item.2.m_sampler stage)
          stage (passMaterialChanged k st item)).filter (Call.bindsStage stage) := by
  have hp := bindsStage_api stage
  have h1 : (if item.1.m_view ≠ st.view then viewCalls k ctx f st.rt item.1.m_view
      else []).filter (Call.bindsStage stage) = [] :=
    filter_nil_of_api _ _ _ _ hp
      (fun c hc => viewCalls_api k ctx f st.rt item.1.m_view c (mem_of_mem_ite hc)) (by decide)
  have h2 := filter_nil_of_api _ _ _ _ hp (stateCalls_api k item.2.m_flags (passChanged k st item))
    (by decide)
  have h3 : (if passMaterialChanged k st item = true then bindCalls k ctx item.1.m_material
      else []).filter (Call.bindsStage stage) = [] :=
    filter_nil_of_api _ _ _ _ hp
      (fun c hc => bindCalls_api k ctx item.1.m_material c (mem_of_mem_ite hc)) (by decide)
  have h4 := filter_nil_of_api _ _ _ _ hp
    (uniformCalls_api k ctx f (passLocals k f st item) item.2 (passMaterialChanged k st item)
      (decide (item.2.m_constBegin < item.2.m_constEnd) || passMaterialChanged k st item))
    (by decide)
  have h5 := filter_flatMap_stage (Call.bindsStage stage)
    (fun s => samplerCalls k ctx ((passCurrent k st item).m_sampler s) (item.2.m_sampler s) s
      (passMaterialChanged k st item)) stage
    (by
      intro s hs
      rw [List.filter_eq_nil_iff]
      intro c hc hb
      exact hs (samplerCalls_stage k ctx _ _ stage s _ c hc hb))
    (List.range k.BGFX_STATE_TEX_COUNT) (List.nodup_range _) (List.mem_range.mpr hstage)
  have h6 := filter_nil_of_api _ _ _ _ hp
    (vertexBufferCalls_api k ctx (passCurrent k st item) item.2 (passMaterialChanged k st item))
    (by decide)
  have h7 := filter_nil_of_api _ _ _ _ hp
    (indexBufferCalls_api k ctx (passCurrent k st item) item.2) (by decide)
  have h8 := filter_nil_of_api _ _ _ _ hp
    (drawCalls_api k ctx (passLocals k f st item) item.2.m_vertexBuffer item.2) (by decide)
  rw [submitItem_parts]
  simp only [List.filter_append, List.filter_cons, h1, h2, h3, h4, h5, h6, h7, h8,
    Call.bindsStage, List.nil_append, List.append_nil]
  simp

theorem submitItem_sampler (k : Consts) (ctx : RendererContext) (f : Frame) (st : SubmitState)
    (item : SortKey × RenderState) (stage : Nat) (hstage : stage < k.BGFX_STATE_TEX_COUNT) :
    (submitItem k ctx f st item).1.currentState.m_sampler stage = item.2.m_sampler stage := by
  show (if stage < k.BGFX_STATE_TEX_COUNT then item.2.m_sampler stage else _) = _
  rw [if_pos hstage]

/-! ## Claims C11 to C16: static buffers and single passes of the loop -/

/-- C11: a buffer is static (`m_dynamic = false`) exactly when `create` was
given non-null initial data, for index and vertex buffers alike; and on every
static record (any native object, size and vertex declaration) `preReset` and
`postReset` issue no call, leave the record as it is and, for `postReset`,
leave the device as it is. -/
theorem static_buffer_reset_noop (d0 d : Device) (_size : Nat) (_data : Option (List Nat))
    (_declHandle : Nat) (m_ptr : Option Ptr) (m_size m_decl : Nat) :
    ((IndexBuffer.create d0 _size _data).2.1.m_dynamic = false ↔ _data.isSome = true)
    ∧ ((VertexBuffer.create d0 _size _data _declHandle).2.1.m_dynamic = false
        ↔ _data.isSome = true)
    ∧ IndexBuffer.preReset ⟨m_ptr, m_size, false⟩ = (⟨m_ptr, m_size, false⟩, [])
    ∧ IndexBuffer.postReset d ⟨m_ptr, m_size, false⟩ = (d, ⟨m_ptr, m_size, false⟩, [])
    ∧ VertexBuffer.preReset ⟨m_ptr, m_size, m_decl, false⟩
        = (⟨m_ptr, m_size, m_decl, false⟩, [])
    ∧ VertexBuffer.postReset d ⟨m_ptr, m_size, m_decl, false⟩
        = (d, ⟨m_ptr, m_size, m_decl, false⟩, []) := by
  refine ⟨?_, ?_, rfl, rfl, rfl, rfl⟩
  · cases _data <;> simp [IndexBuffer.create, Device.newObject]
  · cases _data <;> simp [VertexBuffer.create, Device.newObject]

/-- C12: for every item of `Context::rendererSubmit` with a valid index buffer
whose start index is the whole-buffer sentinel, the pass of the item issues
exactly one indexed draw call, starting at index 0, whose primitive count is
`(indexBufferByteSize / 2) / verticesPerPrimitive` for the item's topology
(both divisions rounding down); for a 6-byte index buffer and triangle-list
topology the primitive count is 1 (three indices). The frame is any frame in
which the item occurs, the loop not being skipped (`BGFX_DEBUG_IFH` clear);
the item's topology is one of the two of `s_primType`; the vertex count is the
item's or, for the sentinel, that of a vertex buffer with non-zero stride;
the flag constants of `bgfx.h` are such that the state block is entered at a
view change and that `BGFX_STATE_NONE` has the triangle-list topology. -/
theorem draw_whole_index_buffer (k : Consts) (ctx : RendererContext) (f : Frame)
    (pre post : List (SortKey × RenderState)) (item : SortKey × RenderState)
    (primType : D3DPRIMITIVETYPE) (primNumVerts : Nat)
    (hitems : f.items = pre ++ item :: post)
    (hifh : 0 = (f.m_debug &&& k.BGFX_DEBUG_IFH))
    (hg : (stateGuardMask k &&& k.BGFX_STATE_MASK) ≠ 0)
    (hnone : primIndexOf k k.BGFX_STATE_NONE = 0)
    (hib : item.2.m_indexBuffer ≠ k.invalidHandle)
    (hstart : item.2.m_startIndex = k.BGFX_DRAW_WHOLE_INDEX_BUFFER)
    (htype : s_primType[primIndexOf k item.2.m_flags]? = some primType)
    (hverts : s_primNumVerts[primIndexOf k item.2.m_flags]? = some primNumVerts)
    (hstride : item.2.m_numVertices = 0xffffffff →
      (ctx.m_vertexDecls (declOf k ctx item.2.m_vertexBuffer item.2)).m_decl.m_stride ≠ 0) :
    rendererSubmitItems k ctx f
        = (submitLoop k ctx f (SubmitState.initial k) pre).2 ++ itemCalls k ctx f pre item
          ++ (submitLoop k ctx f (submitItem k ctx f (stateAfter k ctx f pre) item).1 post).2
    ∧ (itemCalls k ctx f pre item).filter Call.isDraw
        = [Call.DrawIndexedPrimitive (some primType) item.2.m_startVertex 0
            (numVerticesOf k ctx item.2) 0
            ((ctx.m_indexBuffers item.2.m_indexBuffer).m_size / 2 / primNumVerts)]
    ∧ (primType = .D3DPT_TRIANGLELIST → (ctx.m_indexBuffers item.2.m_indexBuffer).m_size = 6 →
        (itemCalls k ctx f pre item).filter Call.isDraw
          = [Call.DrawIndexedPrimitive (some .D3DPT_TRIANGLELIST) item.2.m_startVertex 0
              (numVerticesOf k ctx item.2) 0 1]) := by
  have htop := passLocals_topology k f (stateAfter k ctx f pre) item hg
    (stateAfter_topology k ctx f hg hnone pre)
  have hdraw : (itemCalls k ctx f pre item).filter Call.isDraw
      = [Call.DrawIndexedPrimitive (some primType) item.2.m_startVertex 0
          (numVerticesOf k ctx item.2) 0
          ((ctx.m_indexBuffers item.2.m_indexBuffer).m_size / 2 / primNumVerts)] := by
    rw [itemCalls, submitItem_filter_draw,
      drawCalls_whole k ctx _ item.2 primType primNumVerts hib hstart (htop.1.trans htype)
        (htop.2.trans hverts) hstride]
    rfl
  refine ⟨rendererSubmitItems_split k ctx f pre post item hitems hifh, hdraw, ?_⟩
  intro htri hsize
  have h3 : primNumVerts = 3 := by
    subst htri
    generalize primIndexOf k item.2.m_flags = i at htype hverts
    match i, htype, hverts with
    | 0, _, hverts => simpa [s_primNumVerts] using hverts.symm
    | 1, htype, _ => simp [s_primType] at htype
    | n + 2, htype, _ => simp [s_primType] at htype
  rw [hdraw, htri, hsize, h3]

/-- Witness for C12: a frame of one triangle-list item drawing the whole
6-byte index buffer 0 with the 12-byte vertex buffer 0: one draw call of one
primitive. -/
theorem draw_whole_index_buffer_witness :
    (itemCalls sampleConsts sampleContext (sampleFrame [sampleItem 0 1 0]) []
        (sampleItem 0 1 0)).filter Call.isDraw
      = [Call.DrawIndexedPrimitive (some .D3DPT_TRIANGLELIST) 0 0 1 0 1] :=
  (draw_whole_index_buffer sampleConsts sampleContext (sampleFrame [sampleItem 0 1 0]) [] []
    (sampleItem 0 1 0) .D3DPT_TRIANGLELIST 3 rfl (by decide) (by decide) (by decide) (by decide)
    (by decide) (by decide) (by decide) (by decide)).2.2 rfl (by decide)

/-- Counterexample to C13 as stated: a frame of one draw item in view 0 with
triangle-list topology, cull mode none and no blend (flag word 0). The loop
issues two set-cull-mode calls, not one, and two blend-state calls, not zero:
for each of the two groups the baseline value of the view change and the
forced re-application of the state block. -/
theorem single_item_two_cull_calls :
    s_primType[primIndexOf sampleConsts (sampleItem 0 1 0).2.m_flags]? = some .D3DPT_TRIANGLELIST
    ∧ (rendererSubmitItems sampleConsts sampleContext (sampleFrame [sampleItem 0 1 0])).filter
        (Call.inGroup .cull)
      = [Call.SetRenderState .D3DRS_CULLMODE (.cull (some .D3DCULL_NONE)),
         Call.SetRenderState .D3DRS_CULLMODE (.cull (some .D3DCULL_NONE))]
    ∧ (rendererSubmitItems sampleConsts sampleContext (sampleFrame [sampleItem 0 1 0])).filter
        (Call.inGroup .blend)
      = [Call.SetRenderState .D3DRS_ALPHABLENDENABLE (.bool false),
         Call.SetRenderState .D3DRS_ALPHABLENDENABLE (.bool false)] := by
  decide

/-- C13 (amended): for a frame that consists of exactly one draw item with
cull mode none and no blend (whatever its topology, triangle list included),
in a view other than the marker `0xff` the loop starts from,
`Context::rendererSubmit` emits exactly two set-cull-mode calls, both with
value none (the baseline of the view change and the forced re-application),
and as blend-state calls exactly two blend-enable calls, both disabling
blending, and no blend-factor call. -/
theorem single_item_cull_blend (k : Consts) (ctx : RendererContext) (f : Frame)
    (item : SortKey × RenderState) (hk : k.StateMasksOk)
    (hitems : f.items = [item]) (hifh : 0 = (f.m_debug &&& k.BGFX_DEBUG_IFH))
    (hview : item.1.m_view ≠ 0xff)
    (hcull : ((item.2.m_flags &&& k.BGFX_STATE_CULL_MASK) >>> k.BGFX_STATE_CULL_SHIFT)
      % 4294967296 = 0)
    (hblend : (k.BGFX_STATE_BLEND_MASK &&& item.2.m_flags) = 0) :
    (rendererSubmitItems k ctx f).filter (Call.inGroup .cull)
      = [Call.SetRenderState .D3DRS_CULLMODE (.cull (some .D3DCULL_NONE)),
         Call.SetRenderState .D3DRS_CULLMODE (.cull (some .D3DCULL_NONE))]
    ∧ (rendererSubmitItems k ctx f).filter (Call.inGroup .blend)
      = [Call.SetRenderState .D3DRS_ALPHABLENDENABLE (.bool false),
         Call.SetRenderState .D3DRS_ALPHABLENDENABLE (.bool false)] := by
  have hrun : rendererSubmitItems k ctx f = (submitItem k ctx f (SubmitState.initial k) item).2 := by
    rw [rendererSubmitItems, if_pos hifh, hitems]
    simp only [submitLoop, List.append_nil]
  have h := filter_inGroup_viewChange k hk ctx f (SubmitState.initial k) item hview
  have hc : cullCalls k item.2.m_flags k.BGFX_STATE_MASK
      = [Call.SetRenderState .D3DRS_CULLMODE (.cull (some .D3DCULL_NONE))] := by
    have := hk.inMask .cull
    simp only [FlagGroup.mask] at this
    simp only [cullCalls, if_pos this, hcull]
    rfl
  have hb : blendCalls k item.2.m_flags k.BGFX_STATE_MASK
      = [Call.SetRenderState .D3DRS_ALPHABLENDENABLE (.bool false)] := by
    have := hk.inMask .blend
    simp only [FlagGroup.mask] at this
    simp [blendCalls, this, hblend]
  rw [hrun, h.1, h.2, hc, hb]
  exact ⟨rfl, rfl⟩

/-- Witness for C13 (amended): the one-item frame of the scenario. -/
theorem single_item_cull_blend_witness :
    sampleConsts.StateMasksOk
    ∧ (rendererSubmitItems sampleConsts sampleContext (sampleFrame [sampleItem 0 1 0])).filter
        (Call.inGroup .cull)
      = [Call.SetRenderState .D3DRS_CULLMODE (.cull (some .D3DCULL_NONE)),
         Call.SetRenderState .D3DRS_CULLMODE (.cull (some .D3DCULL_NONE))] :=
  have hk : sampleConsts.StateMasksOk := ⟨by intro g; cases g <;> decide, by decide⟩
  ⟨hk, (single_item_cull_blend sampleConsts sampleContext (sampleFrame [sampleItem 0 1 0])
    (sampleItem 0 1 0) hk rfl (by decide) (by decide) (by decide) (by decide)).1⟩

/-- Counterexample to C14 as stated: a frame of one draw item in view 0, whose
render target is the back buffer. The first item is a view-boundary
transition, but the loop, which starts out tracking the back buffer as bound,
emits neither a render-target nor a depth-stencil set call. -/
theorem first_view_no_target_call :
    (sampleItem 0 1 0).1.m_view ≠ previousView []
    ∧ (rendererSubmitItems sampleConsts sampleContext (sampleFrame [sampleItem 0 1 0])).filter
        (fun c => decide (c.api = .SetRenderTarget ∨ c.api = .SetDepthStencilSurface)) = [] := by
  decide

/-- C14 (amended): at every view-boundary transition in
`Context::rendererSubmit` (the item's view differs from the view of the item
before, or the item is the first of the frame; views are not `0xff`), the pass
of the item starts with the render-target and depth-stencil set calls of the
new view's render target exactly when this target differs from the one the
loop tracks as bound (the target of the view of the item before, the back
buffer before the first item), followed by the viewport call for the view's
rectangle; no further render-target, depth-stencil or viewport call follows in
the pass, so these calls come before any draw call of the view, and the loop
then tracks the view's target. -/
theorem view_change_target_viewport (k : Consts) (ctx : RendererContext) (f : Frame)
    (pre post : List (SortKey × RenderState)) (item : SortKey × RenderState)
    (hitems : f.items = pre ++ item :: post)
    (hifh : 0 = (f.m_debug &&& k.BGFX_DEBUG_IFH))
    (hviews : ∀ it ∈ pre, it.1.m_view ≠ 0xff)
    (hchange : item.1.m_view ≠ previousView pre) :
    ∃ rest : List Call,
      rendererSubmitItems k ctx f
          = (submitLoop k ctx f (SubmitState.initial k) pre).2 ++ itemCalls k ctx f pre item
            ++ (submitLoop k ctx f (submitItem k ctx f (stateAfter k ctx f pre) item).1 post).2
      ∧ itemCalls k ctx f pre item
          = (if f.m_rt item.1.m_view ≠ previousTarget k f pre then
               ctx.setRenderTarget k (f.m_rt item.1.m_view)
             else [])
            ++ Call.SetViewport (f.m_rect item.1.m_view).m_x (f.m_rect item.1.m_view).m_y
                (f.m_rect item.1.m_view).m_width (f.m_rect item.1.m_view).m_height :: rest
      ∧ (∀ c ∈ rest, c.api ≠ .SetRenderTarget ∧ c.api ≠ .SetDepthStencilSurface
          ∧ c.api ≠ .SetViewport)
      ∧ (stateAfter k ctx f (pre ++ [item])).rt = f.m_rt item.1.m_view := by
  obtain ⟨rest0, hrest0, heq⟩ := submitItem_tail k ctx f (stateAfter k ctx f pre) item
  have hv : item.1.m_view ≠ (stateAfter k ctx f pre).view := by
    rw [stateAfter_view]; exact hchange
  rw [if_pos hv, stateAfter_rt k ctx f pre hviews] at heq
  refine ⟨clearCalls k (f.m_rect item.1.m_view) (f.m_clear item.1.m_view)
      ++ [Call.SetRenderState .D3DRS_ZENABLE (.bool true),
          Call.SetRenderState .D3DRS_ZFUNC (.cmp (some .D3DCMP_LESS)),
          Call.SetRenderState .D3DRS_CULLMODE (.cull (some .D3DCULL_NONE)),
          Call.SetRenderState .D3DRS_ALPHABLENDENABLE (.bool false),
          Call.SetRenderState .D3DRS_ALPHAFUNC (.cmp (some .D3DCMP_GREATER))]
      ++ stateCalls k item.2.m_flags (passChanged k (stateAfter k ctx f pre) item) ++ rest0,
    rendererSubmitItems_split k ctx f pre post item hitems hifh, ?_, ?_, ?_⟩
  · rw [itemCalls, heq, viewCalls]
    simp only [List.append_assoc, List.cons_append, List.nil_append]
  · intro c hc
    have hapi : c.api ∈ Api.SetRenderState :: Api.SetScissorRect :: Api.Clear :: tailApis := by
      simp only [List.mem_append] at hc
      rcases hc with ((hc | hc) | hc) | hc
      · exact mem_of_subset_apis (clearCalls_api _ _ _ c hc) (by decide)
      · simp only [List.mem_cons, List.mem_singleton, List.not_mem_nil, or_false] at hc
        rcases hc with rfl | rfl | rfl | rfl | rfl <;> simp [Call.api]
      · exact mem_of_subset_apis (stateCalls_api _ _ _ c hc) (by decide)
      · exact List.mem_cons_of_mem _ (List.mem_cons_of_mem _ (List.mem_cons_of_mem _
          (hrest0 c hc)))
    refine ⟨?_, ?_, ?_⟩ <;> intro h <;> rw [h] at hapi <;> revert hapi <;> decide
  · rw [stateAfter_snoc, submitItem_rt, if_pos hv]

/-- Witness for C14 (amended): the second item of a frame opens view 1, whose
render target is slot 0 while view 0 renders to the back buffer. -/
theorem view_change_target_viewport_witness :
    ∃ rest : List Call,
      itemCalls sampleConsts sampleContext
          { sampleFrame [sampleItem 0 1 0, sampleItem 1 1 0] with
              m_rt := fun v => if v = 1 then 0 else 0xffff }
          [sampleItem 0 1 0] (sampleItem 1 1 0)
        = Call.SetRenderTarget 0 (some 80) :: Call.SetDepthStencilSurface (some 4)
            :: Call.SetViewport 0 0 1280 720 :: rest :=
  (view_change_target_viewport sampleConsts sampleContext
    { sampleFrame [sampleItem 0 1 0, sampleItem 1 1 0] with
        m_rt := fun v => if v = 1 then 0 else 0xffff }
    [sampleItem 0 1 0] [] (sampleItem 1 1 0) rfl (by decide) (by decide) (by decide)).imp
    fun _ h => h.2.1

/-- Counterexample to C15 as stated: a frame of one draw item in a view whose
clear flags are 8: non-zero, but without the colour, depth or stencil bit. The
claim asks for exactly one native `Clear`; the loop issues none. -/
theorem clear_flags_without_channel :
    (⟨0, 1, 0, 8⟩ : Clear).m_flags ≠ 0
    ∧ (rendererSubmitItems sampleConsts sampleContext
        (sampleFrameWith ⟨0, 1, 0, 8⟩ [sampleItem 0 1 0])).filter Call.isClear = [] := by
  decide

/-- C15 (amended): at every view-boundary transition in
`Context::rendererSubmit`, if at least one of the colour, depth and stencil
clear bits of the view's clear flags is set, the pass of the item issues
exactly one native `Clear`, before any draw call of that view, with the colour
target, z-buffer and stencil channels selected exactly when the colour, depth
and stencil clear bits are respectively set; if none of the three bits is set
(clear flags zero, or non-zero without a channel bit) no `Clear` is issued. -/
theorem view_change_clear (k : Consts) (ctx : RendererContext) (f : Frame)
    (pre post : List (SortKey × RenderState)) (item : SortKey × RenderState)
    (hitems : f.items = pre ++ item :: post)
    (hifh : 0 = (f.m_debug &&& k.BGFX_DEBUG_IFH))
    (hnone : k.BGFX_CLEAR_NONE = 0)
    (hchange : item.1.m_view ≠ previousView pre) :
    ∃ front back : List Call,
      rendererSubmitItems k ctx f
          = (submitLoop k ctx f (SubmitState.initial k) pre).2 ++ itemCalls k ctx f pre item
            ++ (submitLoop k ctx f (submitItem k ctx f (stateAfter k ctx f pre) item).1 post).2
      ∧ itemCalls k ctx f pre item = front ++ back
      ∧ (∀ c ∈ front, c.isDraw = false)
      ∧ (∀ c ∈ back, c.isClear = false)
      ∧ front.filter Call.isClear
          = (if (k.BGFX_CLEAR_COLOR_BIT &&& (f.m_clear item.1.m_view).m_flags) ≠ 0
                ∨ (k.BGFX_CLEAR_DEPTH_BIT &&& (f.m_clear item.1.m_view).m_flags) ≠ 0
                ∨ (k.BGFX_CLEAR_STENCIL_BIT &&& (f.m_clear item.1.m_view).m_flags) ≠ 0 then
              [Call.Clear (clearChannels k (f.m_clear item.1.m_view))
                (clearColor k (f.m_clear item.1.m_view)) (f.m_clear item.1.m_view).m_depth
                (f.m_clear item.1.m_view).m_stencil]
            else [])
      ∧ ((clearChannels k (f.m_clear item.1.m_view) &&& D3DCLEAR_TARGET ≠ 0)
          ↔ (k.BGFX_CLEAR_COLOR_BIT &&& (f.m_clear item.1.m_view).m_flags) ≠ 0)
      ∧ ((clearChannels k (f.m_clear item.1.m_view) &&& D3DCLEAR_ZBUFFER ≠ 0)
          ↔ (k.BGFX_CLEAR_DEPTH_BIT &&& (f.m_clear item.1.m_view).m_flags) ≠ 0)
      ∧ ((clearChannels k (f.m_clear item.1.m_view) &&& D3DCLEAR_STENCIL ≠ 0)
          ↔ (k.BGFX_CLEAR_STENCIL_BIT &&& (f.m_clear item.1.m_view).m_flags) ≠ 0) := by
  obtain ⟨rest0, hrest0, heq⟩ := submitItem_tail k ctx f (stateAfter k ctx f pre) item
  have hv : item.1.m_view ≠ (stateAfter k ctx f pre).view := by
    rw [stateAfter_view]; exact hchange
  rw [if_pos hv] at heq
  have hbits := clearChannels_bits k (f.m_clear item.1.m_view)
  refine ⟨viewCalls k ctx f (stateAfter k ctx f pre).rt item.1.m_view,
    stateCalls k item.2.m_flags (passChanged k (stateAfter k ctx f pre) item) ++ rest0,
    rendererSubmitItems_split k ctx f pre post item hitems hifh, ?_, ?_, ?_, ?_,
    hbits.1, hbits.2.1, hbits.2.2.1⟩
  · rw [itemCalls, heq, List.append_assoc]
  · intro c hc
    have hapi := viewCalls_api k ctx f _ _ c hc
    cases hd : c.isDraw
    · rfl
    · rw [isDraw_api c hd] at hapi
      revert hapi
      decide
  · intro c hc
    have hapi : c.api ∈ Api.SetRenderState :: tailApis := by
      simp only [List.mem_append] at hc
      rcases hc with hc | hc
      · exact mem_of_subset_apis (stateCalls_api _ _ _ c hc) (by decide)
      · exact List.mem_cons_of_mem _ (hrest0 c hc)
    cases hd : c.isClear
    · rfl
    · rw [isClear_api c hd] at hapi
      revert hapi
      decide
  · have hrt : (if f.m_rt item.1.m_view ≠ (stateAfter k ctx f pre).rt then
          ctx.setRenderTarget k (f.m_rt item.1.m_view) else []).filter Call.isClear = [] :=
      filter_nil_of_api _ _ _ _ isClear_api
        (fun c hc => setRenderTarget_api k ctx _ c (mem_of_mem_ite hc)) (by decide)
    unfold viewCalls
    simp only [List.filter_append, hrt, filter_isClear_clearCalls, List.nil_append]
    have hcond : (k.BGFX_CLEAR_NONE ≠ (f.m_clear item.1.m_view).m_flags
          ∧ 0 ≠ clearChannels k (f.m_clear item.1.m_view))
        ↔ ((k.BGFX_CLEAR_COLOR_BIT &&& (f.m_clear item.1.m_view).m_flags) ≠ 0
            ∨ (k.BGFX_CLEAR_DEPTH_BIT &&& (f.m_clear item.1.m_view).m_flags) ≠ 0
            ∨ (k.BGFX_CLEAR_STENCIL_BIT &&& (f.m_clear item.1.m_view).m_flags) ≠ 0) := by
      rw [hbits.2.2.2]
      refine ⟨fun h => h.2, fun h => ⟨?_, h⟩⟩
      intro hz
      rw [hnone] at hz
      rw [← hz] at h
      simp at h
    simp only [hcond]
    split <;> simp [Call.isClear, List.filter_cons]

/-- Witness for C15 (amended): the first item of the sample frame opens view
0, which clears colour and depth: one `Clear` of target and z-buffer. -/
theorem view_change_clear_witness :
    ∃ front back : List Call,
      itemCalls sampleConsts sampleContext (sampleFrame [sampleItem 0 1 0]) [] (sampleItem 0 1 0)
        = front ++ back
      ∧ (∀ c ∈ back, c.isClear = false)
      ∧ front.filter Call.isClear = [Call.Clear 3 (some 0xff303030) 1 0] :=
  (view_change_clear sampleConsts sampleContext (sampleFrame [sampleItem 0 1 0]) [] []
    (sampleItem 0 1 0) rfl (by decide) rfl (by decide)).imp
    fun _ h => h.imp fun _ h2 => ⟨h2.2.1, h2.2.2.2.1, h2.2.2.2.2.1⟩

/-- Counterexample to C16 as stated: a frame of one draw item whose sampler on
every stage has the valid handle 0 and sampler type 2. The sampler differs
from the one tracked for stage 0 (the invalid handle) and the material changes
at the item, but no texture-binding call for stage 0 is emitted: the `switch`
of the sampler block has no statement for type 2. -/
theorem sampler_type_two_not_bound :
    ((passCurrent sampleConsts (SubmitState.initial sampleConsts)
        (sampleItemWith 0 1 ⟨0, 2⟩)).m_sampler 0).m_idx ≠ 0
    ∧ passMaterialChanged sampleConsts (SubmitState.initial sampleConsts)
        (sampleItemWith 0 1 ⟨0, 2⟩) = true
    ∧ (rendererSubmitItems sampleConsts sampleContext
        (sampleFrame [sampleItemWith 0 1 ⟨0, 2⟩])).filter (Call.bindsStage 0) = [] := by
  decide

/-- C16 (amended): for every item of `Context::rendererSubmit` and every
sampler stage whose sampler in the item has the invalid handle or is of type
texture (0) or render-target colour (1), the stage is rebound (exactly one
native texture-binding call for that stage is emitted in the pass) if and only
if the item's sampler handle or sampler flags differ from the ones tracked for
that stage (those of the item before, or the cleared ones at a view change) or
the material changed at this item; so a material change rebinds every such
stage even when its handle is unchanged; and after the item the tracked
sampler of every stage equals the item's sampler. -/
theorem sampler_rebind (k : Consts) (ctx : RendererContext) (f : Frame)
    (pre post : List (SortKey × RenderState)) (item : SortKey × RenderState) (stage : Nat)
    (hitems : f.items = pre ++ item :: post)
    (hifh : 0 = (f.m_debug &&& k.BGFX_DEBUG_IFH))
    (hstage : stage < k.BGFX_STATE_TEX_COUNT)
    (hkind : (item.2.m_sampler stage).m_idx = k.invalidHandle
      ∨ (item.2.m_sampler stage).m_flags &&& k.BGFX_SAMPLER_TYPE_MASK = 0
      ∨ (item.2.m_sampler stage).m_flags &&& k.BGFX_SAMPLER_TYPE_MASK = 1) :
    rendererSubmitItems k ctx f
        = (submitLoop k ctx f (SubmitState.initial k) pre).2 ++ itemCalls k ctx f pre item
          ++ (submitLoop k ctx f (submitItem k ctx f (stateAfter k ctx f pre) item).1 post).2
    ∧ (itemCalls k ctx f pre item).filter (Call.bindsStage stage)
        = (if ((passCurrent k (stateAfter k ctx f pre) item).m_sampler stage).m_idx
                ≠ (item.2.m_sampler stage).m_idx
              ∨ ((passCurrent k (stateAfter k ctx f pre) item).m_sampler stage).m_flags
                ≠ (item.2.m_sampler stage).m_flags
              ∨ passMaterialChanged k (stateAfter k ctx f pre) item = true then
            [Call.SetTexture stage (samplerTexture k ctx (item.2.m_sampler stage))]
          else [])
    ∧ (passMaterialChanged k (stateAfter k ctx f pre) item = true →
        (itemCalls k ctx f pre item).filter (Call.bindsStage stage)
          = [Call.SetTexture stage (samplerTexture k ctx (item.2.m_sampler stage))])
    ∧ (∀ s, s < k.BGFX_STATE_TEX_COUNT →
        (stateAfter k ctx f (pre ++ [item])).currentState.m_sampler s = item.2.m_sampler s) := by
  have hf : (itemCalls k ctx f pre item).filter (Call.bindsStage stage)
      = (if ((passCurrent k (stateAfter k ctx f pre) item).m_sampler stage).m_idx
              ≠ (item.2.m_sampler stage).m_idx
            ∨ ((passCurrent k (stateAfter k ctx f pre) item).m_sampler stage).m_flags
              ≠ (item.2.m_sampler stage).m_flags
            ∨ passMaterialChanged k (stateAfter k ctx f pre) item = true then
          [Call.SetTexture stage (samplerTexture k ctx (item.2.m_sampler stage))]
        else []) := by
    rw [itemCalls, submitItem_filter_stage k ctx f _ item stage hstage,
      samplerCalls_filter k ctx _ _ stage _ hkind]
  refine ⟨rendererSubmitItems_split k ctx f pre post item hitems hifh, hf, ?_, ?_⟩
  · intro hm
    rw [hf, if_pos (Or.inr (Or.inr hm))]
  · intro s hs
    rw [stateAfter_snoc]
    exact submitItem_sampler k ctx f _ item s hs

/-- Witness for C16 (amended): the second item of a frame keeps texture 5 on
every stage but changes the material: stage 1 is rebound. -/
theorem sampler_rebind_witness :
    (itemCalls sampleConsts sampleContext
        (sampleFrame [sampleItemWith 0 1 ⟨5, 0⟩, sampleItemWith 0 2 ⟨5, 0⟩])
        [sampleItemWith 0 1 ⟨5, 0⟩] (sampleItemWith 0 2 ⟨5, 0⟩)).filter (Call.bindsStage 1)
      = [Call.SetTexture 1 (some 55)] :=
  (sampler_rebind sampleConsts sampleContext
    (sampleFrame [sampleItemWith 0 1 ⟨5, 0⟩, sampleItemWith 0 2 ⟨5, 0⟩])
    [sampleItemWith 0 1 ⟨5, 0⟩] [] (sampleItemWith 0 2 ⟨5, 0⟩) 1 rfl (by decide) (by decide)
    (by decide)).2.2.1 (by decide)

/-! ## Theorems: shader binaries and shutdown -/

theorem toBytesLE_length : ∀ (size v : Nat), (toBytesLE size v).length = size
  | 0, _ => rfl
  | size + 1, v => by simp [toBytesLE, toBytesLE_length size]

theorem fromBytesLE_toBytesLE : ∀ (size v : Nat), v < 256 ^ size →
    fromBytesLE (toBytesLE size v) = v
  | 0, v, h => by
    simp at h
    simp [toBytesLE, fromBytesLE, h]
  | size + 1, v, h => by
    have hdiv : v / 256 < 256 ^ size := by
      apply Nat.div_lt_of_lt_mul
      rw [pow_succ] at h
      omega
    simp only [toBytesLE, fromBytesLE, fromBytesLE_toBytesLE size (v / 256) hdiv]
    omega

theorem StreamRead.read_at (B pre bs rest : List Nat) (pos : Nat) (hpos : pos = pre.length)
    (hB : B = pre ++ (bs ++ rest)) :
    StreamRead.read ⟨B, pos⟩ bs.length = some (bs, ⟨B, pos + bs.length⟩) := by
  subst hpos
  have hlen : pre.length + bs.length ≤ B.length := by
    rw [hB]; simp
  have hsl : (List.drop pre.length B).take bs.length = bs := by
    rw [hB]
    simp
  simp only [StreamRead.read, hlen, if_true, hsl]

theorem StreamRead.readValue_at (B pre rest : List Nat) (pos size v : Nat)
    (hpos : pos = pre.length) (hv : v < 256 ^ size)
    (hB : B = pre ++ (toBytesLE size v ++ rest)) :
    StreamRead.readValue ⟨B, pos⟩ size = some (v, ⟨B, pos + size⟩) := by
  have h := StreamRead.read_at B pre (toBytesLE size v) rest pos hpos hB
  rw [toBytesLE_length] at h
  simp only [StreamRead.readValue, h, fromBytesLE_toBytesLE size v hv]

theorem UniformDescriptor.bytes_length (d : UniformDescriptor) :
    d.bytes.length = 1 + d.name.length + 1 + 1 + 2 + 2 := by
  simp only [UniformDescriptor.bytes, List.length_append, toBytesLE_length]

/-- The reads of one pass consume exactly the bytes of one well-formed
descriptor and give its fields back. -/
theorem readDescriptor_at (B pre rest : List Nat) (pos : Nat) (d : UniformDescriptor)
    (hd : d.WellFormed) (hpos : pos = pre.length) (hB : B = pre ++ (d.bytes ++ rest)) :
    Shader.readDescriptor ⟨B, pos⟩ = some (d, ⟨B, pos + d.bytes.length⟩) := by
  obtain ⟨hname, -, htype, hnum, hri, hrc⟩ := hd
  have h1 := StreamRead.readValue_at B pre
    (d.name ++ (toBytesLE 1 d.type ++ (toBytesLE 1 d.num
      ++ (toBytesLE 2 d.regIndex ++ (toBytesLE 2 d.regCount ++ rest)))))
    pos 1 d.name.length hpos (by simpa using hname)
    (by rw [hB]; simp [UniformDescriptor.bytes, List.append_assoc])
  have h2 := StreamRead.read_at B (pre ++ toBytesLE 1 d.name.length) d.name
    (toBytesLE 1 d.type ++ (toBytesLE 1 d.num
      ++ (toBytesLE 2 d.regIndex ++ (toBytesLE 2 d.regCount ++ rest))))
    (pos + 1) (by simp [hpos, toBytesLE_length]; try omega)
    (by rw [hB]; simp [UniformDescriptor.bytes, List.append_assoc])
  have h3 := StreamRead.readValue_at B (pre ++ toBytesLE 1 d.name.length ++ d.name)
    (toBytesLE 1 d.num ++ (toBytesLE 2 d.regIndex ++ (toBytesLE 2 d.regCount ++ rest)))
    (pos + 1 + d.name.length) 1 d.type (by simp [hpos, toBytesLE_length]; try omega)
    (by simpa using htype)
    (by rw [hB]; simp [UniformDescriptor.bytes, List.append_assoc])
  have h4 := StreamRead.readValue_at B
    (pre ++ toBytesLE 1 d.name.length ++ d.name ++ toBytesLE 1 d.type)
    (toBytesLE 2 d.regIndex ++ (toBytesLE 2 d.regCount ++ rest))
    (pos + 1 + d.name.length + 1) 1 d.num (by simp [hpos, toBytesLE_length]; try omega)
    (by simpa using hnum)
    (by rw [hB]; simp [UniformDescriptor.bytes, List.append_assoc])
  have h5 := StreamRead.readValue_at B
    (pre ++ toBytesLE 1 d.name.length ++ d.name ++ toBytesLE 1 d.type ++ toBytesLE 1 d.num)
    (toBytesLE 2 d.regCount ++ rest)
    (pos + 1 + d.name.length + 1 + 1) 2 d.regIndex (by simp [hpos, toBytesLE_length]; try omega)
    (by simpa using hri)
    (by rw [hB]; simp [UniformDescriptor.bytes, List.append_assoc])
  have h6 := StreamRead.readValue_at B
    (pre ++ toBytesLE 1 d.name.length ++ d.name ++ toBytesLE 1 d.type ++ toBytesLE 1 d.num
      ++ toBytesLE 2 d.regIndex)
    rest
    (pos + 1 + d.name.length + 1 + 1 + 2) 2 d.regCount (by simp [hpos, toBytesLE_length]; try omega)
    (by simpa using hrc)
    (by rw [hB]; simp [UniformDescriptor.bytes, List.append_assoc])
  simp only [Shader.readDescriptor, h1, h2, h3, h4, h5, h6, UniformDescriptor.bytes_length]
  simp only [Nat.add_assoc]

/-- The loop of `Shader::create` on the bytes of well-formed descriptors: it
reads them all and routes them in order. -/
theorem createLoop_at (c : ConstantCodec) (n2p : List Nat → PredefinedKind)
    (reg : UniformRegistry) (fragment : Bool) :
    ∀ (ds : List UniformDescriptor) (B pre rest : List Nat) (pos : Nat) (sh : Shader),
      (∀ d ∈ ds, d.WellFormed) → pos = pre.length →
      B = pre ++ (ds.flatMap UniformDescriptor.bytes ++ rest) →
      Shader.createLoop c n2p reg fragment ds.length ⟨B, pos⟩ sh
        = some (⟨B, pos + (ds.flatMap UniformDescriptor.bytes).length⟩,
            ds.foldl (Shader.route c n2p reg fragment) sh) := by
  intro ds
  induction ds with
  | nil =>
    intro B pre rest pos sh _ _ _
    simp [Shader.createLoop]
  | cons d ds ih =>
    intro B pre rest pos sh hwf hpos hB
    have hd := hwf d (List.mem_cons_self _ _)
    have h1 := readDescriptor_at B pre (ds.flatMap UniformDescriptor.bytes ++ rest) pos d hd hpos
      (by rw [hB]; simp [List.append_assoc])
    have h2 := ih B (pre ++ d.bytes) rest (pos + d.bytes.length)
      (Shader.route c n2p reg fragment sh d)
      (fun x hx => hwf x (List.mem_cons_of_mem _ hx)) (by simp [hpos])
      (by rw [hB]; simp [List.append_assoc])
    simp only [List.length_cons, Shader.createLoop, h1, h2, List.foldl_cons, List.flatMap_cons,
      List.length_append, Nat.add_assoc]

theorem route_eq (c : ConstantCodec) (n2p : List Nat → PredefinedKind) (reg : UniformRegistry)
    (fragment : Bool) (sh : Shader) (d : UniformDescriptor) :
    Shader.route c n2p reg fragment sh d
      = { sh with
          m_predefined := sh.m_predefined
            ++ (destinationOf c n2p reg fragment d).entry?.toList
          m_constantBuffer := (destinationOf c n2p reg fragment d).write c sh.m_constantBuffer } := by
  unfold Shader.route destinationOf
  by_cases hp : PredefinedKind.Count ≠ n2p (cstr d.name)
  · have hp2 : n2p (cstr d.name) ≠ PredefinedKind.Count := fun h => hp h.symm
    simp only [if_pos hp, if_pos hp2, Destination.entry?, Destination.write, Option.toList]
  · have hp2 : ¬ n2p (cstr d.name) ≠ PredefinedKind.Count := fun h => hp (fun e => h e.symm)
    simp only [if_neg hp, if_neg hp2]
    cases reg.find (cstr d.name) <;>
      simp [Destination.entry?, Destination.write, Option.toList]

theorem foldl_route (c : ConstantCodec) (n2p : List Nat → PredefinedKind) (reg : UniformRegistry)
    (fragment : Bool) :
    ∀ (ds : List UniformDescriptor) (sh : Shader),
      (ds.foldl (Shader.route c n2p reg fragment) sh).m_predefined
          = sh.m_predefined
            ++ (ds.map (destinationOf c n2p reg fragment)).filterMap Destination.entry?
      ∧ (ds.foldl (Shader.route c n2p reg fragment) sh).m_constantBuffer
          = (ds.map (destinationOf c n2p reg fragment)).foldl (Destination.write c)
              sh.m_constantBuffer := by
  intro ds
  induction ds with
  | nil => intro sh; simp
  | cons d ds ih =>
    intro sh
    have h := ih (Shader.route c n2p reg fragment sh d)
    simp only [List.foldl_cons, List.map_cons]
    rw [h.1, h.2, route_eq]
    refine ⟨?_, rfl⟩
    cases hE : (destinationOf c n2p reg fragment d).entry? <;>
      simp [List.filterMap_cons, hE, Option.toList]

theorem foldl_write_buffer (c : ConstantCodec) :
    ∀ (dests : List Destination) (cb : ConstantBuffer),
      (dests.foldl (Destination.write c) cb).m_buffer
          = cb.m_buffer ++ dests.flatMap (Destination.written c)
      ∧ (dests.foldl (Destination.write c) cb).m_pos = cb.m_pos := by
  intro dests
  induction dests with
  | nil => intro cb; simp
  | cons x dests ih =>
    intro cb
    have h := ih (x.write c cb)
    simp only [List.foldl_cons, h.1, h.2, List.flatMap_cons]
    cases x <;>
      simp [Destination.write, Destination.written, ConstantBuffer.writeUniformRef,
        ConstantBuffer.writeRaw, ConstantBuffer.write, List.append_assoc]

theorem flatMap_bytes_size (ds : List UniformDescriptor) :
    (ds.flatMap UniformDescriptor.bytes).length = (ds.map UniformDescriptor.size).sum := by
  induction ds with
  | nil => rfl
  | cons d ds ih =>
    simp only [List.flatMap_cons, List.length_append, ih, List.map_cons, List.sum_cons,
      UniformDescriptor.bytes_length, UniformDescriptor.size]

/-- `Shader::create` on a binary of well-formed descriptors, a size field and
bytecode: the record it leaves and the creation call it issues. -/
theorem create_at (c : ConstantCodec) (n2p : List Nat → PredefinedKind) (reg : UniformRegistry)
    (dev : Device) (fragment : Bool) (ds : List UniformDescriptor) (shaderSize : Nat)
    (code : List Nat) (hwf : ∀ d ∈ ds, d.WellFormed) (hcount : ds.length < 65536)
    (hsize : shaderSize < 65536) :
    Shader.create c n2p reg dev fragment (shaderBinary ds shaderSize code)
      = some (dev.newObject.2,
          { m_ptr := dev.newObject.1
            m_constantBuffer :=
              (ds.foldl (Shader.route c n2p reg fragment)
                ⟨none, ConstantBuffer.empty, []⟩).m_constantBuffer.finish c
            m_predefined :=
              (ds.foldl (Shader.route c n2p reg fragment)
                ⟨none, ConstantBuffer.empty, []⟩).m_predefined },
          [if fragment then Call.CreatePixelShader (2 + (ds.map UniformDescriptor.size).sum + 2)
           else Call.CreateVertexShader (2 + (ds.map UniformDescriptor.size).sum + 2)]) := by
  have h1 := StreamRead.readValue_at (shaderBinary ds shaderSize code) []
    (ds.flatMap UniformDescriptor.bytes ++ (toBytesLE 2 shaderSize ++ code)) 0 2 ds.length rfl
    (by norm_num; exact hcount) (by simp [shaderBinary, List.append_assoc])
  have h2 := createLoop_at c n2p reg fragment ds (shaderBinary ds shaderSize code)
    (toBytesLE 2 ds.length) (toBytesLE 2 shaderSize ++ code) (0 + 2)
    ⟨none, ConstantBuffer.empty, []⟩ hwf (by simp [toBytesLE_length])
    (by simp [shaderBinary, List.append_assoc])
  have h3 := StreamRead.readValue_at (shaderBinary ds shaderSize code)
    (toBytesLE 2 ds.length ++ ds.flatMap UniformDescriptor.bytes) code
    (0 + 2 + (ds.flatMap UniformDescriptor.bytes).length) 2 shaderSize
    (by simp [toBytesLE_length]) (by norm_num; exact hsize)
    (by simp [shaderBinary, List.append_assoc])
  simp only [flatMap_bytes_size, Nat.zero_add] at h1 h2 h3
  simp only [Shader.create, h1, h2, h3, StreamRead.getDataPtr]

/-! ### Shutdown -/

theorem preReset_noExit (k : Consts) (ctx : RendererContext) :
    ∀ c ∈ (ctx.preReset k).2, c.isExitAssign = false := by
  have h1 := forEachSlot_calls IndexBuffer.preReset (fun c => c.isExitAssign = false)
    (by
      intro ib c hc
      unfold IndexBuffer.preReset DX_RELEASE at hc
      split at hc
      · simp at hc; subst hc; rfl
      · simp at hc)
    (List.range k.BGFX_CONFIG_MAX_INDEX_BUFFERS) ctx.m_indexBuffers
  have h2 := forEachSlot_calls VertexBuffer.preReset (fun c => c.isExitAssign = false)
    (by
      intro vb c hc
      unfold VertexBuffer.preReset DX_RELEASE at hc
      split at hc
      · simp at hc; subst hc; rfl
      · simp at hc)
    (List.range k.BGFX_CONFIG_MAX_VERTEX_BUFFERS) ctx.m_vertexBuffers
  intro c hc
  simp only [RendererContext.preReset, DX_RELEASE, List.mem_cons, List.mem_append, List.mem_map,
    List.mem_singleton, List.not_mem_nil, or_false] at hc
  rcases hc with rfl | ((((((⟨_, _, rfl⟩ | hc) | rfl) | rfl) | hc) | hc) | ⟨_, _, rfl⟩)
  · rfl
  · rfl
  · rcases hc with rfl | rfl | rfl | rfl | rfl | rfl <;> rfl
  · rfl
  · rfl
  · exact h1 c hc
  · exact h2 c hc
  · rfl

/-! ## Claims C17 to C20: shader creation, uniforms and shutdown -/

theorem sampleDescriptors_wellFormed : ∀ d ∈ sampleDescriptors, d.WellFormed := by
  intro d hd
  simp only [sampleDescriptors, List.mem_cons, List.mem_singleton, List.not_mem_nil,
    or_false] at hd
  rcases hd with rfl | rfl | rfl <;> (unfold UniformDescriptor.WellFormed; decide)

/-- C17: `Shader::create` routes every uniform descriptor of a well-formed
shader binary, in order, to exactly one destination: a descriptor with a
predefined name appends one entry (register index, predefined kind, fragment
tag exactly for fragment shaders) to the predefined table and writes nothing;
any other descriptor whose name is found in the registry appends exactly one
by-reference write (type with the stage bit, register index, registered
storage, register count) to the constant buffer; any other descriptor is
dropped, and creation still succeeds. The constant buffer is sealed with
`finish()` after the last descriptor: its bytes are the writes in order, then
the End opcode. -/
theorem shader_create_routes (c : ConstantCodec) (n2p : List Nat → PredefinedKind)
    (reg : UniformRegistry) (dev : Device) (fragment : Bool) (ds : List UniformDescriptor)
    (shaderSize : Nat) (code : List Nat) (hwf : ∀ d ∈ ds, d.WellFormed)
    (hcount : ds.length < 65536) (hsize : shaderSize < 65536) :
    ∃ (dev2 : Device) (sh : Shader) (calls : List Call),
      Shader.create c n2p reg dev fragment (shaderBinary ds shaderSize code)
        = some (dev2, sh, calls)
      ∧ sh.m_predefined
          = (ds.map (destinationOf c n2p reg fragment)).filterMap Destination.entry?
      ∧ sh.m_constantBuffer
          = ((ds.map (destinationOf c n2p reg fragment)).foldl (Destination.write c)
              ConstantBuffer.empty).finish c
      ∧ sh.m_constantBuffer.m_buffer
          = (ds.map (destinationOf c n2p reg fragment)).flatMap (Destination.written c)
            ++ toBytes32 c.End := by
  have hr := foldl_route c n2p reg fragment ds ⟨none, ConstantBuffer.empty, []⟩
  have hb := foldl_write_buffer c (ds.map (destinationOf c n2p reg fragment))
    ConstantBuffer.empty
  refine ⟨_, _, _, create_at c n2p reg dev fragment ds shaderSize code hwf hcount hsize, ?_, ?_,
    ?_⟩
  · simpa using hr.1
  · simp only [hr.2]
  · simp only [hr.2, ConstantBuffer.finish, ConstantBuffer.write, hb.1]
    simp [ConstantBuffer.empty]

/-- Witness for C17: a fragment shader with the three sample descriptors: one
predefined entry, one by-reference write to the storage at 4096, one
descriptor dropped. -/
theorem shader_create_routes_witness :
    ∃ (dev2 : Device) (sh : Shader) (calls : List Call),
      Shader.create sampleCodec sampleNames sampleRegistry (sampleDevice []) true
          (shaderBinary sampleDescriptors 4 [1, 2, 3, 4])
        = some (dev2, sh, calls)
      ∧ sh.m_predefined = [⟨0, .View, true⟩]
      ∧ sh.m_constantBuffer.m_buffer
          = toBytes32 (sampleCodec.encodeOpcode 23 4 1 0) ++ [0, 16, 0, 0] ++ [2, 0, 0, 0] :=
  (shader_create_routes sampleCodec sampleNames sampleRegistry (sampleDevice []) true
    sampleDescriptors 4 [1, 2, 3, 4] sampleDescriptors_wellFormed (by decide) (by decide)).imp
    fun _ h => h.imp fun _ h => h.imp fun _ h =>
      ⟨h.1, h.2.1.trans (by decide), h.2.2.2.trans (by decide)⟩

/-- Counterexample to C18 as stated: for the binary of the three sample
descriptors the claimed offset of the bytecode, right behind the last
descriptor, is 42; `Shader::create` hands offset 44 to the native creation
call, because it reads a 16-bit size field behind the last descriptor. -/
theorem shader_code_not_after_descriptors :
    2 + (sampleDescriptors.map (fun d => 1 + d.name.length + 1 + 1 + 2 + 2)).sum = 42
    ∧ (Shader.create sampleCodec sampleNames sampleRegistry (sampleDevice []) false
        (shaderBinary sampleDescriptors 4 [1, 2, 3, 4])).map (fun r => r.2.2)
      = some [Call.CreateVertexShader 44]
    ∧ (Shader.create sampleCodec sampleNames sampleRegistry (sampleDevice []) false
        (shaderBinaryClaimed sampleDescriptors [1, 2, 3, 4])).map (fun r => r.2.2)
      = some [Call.CreateVertexShader 44] := by
  decide

/-- C18 (amended): for every well-formed shader binary (16-bit count,
descriptors, 16-bit size field, bytecode), the native bytecode that
`Shader::create` hands to native shader creation begins at the byte
immediately following the 16-bit size field that follows the last uniform
descriptor, i.e. at offset (size of the count field) + sum over descriptors of
(1 + nameLength + 1 + 1 + 2 + 2) + 2 bytes; the bytes from there on are the
bytecode. -/
theorem shader_code_offset (c : ConstantCodec) (n2p : List Nat → PredefinedKind)
    (reg : UniformRegistry) (dev : Device) (fragment : Bool) (ds : List UniformDescriptor)
    (shaderSize : Nat) (code : List Nat) (hwf : ∀ d ∈ ds, d.WellFormed)
    (hcount : ds.length < 65536) (hsize : shaderSize < 65536) :
    (Shader.create c n2p reg dev fragment (shaderBinary ds shaderSize code)).map (fun r => r.2.2)
      = some [if fragment then
                Call.CreatePixelShader
                  (2 + (ds.map (fun d => 1 + d.name.length + 1 + 1 + 2 + 2)).sum + 2)
              else
                Call.CreateVertexShader
                  (2 + (ds.map (fun d => 1 + d.name.length + 1 + 1 + 2 + 2)).sum + 2)]
    ∧ (shaderBinary ds shaderSize code).drop
        (2 + (ds.map (fun d => 1 + d.name.length + 1 + 1 + 2 + 2)).sum + 2) = code := by
  have hsz : (ds.map (fun d => 1 + d.name.length + 1 + 1 + 2 + 2)).sum
      = (ds.map UniformDescriptor.size).sum := rfl
  rw [hsz]
  refine ⟨by rw [create_at c n2p reg dev fragment ds shaderSize code hwf hcount hsize]; rfl, ?_⟩
  have hlen : (toBytesLE 2 ds.length ++ ds.flatMap UniformDescriptor.bytes
      ++ toBytesLE 2 shaderSize).length = 2 + (ds.map UniformDescriptor.size).sum + 2 := by
    simp only [List.length_append, toBytesLE_length, flatMap_bytes_size]
  rw [shaderBinary, ← hlen, List.drop_left]

/-- Witness for C18 (amended): the binary of the three sample descriptors. -/
theorem shader_code_offset_witness :
    (Shader.create sampleCodec sampleNames sampleRegistry (sampleDevice []) true
        (shaderBinary sampleDescriptors 4 [1, 2, 3, 4])).map (fun r => r.2.2)
      = some [Call.CreatePixelShader 44] :=
  (shader_code_offset sampleCodec sampleNames sampleRegistry (sampleDevice []) true
    sampleDescriptors 4 [1, 2, 3, 4] sampleDescriptors_wellFormed (by decide) (by decide)).1

/-- C19, evaluated on the code: after `rendererCreateUniform` and
`rendererDestroyUniform` on the same handle the slot still holds the storage
that has been released, the registry still resolves the name to it, and the
routing step of a shader created afterwards for a descriptor of that name
(not a predefined one) writes a reference to the released storage; on the
sample data the whole of `Shader::create` does. -/
theorem destroyUniform_keeps_storage (c : ConstantCodec) (a : Allocator) (ctx : RendererContext)
    (_handle _type _num : Nat) (_name : List Nat) (n2p : List Nat → PredefinedKind)
    (fragment : Bool) (sh : Shader) (type num regIndex regCount : Nat) :
    (rendererDestroyUniform (rendererCreateUniform c a ctx _handle _type _num _name).1
        (rendererCreateUniform c a ctx _handle _type _num _name).2 _handle).2.m_uniforms _handle
      = a.blocks a.allocated
    ∧ (rendererDestroyUniform (rendererCreateUniform c a ctx _handle _type _num _name).1
        (rendererCreateUniform c a ctx _handle _type _num _name).2 _handle).1.freed
      = a.blocks a.allocated :: a.freed
    ∧ (rendererDestroyUniform (rendererCreateUniform c a ctx _handle _type _num _name).1
        (rendererCreateUniform c a ctx _handle _type _num _name).2 _handle).2.m_uniformReg.find
          (cstr _name)
      = some (a.blocks a.allocated)
    ∧ Shader.route c n2p
        (rendererDestroyUniform (rendererCreateUniform c a ctx _handle _type _num _name).1
          (rendererCreateUniform c a ctx _handle _type _num _name).2 _handle).2.m_uniformReg
        fragment sh ⟨_name, type, num, regIndex, regCount⟩
      = (if PredefinedKind.Count ≠ n2p (cstr _name) then
          { sh with m_predefined := sh.m_predefined ++ [⟨regIndex, n2p (cstr _name), fragment⟩] }
        else
          { sh with
              m_constantBuffer :=
                sh.m_constantBuffer.writeUniformRef c
                  (type ||| (if fragment then c.BGFX_UNIFORM_FRAGMENTBIT else 0)) regIndex
                  (ptrImage c (a.blocks a.allocated)) regCount })
    ∧ ((Shader.create sampleCodec sampleNames
          (rendererDestroyUniform
            (rendererCreateUniform sampleCodec sampleAllocator sampleContext 0 7 1
              [117, 95, 99, 111, 108, 111, 114]).1
            (rendererCreateUniform sampleCodec sampleAllocator sampleContext 0 7 1
              [117, 95, 99, 111, 108, 111, 114]).2 0).2.m_uniformReg
          (sampleDevice []) false (shaderBinary sampleDescriptors 4 [1, 2, 3, 4])).map
        (fun r => r.2.1.m_constantBuffer.m_buffer)
      = some (toBytes32 (sampleCodec.encodeOpcode 7 4 1 0) ++ [0, 16, 0, 0] ++ [2, 0, 0, 0])) := by
  have hfind : (ctx.m_uniformReg.reg (cstr _name) (a.blocks a.allocated)).find (cstr _name)
      = some (a.blocks a.allocated) := by
    simp [UniformRegistry.reg, UniformRegistry.find]
  refine ⟨?_, ?_, ?_, ?_, by decide⟩
  · simp [rendererDestroyUniform, rendererCreateUniform, g_realloc]
  · simp [rendererDestroyUniform, rendererCreateUniform, g_realloc, g_free]
  · simpa [rendererDestroyUniform, rendererCreateUniform, g_realloc] using hfind
  · simp only [rendererDestroyUniform, rendererCreateUniform, g_realloc, Function.update_same,
      Shader.route, hfind]

/-- Counterexample to C20 as stated: on the sample context the trace of
`Context::rendererShutdown` starts with the entry of `preReset`, releases the
device (object 2) and the interface (object 1), and ends with the assignment
to the exit flag: every teardown call precedes the setting of the flag. -/
theorem shutdown_before_exit_flag :
    (rendererShutdown sampleConsts sampleContext).2.2.head? = some (Call.enter .preReset)
    ∧ (rendererShutdown sampleConsts sampleContext).2.2.getLast? = some (Call.assignExit true)
    ∧ (rendererShutdown sampleConsts sampleContext).2.2.indexOf (Call.Release (some 2))
        < (rendererShutdown sampleConsts sampleContext).2.2.indexOf (Call.assignExit true)
    ∧ (rendererShutdown sampleConsts sampleContext).2.2.indexOf (Call.assignExit true) + 1
        = (rendererShutdown sampleConsts sampleContext).2.2.length := by
  decide

/-- C20 (amended): `Context::rendererShutdown` first runs device teardown
(`RendererContext::shutdown`: `preReset`, release of the device and of the
interface, `FreeLibrary`) and only afterwards sets the exit flag of the render
thread: the assignment to the flag is the last step of the trace, the
teardown steps before it contain no assignment to the flag, and no teardown
call follows it. -/
theorem shutdown_then_exit_flag (k : Consts) (ctx : RendererContext) :
    (rendererShutdown k ctx).2.2 = (ctx.shutdown k).2 ++ [Call.assignExit true]
    ∧ (ctx.shutdown k).2
        = (ctx.preReset k).2
          ++ [Call.Release (ctx.preReset k).1.m_device, Call.Release (ctx.preReset k).1.m_d3d9,
              Call.FreeLibrary]
    ∧ (ctx.preReset k).2.head? = some (Call.enter .preReset)
    ∧ (∀ c ∈ (ctx.shutdown k).2, c.isExitAssign = false)
    ∧ (rendererShutdown k ctx).2.1 = true
    ∧ (rendererShutdown k ctx).1.m_device = none
    ∧ (rendererShutdown k ctx).1.m_d3d9 = none
    ∧ (rendererShutdown k ctx).1.m_initialized = false := by
  have hsh : (ctx.shutdown k).2
      = (ctx.preReset k).2
        ++ [Call.Release (ctx.preReset k).1.m_device, Call.Release (ctx.preReset k).1.m_d3d9,
            Call.FreeLibrary] := by
    simp only [RendererContext.shutdown, DX_RELEASE, List.append_assoc, List.cons_append,
      List.nil_append]
  refine ⟨rfl, hsh, rfl, ?_, rfl, rfl, rfl, rfl⟩
  intro c hc
  rw [hsh, List.mem_append] at hc
  rcases hc with hc | hc
  · exact preReset_noExit k ctx c hc
  · simp only [List.mem_cons, List.mem_singleton, List.not_mem_nil, or_false] at hc
    rcases hc with rfl | rfl | rfl <;> rfl

/-! ## Claims C21 to C27 -/

/-- The draw block of an item without index buffer is empty. -/
theorem drawCalls_noIndexBuffer (k : Consts) (ctx : RendererContext) (st : SubmitState)
    (vertexBuffer : Nat) (state : RenderState) (hib : state.m_indexBuffer = k.invalidHandle) :
    drawCalls k ctx st vertexBuffer state = [] := by
  unfold drawCalls
  rw [if_neg (fun h => h hib.symm)]

/-- The draw block of an item with a valid index buffer and an explicit index
range, for a topology of the tables and a defined vertex count: one draw call
if the range holds one primitive at least, none otherwise. -/
theorem drawCalls_range (k : Consts) (ctx : RendererContext) (st : SubmitState)
    (state : RenderState) (primType : D3DPRIMITIVETYPE) (primNumVerts : Nat)
    (hib : state.m_indexBuffer ≠ k.invalidHandle)
    (hstart : state.m_startIndex ≠ k.BGFX_DRAW_WHOLE_INDEX_BUFFER)
    (htype : st.primType = some primType) (hverts : st.primNumVerts = some primNumVerts)
    (hstride : state.m_numVertices = 0xffffffff →
      (ctx.m_vertexDecls (declOf k ctx state.m_vertexBuffer state)).m_decl.m_stride ≠ 0) :
    drawCalls k ctx st state.m_vertexBuffer state
      = if primNumVerts ≤ state.m_numIndices then
          [Call.DrawIndexedPrimitive (some primType) state.m_startVertex 0
            (numVerticesOf k ctx state) state.m_startIndex (state.m_numIndices / primNumVerts)]
        else [] := by
  have hib2 : k.invalidHandle ≠ state.m_indexBuffer := fun h => hib h.symm
  have hstart2 : ¬ k.BGFX_DRAW_WHOLE_INDEX_BUFFER = state.m_startIndex := fun h => hstart h.symm
  unfold drawCalls numVerticesOf
  rw [if_pos hib2, hverts, htype]
  by_cases hn : 0xffffffff = state.m_numVertices
  · have hs := hstride hn.symm
    simp only [if_pos hn, if_neg hs, if_neg hstart2]
  · simp only [if_neg hn, if_neg hstart2]

/-- C25: in `Context::rendererSubmit` the pass of an item issues a draw call
only if the item has a valid index buffer and either its start index is the
whole-buffer sentinel or its index count is at least the vertices-per-primitive
of its topology. An item with no index buffer issues no draw call; an item
with an explicit range shorter than one primitive issues no draw call; an
explicit range of one primitive at least issues exactly one draw call, of
`numIndices / verticesPerPrimitive` primitives (rounding down) starting at the
item's start index. The frame is any frame in which the item occurs, the loop
not being skipped; for the items with an index buffer the topology is one of
the two of `s_primType` and the vertex count is the item's or, for the
sentinel, that of a vertex buffer with non-zero stride. -/
theorem draw_call_conditions (k : Consts) (ctx : RendererContext) (f : Frame)
    (pre post : List (SortKey × RenderState)) (item : SortKey × RenderState)
    (primType : D3DPRIMITIVETYPE) (primNumVerts : Nat)
    (hitems : f.items = pre ++ item :: post)
    (hifh : 0 = (f.m_debug &&& k.BGFX_DEBUG_IFH))
    (hg : (stateGuardMask k &&& k.BGFX_STATE_MASK) ≠ 0)
    (hnone : primIndexOf k k.BGFX_STATE_NONE = 0)
    (htype : s_primType[primIndexOf k item.2.m_flags]? = some primType)
    (hverts : s_primNumVerts[primIndexOf k item.2.m_flags]? = some primNumVerts)
    (hstride : item.2.m_numVertices = 0xffffffff →
      (ctx.m_vertexDecls (declOf k ctx item.2.m_vertexBuffer item.2)).m_decl.m_stride ≠ 0) :
    rendererSubmitItems k ctx f
        = (submitLoop k ctx f (SubmitState.initial k) pre).2 ++ itemCalls k ctx f pre item
          ++ (submitLoop k ctx f (submitItem k ctx f (stateAfter k ctx f pre) item).1 post).2
    ∧ (item.2.m_indexBuffer = k.invalidHandle →
        (itemCalls k ctx f pre item).filter Call.isDraw = [])
    ∧ (item.2.m_indexBuffer ≠ k.invalidHandle →
        item.2.m_startIndex ≠ k.BGFX_DRAW_WHOLE_INDEX_BUFFER →
        item.2.m_numIndices < primNumVerts →
        (itemCalls k ctx f pre item).filter Call.isDraw = [])
    ∧ (item.2.m_indexBuffer ≠ k.invalidHandle →
        item.2.m_startIndex ≠ k.BGFX_DRAW_WHOLE_INDEX_BUFFER →
        primNumVerts ≤ item.2.m_numIndices →
        (itemCalls k ctx f pre item).filter Call.isDraw
          = [Call.DrawIndexedPrimitive (some primType) item.2.m_startVertex 0
              (numVerticesOf k ctx item.2) item.2.m_startIndex
              (item.2.m_numIndices / primNumVerts)])
    ∧ (item.2.m_indexBuffer ≠ k.invalidHandle →
        item.2.m_startIndex = k.BGFX_DRAW_WHOLE_INDEX_BUFFER →
        (itemCalls k ctx f pre item).filter Call.isDraw
          = [Call.DrawIndexedPrimitive (some primType) item.2.m_startVertex 0
              (numVerticesOf k ctx item.2) 0
              ((ctx.m_indexBuffers item.2.m_indexBuffer).m_size / 2 / primNumVerts)])
    ∧ ((itemCalls k ctx f pre item).filter Call.isDraw ≠ [] →
        item.2.m_indexBuffer ≠ k.invalidHandle
        ∧ (item.2.m_startIndex = k.BGFX_DRAW_WHOLE_INDEX_BUFFER
            ∨ primNumVerts ≤ item.2.m_numIndices)) := by
  have htop := passLocals_topology k f (stateAfter k ctx f pre) item hg
    (stateAfter_topology k ctx f hg hnone pre)
  have hno : item.2.m_indexBuffer = k.invalidHandle →
      (itemCalls k ctx f pre item).filter Call.isDraw = [] := by
    intro hib
    rw [itemCalls, submitItem_filter_draw, drawCalls_noIndexBuffer k ctx _ _ item.2 hib]
    rfl
  have hrange : item.2.m_indexBuffer ≠ k.invalidHandle →
      item.2.m_startIndex ≠ k.BGFX_DRAW_WHOLE_INDEX_BUFFER →
      (itemCalls k ctx f pre item).filter Call.isDraw
        = if primNumVerts ≤ item.2.m_numIndices then
            [Call.DrawIndexedPrimitive (some primType) item.2.m_startVertex 0
              (numVerticesOf k ctx item.2) item.2.m_startIndex
              (item.2.m_numIndices / primNumVerts)]
          else [] := by
    intro hib hstart
    rw [itemCalls, submitItem_filter_draw,
      drawCalls_range k ctx _ item.2 primType primNumVerts hib hstart (htop.1.trans htype)
        (htop.2.trans hverts) hstride]
    by_cases hle : primNumVerts ≤ item.2.m_numIndices
    · rw [if_pos hle]
      rfl
    · rw [if_neg hle]
      rfl
  refine ⟨rendererSubmitItems_split k ctx f pre post item hitems hifh, hno, ?_, ?_, ?_, ?_⟩
  · intro hib hstart hlt
    rw [hrange hib hstart, if_neg (Nat.not_le.mpr hlt)]
  · intro hib hstart hle
    rw [hrange hib hstart, if_pos hle]
  · intro hib hstart
    rw [itemCalls, submitItem_filter_draw,
      drawCalls_whole k ctx _ item.2 primType primNumVerts hib hstart (htop.1.trans htype)
        (htop.2.trans hverts) hstride]
    rfl
  · intro hne
    have hib : item.2.m_indexBuffer ≠ k.invalidHandle := fun h => hne (hno h)
    refine ⟨hib, ?_⟩
    by_cases hstart : item.2.m_startIndex = k.BGFX_DRAW_WHOLE_INDEX_BUFFER
    · exact Or.inl hstart
    · by_cases hle : primNumVerts ≤ item.2.m_numIndices
      · exact Or.inr hle
      · exact absurd (by rw [hrange hib hstart, if_neg hle]) hne

/-- Witness for C25: a frame of one triangle-list item drawing the seven
indices from start index 3 of index buffer 0: one draw call of two primitives
starting at index 3. -/
theorem draw_call_conditions_witness :
    (itemCalls sampleConsts sampleContext (sampleFrame [sampleItemRange 3 7]) []
        (sampleItemRange 3 7)).filter Call.isDraw
      = [Call.DrawIndexedPrimitive (some .D3DPT_TRIANGLELIST) 0 0 1 3 2] :=
  (draw_call_conditions sampleConsts sampleContext (sampleFrame [sampleItemRange 3 7]) [] []
    (sampleItemRange 3 7) .D3DPT_TRIANGLELIST 3 rfl (by decide) (by decide) (by decide)
    (by decide) (by decide) (by decide)).2.2.2.1 (by decide) (by decide) (by decide)

/-- The word `D3DCOLOR_RGBA` builds from the four bytes of a 32-bit `rgba`
(lines 1481-1482) is the alpha byte in the top byte over `rgba >> 8`. -/
theorem argb_of_rgba (rgba : Nat) (h : rgba < 4294967296) :
    D3DCOLOR_RGBA (rgba >>> 24) ((rgba >>> 16) &&& 0xff) ((rgba >>> 8) &&& 0xff) (rgba &&& 0xff)
      = ((rgba &&& 0xff) <<< 24) ||| (rgba >>> 8) := by
  have hhi : ∀ j, 32 ≤ j → rgba.testBit j = false := fun j hj =>
    Nat.testBit_eq_false_of_lt (lt_of_lt_of_le h (by
      rw [show (4294967296 : Nat) = 2 ^ 32 by norm_num]
      exact Nat.pow_le_pow_right (by norm_num) hj))
  have hff : (0xff : Nat) = 2 ^ 8 - 1 := by norm_num
  have hm : (4294967296 : Nat) = 2 ^ 32 := by norm_num
  unfold D3DCOLOR_RGBA
  rw [hm, hff]
  apply Nat.eq_of_testBit_eq
  intro i
  simp only [Nat.testBit_mod_two_pow, Nat.testBit_or, Nat.testBit_shiftLeft, Nat.testBit_and,
    Nat.testBit_shiftRight, Nat.testBit_two_pow_sub_one]
  by_cases h8 : i < 8
  · have e1 : ¬ 24 ≤ i := by omega
    have e2 : ¬ 16 ≤ i := by omega
    have e3 : ¬ 8 ≤ i := by omega
    have e4 : i < 32 := by omega
    simp [h8, e1, e2, e3, e4]
  · by_cases h16 : i < 16
    · have e1 : ¬ 24 ≤ i := by omega
      have e2 : ¬ 16 ≤ i := by omega
      have e3 : 8 ≤ i := by omega
      have e4 : i < 32 := by omega
      have e5 : i - 8 < 8 := by omega
      have e6 : 8 + (i - 8) = i := by omega
      have e7 : 8 + i = 16 + (i - 8) := by omega
      simp [h8, e1, e2, e3, e4, e5, e6, e7]
    · by_cases h24 : i < 24
      · have e1 : ¬ 24 ≤ i := by omega
        have e2 : 16 ≤ i := by omega
        have e3 : 8 ≤ i := by omega
        have e4 : i < 32 := by omega
        have e5 : i - 16 < 8 := by omega
        have e6 : ¬ i - 8 < 8 := by omega
        have e7 : 8 + i = 24 + (i - 16) := by omega
        simp [h8, e1, e2, e3, e4, e5, e6, e7]
      · by_cases h32 : i < 32
        · have e1 : 24 ≤ i := by omega
          have e2 : 16 ≤ i := by omega
          have e3 : 8 ≤ i := by omega
          have e5 : i - 24 < 8 := by omega
          have e6 : ¬ i - 8 < 8 := by omega
          have e7 : ¬ i - 16 < 8 := by omega
          have e8 := hhi (8 + i) (by omega)
          simp [h8, e1, e2, e3, h32, e5, e6, e7, e8]
        · have e1 : 24 ≤ i := by omega
          have e5 : ¬ i - 24 < 8 := by omega
          have e8 := hhi (8 + i) (by omega)
          simp [h32, e1, e5, e8]

/-- The ARGB word of the claim as a sum: the alpha byte times `2^24` plus the
three upper bytes of `rgba`. -/
theorem argb_eq_add (rgba : Nat) (h : rgba < 4294967296) :
    ((rgba &&& 0xff) <<< 24) ||| (rgba >>> 8) = rgba % 256 * 16777216 + rgba / 256 := by
  have h1 : rgba >>> 8 < 2 ^ 24 := by
    rw [Nat.shiftRight_eq_div_pow]
    omega
  rw [Nat.shiftLeft_eq, Nat.mul_comm _ (2 ^ 24), ← Nat.mul_add_lt_is_or h1,
    Nat.shiftRight_eq_div_pow, show (0xff : Nat) = 2 ^ 8 - 1 by norm_num,
    Nat.and_pow_two_sub_one_eq_mod]
  norm_num
  omega

/-- The four bytes of the ARGB word, as a sum, are the alpha, red, green and
blue bytes of `rgba`. -/
theorem argb_bytes (rgba : Nat) (h : rgba < 4294967296) :
    (rgba % 256 * 16777216 + rgba / 256) / 16777216 = rgba % 256
    ∧ (rgba % 256 * 16777216 + rgba / 256) / 65536 % 256 = rgba / 16777216
    ∧ (rgba % 256 * 16777216 + rgba / 256) / 256 % 256 = rgba / 65536 % 256
    ∧ (rgba % 256 * 16777216 + rgba / 256) % 256 = rgba / 256 % 256 := by
  have e1 : (rgba % 256 * 16777216 + rgba / 256) / 256
      = rgba % 256 * 65536 + rgba / 256 / 256 := by
    omega
  have e2 : (rgba % 256 * 16777216 + rgba / 256) / 65536
      = rgba % 256 * 256 + rgba / 256 / 65536 := by
    omega
  have e3 : rgba / 256 / 256 = rgba / 65536 := by omega
  have e4 : rgba / 256 / 65536 = rgba / 16777216 := by omega
  refine ⟨by omega, ?_, ?_, by omega⟩
  · rw [e2, e4]; omega
  · rw [e1, e3]; omega

/-- In a pass that changes the view, the native clears are those of the clear
block of the view change. -/
theorem itemCalls_filter_isClear (k : Consts) (ctx : RendererContext) (f : Frame)
    (pre : List (SortKey × RenderState)) (item : SortKey × RenderState)
    (hchange : item.1.m_view ≠ previousView pre) :
    (itemCalls k ctx f pre item).filter Call.isClear
      = (clearCalls k (f.m_rect item.1.m_view) (f.m_clear item.1.m_view)).filter Call.isClear := by
  obtain ⟨rest0, hrest0, heq⟩ := submitItem_tail k ctx f (stateAfter k ctx f pre) item
  have hv : item.1.m_view ≠ (stateAfter k ctx f pre).view := by
    rw [stateAfter_view]; exact hchange
  rw [if_pos hv] at heq
  have hrt : (if f.m_rt item.1.m_view ≠ (stateAfter k ctx f pre).rt then
      ctx.setRenderTarget k (f.m_rt item.1.m_view) else []).filter Call.isClear = [] :=
    filter_nil_of_api _ _ _ _ isClear_api
      (fun c hc => setRenderTarget_api k ctx _ c (mem_of_mem_ite hc)) (by decide)
  have hst : (stateCalls k item.2.m_flags (passChanged k (stateAfter k ctx f pre) item)).filter
      Call.isClear = [] :=
    filter_nil_of_api _ _ _ _ isClear_api (stateCalls_api _ _ _) (by decide)
  have hrest : rest0.filter Call.isClear = [] :=
    filter_nil_of_api _ _ _ _ isClear_api hrest0 (by decide)
  have hvp : ∀ x y w h : Nat, [Call.SetViewport x y w h].filter Call.isClear = [] :=
    fun _ _ _ _ => rfl
  have hbase : ∀ a b c d e : D3DRENDERSTATETYPE × RSValue,
      [Call.SetRenderState a.1 a.2, Call.SetRenderState b.1 b.2, Call.SetRenderState c.1 c.2,
        Call.SetRenderState d.1 d.2, Call.SetRenderState e.1 e.2].filter Call.isClear = [] :=
    fun _ _ _ _ _ => rfl
  rw [itemCalls, heq]
  unfold viewCalls
  simp only [List.filter_append, hrt, hst, hrest, hvp, List.nil_append, List.append_nil]
  exact (congrArg _ (hbase (_, _) (_, _) (_, _) (_, _) (_, _))).trans (List.append_nil _)

/-- C26: for every 32-bit clear value `rgba` (red in the top byte, alpha in
the bottom byte) of a view with the colour-clear bit set, the colour that the
view change in `Context::rendererSubmit` passes to the one native `Clear` is
the ARGB word `((rgba & 0xff) << 24) | (rgba >> 8)`: its top byte is the alpha
byte of `rgba`, and its red, green and blue bytes are the red, green and blue
bytes of `rgba`, each one byte lower. The clear-none value of `bgfx.h` is
zero. -/
theorem clear_colour_argb (k : Consts) (ctx : RendererContext) (f : Frame)
    (pre post : List (SortKey × RenderState)) (item : SortKey × RenderState)
    (hitems : f.items = pre ++ item :: post)
    (hifh : 0 = (f.m_debug &&& k.BGFX_DEBUG_IFH))
    (hnone : k.BGFX_CLEAR_NONE = 0)
    (hchange : item.1.m_view ≠ previousView pre)
    (hcolor : (k.BGFX_CLEAR_COLOR_BIT &&& (f.m_clear item.1.m_view).m_flags) ≠ 0)
    (h32 : (f.m_clear item.1.m_view).m_rgba < 4294967296) :
    rendererSubmitItems k ctx f
        = (submitLoop k ctx f (SubmitState.initial k) pre).2 ++ itemCalls k ctx f pre item
          ++ (submitLoop k ctx f (submitItem k ctx f (stateAfter k ctx f pre) item).1 post).2
    ∧ (itemCalls k ctx f pre item).filter Call.isClear
        = [Call.Clear (clearChannels k (f.m_clear item.1.m_view))
            (some ((((f.m_clear item.1.m_view).m_rgba &&& 0xff) <<< 24)
              ||| ((f.m_clear item.1.m_view).m_rgba >>> 8)))
            (f.m_clear item.1.m_view).m_depth (f.m_clear item.1.m_view).m_stencil]
    ∧ ((((f.m_clear item.1.m_view).m_rgba &&& 0xff) <<< 24)
          ||| ((f.m_clear item.1.m_view).m_rgba >>> 8)) / 16777216
        = (f.m_clear item.1.m_view).m_rgba % 256
    ∧ ((((f.m_clear item.1.m_view).m_rgba &&& 0xff) <<< 24)
          ||| ((f.m_clear item.1.m_view).m_rgba >>> 8)) / 65536 % 256
        = (f.m_clear item.1.m_view).m_rgba / 16777216
    ∧ ((((f.m_clear item.1.m_view).m_rgba &&& 0xff) <<< 24)
          ||| ((f.m_clear item.1.m_view).m_rgba >>> 8)) / 256 % 256
        = (f.m_clear item.1.m_view).m_rgba / 65536 % 256
    ∧ ((((f.m_clear item.1.m_view).m_rgba &&& 0xff) <<< 24)
          ||| ((f.m_clear item.1.m_view).m_rgba >>> 8)) % 256
        = (f.m_clear item.1.m_view).m_rgba / 256 % 256 := by
  have hadd := argb_eq_add _ h32
  have hbytes := argb_bytes _ h32
  have hflags : k.BGFX_CLEAR_NONE ≠ (f.m_clear item.1.m_view).m_flags := by
    rw [hnone]
    intro h0
    rw [← h0] at hcolor
    exact hcolor (Nat.and_zero _)
  have hch : 0 ≠ clearChannels k (f.m_clear item.1.m_view) :=
    (clearChannels_bits k _).2.2.2.mpr (Or.inl hcolor)
  refine ⟨rendererSubmitItems_split k ctx f pre post item hitems hifh, ?_, ?_, ?_, ?_, ?_⟩
  · rw [itemCalls_filter_isClear k ctx f pre item hchange, filter_isClear_clearCalls,
      if_pos ⟨hflags, hch⟩, clearColor, if_pos hcolor, argb_of_rgba _ h32]
  · rw [hadd]; exact hbytes.1
  · rw [hadd]; exact hbytes.2.1
  · rw [hadd]; exact hbytes.2.2.1
  · rw [hadd]; exact hbytes.2.2.2

/-- Witness for C26: the view of the sample frame has the clear value
`0x303030ff` (opaque grey) with the colour bit set; the colour passed to the
native `Clear` is `0xff303030`. -/
theorem clear_colour_argb_witness :
    (itemCalls sampleConsts sampleContext (sampleFrame [sampleItem 0 1 0]) []
        (sampleItem 0 1 0)).filter Call.isClear
      = [Call.Clear (clearChannels sampleConsts ⟨0x303030ff, 1, 0, 3⟩) (some 0xff303030) 1 0] :=
  (clear_colour_argb sampleConsts sampleContext (sampleFrame [sampleItem 0 1 0]) [] []
    (sampleItem 0 1 0) rfl (by decide) (by decide) (by decide) (by decide) (by decide)).2.1

theorem writeStream_buffer (c : ConstantCodec) (ws : List StreamWrite) :
    ∀ cb : ConstantBuffer,
      (cb.writeStream c ws).m_buffer = cb.m_buffer ++ ws.flatMap (StreamWrite.bytes c) := by
  induction ws with
  | nil => intro cb; simp [ConstantBuffer.writeStream]
  | cons w ws ih =>
    intro cb
    have h := ih (cb.writeRaw c (w.type c) w.loc w.num w.data)
    simp only [ConstantBuffer.writeStream, List.foldl_cons] at h ⊢
    rw [h]
    simp only [ConstantBuffer.writeRaw, StreamWrite.bytes, StreamWrite.opcode, StreamWrite.copy,
      StreamWrite.payload, List.flatMap_cons]
    cases w.data <;> simp [ConstantBuffer.write, List.append_assoc]

theorem sealedWrites_buffer (c : ConstantCodec) (ws : List StreamWrite) :
    (sealedWrites c ws).m_buffer = ws.flatMap (StreamWrite.bytes c) ++ toBytes32 c.End := by
  simp [sealedWrites, ConstantBuffer.finish, ConstantBuffer.write, writeStream_buffer,
    ConstantBuffer.empty]

/-- One pass of the replay loop over an opcode that is not the End opcode,
followed by the payload its copy flag prescribes: the pass reads the opcode and
the payload, and hands the decoded fields to the `switch`. -/
theorem commitLoop_step (c : ConstantCodec) (B pre payload rest : List Nat) (fuel : Nat)
    (opcode type loc num copy : Nat)
    (hfit : opcode < 4294967296) (hdec : c.decodeOpcode opcode = ⟨type, loc, num, copy⟩)
    (hne : opcode ≠ c.End)
    (hwid : payload.length = if copy ≠ 0 then c.g_constantTypeSize type * num else c.ptrSize)
    (hB : B = pre ++ (toBytes32 opcode ++ (payload ++ rest))) :
    ConstantBuffer.commitLoop c (fuel + 1) ⟨B, pre.length⟩
      = match ConstantBuffer.commitLoop c fuel ⟨B, pre.length + 4 + payload.length⟩ with
        | none => none
        | some (cb3, calls) =>
          some (cb3, commitSwitch c type loc
            (if copy ≠ 0 then DataPtr.inBuffer (pre.length + 4) (c.g_constantTypeSize type * num)
              else DataPtr.external payload) num ++ calls) := by
  have hlen : pre.length + 4 + payload.length ≤ B.length := by
    rw [hB]; simp [toBytes32_length]; omega
  have hsl : (List.drop (pre.length + 4) B).take payload.length = payload := by
    rw [hB]
    have := slice_mid (pre ++ toBytes32 opcode) payload rest (pre.length + 4) payload.length
      (by simp [toBytes32_length]) rfl
    simpa [List.append_assoc] using this
  rw [ConstantBuffer.commitLoop, readOpcode_at B pre _ _ hfit hB]
  simp only [if_neg (Ne.symm hne), hdec]
  by_cases hc : copy ≠ 0
  · rw [if_pos hc] at hwid
    simp only [if_pos hc, ConstantBuffer.read, ← hwid, hlen, if_true]
  · rw [if_neg hc] at hwid
    simp only [if_neg hc, ConstantBuffer.read, ← hwid, hlen, if_true, ConstantBuffer.slice, hsl]

theorem commitSwitch_unknown (c : ConstantCodec) (type loc num : Nat) (data : DataPtr)
    (h : knownType c type = false) : commitSwitch c type loc data num = [] := by
  have hfind : (caseLabels c).find? (fun l => decide (l.1 = type)) = none := by
    rw [List.find?_eq_none]
    intro l hl
    simp only [knownType, List.any_eq_false, Bool.or_eq_true, decide_eq_true_eq, not_or] at h
    simp only [caseLabels, List.mem_flatMap, List.mem_cons, List.mem_singleton,
      List.not_mem_nil, or_false] at hl
    obtain ⟨k, hk, hl⟩ := hl
    have hk2 := h k hk
    rcases hl with rfl | rfl
    · simpa using fun e => hk2.1 e.symm
    · simpa using fun e => hk2.2 e.symm
  unfold commitSwitch
  rw [hfind]

/-- Replay of the writes of a stream from offset `pre.length` up to the End
opcode: the loop returns with the cursor at the end and the calls of
`streamCalls`. -/
theorem commitLoop_stream (c : ConstantCodec)
    (hnd : ((caseLabels c).map (fun l => l.1)).Nodup) (hend : c.End < 4294967296) :
    ∀ (ws : List StreamWrite) (pre B : List Nat) (fuel : Nat),
      (∀ w ∈ ws, w.opcode c < 4294967296) →
      (∀ w ∈ ws, c.decodeOpcode (w.opcode c) = ⟨w.type c, w.loc, w.num, w.copy⟩) →
      (∀ w ∈ ws, w.opcode c ≠ c.End) →
      (∀ w ∈ ws, w.payload.length
        = if w.copy ≠ 0 then c.g_constantTypeSize (w.type c) * w.num else c.ptrSize) →
      (∀ type loc num data, StreamWrite.other type loc num data ∈ ws →
        knownType c type = false) →
      ws.length < fuel →
      B = pre ++ (ws.flatMap (StreamWrite.bytes c) ++ toBytes32 c.End) →
      ConstantBuffer.commitLoop c fuel ⟨B, pre.length⟩
        = some (⟨B, B.length⟩, streamCalls c pre.length ws) := by
  intro ws
  induction ws with
  | nil =>
    intro pre B fuel _ _ _ _ _ hfuel hB
    obtain ⟨f, rfl⟩ : ∃ f, fuel = f + 1 := ⟨fuel - 1, by simp at hfuel; omega⟩
    have hB2 : B = pre ++ (toBytes32 c.End ++ []) := by simpa using hB
    have hlen : B.length = pre.length + 4 := by rw [hB2]; simp [toBytes32_length]
    unfold ConstantBuffer.commitLoop
    rw [readOpcode_at B pre [] c.End hend hB2]
    simp [streamCalls, hlen]
  | cons w ws ih =>
    intro pre B fuel hfits hdec hne hwid hunk hfuel hB
    obtain ⟨f, rfl⟩ : ∃ f, fuel = f + 1 := ⟨fuel - 1, by simp at hfuel; omega⟩
    have hfuel2 : ws.length < f := by simp at hfuel; omega
    have hB1 : B = pre ++ (toBytes32 (w.opcode c)
        ++ (w.payload ++ (ws.flatMap (StreamWrite.bytes c) ++ toBytes32 c.End))) := by
      rw [hB, List.flatMap_cons, StreamWrite.bytes]; simp [List.append_assoc]
    have hB2 : B = (pre ++ toBytes32 (w.opcode c) ++ w.payload)
        ++ (ws.flatMap (StreamWrite.bytes c) ++ toBytes32 c.End) := by
      rw [hB1]; simp [List.append_assoc]
    have hrec := ih (pre ++ toBytes32 (w.opcode c) ++ w.payload)
      B f (fun x hx => hfits x (List.mem_cons_of_mem _ hx))
      (fun x hx => hdec x (List.mem_cons_of_mem _ hx))
      (fun x hx => hne x (List.mem_cons_of_mem _ hx))
      (fun x hx => hwid x (List.mem_cons_of_mem _ hx))
      (fun t l n d hx => hunk t l n d (List.mem_cons_of_mem _ hx)) hfuel2 hB2
    have hplen : (pre ++ toBytes32 (w.opcode c) ++ w.payload).length
        = pre.length + 4 + w.payload.length := by simp [toBytes32_length, Nat.add_assoc]
    have hblen : (w.bytes c).length = 4 + w.payload.length := by
      simp [StreamWrite.bytes, toBytes32_length]
    rw [hplen] at hrec
    rw [commitLoop_step c B pre w.payload _ f (w.opcode c) (w.type c) w.loc w.num w.copy
      (hfits w (List.mem_cons_self _ _)) (hdec w (List.mem_cons_self _ _))
      (hne w (List.mem_cons_self _ _)) (hwid w (List.mem_cons_self _ _)) hB1, hrec]
    have hoff : pre.length + (w.bytes c).length = pre.length + 4 + w.payload.length := by
      rw [hblen, Nat.add_assoc]
    cases w with
    | uniform u =>
      simp only [StreamWrite.type, StreamWrite.loc, StreamWrite.num, commitSwitch_write c hnd u,
        streamCalls, hoff, List.singleton_append, Option.some.injEq, Prod.mk.injEq,
        List.cons.injEq, and_true, true_and]
      cases hd : u.data <;>
        simp [UniformWrite.call, StreamWrite.copy, StreamWrite.data, StreamWrite.payload, hd,
          StreamWrite.type]
    | other type loc num data =>
      have hu := hunk type loc num data (List.mem_cons_self _ _)
      simp only [StreamWrite.type, StreamWrite.loc, StreamWrite.num,
        commitSwitch_unknown c type loc num _ hu, streamCalls, hoff, List.nil_append]

/-- The calls of a replayed stream, resolved against the stream bytes, are the
applications its uniform writes ask for. -/
theorem streamCalls_resolve (c : ConstantCodec) :
    ∀ (ws : List StreamWrite) (pre rest B : List Nat) (pos : Nat),
      (∀ w ∈ ws, w.payload.length
        = if w.copy ≠ 0 then c.g_constantTypeSize (w.type c) * w.num else c.ptrSize) →
      B = pre ++ (ws.flatMap (StreamWrite.bytes c) ++ rest) →
      (streamCalls c pre.length ws).map (ShaderConstantCall.resolve ⟨B, pos⟩)
        = (uniformsOf ws).map UniformWrite.applied := by
  intro ws
  induction ws with
  | nil => intro pre rest B pos _ _; rfl
  | cons w ws ih =>
    intro pre rest B pos hwid hB
    have hww := hwid w (List.mem_cons_self _ _)
    have hB2 : B = (pre ++ w.bytes c) ++ (ws.flatMap (StreamWrite.bytes c) ++ rest) := by
      rw [hB]; simp [List.append_assoc]
    have hrec := ih (pre ++ w.bytes c) rest B pos
      (fun x hx => hwid x (List.mem_cons_of_mem _ hx)) hB2
    rw [List.length_append] at hrec
    cases w with
    | other type loc num data =>
      simp only [streamCalls, uniformsOf, hrec]
    | uniform u =>
      simp only [streamCalls, uniformsOf, List.map_cons, hrec, List.cons.injEq, and_true]
      cases hd : u.data with
      | inline bytes =>
        simp only [StreamWrite.payload, StreamWrite.copy, StreamWrite.data, hd,
          StreamWrite.type, StreamWrite.num] at hww
        have hw2 : bytes.length = c.g_constantTypeSize (u.type c) * u.num := by simpa using hww
        have hsl : (List.drop (pre.length + 4) B).take bytes.length = bytes := by
          rw [hB]
          have := slice_mid (pre ++ toBytes32 (StreamWrite.opcode c (.uniform u))) bytes
            (ws.flatMap (StreamWrite.bytes c) ++ rest) (pre.length + 4) bytes.length
            (by simp [toBytes32_length]) rfl
          simpa [StreamWrite.bytes, StreamWrite.payload, StreamWrite.data, hd,
            List.append_assoc] using this
        simp [ShaderConstantCall.resolve, UniformWrite.call, UniformWrite.applied, hd,
          ConstantBuffer.slice, ← hw2, hsl]
      | ref ptr =>
        simp [ShaderConstantCall.resolve, UniformWrite.call, UniformWrite.applied, hd]

theorem streamBytes_length (c : ConstantCodec) (ws : List StreamWrite) :
    ws.length ≤ (ws.flatMap (StreamWrite.bytes c)).length := by
  induction ws with
  | nil => simp
  | cons w ws ih =>
    simp only [List.flatMap_cons, List.length_append, List.length_cons, StreamWrite.bytes,
      toBytes32_length]
    omega

/-- The uniform writes of a well-formed stream are well-formed writes. -/
theorem WellFormedStream.uniforms (c : ConstantCodec) (ws : List StreamWrite)
    (hw : WellFormedStream c ws) : WellFormedWrites c (uniformsOf ws) := by
  have hmem : ∀ u ∈ uniformsOf ws, StreamWrite.uniform u ∈ ws := by
    intro u
    induction ws with
    | nil => intro h; simp [uniformsOf] at h
    | cons w ws ih =>
      have ih2 := ih ⟨hw.labels, hw.endFits,
        fun x hx => hw.fits x (List.mem_cons_of_mem _ hx),
        fun x hx => hw.decode x (List.mem_cons_of_mem _ hx),
        fun x hx => hw.notEnd x (List.mem_cons_of_mem _ hx),
        fun x hx => hw.width x (List.mem_cons_of_mem _ hx),
        fun t l n d hx => hw.unknown t l n d (List.mem_cons_of_mem _ hx)⟩
      intro h
      cases w with
      | uniform v =>
        simp only [uniformsOf, List.mem_cons] at h
        rcases h with rfl | h
        · exact List.mem_cons_self _ _
        · exact List.mem_cons_of_mem _ (ih2 h)
      | other type loc num data =>
        exact List.mem_cons_of_mem _ (ih2 h)
  refine ⟨hw.labels, hw.endFits, ?_, ?_, ?_, ?_⟩
  · intro u hu
    exact hw.fits _ (hmem u hu)
  · intro u hu
    exact hw.decode _ (hmem u hu)
  · intro u hu
    exact hw.notEnd _ (hmem u hu)
  · intro u hu
    have h := hw.width _ (hmem u hu)
    simp only [StreamWrite.payload, StreamWrite.copy, StreamWrite.data, StreamWrite.type,
      StreamWrite.num] at h
    cases hd : u.data with
    | inline bytes => rw [hd] at h; simpa using h
    | ref ptr => rw [hd] at h; simpa using h

/-- C22: for every sealed constant-buffer stream that contains opcodes whose
type is none of the nine uniform kinds (in either shader stage),
`ConstantBuffer::commit` does not fail: it returns with the cursor at the end
of the stream. It issues no native call for an opcode of unknown type (the
`switch` issues none), and the calls it issues apply the uniform writes of the
stream, in order, those after an unknown opcode included, with the written
stage, register file, location, count and data: the same applications, in the
same order, as `commit` issues for the sealed stream of the uniform writes
alone. Every write, of known or unknown type, is an opcode followed by the data
its copy flag prescribes (`g_constantTypeSize[type] * num` inline bytes, or a
pointer). -/
theorem commit_skips_unknown (c : ConstantCodec) (ws : List StreamWrite) (force : Bool)
    (hw : WellFormedStream c ws) :
    (∀ type loc num data, StreamWrite.other type loc num data ∈ ws →
        ∀ ptr : DataPtr, commitSwitch c type loc ptr num = [])
    ∧ ∃ calls calls0 : List ShaderConstantCall,
        (sealedWrites c ws).commit c force
          = some (⟨(sealedWrites c ws).m_buffer, (sealedWrites c ws).m_buffer.length⟩, calls)
        ∧ calls.length = (uniformsOf ws).length
        ∧ calls.map (ShaderConstantCall.resolve (sealedWrites c ws))
            = (uniformsOf ws).map UniformWrite.applied
        ∧ (sealedStream c (uniformsOf ws)).commit c force
            = some (⟨(sealedStream c (uniformsOf ws)).m_buffer,
                     (sealedStream c (uniformsOf ws)).m_buffer.length⟩, calls0)
        ∧ calls.map (ShaderConstantCall.resolve (sealedWrites c ws))
            = calls0.map (ShaderConstantCall.resolve (sealedStream c (uniformsOf ws))) := by
  have hbuf := sealedWrites_buffer c ws
  have hloop := commitLoop_stream c hw.labels hw.endFits ws [] (sealedWrites c ws).m_buffer
    ((sealedWrites c ws).m_buffer.length + 1) hw.fits hw.decode hw.notEnd hw.width hw.unknown
    (by rw [hbuf]; simp only [List.length_append, toBytes32_length]
        have := streamBytes_length c ws
        omega)
    (by simpa using hbuf)
  have hres := streamCalls_resolve c ws [] (toBytes32 c.End) (sealedWrites c ws).m_buffer
    (sealedWrites c ws).m_pos hw.width (by simpa using hbuf)
  have hwu := WellFormedStream.uniforms c ws hw
  have hbuf0 := sealedStream_buffer c (uniformsOf ws)
  have hres0 := expectedCalls_resolve c (uniformsOf ws) [] (toBytes32 c.End)
    (sealedStream c (uniformsOf ws)).m_buffer (sealedStream c (uniformsOf ws)).m_pos hwu.width
    (by simpa using hbuf0)
  refine ⟨fun type loc num data hm ptr =>
      commitSwitch_unknown c type loc num ptr (hw.unknown type loc num data hm),
    streamCalls c 0 ws, expectedCalls c 0 (uniformsOf ws), ?_, ?_, hres, ?_, ?_⟩
  · simpa [ConstantBuffer.commit, ConstantBuffer.reset] using hloop
  · have := congrArg List.length hres
    simpa using this
  · exact sealedStream_commit c (uniformsOf ws) force hwu
  · exact hres.trans hres0.symm

/-- Witness for C22 on the sample codec: the sample stream, with two writes of
unknown type between its two uniform writes, is replayed as the two calls of
the uniform writes. -/
theorem commit_skips_unknown_witness :
    WellFormedStream sampleCodec sampleStreamWrites
    ∧ ((sealedWrites sampleCodec sampleStreamWrites).commit sampleCodec true).map
        (fun r => r.2.map (ShaderConstantCall.resolve (sealedWrites sampleCodec sampleStreamWrites)))
      = some (sampleWrites.map UniformWrite.applied) :=
  have hwf : WellFormedStream sampleCodec sampleStreamWrites := by
    refine ⟨by decide, by decide, ?_, ?_, ?_, ?_, ?_⟩
    · intro w hw
      simp only [sampleStreamWrites, List.mem_cons, List.mem_singleton, List.not_mem_nil,
        or_false] at hw
      rcases hw with rfl | rfl | rfl | rfl <;> decide
    · intro w hw
      simp only [sampleStreamWrites, List.mem_cons, List.mem_singleton, List.not_mem_nil,
        or_false] at hw
      rcases hw with rfl | rfl | rfl | rfl <;> decide
    · intro w hw
      simp only [sampleStreamWrites, List.mem_cons, List.mem_singleton, List.not_mem_nil,
        or_false] at hw
      rcases hw with rfl | rfl | rfl | rfl <;> decide
    · intro w hw
      simp only [sampleStreamWrites, List.mem_cons, List.mem_singleton, List.not_mem_nil,
        or_false] at hw
      rcases hw with rfl | rfl | rfl | rfl <;> decide
    · intro type loc num data hm
      simp only [sampleStreamWrites, List.mem_cons, List.mem_singleton, List.not_mem_nil,
        or_false, StreamWrite.other.injEq, reduceCtorEq, false_or] at hm
      rcases hm with ⟨rfl, -, -, -⟩ | ⟨rfl, -, -, -⟩ <;> decide
  ⟨hwf, by
    obtain ⟨calls, calls0, h1, -, h3, -, -⟩ :=
      (commit_skips_unknown sampleCodec sampleStreamWrites true hwf).2
    rw [h1]
    exact congrArg some h3⟩

/-- The loop over attributes of the table, with room left in the array for
each of them: every present attribute gets its element, in order. -/
theorem createLoop_eq (decode : AttribDecoder) (_decl : VertexDecl) :
    ∀ (attrs : List Nat) (elems : List D3DVERTEXELEMENT9),
      (∀ a ∈ attrs, a < s_attrib.length) →
      elems.length + attrs.length ≤ Attrib.Count + 1 →
      VertexDeclaration.createLoop decode _decl attrs elems
        = some (elems ++ (attrs.filter fun attr => decide (_decl.m_attributes attr ≠ 0xff)).map
            fun attr => vertexElement decode _decl attr (s_attrib.getD attr D3DDECL_END)) := by
  intro attrs
  induction attrs with
  | nil => intro elems _ _; simp [VertexDeclaration.createLoop]
  | cons a rest ih =>
    intro elems hmem hlen
    have ha := hmem a (List.mem_cons_self _ _)
    have hrest : ∀ x ∈ rest, x < s_attrib.length := fun x hx => hmem x (List.mem_cons_of_mem _ hx)
    simp only [List.length_cons] at hlen
    unfold VertexDeclaration.createLoop
    by_cases hp : 0xff ≠ _decl.m_attributes a
    · have hp2 : _decl.m_attributes a ≠ 0xff := fun h => hp h.symm
      have hget : s_attrib[a]? = some (s_attrib.getD a D3DDECL_END) := by
        rw [List.getD_eq_getElem?_getD, List.getElem?_eq_getElem ha]
        rfl
      have hroom : elems.length < Attrib.Count + 1 := by omega
      rw [if_pos hp, hget]
      simp only [pushElement, if_pos hroom]
      rw [ih _ hrest (by simp only [List.length_append, List.length_singleton]; omega)]
      simp [List.filter_cons, hp2]
    · have hp2 : ¬ _decl.m_attributes a ≠ 0xff := fun h => hp (fun e => h e.symm)
      rw [if_neg hp, ih _ hrest (by omega)]
      simp [List.filter_cons, hp2]

/-- C27: for every vertex layout, `VertexDeclaration::create` returns, having
passed to `CreateVertexDeclaration` an element list with exactly one element
per attribute present in the layout (attribute byte not `0xff`), in ascending
attribute order, each with the usage and usage index of the attribute's entry
of `s_attrib` and the layout's byte offset for the attribute, followed by
exactly one end-of-declaration terminator; the list has one element more than
there are present attributes and never more than `Attrib::Count + 1`. The
element type of an 8-bit attribute is `UBYTE4N` if normalized and `UBYTE4` if
not; of a 16-bit attribute `SHORT4N`/`SHORT4` with four components and
`SHORT2N`/`SHORT2` otherwise; of a float attribute `FLOAT1`, `FLOAT2`, `FLOAT4`
with one, two, four components and `FLOAT3` otherwise. -/
theorem vertex_declaration_elements (decode : AttribDecoder) (d : Device) (_decl : VertexDecl) :
    VertexDeclaration.create decode d _decl
        = some (d.newObject.2, { m_ptr := d.newObject.1, m_decl := _decl },
            [.creation (.CreateVertexDeclaration
              ((presentAttribs _decl).map (fun attr =>
                  vertexElement decode _decl attr (s_attrib.getD attr D3DDECL_END))
                ++ [D3DDECL_END]))])
    ∧ ((presentAttribs _decl).map (fun attr =>
          vertexElement decode _decl attr (s_attrib.getD attr D3DDECL_END))
        ++ [D3DDECL_END]).length = (presentAttribs _decl).length + 1
    ∧ (presentAttribs _decl).length + 1 ≤ Attrib.Count + 1
    ∧ (presentAttribs _decl).Pairwise (fun a b => a < b)
    ∧ (∀ attr, attr ∈ presentAttribs _decl ↔ attr < Attrib.Count ∧ _decl.m_attributes attr ≠ 0xff)
    ∧ (∀ attr ∈ presentAttribs _decl, ∃ entry, s_attrib[attr]? = some entry
        ∧ vertexElement decode _decl attr (s_attrib.getD attr D3DDECL_END) ≠ D3DDECL_END
        ∧ (vertexElement decode _decl attr (s_attrib.getD attr D3DDECL_END)).Usage = entry.Usage
        ∧ (vertexElement decode _decl attr (s_attrib.getD attr D3DDECL_END)).UsageIndex
            = entry.UsageIndex
        ∧ (vertexElement decode _decl attr (s_attrib.getD attr D3DDECL_END)).Offset
            = _decl.m_offset attr
        ∧ ((decode _decl attr).type = .Uint8 →
            (vertexElement decode _decl attr (s_attrib.getD attr D3DDECL_END)).Type_
              = if (decode _decl attr).normalized then .D3DDECLTYPE_UBYTE4N
                else .D3DDECLTYPE_UBYTE4)
        ∧ ((decode _decl attr).type = .Uint16 →
            (vertexElement decode _decl attr (s_attrib.getD attr D3DDECL_END)).Type_
              = if (decode _decl attr).num = 4 then
                  (if (decode _decl attr).normalized then .D3DDECLTYPE_SHORT4N
                    else .D3DDECLTYPE_SHORT4)
                else
                  (if (decode _decl attr).normalized then .D3DDECLTYPE_SHORT2N
                    else .D3DDECLTYPE_SHORT2))
        ∧ ((decode _decl attr).type = .Float →
            (vertexElement decode _decl attr (s_attrib.getD attr D3DDECL_END)).Type_
              = if (decode _decl attr).num = 1 then .D3DDECLTYPE_FLOAT1
                else if (decode _decl attr).num = 2 then .D3DDECLTYPE_FLOAT2
                else if (decode _decl attr).num = 4 then .D3DDECLTYPE_FLOAT4
                else .D3DDECLTYPE_FLOAT3)) := by
  have hlenP : (presentAttribs _decl).length ≤ Attrib.Count := by
    have h := List.length_filter_le (fun attr => decide (_decl.m_attributes attr ≠ 0xff))
      (List.range Attrib.Count)
    rwa [List.length_range] at h
  have hloop := createLoop_eq decode _decl (List.range Attrib.Count) []
    (by intro a ha; rw [List.mem_range] at ha; exact lt_trans ha (by decide)) (by simp)
  have hmem : ∀ attr, attr ∈ presentAttribs _decl
      ↔ attr < Attrib.Count ∧ _decl.m_attributes attr ≠ 0xff := by
    intro attr
    simp [presentAttribs, List.mem_filter]
  refine ⟨?_, by simp, by omega, ?_, hmem, ?_⟩
  · have hroom : ((presentAttribs _decl).map (fun attr =>
        vertexElement decode _decl attr (s_attrib.getD attr D3DDECL_END))).length
          < Attrib.Count + 1 := by
      rw [List.length_map]; omega
    rw [VertexDeclaration.create, hloop]
    simp only [List.nil_append]
    have hterm : s_attrib[Attrib.Count]? = some D3DDECL_END := by decide
    rw [hterm]
    simp only [pushElement]
    unfold presentAttribs at hroom
    rw [if_pos hroom]
    rfl
  · exact List.Pairwise.sublist (List.filter_sublist _) (List.pairwise_lt_range _)
  · intro attr hattr
    have hlt : attr < Attrib.Count := ((hmem attr).mp hattr).1
    have hex : ∀ a, a < Attrib.Count → ∃ entry, s_attrib[a]? = some entry
        ∧ s_attrib.getD a D3DDECL_END = entry ∧ entry.Stream = 0 := by
      decide
    obtain ⟨entry, he, hget, hstream⟩ := hex attr hlt
    refine ⟨entry, he, ?_, ?_, ?_, rfl, ?_, ?_, ?_⟩
    · intro hE
      have := congrArg D3DVERTEXELEMENT9.Stream hE
      rw [hget] at this
      simp [vertexElement, hstream, D3DDECL_END] at this
    · rw [hget]; rfl
    · rw [hget]; rfl
    · intro ht
      simp only [vertexElement, declTypeOf, ht]
    · intro ht
      simp only [vertexElement, declTypeOf, ht]
      by_cases hn : (decode _decl attr).num = 4
      · simp only [hn, if_true]
      · simp only [if_neg hn]
    · intro ht
      simp only [vertexElement, declTypeOf, ht]
      split <;> simp_all

/-! ## Theorems: render states at the draw -/

theorem renderStatesAfter_append (rs : RenderStates) (a b : List Call) :
    renderStatesAfter rs (a ++ b) = renderStatesAfter (renderStatesAfter rs a) b := by
  simp only [renderStatesAfter, List.foldl_append]

/-- Calls other than `SetRenderState` leave the render states as they are. -/
theorem renderStatesAfter_noRS (l : List Call) (h : ∀ c ∈ l, c.renderState? = none) :
    ∀ rs : RenderStates, renderStatesAfter rs l = rs := by
  induction l with
  | nil => intro rs; rfl
  | cons c rest ih =>
    intro rs
    have hc := h c (List.mem_cons_self _ _)
    have h1 : Call.applyTo rs c = rs := by
      cases c <;> first | rfl | simp [Call.renderState?] at hc
    simp only [renderStatesAfter, List.foldl_cons, h1]
    exact ih (fun x hx => h x (List.mem_cons_of_mem _ hx)) rs

/-- A render state of a group depends only on the calls for the states of the
group. -/
theorem renderStatesAfter_filter (g : FlagGroup) (s : D3DRENDERSTATETYPE) (hs : s ∈ g.states) :
    ∀ (calls : List Call) (rs1 rs2 : RenderStates), rs1 s = rs2 s →
      renderStatesAfter rs1 calls s = renderStatesAfter rs2 (calls.filter (Call.inGroup g)) s := by
  intro calls
  induction calls with
  | nil => intro rs1 rs2 h; exact h
  | cons c rest ih =>
    intro rs1 rs2 h
    by_cases hc : c.inGroup g = true
    · rw [List.filter_cons_of_pos hc]
      simp only [renderStatesAfter, List.foldl_cons]
      apply ih
      cases c <;> first | exact h | (simp only [Call.applyTo]; rw [h])
    · rw [List.filter_cons_of_neg hc]
      simp only [renderStatesAfter, List.foldl_cons]
      apply ih
      cases c with
      | SetRenderState state value =>
        have hne : s ≠ state := by
          intro e
          apply hc
          simp [Call.inGroup, Call.renderState?, ← e, hs]
        simp only [Call.applyTo, if_neg hne]
        exact h
      | _ => exact h

/-- The calls of a group in the state block are the derived states of the
group, set in order, when the group's bits are among the changed ones. -/
theorem calls_eq_derived (k : Consts) (nf ch : Nat) (g : FlagGroup) :
    g.calls k nf ch
      = if (g.mask k &&& ch) ≠ 0 then
          (g.derived k nf).map fun p => Call.SetRenderState p.1 p.2
        else [] := by
  cases g <;>
    simp only [FlagGroup.calls, FlagGroup.mask, FlagGroup.derived, cullCalls, depthWriteCalls,
      depthTestCalls, alphaCalls, alphaRefOf, writeMaskCalls, blendCalls] <;>
    split_ifs <;> simp_all

/-- The states a group derives are states of the group. -/
theorem derived_states (k : Consts) (flags : Nat) (g : FlagGroup) :
    ∀ p ∈ g.derived k flags, p.1 ∈ g.states := by
  intro p hp
  cases g <;> simp only [FlagGroup.derived] at hp <;>
    (try split_ifs at hp) <;>
    simp only [List.mem_cons, List.mem_singleton, List.not_mem_nil, or_false] at hp <;>
    (rcases hp with rfl | rfl | rfl) <;> simp [FlagGroup.states]

/-- Setting the derived states of a group, in order, leaves each of them with
its derived value. -/
theorem renderStatesAfter_derived (k : Consts) (flags : Nat) (g : FlagGroup) (rs : RenderStates) :
    ∀ p ∈ g.derived k flags,
      renderStatesAfter rs ((g.derived k flags).map fun p => Call.SetRenderState p.1 p.2) p.1
        = some p.2 := by
  intro p hp
  cases g <;> simp only [FlagGroup.derived] at hp ⊢ <;>
    (try split_ifs at hp ⊢) <;>
    simp only [List.mem_cons, List.mem_singleton, List.not_mem_nil, or_false] at hp <;>
    (rcases hp with rfl | rfl | rfl) <;>
    simp [renderStatesAfter, Call.applyTo]

theorem and_of_and_or (x a b : Nat) : x &&& a = (x &&& (a ||| b)) &&& a := by
  apply Nat.eq_of_testBit_eq
  intro i
  simp only [Nat.testBit_and, Nat.testBit_or]
  cases x.testBit i <;> cases a.testBit i <;> cases b.testBit i <;> rfl

/-- The derived states of a group depend only on the bits of the group. -/
theorem derived_congr (k : Consts) (f1 f2 : Nat) (g : FlagGroup)
    (h : f1 &&& g.mask k = f2 &&& g.mask k) : g.derived k f1 = g.derived k f2 := by
  cases g <;> simp only [FlagGroup.mask] at h <;> simp only [FlagGroup.derived]
  · rw [h]
  · rw [Nat.and_comm _ f1, Nat.and_comm _ f2, h]
  · rw [h]
  · have h1 : f1 &&& k.BGFX_STATE_ALPHA_TEST = f2 &&& k.BGFX_STATE_ALPHA_TEST := by
      rw [and_of_and_or f1 _ k.BGFX_STATE_ALPHA_REF_MASK, h, ← and_of_and_or]
    have h2 : f1 &&& k.BGFX_STATE_ALPHA_REF_MASK = f2 &&& k.BGFX_STATE_ALPHA_REF_MASK := by
      rw [and_of_and_or f1 _ k.BGFX_STATE_ALPHA_TEST, Nat.or_comm, h, Nat.or_comm,
        ← and_of_and_or]
    rw [h2, Nat.and_comm _ f1, Nat.and_comm _ f2, h1]
  · have h1 : f1 &&& k.BGFX_STATE_ALPHA_WRITE = f2 &&& k.BGFX_STATE_ALPHA_WRITE := by
      rw [and_of_and_or f1 _ k.BGFX_STATE_RGB_WRITE, h, ← and_of_and_or]
    have h2 : f1 &&& k.BGFX_STATE_RGB_WRITE = f2 &&& k.BGFX_STATE_RGB_WRITE := by
      rw [and_of_and_or f1 _ k.BGFX_STATE_ALPHA_WRITE, Nat.or_comm, h, Nat.or_comm,
        ← and_of_and_or]
    rw [h1, h2]
  · rw [Nat.and_comm _ f1, Nat.and_comm _ f2, h]

/-- After a state block in which a group applies, the device holds the derived
states of the group. -/
theorem renderStatesAfter_stateCalls (k : Consts) (g : FlagGroup) (rs : RenderStates)
    (A : List Call) (flags ch : Nat)
    (hguard : (stateGuardMask k &&& ch) ≠ 0) (hg : (g.mask k &&& ch) ≠ 0) :
    ∀ p ∈ g.derived k flags,
      renderStatesAfter rs (A ++ stateCalls k flags ch) p.1 = some p.2 := by
  intro p hp
  rw [renderStatesAfter_filter g p.1 (derived_states k flags g p hp) _ rs rs rfl,
    List.filter_append, filter_inGroup_stateCalls k flags ch g hguard, calls_eq_derived,
    if_pos hg, renderStatesAfter_append]
  exact renderStatesAfter_derived k flags g _ p hp

/-- A state block in which a group does not apply leaves the states of the
group as they are. -/
theorem renderStatesAfter_stateCalls_skip (k : Consts) (g : FlagGroup) (rs : RenderStates)
    (A : List Call) (flags ch : Nat) (hg : ¬ (g.mask k &&& ch) ≠ 0)
    (s : D3DRENDERSTATETYPE) (hs : s ∈ g.states) :
    renderStatesAfter rs (A ++ stateCalls k flags ch) s = renderStatesAfter rs A s := by
  have hnil : (stateCalls k flags ch).filter (Call.inGroup g) = [] := by
    by_cases hguard : (stateGuardMask k &&& ch) ≠ 0
    · rw [filter_inGroup_stateCalls k flags ch g hguard, calls_eq_derived, if_neg hg]
    · rw [stateCalls_eq, if_neg hguard]
      rfl
  rw [renderStatesAfter_filter g s hs _ rs rs rfl, List.filter_append, hnil, List.append_nil,
    ← renderStatesAfter_filter g s hs _ rs rs rfl]

/-- When the state block of a pass is left, the device holds the derived
states of the item's flags, provided it held those of the tracked flags
before the pass (or the pass changes the view). -/
theorem pass_derived (k : Consts) (hk : k.StateMasksOk) (ctx : RendererContext) (f : Frame)
    (st : SubmitState) (item : SortKey × RenderState) (rs : RenderStates) (T : List Call)
    (hprev : item.1.m_view = st.view → ∀ g : FlagGroup, ∀ p ∈ g.derived k st.currentState.m_flags,
      renderStatesAfter rs T p.1 = some p.2) :
    ∀ g : FlagGroup, ∀ p ∈ g.derived k item.2.m_flags,
      renderStatesAfter rs
        (T ++ ((if item.1.m_view ≠ st.view then viewCalls k ctx f st.rt item.1.m_view else [])
          ++ stateCalls k item.2.m_flags (passChanged k st item))) p.1 = some p.2 := by
  intro g p hp
  have hsub := group_subset_guard k hk.alphaTest g
  by_cases hv : item.1.m_view ≠ st.view
  · rw [← List.append_assoc]
    simp only [passChanged, if_pos hv]
    exact renderStatesAfter_stateCalls k g rs _ _ _
      (and_ne_zero_of_subset _ _ _ hsub (hk.inMask g)) (hk.inMask g) p hp
  · have hv2 : item.1.m_view = st.view := not_not.mp hv
    rw [if_neg hv, List.nil_append]
    by_cases hg : (g.mask k &&& passChanged k st item) ≠ 0
    · exact renderStatesAfter_stateCalls k g rs _ _ _
        (and_ne_zero_of_subset _ _ _ hsub hg) hg p hp
    · rw [renderStatesAfter_stateCalls_skip k g rs T _ _ hg p.1 (derived_states k _ g p hp)]
      have hz : (g.mask k &&& (st.currentState.m_flags ^^^ item.2.m_flags)) = 0 := by
        simp only [passChanged, if_neg hv] at hg
        exact not_not.mp hg
      have heq := (and_xor_eq_zero_iff _ _ _).mp hz
      rw [← derived_congr k _ _ g heq] at hp
      exact hprev hv2 g p hp

/-- After the items `pre`, the first of which begins a view, the device holds
the derived states of the flags of the last of them. -/
theorem loop_derived (k : Consts) (hk : k.StateMasksOk) (ctx : RendererContext) (f : Frame)
    (rs : RenderStates) :
    ∀ pre : List (SortKey × RenderState), pre ≠ [] → (∀ it ∈ pre.head?, it.1.m_view ≠ 0xff) →
      ∀ g : FlagGroup, ∀ p ∈ g.derived k (stateAfter k ctx f pre).currentState.m_flags,
        renderStatesAfter rs (submitLoop k ctx f (SubmitState.initial k) pre).2 p.1
          = some p.2 := by
  intro pre
  induction pre using List.reverseRecOn with
  | nil => intro h; exact absurd rfl h
  | append_singleton init last ih =>
    intro _ hfirst g p hp
    rw [stateAfter_snoc, submitItem_flags] at hp
    obtain ⟨rest, hrest, heq⟩ := submitItem_calls k ctx f (stateAfter k ctx f init) last
    have hT : (submitLoop k ctx f (SubmitState.initial k) (init ++ [last])).2
        = (submitLoop k ctx f (SubmitState.initial k) init).2
          ++ ((if last.1.m_view ≠ (stateAfter k ctx f init).view then
                viewCalls k ctx f (stateAfter k ctx f init).rt last.1.m_view else [])
            ++ stateCalls k last.2.m_flags (passChanged k (stateAfter k ctx f init) last))
          ++ rest := by
      rw [submitLoop_append]
      simp only [submitLoop, List.append_nil]
      rw [show submitItem k ctx f (submitLoop k ctx f (SubmitState.initial k) init).1 last
        = submitItem k ctx f (stateAfter k ctx f init) last from rfl, heq]
      simp only [List.append_assoc, passChanged]
    rw [hT, renderStatesAfter_append, renderStatesAfter_noRS rest hrest]
    apply pass_derived k hk ctx f (stateAfter k ctx f init) last rs _ _ g p hp
    intro hsame
    have hne : init ≠ [] := by
      intro e
      subst e
      have h1 : last.1.m_view ≠ 0xff := hfirst last (by simp)
      exact h1 hsame
    apply ih hne
    intro it hit
    apply hfirst it
    cases init with
    | nil => exact absurd rfl hne
    | cons a as => simpa using hit

/-- Setting states to the values they hold changes nothing. -/
theorem renderStatesAfter_same (rs : RenderStates) :
    ∀ l : List (D3DRENDERSTATETYPE × RSValue), (∀ p ∈ l, rs p.1 = some p.2) →
      renderStatesAfter rs (l.map fun p => Call.SetRenderState p.1 p.2) = rs := by
  intro l
  induction l with
  | nil => intro _; rfl
  | cons q rest ih =>
    intro h
    have hq := h q (List.mem_cons_self _ _)
    have h1 : Call.applyTo rs (Call.SetRenderState q.1 q.2) = rs := by
      funext s
      simp only [Call.applyTo]
      split
      · rename_i e; rw [e, hq]
      · rfl
    simp only [List.map_cons, renderStatesAfter, List.foldl_cons, h1]
    exact ih (fun x hx => h x (List.mem_cons_of_mem _ hx))

theorem mem_derivedStates (k : Consts) (flags : Nat) (p : D3DRENDERSTATETYPE × RSValue) :
    p ∈ derivedStates k flags ↔ ∃ g : FlagGroup, p ∈ g.derived k flags := by
  simp only [derivedStates, List.mem_append]
  constructor
  · rintro (((((h | h) | h) | h) | h) | h) <;> exact ⟨_, h⟩
  · rintro ⟨g, h⟩
    cases g <;> simp [h]

/-- The state calls of the naive loop for an item are the state block with
every flag marked as changed. -/
theorem naiveStateCalls_eq (k : Consts) (hk : k.StateMasksOk) (flags : Nat) :
    naiveStateCalls k flags = stateCalls k flags k.BGFX_STATE_MASK := by
  have hguard : (stateGuardMask k &&& k.BGFX_STATE_MASK) ≠ 0 :=
    and_ne_zero_of_subset _ _ _ (group_subset_guard k hk.alphaTest .cull) (hk.inMask .cull)
  rw [stateCalls_eq, if_pos hguard]
  simp only [calls_eq_derived, if_pos (hk.inMask _), naiveStateCalls, derivedStates,
    List.map_append]

/-- C24: the state diff of `Context::rendererSubmit` is equivalent to full
re-application. For every frame whose first item begins a view (its view is
not the marker `0xff` the loop starts from; every later item begins a view or
follows an item of the same view), and every item of the frame, when the
pass of the item reaches its draw block the device's cull mode, depth write,
depth test enable (and function, when the test is enabled), alpha reference
and alpha test enable, colour write mask and blend enable (and factors, when
blending is enabled) are the ones derived from the item's flags alone,
whatever the device held before the frame; setting every category again there,
as a naive loop does, changes no render state; the device agrees on these
states with one driven by the naive loop; and the primitive type and
vertices-per-primitive used by the draw block are those of the item's
topology. The flag constants of `bgfx.h` are such that every category has a
bit inside `BGFX_STATE_MASK`, the alpha-test bit is one of
`BGFX_STATE_ALPHA_MASK`, and `BGFX_STATE_NONE` has the triangle-list
topology. -/
theorem state_diff_full_reapplication (k : Consts) (ctx : RendererContext) (f : Frame)
    (pre post : List (SortKey × RenderState)) (item : SortKey × RenderState)
    (rs : RenderStates) (hk : k.StateMasksOk)
    (hnone : primIndexOf k k.BGFX_STATE_NONE = 0)
    (hitems : f.items = pre ++ item :: post)
    (hifh : 0 = (f.m_debug &&& k.BGFX_DEBUG_IFH))
    (hfirst : ∀ it ∈ (pre ++ [item]).head?, it.1.m_view ≠ 0xff) :
    rendererSubmitItems k ctx f
        = (submitLoop k ctx f (SubmitState.initial k) pre).2
          ++ (callsBeforeDraw k ctx f pre item
            ++ drawCalls k ctx (passLocals k f (stateAfter k ctx f pre) item)
                item.2.m_vertexBuffer item.2)
          ++ (submitLoop k ctx f (submitItem k ctx f (stateAfter k ctx f pre) item).1 post).2
    ∧ (∀ p ∈ derivedStates k item.2.m_flags,
        renderStatesAfter rs ((submitLoop k ctx f (SubmitState.initial k) pre).2
          ++ callsBeforeDraw k ctx f pre item) p.1 = some p.2)
    ∧ renderStatesAfter rs ((submitLoop k ctx f (SubmitState.initial k) pre).2
          ++ callsBeforeDraw k ctx f pre item ++ naiveStateCalls k item.2.m_flags)
        = renderStatesAfter rs ((submitLoop k ctx f (SubmitState.initial k) pre).2
          ++ callsBeforeDraw k ctx f pre item)
    ∧ (∀ p ∈ derivedStates k item.2.m_flags,
        renderStatesAfter rs ((submitLoop k ctx f (SubmitState.initial k) pre).2
          ++ callsBeforeDraw k ctx f pre item) p.1
          = renderStatesAfter rs (naiveLoopCalls k (pre ++ [item])) p.1)
    ∧ (passLocals k f (stateAfter k ctx f pre) item).primType
        = s_primType[primIndexOf k item.2.m_flags]?
    ∧ (passLocals k f (stateAfter k ctx f pre) item).primNumVerts
        = s_primNumVerts[primIndexOf k item.2.m_flags]? := by
  have hguard : (stateGuardMask k &&& k.BGFX_STATE_MASK) ≠ 0 :=
    and_ne_zero_of_subset _ _ _ (group_subset_guard k hk.alphaTest .cull) (hk.inMask .cull)
  have htop := passLocals_topology k f (stateAfter k ctx f pre) item hguard
    (stateAfter_topology k ctx f hguard hnone pre)
  -- the pass, block by block
  obtain ⟨rest, hrest, heq⟩ := submitItem_calls k ctx f (stateAfter k ctx f pre) item
  have hparts := submitItem_parts k ctx f (stateAfter k ctx f pre) item
  have hX : callsBeforeDraw k ctx f pre item
      = (if item.1.m_view ≠ (stateAfter k ctx f pre).view then
            viewCalls k ctx f (stateAfter k ctx f pre).rt item.1.m_view else [])
        ++ stateCalls k item.2.m_flags (passChanged k (stateAfter k ctx f pre) item)
        ++ (Call.rendererUpdateUniforms item.2.m_constBegin item.2.m_constEnd
              :: (if passMaterialChanged k (stateAfter k ctx f pre) item = true then
                    bindCalls k ctx item.1.m_material else []))
        ++ uniformCalls k ctx f (passLocals k f (stateAfter k ctx f pre) item) item.2
            (passMaterialChanged k (stateAfter k ctx f pre) item)
            (decide (item.2.m_constBegin < item.2.m_constEnd)
              || passMaterialChanged k (stateAfter k ctx f pre) item)
        ++ ((List.range k.BGFX_STATE_TEX_COUNT).flatMap fun stage =>
              samplerCalls k ctx ((passCurrent k (stateAfter k ctx f pre) item).m_sampler stage)
                (item.2.m_sampler stage) stage
                (passMaterialChanged k (stateAfter k ctx f pre) item))
        ++ vertexBufferCalls k ctx (passCurrent k (stateAfter k ctx f pre) item) item.2
            (passMaterialChanged k (stateAfter k ctx f pre) item)
        ++ indexBufferCalls k ctx (passCurrent k (stateAfter k ctx f pre) item) item.2 := by
    unfold callsBeforeDraw
    rw [itemCalls, hparts, List.length_append, Nat.add_sub_cancel, List.take_left]
  have hsplit : itemCalls k ctx f pre item
      = callsBeforeDraw k ctx f pre item
        ++ drawCalls k ctx (passLocals k f (stateAfter k ctx f pre) item)
            item.2.m_vertexBuffer item.2 := by
    rw [hX, itemCalls, hparts]
  obtain ⟨mid, hmid, hfront⟩ : ∃ mid : List Call, (∀ c ∈ mid, c.renderState? = none)
      ∧ callsBeforeDraw k ctx f pre item
          = (if item.1.m_view ≠ (stateAfter k ctx f pre).view then
                viewCalls k ctx f (stateAfter k ctx f pre).rt item.1.m_view else [])
            ++ stateCalls k item.2.m_flags (passChanged k (stateAfter k ctx f pre) item)
            ++ mid := by
    refine ⟨(Call.rendererUpdateUniforms item.2.m_constBegin item.2.m_constEnd
          :: (if passMaterialChanged k (stateAfter k ctx f pre) item = true then
                bindCalls k ctx item.1.m_material else []))
        ++ uniformCalls k ctx f (passLocals k f (stateAfter k ctx f pre) item) item.2
            (passMaterialChanged k (stateAfter k ctx f pre) item)
            (decide (item.2.m_constBegin < item.2.m_constEnd)
              || passMaterialChanged k (stateAfter k ctx f pre) item)
        ++ ((List.range k.BGFX_STATE_TEX_COUNT).flatMap fun stage =>
              samplerCalls k ctx ((passCurrent k (stateAfter k ctx f pre) item).m_sampler stage)
                (item.2.m_sampler stage) stage
                (passMaterialChanged k (stateAfter k ctx f pre) item))
        ++ vertexBufferCalls k ctx (passCurrent k (stateAfter k ctx f pre) item) item.2
            (passMaterialChanged k (stateAfter k ctx f pre) item)
        ++ indexBufferCalls k ctx (passCurrent k (stateAfter k ctx f pre) item) item.2, ?_, ?_⟩
    · intro c hc
      apply hrest c
      have hEq := heq.symm.trans hparts
      simp only [List.append_assoc, passChanged] at hEq
      have hEq2 := List.append_cancel_left (List.append_cancel_left hEq)
      rw [hEq2]
      simp only [List.mem_append] at hc ⊢
      tauto
    · rw [hX]
      simp only [List.append_assoc]
  -- the derived states at the draw
  have hprev : item.1.m_view = (stateAfter k ctx f pre).view →
      ∀ g : FlagGroup, ∀ p ∈ g.derived k (stateAfter k ctx f pre).currentState.m_flags,
        renderStatesAfter rs (submitLoop k ctx f (SubmitState.initial k) pre).2 p.1
          = some p.2 := by
    intro hsame
    have hne : pre ≠ [] := by
      intro e
      subst e
      exact hfirst item (by simp) hsame
    apply loop_derived k hk ctx f rs pre hne
    intro it hit
    apply hfirst it
    cases pre with
    | nil => exact absurd rfl hne
    | cons a as => simpa using hit
  have hder : ∀ p ∈ derivedStates k item.2.m_flags,
      renderStatesAfter rs ((submitLoop k ctx f (SubmitState.initial k) pre).2
        ++ callsBeforeDraw k ctx f pre item) p.1 = some p.2 := by
    intro p hp
    obtain ⟨g, hg⟩ := (mem_derivedStates k _ p).mp hp
    rw [hfront, ← List.append_assoc, renderStatesAfter_append, renderStatesAfter_noRS mid hmid]
    exact pass_derived k hk ctx f (stateAfter k ctx f pre) item rs _ hprev g p hg
  refine ⟨?_, hder, ?_, ?_, htop.1, htop.2⟩
  · rw [← hsplit]
    exact rendererSubmitItems_split k ctx f pre post item hitems hifh
  · rw [renderStatesAfter_append, naiveStateCalls]
    exact renderStatesAfter_same _ _ hder
  · intro p hp
    obtain ⟨g, hg⟩ := (mem_derivedStates k _ p).mp hp
    rw [hder p hp, naiveLoopCalls, List.flatMap_append]
    simp only [List.flatMap_cons, List.flatMap_nil, List.append_nil]
    rw [naiveStateCalls_eq k hk]
    exact (renderStatesAfter_stateCalls k g rs _ _ _ hguard (hk.inMask g) p hg).symm

/-- Witness for C24: a frame of two items of view 0, the first with depth
write and the second with flag word 0; at the draw of the second item the
device holds the states derived from the flag word 0, depth write off
included, whatever it held before the frame. -/
theorem state_diff_full_reapplication_witness :
    sampleConsts.StateMasksOk
    ∧ ∀ p ∈ derivedStates sampleConsts 0,
        renderStatesAfter (fun _ => none)
          ((submitLoop sampleConsts sampleContext
              (sampleFrame [sampleItem 0 1 1, sampleItem 0 1 0])
              (SubmitState.initial sampleConsts) [sampleItem 0 1 1]).2
            ++ callsBeforeDraw sampleConsts sampleContext
                (sampleFrame [sampleItem 0 1 1, sampleItem 0 1 0]) [sampleItem 0 1 1]
                (sampleItem 0 1 0)) p.1 = some p.2 :=
  have hk : sampleConsts.StateMasksOk := ⟨by intro g; cases g <;> decide, by decide⟩
  ⟨hk, (state_diff_full_reapplication sampleConsts sampleContext
    (sampleFrame [sampleItem 0 1 1, sampleItem 0 1 0]) [sampleItem 0 1 1] [] (sampleItem 0 1 0)
    (fun _ => none) hk (by decide) rfl (by decide) (by decide)).2.1⟩

/-- C23: for every input to `Texture::create` that is not a recognised
compressed-texture (DDS) container (`parseDds` returns false) and whose first
four bytes, the magic that `create` reads, are not the custom-container magic
`BGFX_MAGIC`, the call returns (no error is raised), the device creates no
object, no native texture is created, no level is locked and no pixel data is
read or copied (the trace of the call is empty), and the native object of the
texture is left as it was; the record changes only in the sampler fields
`create` derives from the flags before it looks at the input. -/
theorem texture_create_unknown_magic (tc : TextureCodec) (d : Device) (t : Texture)
    (_mem : List Nat) (_flags : Nat)
    (hdds : tc.parseDds _mem = none) (hlen : 4 ≤ _mem.length)
    (hmagic : fromBytesLE (_mem.take 4) ≠ tc.BGFX_MAGIC) :
    Texture.create tc d t _mem _flags
        = some (d,
            { t with
              m_tau :=
                s_textureAddress[(_flags &&& tc.BGFX_TEXTURE_U_MASK) >>> tc.BGFX_TEXTURE_U_SHIFT]?
              m_tav :=
                s_textureAddress[(_flags &&& tc.BGFX_TEXTURE_V_MASK) >>> tc.BGFX_TEXTURE_V_SHIFT]?
              m_minFilter := s_textureFilter[(_flags &&& tc.BGFX_TEXTURE_MIN_MASK)
                >>> tc.BGFX_TEXTURE_MIN_SHIFT]?
              m_magFilter := s_textureFilter[(_flags &&& tc.BGFX_TEXTURE_MAG_MASK)
                >>> tc.BGFX_TEXTURE_MAG_SHIFT]?
              m_mipFilter := s_textureFilter[(_flags &&& tc.BGFX_TEXTURE_MIP_MASK)
                >>> tc.BGFX_TEXTURE_MIP_SHIFT]? },
            [])
    ∧ ∀ r, Texture.create tc d t _mem _flags = some r →
        r.1.created = d.created ∧ r.2.1.m_ptr = t.m_ptr
        ∧ r.2.2.filter Call.isTextureUpload = [] ∧ r.2.2 = [] := by
  have hread : StreamRead.readValue ⟨_mem, 0⟩ 4
      = some (fromBytesLE (_mem.take 4), ⟨_mem, 4⟩) := by
    simp [StreamRead.readValue, StreamRead.read, hlen]
  have hcreate : Texture.create tc d t _mem _flags
      = some (d,
          { t with
            m_tau :=
              s_textureAddress[(_flags &&& tc.BGFX_TEXTURE_U_MASK) >>> tc.BGFX_TEXTURE_U_SHIFT]?
            m_tav :=
              s_textureAddress[(_flags &&& tc.BGFX_TEXTURE_V_MASK) >>> tc.BGFX_TEXTURE_V_SHIFT]?
            m_minFilter := s_textureFilter[(_flags &&& tc.BGFX_TEXTURE_MIN_MASK)
              >>> tc.BGFX_TEXTURE_MIN_SHIFT]?
            m_magFilter := s_textureFilter[(_flags &&& tc.BGFX_TEXTURE_MAG_MASK)
              >>> tc.BGFX_TEXTURE_MAG_SHIFT]?
            m_mipFilter := s_textureFilter[(_flags &&& tc.BGFX_TEXTURE_MIP_MASK)
              >>> tc.BGFX_TEXTURE_MIP_SHIFT]? },
          []) := by
    simp only [Texture.create, hdds, hread, if_neg (Ne.symm hmagic)]
  refine ⟨hcreate, ?_⟩
  intro r hr
  rw [hcreate] at hr
  cases hr
  exact ⟨rfl, rfl, rfl, rfl⟩

/-- Witness for C23: the four bytes `1, 2, 3, 4` are neither a recognised
container nor the custom magic; the sample texture keeps its native object 7
and nothing is created or read. -/
theorem texture_create_unknown_magic_witness :
    (Texture.create sampleTextureCodec (sampleDevice []) sampleTexture [1, 2, 3, 4] 0).map
        (fun r => (r.1.created, r.2.1.m_ptr, r.2.2))
      = some (0, some 7, []) := by
  rw [(texture_create_unknown_magic sampleTextureCodec (sampleDevice []) sampleTexture
    [1, 2, 3, 4] 0 rfl (by decide) (by decide)).1]
  rfl

/-- The trace of `postReset` holds no device-creation request. -/
theorem isCreateDevice_postReset (k : Consts) (d : Device) (ctx : RendererContext) :
    (ctx.postReset k d).2.2.filter Call.isCreateDevice = [] := by
  rw [List.filter_eq_nil_iff]
  intro c hc
  have hP : c.isCreateDevice = false := by
    simp only [RendererContext.postReset, List.mem_cons, List.mem_append, List.mem_map] at hc
    rcases hc with rfl | rfl | rfl | (hc | hc) | ⟨ii, -, rfl⟩
    · rfl
    · rfl
    · rfl
    · refine forEachSlotD_calls IndexBuffer.postReset (fun c => c.isCreateDevice = false) ?_
        _ _ _ c hc
      intro d a c hc
      unfold IndexBuffer.postReset at hc
      split at hc
      · simp only [List.mem_singleton] at hc
        subst hc
        rfl
      · simp at hc
    · refine forEachSlotD_calls VertexBuffer.postReset (fun c => c.isCreateDevice = false) ?_
        _ _ _ c hc
      intro d a c hc
      unfold VertexBuffer.postReset at hc
      split at hc
      · simp only [List.mem_singleton] at hc
        subst hc
        rfl
      · simp at hc
    · rfl
  simp [hP]

theorem isCreateDevice_createRequest (k : Consts) (params : D3DPRESENT_PARAMETERS) (flags : Nat) :
    (RendererContext.createRequest k params flags).isCreateDevice = true := by
  unfold RendererContext.createRequest
  split <;> rfl

/-- The creation loop, entered without device, makes the requests of the
fallback sequence and nothing else, and leaves the device of the first request
that yields one. -/
theorem createDeviceLoop_requests (k : Consts) (host : Host) (params : D3DPRESENT_PARAMETERS) :
    ∀ flags : List Nat,
      (RendererContext.createDeviceLoop k host params flags none).2
          = (requestsUntilDevice (fun fl => (host.createDevice fl params).isSome) flags).map
              (RendererContext.createRequest k params)
      ∧ (RendererContext.createDeviceLoop k host params flags none).1
          = flags.findSome? (fun fl => host.createDevice fl params) := by
  intro flags
  induction flags with
  | nil => simp [RendererContext.createDeviceLoop, requestsUntilDevice]
  | cons fl rest ih =>
    cases hd : host.createDevice fl params with
    | none =>
      simp only [RendererContext.createDeviceLoop, if_true, hd, requestsUntilDevice,
        Option.isSome_none, Bool.false_eq_true, if_false, List.map_cons, ih.1, ih.2,
        List.findSome?_cons, and_self]
    | some p =>
      have hstop : RendererContext.createDeviceLoop k host params rest (some p) = (some p, []) := by
        cases rest <;> simp [RendererContext.createDeviceLoop]
      simp only [RendererContext.createDeviceLoop, if_true, hd, hstop, requestsUntilDevice,
        Option.isSome_some, List.map_cons, List.map_nil, List.findSome?_cons, and_self]

theorem filter_map_createRequest (k : Consts) (params : D3DPRESENT_PARAMETERS) (l : List Nat) :
    (l.map (RendererContext.createRequest k params)).filter Call.isCreateDevice
      = l.map (RendererContext.createRequest k params) := by
  rw [List.filter_eq_self]
  intro c hc
  obtain ⟨fl, -, rfl⟩ := List.mem_map.mp hc
  exact isCreateDevice_createRequest k params fl

/-- What `init` does once the interface is created, entered without device:
its creation requests are those of the creation loop; it raises the fatal
unable-to-create-device error if the loop leaves no device, and returns with
the device the loop leaves otherwise. -/
theorem init_requests (k : Consts) (host : Host) (d : Device) (ctx : RendererContext)
    (m_d3d9 : Ptr) (hd3d9 : host.direct3DCreate9 = some (some m_d3d9))
    (hdevice : ctx.m_device = none) :
    ∃ r : Except Fatal (Device × RendererContext) × List Call,
      RendererContext.init k host d ctx = some r
      ∧ r.2.filter Call.isCreateDevice
          = (RendererContext.createDeviceLoop k host (ctx.initParams k host) behaviorFlags none).2
      ∧ ((RendererContext.createDeviceLoop k host (ctx.initParams k host) behaviorFlags none).1
            = none → r.1 = .error .D3D9_UnableToCreateDevice)
      ∧ (∀ p, (RendererContext.createDeviceLoop k host (ctx.initParams k host) behaviorFlags
            none).1 = some p → ∃ d1 ctx1, r.1 = .ok (d1, ctx1) ∧ ctx1.m_device = some p) := by
  have hloop := createDeviceLoop_requests k host (ctx.initParams k host) behaviorFlags
  have hself : (RendererContext.createDeviceLoop k host (ctx.initParams k host) behaviorFlags
      none).2.filter Call.isCreateDevice
      = (RendererContext.createDeviceLoop k host (ctx.initParams k host) behaviorFlags none).2 := by
    rw [hloop.1, filter_map_createRequest]
  have hcalls2 : ([if k.BGFX_CONFIG_RENDERER_DIRECT3D_EX then .creation .Direct3DCreate9Ex
      else .creation .Direct3DCreate9] : List Call).filter Call.isCreateDevice = [] := by
    split <;> rfl
  have hcalls1 : ([.creation .GetWindowRect, .creation .LoadLibrary,
      .creation (.GetProcAddress .D3DPERF_SetMarker),
      .creation (.GetProcAddress .D3DPERF_BeginEvent),
      .creation (.GetProcAddress .D3DPERF_EndEvent),
      .creation (.GetProcAddress (if k.BGFX_CONFIG_RENDERER_DIRECT3D_EX then .Direct3DCreate9Ex
        else .Direct3DCreate9))] : List Call).filter Call.isCreateDevice = [] := rfl
  cases hdev : (RendererContext.createDeviceLoop k host (ctx.initParams k host) behaviorFlags
      none).1 with
  | none =>
    simp only [RendererContext.init, hd3d9, hdevice, hdev, reduceCtorEq, if_false, if_true]
    refine ⟨_, rfl, ?_, fun _ => rfl, ?_⟩
    · simp only [List.filter_append, hcalls1, hcalls2, List.nil_append, hself]
    · intro p hp
      exact absurd hp (by simp)
  | some p =>
    simp only [RendererContext.init, hd3d9, hdevice, hdev, reduceCtorEq, if_false]
    refine ⟨_, rfl, ?_, ?_, ?_⟩
    · have hcalls3 : ∀ u : Nat, ([.creation .GetDeviceCaps,
          .creation (.CheckDeviceFormat .D3DFMT_X8R8G8B8 u .D3DFMT_NULL),
          .creation (.CheckDeviceFormat .D3DFMT_X8R8G8B8 u .D3DFMT_DF16),
          .creation (.CheckDeviceFormat .D3DFMT_X8R8G8B8 u .D3DFMT_DF24),
          .creation (.CheckDeviceFormat .D3DFMT_X8R8G8B8 u .D3DFMT_INTZ),
          .creation (.CheckDeviceFormat .D3DFMT_X8R8G8B8 u .D3DFMT_RAWZ)] : List Call).filter
            Call.isCreateDevice = [] := fun _ => rfl
      simp only [List.filter_append, hcalls1, hcalls2, hcalls3, List.nil_append, hself,
        isCreateDevice_postReset, List.append_nil]
    · intro h
      exact absurd h (by simp)
    · intro q hq
      exact ⟨_, _, rfl, hq⟩

/-- C21: `RendererContext::init` (Windows branch), entered with no device and
once the Direct3D interface is created, requests device creation with
hardware (pure device), then mixed, then software vertex processing, in that
order, each with the presentation parameters of `init`, and makes no further
request after the first one that yields a device: one request if the hardware
request yields a device, two if only the mixed one does, three otherwise. It
raises the fatal unable-to-create-device error if and only if all three
requests yield no device; otherwise it returns with the device of the first
request that yields one. -/
theorem init_device_fallback (k : Consts) (host : Host) (d : Device) (ctx : RendererContext)
    (m_d3d9 : Ptr) (hd3d9 : host.direct3DCreate9 = some (some m_d3d9))
    (hdevice : ctx.m_device = none) :
    ∃ r : Except Fatal (Device × RendererContext) × List Call,
      RendererContext.init k host d ctx = some r
      ∧ r.2.filter Call.isCreateDevice
          = (requestsUntilDevice
              (fun fl => (host.createDevice fl (ctx.initParams k host)).isSome)
              [D3DCREATE_HARDWARE_VERTEXPROCESSING ||| D3DCREATE_PUREDEVICE,
               D3DCREATE_MIXED_VERTEXPROCESSING, D3DCREATE_SOFTWARE_VERTEXPROCESSING]).map
            (RendererContext.createRequest k (ctx.initParams k host))
      ∧ (r.1 = .error .D3D9_UnableToCreateDevice
          ↔ (host.createDevice (D3DCREATE_HARDWARE_VERTEXPROCESSING ||| D3DCREATE_PUREDEVICE)
                (ctx.initParams k host) = none
              ∧ host.createDevice D3DCREATE_MIXED_VERTEXPROCESSING (ctx.initParams k host) = none
              ∧ host.createDevice D3DCREATE_SOFTWARE_VERTEXPROCESSING (ctx.initParams k host)
                  = none))
      ∧ (∀ p, host.createDevice (D3DCREATE_HARDWARE_VERTEXPROCESSING ||| D3DCREATE_PUREDEVICE)
            (ctx.initParams k host) = some p →
          r.2.filter Call.isCreateDevice
            = [RendererContext.createRequest k (ctx.initParams k host)
                (D3DCREATE_HARDWARE_VERTEXPROCESSING ||| D3DCREATE_PUREDEVICE)]
          ∧ ∃ d1 ctx1, r.1 = .ok (d1, ctx1) ∧ ctx1.m_device = some p)
      ∧ (∀ p, host.createDevice (D3DCREATE_HARDWARE_VERTEXPROCESSING ||| D3DCREATE_PUREDEVICE)
            (ctx.initParams k host) = none →
          host.createDevice D3DCREATE_MIXED_VERTEXPROCESSING (ctx.initParams k host) = some p →
          r.2.filter Call.isCreateDevice
            = [RendererContext.createRequest k (ctx.initParams k host)
                (D3DCREATE_HARDWARE_VERTEXPROCESSING ||| D3DCREATE_PUREDEVICE),
               RendererContext.createRequest k (ctx.initParams k host)
                D3DCREATE_MIXED_VERTEXPROCESSING]
          ∧ ∃ d1 ctx1, r.1 = .ok (d1, ctx1) ∧ ctx1.m_device = some p)
      ∧ (host.createDevice (D3DCREATE_HARDWARE_VERTEXPROCESSING ||| D3DCREATE_PUREDEVICE)
            (ctx.initParams k host) = none →
          host.createDevice D3DCREATE_MIXED_VERTEXPROCESSING (ctx.initParams k host) = none →
          (r.2.filter Call.isCreateDevice
            = [RendererContext.createRequest k (ctx.initParams k host)
                (D3DCREATE_HARDWARE_VERTEXPROCESSING ||| D3DCREATE_PUREDEVICE),
               RendererContext.createRequest k (ctx.initParams k host)
                D3DCREATE_MIXED_VERTEXPROCESSING,
               RendererContext.createRequest k (ctx.initParams k host)
                D3DCREATE_SOFTWARE_VERTEXPROCESSING])
          ∧ ∀ p, host.createDevice D3DCREATE_SOFTWARE_VERTEXPROCESSING (ctx.initParams k host)
                = some p →
              ∃ d1 ctx1, r.1 = .ok (d1, ctx1) ∧ ctx1.m_device = some p) := by
  obtain ⟨r, hr, hreq, hnone, hsome⟩ := init_requests k host d ctx m_d3d9 hd3d9 hdevice
  have hloop := createDeviceLoop_requests k host (ctx.initParams k host) behaviorFlags
  rw [hloop.1] at hreq
  rw [hloop.2] at hnone hsome
  simp only [behaviorFlags, List.findSome?_cons, List.findSome?_nil] at hnone hsome
  simp only [behaviorFlags] at hreq
  refine ⟨r, hr, hreq, ?_, ?_, ?_, ?_⟩
  · constructor
    · intro herr
      cases h1 : host.createDevice (D3DCREATE_HARDWARE_VERTEXPROCESSING ||| D3DCREATE_PUREDEVICE)
          (ctx.initParams k host) with
      | some p =>
        obtain ⟨d1, ctx1, hok, -⟩ := hsome p (by simp [h1])
        rw [hok] at herr
        exact absurd herr (by simp)
      | none =>
        cases h2 : host.createDevice D3DCREATE_MIXED_VERTEXPROCESSING (ctx.initParams k host) with
        | some p =>
          obtain ⟨d1, ctx1, hok, -⟩ := hsome p (by simp [h1, h2])
          rw [hok] at herr
          exact absurd herr (by simp)
        | none =>
          cases h3 : host.createDevice D3DCREATE_SOFTWARE_VERTEXPROCESSING
              (ctx.initParams k host) with
          | some p =>
            obtain ⟨d1, ctx1, hok, -⟩ := hsome p (by simp [h1, h2, h3])
            rw [hok] at herr
            exact absurd herr (by simp)
          | none => exact ⟨rfl, rfl, rfl⟩
    · rintro ⟨h1, h2, h3⟩
      exact hnone (by simp [h1, h2, h3])
  · intro p h1
    refine ⟨?_, hsome p (by simp [h1])⟩
    rw [hreq]
    simp [requestsUntilDevice, h1]
  · intro p h1 h2
    refine ⟨?_, hsome p (by simp [h1, h2])⟩
    rw [hreq]
    simp [requestsUntilDevice, h1, h2]
  · intro h1 h2
    refine ⟨?_, fun p h3 => hsome p (by simp [h1, h2, h3])⟩
    rw [hreq]
    cases h3 : host.createDevice D3DCREATE_SOFTWARE_VERTEXPROCESSING (ctx.initParams k host) <;>
      simp [requestsUntilDevice, h1, h2, h3]

/-- Witness for C21: on the sample platform the hardware request yields no
device and the mixed request does; `init` makes these two requests, in this
order, and no software request. -/
theorem init_device_fallback_witness :
    ∃ r : Except Fatal (Device × RendererContext) × List Call,
      RendererContext.init sampleConsts sampleHost (sampleDevice [])
          { sampleContext with m_device := none } = some r
      ∧ r.2.filter Call.isCreateDevice
          = [.creation (.CreateDevice 0x50
              (RendererContext.initParams sampleConsts sampleHost
                { sampleContext with m_device := none })),
             .creation (.CreateDevice 0x80
              (RendererContext.initParams sampleConsts sampleHost
                { sampleContext with m_device := none }))] :=
  (init_device_fallback sampleConsts sampleHost (sampleDevice [])
    { sampleContext with m_device := none } 1 rfl rfl).imp
    fun _ h => ⟨h.1, (h.2.2.2.2.1 2 (by decide) (by decide)).1⟩

end bgfx
